import Mathlib

/-!
# Historical beacon-state reconstruction (`cl/persistence/state/historical_states_reader`)

A shallow embedding of `historical_states_reader.go`.  Go functions become Lean
functions over explicit values; the read-only transaction, the filesystem, the
block reader and the library codecs are explicit parameters.  `uint64`
quantities are natural numbers, reduced modulo `2 ^ 64` wherever the Go code can
wrap around.  A function that returns `(value, error)` with a nil value on every
error path is an `Except Err value`; a run-time panic is the error `Err.panic`.
-/

namespace Erigon

/-! ## Bytes, errors and machine arithmetic -/

/-- One byte. -/
abbrev Byte := Fin 256

/-- A byte slice; the nil slice and the empty slice are both `[]`. -/
abbrev Bytes := List Byte

/-- A 32-byte hash (`common.Hash`), kept as the bytes it was built from. -/
abbrev Hash := Bytes

/-- Errors of the reader.  `ext` stands for an error value produced by an
external collaborator (store, filesystem, codec, block reader), identified by a
number; `wrap` is `fmt.Errorf("<ctx>: %w", err)`; `panic` is a run-time panic
(index out of range, division by zero) rather than a returned error. -/
inductive Err where
  | ext (code : Nat)
  | eof
  | slotAhead (slot latest : Nat)
  | blockNotFound (slot : Nat)
  | invalidKey (k : Bytes)
  | diffNotFound (slot : Nat)
  | invalidIntraRandaoMixLength (n : Nat)
  | readDump (e : Err) (len : Nat)
  | wrap (ctx : String) (e : Err)
  | panic
  deriving DecidableEq, Repr

instance {ε α : Type} [DecidableEq ε] [DecidableEq α] : DecidableEq (Except ε α) :=
  fun a b =>
    match a, b with
    | .ok x, .ok y => if h : x = y then isTrue (by rw [h]) else isFalse (fun h2 => h (by cases h2; rfl))
    | .error x, .error y =>
      if h : x = y then isTrue (by rw [h]) else isFalse (fun h2 => h (by cases h2; rfl))
    | .ok _, .error _ => isFalse (fun h => by cases h)
    | .error _, .ok _ => isFalse (fun h => by cases h)

/-- The modulus of `uint64` arithmetic. -/
def u64 : Nat := 2 ^ 64

/-- Subtraction of two `uint64` values, wrapping around. -/
def sub64 (a b : Nat) : Nat := (a + u64 - b % u64) % u64

/-- Addition of two `uint64` values, wrapping around. -/
def add64 (a b : Nat) : Nat := (a + b) % u64

/-- Multiplication of two `uint64` values, wrapping around. -/
def mul64 (a b : Nat) : Nat := (a * b) % u64

/-- The number of iterations of `for i := 0; i < int(n); i++`: the conversion
`int(n)` of a `uint64` at or above `2 ^ 63` is negative, so the loop body never runs. -/
def intLoopCount (n : Nat) : Nat := if n < 2 ^ 63 then n else 0

/-! ## Slot keys -/

/-- Modelled from the spec: `base_encoding.Encode64ToBytes4`, which is not among
the sources; section 4.A gives it as the 4-byte big-endian encoding of the low 32
bits of the slot. -/
def Encode64ToBytes4 (x : Nat) : Bytes :=
  [Fin.ofNat (x / 2 ^ 24), Fin.ofNat (x / 2 ^ 16), Fin.ofNat (x / 2 ^ 8), Fin.ofNat x]

/-- Modelled from the spec: `base_encoding.Decode64FromBytes4`, which is not among
the sources; section 4.A gives it as the inverse of the key encoding, the
big-endian value of the first four bytes.  A key shorter than four bytes makes the
Go code panic: `none`. -/
def Decode64FromBytes4 : Bytes → Option Nat
  | b0 :: b1 :: b2 :: b3 :: _ =>
      some (b0.val * 2 ^ 24 + b1.val * 2 ^ 16 + b2.val * 2 ^ 8 + b3.val)
  | _ => none

/-- Byte-wise lexicographic order of keys, the order in which a bucket keeps them. -/
def bytesLt : Bytes → Bytes → Bool
  | [], [] => false
  | [], _ :: _ => true
  | _ :: _, [] => false
  | a :: as, b :: bs => decide (a < b) || (decide (a = b) && bytesLt as bs)

/-! ## The key-value store -/

/-- The buckets the reader consults. -/
inductive Table where
  | BlockRoot
  | StateRoot
  | RandaoMixes
  | IntraRandaoMixes
  | Eth1DataVotes
  | ValidatorBalance
  | ValidatorEffectiveBalance
  | ValidatorSlashings
  | InactivityScores
  deriving DecidableEq, Repr

/-- One bucket as a read transaction sees it: its entries in ascending key order,
and the failures the store may report.  `cursorErr` is the error of
`tx.Cursor(bucket)`; `stepErr n` is the error of the `n`-th positioning call made
on a cursor (the `Seek` is call `0`, each `Next` or `Prev` one more); `getErr k`
is the error of `tx.GetOne(bucket, k)`. -/
structure Bucket where
  entries : List (Bytes × Bytes)
  cursorErr : Option Err
  stepErr : Nat → Option Err
  getErr : Bytes → Option Err

/-- A bucket that never fails. -/
def Bucket.ofEntries (es : List (Bytes × Bytes)) : Bucket :=
  { entries := es, cursorErr := none, stepErr := fun _ => none, getErr := fun _ => none }

/-- The entries a cursor has in front of it after `Seek(key)`: the first entry
whose key is not below `key`, and everything after it. -/
def seekFrom (es : List (Bytes × Bytes)) (key : Bytes) : List (Bytes × Bytes) :=
  es.dropWhile (fun e => bytesLt e.1 key)

/-- The entries a cursor has behind it after `Seek(key)`, in ascending order. -/
def seekBehind (es : List (Bytes × Bytes)) (key : Bytes) : List (Bytes × Bytes) :=
  es.takeWhile (fun e => bytesLt e.1 key)

/-- The value `tx.GetOne` returns on success: the value stored under exactly
`key`, or the nil slice when the bucket has no such key. -/
def lookupKey (es : List (Bytes × Bytes)) (key : Bytes) : Bytes :=
  match es.find? (fun e => decide (e.1 = key)) with
  | some e => e.2
  | none => []

/-- The call `tx.GetOne(bucket, key)`. -/
def Bucket.GetOne (b : Bucket) (key : Bytes) : Except Err Bytes :=
  match b.getErr key with
  | some e => .error e
  | none => .ok (lookupKey b.entries key)

/-! ## Consensus data -/

/-- The chain configuration (`clparams.BeaconChainConfig`), of which the reader
uses the fields below.  `SlotsPerDump` is the package constant
`clparams.SlotsPerDump`.  The three rounding helpers other than
`RoundSlotToEpoch` and the three list capacities are methods of the configuration
whose bodies are not among the sources: they are taken as given. -/
structure BeaconChainConfig where
  SlotsPerEpoch : Nat
  SlotsPerHistoricalRoot : Nat
  EpochsPerHistoricalVector : Nat
  EpochsPerSlashingsVector : Nat
  HistoricalRootsLimit : Nat
  ValidatorRegistryLimit : Nat
  EpochsPerEth1VotingPeriod : Nat
  AltairForkEpoch : Nat
  TargetCommitteeSize : Nat
  SlotsPerDump : Nat
  ParticipationWeights : List Nat
  RoundSlotToVotePeriod : Nat → Nat
  RoundSlotToSyncCommitteePeriod : Nat → Nat
  Eth1DataVotesLength : Nat
  CurrentEpochAttestationsLength : Nat
  PreviousEpochAttestationsLength : Nat

/-- Modelled from the spec: `BeaconChainConfig.RoundSlotToEpoch`, which is not
among the sources; section 4.C gives the epoch start of a slot as
`floor(slot / SLOTS_PER_EPOCH) × SLOTS_PER_EPOCH`. -/
def BeaconChainConfig.RoundSlotToEpoch (cfg : BeaconChainConfig) (slot : Nat) : Nat :=
  slot / cfg.SlotsPerEpoch * cfg.SlotsPerEpoch

/-- State versions (`clparams.StateVersion`), in fork order. -/
abbrev StateVersion := Nat

/-- Phase 0. -/
def Phase0Version : StateVersion := 0
/-- Altair. -/
def AltairVersion : StateVersion := 1
/-- Bellatrix. -/
def BellatrixVersion : StateVersion := 2
/-- Capella. -/
def CapellaVersion : StateVersion := 3

/-- A vector of hashes (`solid.HashVectorSSZ`). -/
abbrev HashVector := List Hash

/-- The zero hash `common.Hash{}`. -/
def zeroHash : Hash := List.replicate 32 0

/-- The vector `solid.NewHashVector(n)`: `n` zero hashes. -/
def NewHashVector (n : Nat) : HashVector := List.replicate n zeroHash

/-- The call `vector.Set(i, h)`, which panics when `i` is out of range. -/
def HashVector.Set (out : HashVector) (i : Nat) (h : Hash) : Except Err HashVector :=
  if i < out.length then .ok (out.set i h) else .error .panic

/-- The call `vector.Get(i)`, which panics when `i` is out of range. -/
def HashVector.Get (vec : HashVector) (i : Nat) : Except Err Hash :=
  match vec.get? i with
  | some h => .ok h
  | none => .error .panic

/-- A checkpoint (`solid.Checkpoint`). -/
structure Checkpoint where
  Epoch : Nat
  BlockRoot : Hash
  deriving DecidableEq, Repr

/-- A block header (`cltypes.BeaconBlockHeader`). -/
structure BeaconBlockHeader where
  Slot : Nat
  ProposerIndex : Nat
  ParentRoot : Hash
  Root : Hash
  BodyRoot : Hash
  deriving DecidableEq, Repr

/-- The data of an attestation (`solid.AttestationData`). -/
structure AttestationData where
  Slot : Nat
  CommitteeIndex : Nat
  BeaconBlockRoot : Hash
  Source : Checkpoint
  Target : Checkpoint
  deriving DecidableEq, Repr

/-- An attestation (`solid.Attestation`). -/
structure Attestation where
  AggregationBits : Bytes
  AttestantionData : AttestationData
  deriving DecidableEq, Repr

/-- A signed block as the block reader returns it: its header
(`SignedBeaconBlockHeader().Header`), the attestations of its body and its
execution payload, kept as bytes. -/
structure SignedBeaconBlock where
  Header : BeaconBlockHeader
  Attestations : List Attestation
  ExecutionPayload : Bytes
  deriving DecidableEq, Repr

/-- A validator (`solid.Validator`). -/
structure Validator where
  PublicKey : Bytes
  WithdrawalCredentials : Bytes
  EffectiveBalance : Nat
  Slashed : Bool
  ActivationEligibilityEpoch : Nat
  ActivationEpoch : Nat
  ExitEpoch : Nat
  WithdrawableEpoch : Nat
  deriving DecidableEq, Repr

/-- The validator `solid.NewValidator()`, all fields zero. -/
def Validator.zero : Validator :=
  { PublicKey := [], WithdrawalCredentials := [], EffectiveBalance := 0, Slashed := false,
    ActivationEligibilityEpoch := 0, ActivationEpoch := 0, ExitEpoch := 0,
    WithdrawableEpoch := 0 }

/-- Modelled from the spec: `Validator.Active`, which is not among the sources;
the glossary gives an active validator as one whose activation epoch is at or
before the target epoch and whose exit epoch is after it. -/
def Validator.Active (v : Validator) (epoch : Nat) : Bool :=
  decide (v.ActivationEpoch ≤ epoch) && decide (epoch < v.ExitEpoch)

/-- The per-slot overlay record (`state_accessors.MinimalBeaconState`). -/
structure MinimalBeaconState where
  Version : StateVersion
  Fork : Bytes
  Eth1Data : Bytes
  Eth1DepositIndex : Nat
  JustificationBits : Nat
  ValidatorLength : Nat
  HistoricalRootsLength : Nat
  HistoricalSummariesLength : Nat
  Eth1DataLength : Nat
  CurrentEpochAttestationsLength : Nat
  PreviousEpochAttestationsLength : Nat
  NextWithdrawalIndex : Nat
  NextWithdrawalValidatorIndex : Nat
  deriving DecidableEq, Repr

/-- The beacon state under construction (`state.CachingBeaconState`), by field.
Composite values the reader only moves around (fork, eth1 data, sync committees,
payload header, summaries, pending attestations) are kept as bytes. -/
structure BeaconState where
  Version : StateVersion
  GenesisTime : Nat
  GenesisValidatorsRoot : Hash
  Slot : Nat
  Fork : Bytes
  LatestBlockHeader : Option BeaconBlockHeader
  BlockRoots : HashVector
  StateRoots : HashVector
  HistoricalRoots : List Hash
  Eth1DataVotes : List Bytes
  Eth1Data : Bytes
  Eth1DepositIndex : Nat
  Balances : List Nat
  Validators : List Validator
  RandaoMixes : HashVector
  Slashings : List Nat
  JustificationBits : Nat
  PreviousJustifiedCheckpoint : Option Checkpoint
  CurrentJustifiedCheckpoint : Option Checkpoint
  FinalizedCheckpoint : Option Checkpoint
  CurrentEpochAttestations : List Bytes
  PreviousEpochAttestations : List Bytes
  CurrentEpochParticipation : List Nat
  PreviousEpochParticipation : List Nat
  InactivityScores : List Nat
  CurrentSyncCommittee : Option Bytes
  NextSyncCommittee : Option Bytes
  LatestExecutionPayloadHeader : Option Bytes
  NextWithdrawalIndex : Nat
  NextWithdrawalValidatorIndex : Nat
  HistoricalSummaries : List Bytes
  deriving DecidableEq, Repr

/-- The state `state.New(cfg)`: nothing set yet. -/
def BeaconState.New : BeaconState :=
  { Version := Phase0Version, GenesisTime := 0, GenesisValidatorsRoot := [], Slot := 0,
    Fork := [], LatestBlockHeader := none, BlockRoots := [], StateRoots := [],
    HistoricalRoots := [], Eth1DataVotes := [], Eth1Data := [], Eth1DepositIndex := 0,
    Balances := [], Validators := [], RandaoMixes := [], Slashings := [],
    JustificationBits := 0, PreviousJustifiedCheckpoint := none,
    CurrentJustifiedCheckpoint := none, FinalizedCheckpoint := none,
    CurrentEpochAttestations := [], PreviousEpochAttestations := [],
    CurrentEpochParticipation := [], PreviousEpochParticipation := [],
    InactivityScores := [], CurrentSyncCommittee := none, NextSyncCommittee := none,
    LatestExecutionPayloadHeader := none, NextWithdrawalIndex := 0,
    NextWithdrawalValidatorIndex := 0, HistoricalSummaries := [] }

/-! ## Collaborators of the reader -/

/-- One record of the static validator table (`state_accessors.StaticValidator`),
given by what `ToValidator(v, slot)` makes of the validator `v`. -/
structure StaticValidator where
  ToValidator : Validator → Nat → Validator

/-- The static validator table: its records by validator index, and the slot up
to which it is consistent (`Slot()`). -/
structure StaticValidatorTable where
  validatorTable : List StaticValidator
  slot : Nat

/-- Library functions the reader calls and whose bodies are not among the
sources; each is taken as given.  `zstdStream c` is what a zstd reader over `c`
yields: the decompressed bytes, and the error that ended the stream when it did
not end cleanly.  `DecodeEth1Data`, `PayloadHeader`, `Copy` and `InitBeaconState`
are the methods of those names; `DecodeUint64List limit` and `DecodeUint64Vector n`
are `DecodeSSZ(buf, 0)` on a `solid.NewUint64ListSSZ(limit)` and on a
`solid.NewUint64VectorSSZ(n)`; `attestingIndicies` is the method of the reader
defined in another file of the package. -/
structure Lib where
  ApplyCompressedSerializedUint64ListDiff : Bytes → Bytes → Bytes → Except Err Bytes
  zstdNewReader : Bytes → Option Err
  zstdStream : Bytes → Bytes × Option Err
  EpochToPaths : Nat → BeaconChainConfig → String → String
  DecodeEth1Data : Bytes → Except Err Bytes
  PayloadHeader : Bytes → Except Err Bytes
  Copy : BeaconState → Option BeaconState × Option Err
  InitBeaconState : BeaconState → Option Err
  DecodeUint64List : Nat → Bytes → Except Err (List Nat)
  DecodeUint64Vector : Nat → Bytes → Except Err (List Nat)
  attestingIndicies : AttestationData → Bytes → HashVector → List Nat → Except Err (List Nat)
  GetAttestationParticipationFlagIndicies :
    BeaconState → AttestationData → Nat → Except Err (List Nat)

/-- The read transaction (`kv.Tx`): its buckets, and the results of the accessor
functions of `state_accessors` that read from it. -/
structure Tx where
  bucket : Table → Bucket
  GetStateProcessingProgress : Except Err Nat
  ReadMinimalBeaconState : Nat → Except Err (Option MinimalBeaconState)
  ReadHistoricalRoots : Nat → Except Err (List Hash)
  ReadCheckpoints : Nat → Except Err (Option Checkpoint × Option Checkpoint × Option Checkpoint)
  ReadCurrentSyncCommittee : Nat → Except Err (Option Bytes)
  ReadNextSyncCommittee : Nat → Except Err (Option Bytes)
  ReadHistoricalSummaries : Nat → Except Err (List Bytes)
  ReadCurrentEpochAttestations : Nat → Nat → Except Err (List Bytes)
  ReadPreviousEpochAttestations : Nat → Nat → Except Err (List Bytes)

/-- The reader (`HistoricalStatesReader`).  `fs path` is the content of the file
`fs.Open(path)` gives access to; `blockReader slot` is `ReadBlockBySlot` at that
slot.  The shuffled-set cache only saves recomputation and is left out. -/
structure HistoricalStatesReader where
  cfg : BeaconChainConfig
  fs : String → Except Err Bytes
  validatorTable : StaticValidatorTable
  blockReader : Nat → Except Err (Option SignedBeaconBlock)
  genesisState : BeaconState

/-! ## Dump files -/

/-- Modelled from the spec: `utils.ReadZSTD(reader, buf)` with `buf` of `n` bytes,
which is not among the sources; section 4.A: it decompresses exactly `n` bytes,
and a stream that ends early leaves the rest of the buffer as it was (zero) and
reports the end of the stream. -/
def ReadZSTD (lib : Lib) (compressed : Bytes) (n : Nat) : Bytes × Option Err :=
  let d := lib.zstdStream compressed
  if n ≤ d.1.length then (d.1.take n, none)
  else (d.1 ++ List.replicate (n - d.1.length) 0, some (d.2.getD Err.eof))

/-- The little-endian value of a byte string. -/
def leU64 (bs : Bytes) : Nat := bs.foldr (fun b acc => b.val + 256 * acc) 0

/-- Whether `errors.Is(err, io.EOF)` holds. -/
def Err.isEOF : Err → Bool
  | .eof => true
  | .wrap _ e => e.isEOF
  | .readDump e _ => e.isEOF
  | _ => false

/-- The first half of `reconstructDiffedUint64List` and of `reconstructBalances`
(lines 368-391 and 423-446): open the dump file of `freshDumpSlot`, read the
8-byte little-endian length, decompress that many bytes. -/
def readDumpFile (lib : Lib) (r : HistoricalStatesReader) (freshDumpSlot : Nat)
    (fileSuffix : String) : Except Err Bytes :=
  match r.fs (lib.EpochToPaths freshDumpSlot r.cfg fileSuffix) with
  | .error e => .error e
  | .ok file =>
    match lib.zstdNewReader file with
    | some e => .error e
    | none =>
      if file.length < 8 then .error .eof
      else
        match ReadZSTD lib (file.drop 8) (leU64 (file.take 8)) with
        | (_, some e) => .error e
        | (currentList, none) => .ok currentList

/-! ## Diffed lists -/

/-- The cursor loop of `reconstructDiffedUint64List` (lines 400-416) and of
`reconstructBalances` (lines 471-487).  The first argument is what the cursor has
in front of it, the entry it stands on first; `n` numbers the next positioning
call.  The loop condition decodes the key before the body checks its length.  A
failing `Next` ends the loop, and the error, held in a variable local to the
loop, is not returned. -/
def diffScan (lib : Lib) (slot : Nat) (stepErr : Nat → Option Err) :
    List (Bytes × Bytes) → Nat → Bytes → Except Err Bytes
  | [], _, currentList => .ok currentList
  | (k, v) :: rest, n, currentList =>
    match Decode64FromBytes4 k with
    | none => .error .panic
    | some keySlot =>
      if keySlot ≤ slot then
        if k.length ≠ 4 then .error (.invalidKey k)
        else if keySlot > slot then .error (.diffNotFound slot)
        else
          match lib.ApplyCompressedSerializedUint64ListDiff currentList currentList v with
          | .error e => .error e
          | .ok next =>
            match stepErr n with
            | some _ => .ok next
            | none => diffScan lib slot stepErr rest (n + 1) next
      else .ok currentList

/-- The function `reconstructDiffedUint64List` (lines 366-419). -/
def reconstructDiffedUint64List (lib : Lib) (r : HistoricalStatesReader) (tx : Tx)
    (slot : Nat) (diffBucket : Table) (fileSuffix : String) : Except Err Bytes :=
  let freshDumpSlot := slot - slot % r.cfg.SlotsPerDump
  match readDumpFile lib r freshDumpSlot fileSuffix with
  | .error e => .error e
  | .ok currentList =>
    let b := tx.bucket diffBucket
    match b.cursorErr with
    | some e => .error e
    | none =>
      match b.stepErr 0 with
      | some _ => .ok currentList
      | none =>
        diffScan lib slot b.stepErr (seekFrom b.entries (Encode64ToBytes4 freshDumpSlot)) 1
          currentList

/-- The slots `i` the loop `for i := freshDumpSlot; i < roundedSlot; i += SlotsPerEpoch`
of `reconstructBalances` goes through (line 449), in order. -/
def epochKeys (freshDumpSlot roundedSlot slotsPerEpoch : Nat) : List Nat :=
  (List.range ((roundedSlot - freshDumpSlot + slotsPerEpoch - 1) / slotsPerEpoch)).map
    (fun j => freshDumpSlot + j * slotsPerEpoch)

/-- The body of the epoch-boundary loop of `reconstructBalances` (lines 450-461),
run over the slots of `epochKeys`. -/
def balancesPreamble (lib : Lib) (b : Bucket) : List Nat → Bytes → Except Err Bytes
  | [], currentList => .ok currentList
  | i :: more, currentList =>
    match b.GetOne (Encode64ToBytes4 i) with
    | .error e => .error e
    | .ok diff =>
      if diff.length = 0 then balancesPreamble lib b more currentList
      else
        match lib.ApplyCompressedSerializedUint64ListDiff currentList currentList diff with
        | .error e => .error e
        | .ok next => balancesPreamble lib b more next

/-- The function `reconstructBalances` (lines 421-490).  Rounding the slot to its
epoch divides by `SlotsPerEpoch`, which panics when that is zero. -/
def reconstructBalances (lib : Lib) (r : HistoricalStatesReader) (tx : Tx)
    (slot : Nat) (diffBucket : Table) : Except Err Bytes :=
  let freshDumpSlot := slot - slot % r.cfg.SlotsPerDump
  match readDumpFile lib r freshDumpSlot "balances" with
  | .error e => .error e
  | .ok dump =>
    if r.cfg.SlotsPerEpoch = 0 then .error .panic
    else
      let roundedSlot := r.cfg.RoundSlotToEpoch slot
      let b := tx.bucket diffBucket
      match balancesPreamble lib b (epochKeys freshDumpSlot roundedSlot r.cfg.SlotsPerEpoch)
          dump with
      | .error e => .error e
      | .ok currentList =>
        match b.cursorErr with
        | some e => .error e
        | none =>
          match b.stepErr 0 with
          | some _ => .ok currentList
          | none =>
            diffScan lib slot b.stepErr (seekFrom b.entries (Encode64ToBytes4 roundedSlot)) 1
              currentList

/-- The second half of `reconstructUint64ListDump` (lines 513-529): decompress the
payload `v` into a buffer of `size * 8` bytes, tolerating an early end of the
stream, and decode the buffer with the `DecodeSSZ` of the destination. -/
def decodeDump (lib : Lib) (size : Nat) (decodeSSZ : Bytes → Except Err (List Nat))
    (v : Bytes) : Except Err (List Nat) :=
  match lib.zstdNewReader v with
  | some e => .error e
  | none =>
    match ReadZSTD lib v (size * 8) with
    | (currentList, none) => decodeSSZ currentList
    | (currentList, some e) =>
      if e.isEOF then decodeSSZ currentList else .error (.readDump e v.length)

/-- The value `Prev()` yields after `Seek(key)`: that of the last entry behind
the cursor, nil when there is none. -/
def prevValue (es : List (Bytes × Bytes)) (key : Bytes) : Bytes :=
  match (seekBehind es key).getLast? with
  | some e => e.2
  | none => []

/-- The function `reconstructUint64ListDump` (lines 492-530); `decodeSSZ` is the
`DecodeSSZ` method of the destination `out`, and the result is its content. -/
def reconstructUint64ListDump (lib : Lib) (tx : Tx) (slot : Nat) (bkt : Table) (size : Nat)
    (decodeSSZ : Bytes → Except Err (List Nat)) : Except Err (List Nat) :=
  let b := tx.bucket bkt
  match b.cursorErr with
  | some e => .error e
  | none =>
    match b.stepErr 0 with
    | some e => .error e
    | none =>
      match seekFrom b.entries (Encode64ToBytes4 slot) with
      | [] => .error (.diffNotFound slot)
      | (k, v) :: _ =>
        match Decode64FromBytes4 k with
        | none => .error .panic
        | some keySlot =>
          if keySlot > slot then
            match b.stepErr 1 with
            | some e => .error e
            | none => decodeDump lib size decodeSSZ (prevValue b.entries (Encode64ToBytes4 slot))
          else decodeDump lib size decodeSSZ v

/-! ## History vectors -/

/-- The quantity `needFromGenesis` of `readHistoryHashVector` (lines 253-256) and,
with epochs for slots, of `readRandaoMixes` (lines 324-330), in `uint64`
arithmetic. -/
def needFromGenesis (size slot genesisSlot : Nat) : Nat :=
  if size > slot ∨ sub64 slot size ≤ genesisSlot then sub64 size (sub64 slot genesisSlot)
  else 0

/-- The quantity `needFromDB := size - needFromGenesis` (lines 258 and 332). -/
def needFromDB (size slot genesisSlot : Nat) : Nat :=
  sub64 size (needFromGenesis size slot genesisSlot)

/-- The cursor loop of `readHistoryHashVector` (lines 265-275).  The first argument
is what the cursor has in front of it; `n` numbers the next positioning call.  The
result is the last value of `currKeySlot` and the vector.  A failing `Next` ends
the loop without the error being returned. -/
def historyScan (size needDB : Nat) (stepErr : Nat → Option Err) :
    List (Bytes × Bytes) → Nat → Nat → Nat → HashVector → Except Err (Nat × HashVector)
  | [], _, _, currKeySlot, out => .ok (currKeySlot, out)
  | (k, v) :: rest, n, inserted, _, out =>
    if v.length ≠ 32 then .error (.invalidKey k)
    else
      match Decode64FromBytes4 k with
      | none => .error .panic
      | some keySlot =>
        if size = 0 then .error .panic
        else
          match HashVector.Set out (keySlot % size) v with
          | .error e => .error e
          | .ok out1 =>
            if add64 inserted 1 = needDB then .ok (keySlot, out1)
            else
              match stepErr n with
              | some _ => .ok (keySlot, out1)
              | none =>
                historyScan size needDB stepErr rest (n + 1) (add64 inserted 1) keySlot out1

/-- The loop that copies from the genesis vector (lines 276-279 and 350-353), run
`count` times from `currKeySlot`. -/
def genesisFill (size : Nat) (genesisVector : HashVector) :
    Nat → Nat → HashVector → Except Err HashVector
  | 0, _, out => .ok out
  | count + 1, currKeySlot, out =>
    if size = 0 then .error .panic
    else
      match HashVector.Get genesisVector (add64 currKeySlot 1 % size) with
      | .error e => .error e
      | .ok h =>
        match HashVector.Set out (add64 currKeySlot 1 % size) h with
        | .error e => .error e
        | .ok out1 => genesisFill size genesisVector count (add64 currKeySlot 1) out1

/-- The function `readHistoryHashVector` (lines 252-281); the result is the vector
`out` as the call leaves it. -/
def readHistoryHashVector (r : HistoricalStatesReader) (tx : Tx) (genesisVector : HashVector)
    (slot size : Nat) (table : Table) (out : HashVector) : Except Err HashVector :=
  let fromGenesis := needFromGenesis size slot r.genesisState.Slot
  let fromDB := needFromDB size slot r.genesisState.Slot
  let b := tx.bucket table
  match b.cursorErr with
  | some e => .error e
  | none =>
    let scanned : Except Err (Nat × HashVector) :=
      match b.stepErr 0 with
      | some _ => .ok (0, out)
      | none =>
        historyScan size fromDB b.stepErr
          (seekFrom b.entries (Encode64ToBytes4 (sub64 slot fromDB))) 1 0 0 out
    match scanned with
    | .error e => .error e
    | .ok (currKeySlot, out1) =>
      genesisFill size genesisVector (intLoopCount fromGenesis) currKeySlot out1

/-- The cursor loop of `readRandaoMixes` (lines 339-349): as `historyScan`, with
the key divided by `SlotsPerEpoch`. -/
def randaoScan (size needDB slotsPerEpoch : Nat) (stepErr : Nat → Option Err) :
    List (Bytes × Bytes) → Nat → Nat → Nat → HashVector → Except Err (Nat × HashVector)
  | [], _, _, currKeyEpoch, out => .ok (currKeyEpoch, out)
  | (k, v) :: rest, n, inserted, _, out =>
    if v.length ≠ 32 then .error (.invalidKey k)
    else
      match Decode64FromBytes4 k with
      | none => .error .panic
      | some keySlot =>
        if size = 0 then .error .panic
        else
          match HashVector.Set out (keySlot / slotsPerEpoch % size) v with
          | .error e => .error e
          | .ok out1 =>
            if add64 inserted 1 = needDB then .ok (keySlot / slotsPerEpoch, out1)
            else
              match stepErr n with
              | some _ => .ok (keySlot / slotsPerEpoch, out1)
              | none =>
                randaoScan size needDB slotsPerEpoch stepErr rest (n + 1) (add64 inserted 1)
                  (keySlot / slotsPerEpoch) out1

/-- The function `readRandaoMixes` (lines 321-364); the result is the vector `out`
as the call leaves it.  A zero `SlotsPerEpoch` makes the first division panic. -/
def readRandaoMixes (r : HistoricalStatesReader) (tx : Tx) (slot : Nat) (out : HashVector) :
    Except Err HashVector :=
  if r.cfg.SlotsPerEpoch = 0 then .error .panic
  else
    let size := r.cfg.EpochsPerHistoricalVector
    let genesisVector := r.genesisState.RandaoMixes
    let roundedSlot := r.cfg.RoundSlotToEpoch slot
    let epoch := slot / r.cfg.SlotsPerEpoch
    let genesisEpoch := r.genesisState.Slot / r.cfg.SlotsPerEpoch
    let fromGenesis := needFromGenesis size epoch genesisEpoch
    let fromDB := needFromDB size epoch genesisEpoch
    let b := tx.bucket Table.RandaoMixes
    match b.cursorErr with
    | some e => .error e
    | none =>
      let scanned : Except Err (Nat × HashVector) :=
        match b.stepErr 0 with
        | some _ => .ok (0, out)
        | none =>
          randaoScan size fromDB r.cfg.SlotsPerEpoch b.stepErr
            (seekFrom b.entries
              (Encode64ToBytes4 (sub64 roundedSlot (mul64 fromDB r.cfg.SlotsPerEpoch))))
            1 0 0 out
      match scanned with
      | .error e => .error e
      | .ok (currKeyEpoch, out1) =>
        match genesisFill size genesisVector (intLoopCount fromGenesis) currKeyEpoch out1 with
        | .error e => .error e
        | .ok out2 =>
          match (tx.bucket Table.IntraRandaoMixes).GetOne (Encode64ToBytes4 slot) with
          | .error e => .error e
          | .ok intraRandaoMix =>
            if intraRandaoMix.length ≠ 32 then
              .error (.invalidIntraRandaoMixLength intraRandaoMix.length)
            else if r.cfg.EpochsPerHistoricalVector = 0 then .error .panic
            else HashVector.Set out2 (epoch % r.cfg.EpochsPerHistoricalVector) intraRandaoMix

/-- The cursor loop of `readEth1DataVotes` (lines 304-317); here a failing `Next`
is returned. -/
def eth1Scan (lib : Lib) (endSlot eth1DataVotesLength : Nat) (stepErr : Nat → Option Err) :
    List (Bytes × Bytes) → Nat → List Bytes → Except Err (List Bytes)
  | [], _, out => .ok out
  | (k, v) :: rest, n, out =>
    match Decode64FromBytes4 k with
    | none => .error .panic
    | some keySlot =>
      if keySlot < endSlot then
        if 2 ^ 63 ≤ eth1DataVotesLength ∨ eth1DataVotesLength ≤ out.length then .ok out
        else
          match lib.DecodeEth1Data v with
          | .error e => .error e
          | .ok eth1Data =>
            match stepErr n with
            | some e => .error e
            | none =>
              eth1Scan lib endSlot eth1DataVotesLength stepErr rest (n + 1) (out ++ [eth1Data])
      else .ok out

/-- The function `readEth1DataVotes` (lines 283-319); the result is the list `out`,
empty at the call, as the call leaves it. -/
def readEth1DataVotes (lib : Lib) (r : HistoricalStatesReader) (tx : Tx)
    (eth1DataVotesLength slot : Nat) : Except Err (List Bytes) :=
  let initialSlot := r.cfg.RoundSlotToVotePeriod slot
  let b := tx.bucket Table.Eth1DataVotes
  match b.cursorErr with
  | some e => .error e
  | none =>
    match b.stepErr 0 with
    | some e => .error e
    | none =>
      let out : List Bytes :=
        if initialSlot ≤ r.genesisState.Slot then r.genesisState.Eth1DataVotes else []
      let endSlot :=
        r.cfg.RoundSlotToVotePeriod
          (add64 slot (mul64 r.cfg.SlotsPerEpoch r.cfg.EpochsPerEth1VotingPeriod))
      eth1Scan lib endSlot eth1DataVotesLength b.stepErr
        (seekFrom b.entries (Encode64ToBytes4 initialSlot)) 1 out

/-! ## Validators -/

/-- The visit `validatorTable.ForEach` makes (lines 542-558), records in ascending
index order from `validatorIndex` on, until the callback returns false. -/
def visitValidators (slot epoch validatorSetLength : Nat) :
    List StaticValidator → Nat → List Validator → List Nat → List Nat →
      List Validator × List Nat × List Nat
  | [], _, out, activeIds, prevActiveIds => (out, activeIds, prevActiveIds)
  | validator :: rest, validatorIndex, out, activeIds, prevActiveIds =>
    if validatorIndex ≥ validatorSetLength then (out, activeIds, prevActiveIds)
    else
      let currValidator := validator.ToValidator (out.getD validatorIndex Validator.zero) slot
      let activeIds1 :=
        if currValidator.Active epoch then activeIds ++ [validatorIndex] else activeIds
      if epoch = 0 then
        visitValidators slot epoch validatorSetLength rest (validatorIndex + 1)
          (out.set validatorIndex currValidator) activeIds1 prevActiveIds
      else
        visitValidators slot epoch validatorSetLength rest (validatorIndex + 1)
          (out.set validatorIndex currValidator) activeIds1
          (if currValidator.Active (sub64 epoch 1) then prevActiveIds ++ [validatorIndex]
           else prevActiveIds)

/-- The loop of lines 565-568 over `i = 0 .. count - 1`: the effective balance of
validator `i` is read from bytes `[8 i, 8 i + 8)`; slicing beyond the list
panics (its capacity is taken to be its length). -/
def setEffectiveBalances (bytesEffectiveBalances : Bytes) (out : List Validator) :
    Nat → Except Err (List Validator)
  | 0 => .ok out
  | i + 1 =>
    match setEffectiveBalances bytesEffectiveBalances out i with
    | .error e => .error e
    | .ok out1 =>
      if bytesEffectiveBalances.length < i * 8 + 8 then .error .panic
      else
        match out1.get? i with
        | none => .error .panic
        | some v =>
          .ok (out1.set i
            { v with EffectiveBalance := leU64 ((bytesEffectiveBalances.drop (i * 8)).take 8) })

/-- The function `readValidatorsForHistoricalState` (lines 532-570).  At epoch 0
the assignment `prevActiveIds = activeIds` copies the slice header of the still
empty `activeIds`; later appends to `activeIds` do not lengthen `prevActiveIds`.
A zero `SlotsPerEpoch` makes the division of line 536 panic. -/
def readValidatorsForHistoricalState (lib : Lib) (r : HistoricalStatesReader) (tx : Tx)
    (slot validatorSetLength : Nat) : Except Err (List Validator × List Nat × List Nat) :=
  if r.cfg.SlotsPerEpoch = 0 then .error .panic
  else
    let epoch := slot / r.cfg.SlotsPerEpoch
    let visited :=
      visitValidators slot epoch validatorSetLength r.validatorTable.validatorTable 0
        (List.replicate validatorSetLength Validator.zero) [] []
    match reconstructDiffedUint64List lib r tx slot Table.ValidatorEffectiveBalance
        "effective_balances" with
    | .error e => .error e
    | .ok bytesEffectiveBalances =>
      match setEffectiveBalances bytesEffectiveBalances visited.1
          (intLoopCount validatorSetLength) with
      | .error e => .error e
      | .ok out => .ok (out, visited.2.1, visited.2.2)

/-! ## Pending attestations and participation -/

/-- The call `list.Truncate(n)`; a length beyond the list panics (its capacity is
taken to be its length). -/
def Truncate (l : List Bytes) (n : Nat) : Except Err (List Bytes) :=
  if n ≤ l.length then .ok (l.take n) else .error .panic

/-- The function `readPendingEpochs` (lines 572-589); the result is the pair
(current, previous).  Rounding the slot to its epoch panics when `SlotsPerEpoch`
is zero. -/
def readPendingEpochs (r : HistoricalStatesReader) (tx : Tx) (slot : Nat)
    (currentEpochAttestationsLength previousEpochAttestationsLength : Nat) :
    Except Err (List Bytes × List Bytes) :=
  if slot < r.cfg.SlotsPerEpoch then
    .ok (r.genesisState.CurrentEpochAttestations, r.genesisState.PreviousEpochAttestations)
  else if r.cfg.SlotsPerEpoch = 0 then .error .panic
  else
    let roundedSlot := r.cfg.RoundSlotToEpoch slot
    match tx.ReadCurrentEpochAttestations roundedSlot r.cfg.CurrentEpochAttestationsLength with
    | .error e => .error e
    | .ok currentEpochAttestations =>
      match tx.ReadPreviousEpochAttestations roundedSlot
          r.cfg.PreviousEpochAttestationsLength with
      | .error e => .error e
      | .ok previousEpochAttestations =>
        match Truncate previousEpochAttestations previousEpochAttestationsLength with
        | .error e => .error e
        | .ok previous =>
          match Truncate currentEpochAttestations currentEpochAttestationsLength with
          | .error e => .error e
          | .ok current => .ok (current, previous)

/-- The function `computeRelevantEpochs` (lines 676-682). -/
def computeRelevantEpochs (r : HistoricalStatesReader) (slot : Nat) : Nat × Nat :=
  let epoch := slot / r.cfg.SlotsPerEpoch
  if epoch ≤ r.cfg.AltairForkEpoch ∧ r.genesisState.Version < AltairVersion then (epoch, epoch)
  else (epoch, sub64 epoch 1)

/-- The byte `ParticipationFlags(utils.PowerOf2(uint64(index)))`. -/
def flagByte (index : Nat) : Nat := 2 ^ index % 256

/-- Modelled from the spec: `ParticipationFlags.HasFlag`, which is not among the
sources; the glossary gives a participation flag as one bit of the per-validator
byte. -/
def HasFlag (f index : Nat) : Bool := decide (f &&& flagByte index = flagByte index)

/-- Modelled from the spec: `ParticipationFlags.Add`, which is not among the
sources; it sets the bit of the flag in the per-validator byte. -/
def AddFlag (f index : Nat) : Nat := f ||| flagByte index

/-- The two participation lists under reconstruction, one byte a validator. -/
structure Participation where
  currentIdxs : List Nat
  previousIdxs : List Nat
  deriving DecidableEq, Repr

/-- The loop over the flag indices for one attesting validator (lines 650-665);
`toCurrent` is `isCurrentEpoch && currentEpoch != prevEpoch`.  `Get` and `Set`
panic on an index out of range. -/
def applyFlags (participationFlagsIndicies : List Nat) (toCurrent : Bool) (idx : Nat) :
    List Nat → Participation → Except Err Participation
  | [], p => .ok p
  | flagIndex :: more, p =>
    match (if toCurrent then p.currentIdxs else p.previousIdxs).get? idx with
    | none => .error .panic
    | some flagParticipation =>
      if !participationFlagsIndicies.contains (flagIndex % 256)
          || HasFlag flagParticipation flagIndex then
        applyFlags participationFlagsIndicies toCurrent idx more p
      else if toCurrent then
        applyFlags participationFlagsIndicies toCurrent idx more
          { p with currentIdxs := p.currentIdxs.set idx (AddFlag flagParticipation flagIndex % 256) }
      else
        applyFlags participationFlagsIndicies toCurrent idx more
          { p with previousIdxs := p.previousIdxs.set idx (AddFlag flagParticipation flagIndex % 256) }

/-- The loop over the attesting validators of one attestation (lines 649-666). -/
def applyAttesters (weights : Nat) (participationFlagsIndicies : List Nat) (toCurrent : Bool) :
    List Nat → Participation → Except Err Participation
  | [], p => .ok p
  | idx :: more, p =>
    match applyFlags participationFlagsIndicies toCurrent idx (List.range weights) p with
    | .error e => .error e
    | .ok p1 => applyAttesters weights participationFlagsIndicies toCurrent more p1

/-- The callback of `Attestations.Range` for one attestation (lines 620-668), in a
block of epoch `currentEpoch`, with `ret` the state whose slot is the block slot. -/
def replayAttestation (lib : Lib) (r : HistoricalStatesReader) (randaoMixes : HashVector)
    (currentActiveIndicies previousActiveIndicies : List Nat) (prevEpoch currentEpoch : Nat)
    (ret : BeaconState) (attestation : Attestation) (p : Participation) :
    Except Err Participation :=
  let data := attestation.AttestantionData
  let isCurrentEpoch := decide (data.Target.Epoch = currentEpoch)
  if !isCurrentEpoch && decide (currentEpoch = prevEpoch) then .ok p
  else
    let activeIndicies :=
      if isCurrentEpoch then
        if currentEpoch = prevEpoch then previousActiveIndicies else currentActiveIndicies
      else previousActiveIndicies
    match lib.attestingIndicies data attestation.AggregationBits randaoMixes activeIndicies with
    | .error e => .error e
    | .ok attestingIndicies =>
      match lib.GetAttestationParticipationFlagIndicies ret data (sub64 ret.Slot data.Slot) with
      | .error e => .error e
      | .ok participationFlagsIndicies =>
        applyAttesters r.cfg.ParticipationWeights.length participationFlagsIndicies
          (isCurrentEpoch && !decide (currentEpoch = prevEpoch)) attestingIndicies p

/-- The iteration `Attestations.Range` over the attestations of one block; the
first error stops it. -/
def replayBlock (lib : Lib) (r : HistoricalStatesReader) (randaoMixes : HashVector)
    (currentActiveIndicies previousActiveIndicies : List Nat) (prevEpoch currentEpoch : Nat)
    (ret : BeaconState) : List Attestation → Participation → Except Err Participation
  | [], p => .ok p
  | attestation :: more, p =>
    match replayAttestation lib r randaoMixes currentActiveIndicies previousActiveIndicies
        prevEpoch currentEpoch ret attestation p with
    | .error e => .error e
    | .ok p1 =>
      replayBlock lib r randaoMixes currentActiveIndicies previousActiveIndicies prevEpoch
        currentEpoch ret more p1

/-- The loop `for i := beginSlot; i <= slot; i++` (lines 607-672) over the given
slots; the state `ret` has its slot set to every slot that has a block. -/
def replaySlots (lib : Lib) (r : HistoricalStatesReader) (randaoMixes : HashVector)
    (currentActiveIndicies previousActiveIndicies : List Nat) (prevEpoch : Nat) :
    List Nat → BeaconState → Participation → Except Err (BeaconState × Participation)
  | [], ret, p => .ok (ret, p)
  | i :: more, ret, p =>
    match r.blockReader i with
    | .error e => .error e
    | .ok none =>
      replaySlots lib r randaoMixes currentActiveIndicies previousActiveIndicies prevEpoch more
        ret p
    | .ok (some block) =>
      match replayBlock lib r randaoMixes currentActiveIndicies previousActiveIndicies
          prevEpoch (i / r.cfg.SlotsPerEpoch) { ret with Slot := i } block.Attestations p with
      | .error e => .error e
      | .ok p1 =>
        replaySlots lib r randaoMixes currentActiveIndicies previousActiveIndicies prevEpoch
          more { ret with Slot := i } p1

/-- The function `readPartecipations` (lines 592-674).  The result is the state
`ret` as the replay leaves it and the two lists (current, previous).  The two
checkpoint arguments are not used by the body and are left out; warming the
shuffled-set cache changes no result and is left out.  The slots replayed are
`beginSlot, ..., slot`, none when `beginSlot > slot`.  A zero `SlotsPerEpoch` makes
the division in `computeRelevantEpochs` panic. -/
def readPartecipations (lib : Lib) (r : HistoricalStatesReader) (slot validatorLength : Nat)
    (currentActiveIndicies previousActiveIndicies : List Nat) (ret : BeaconState) :
    Except Err (BeaconState × List Nat × List Nat) :=
  if r.cfg.SlotsPerEpoch = 0 then .error .panic
  else
    let epochs := computeRelevantEpochs r slot
    let beginSlot := mul64 epochs.2 r.cfg.SlotsPerEpoch
    match replaySlots lib r ret.RandaoMixes currentActiveIndicies previousActiveIndicies
        epochs.2 (List.range' beginSlot (slot + 1 - beginSlot)) ret
        { currentIdxs := List.replicate validatorLength 0,
          previousIdxs := List.replicate validatorLength 0 } with
    | .error e => .error e
    | .ok (ret1, p) => .ok (ret1, p.currentIdxs, p.previousIdxs)

/-! ## The orchestrator -/

/-- What `ReadHistoricalState` returns: the state pointer (nil is `none`) and the
error (nil is `none`). -/
abbrev Result := Option BeaconState × Option Err

/-- The return `return nil, err`. -/
def failWith (e : Err) : Result := (none, some e)

/-- The return `return ret, ret.InitBeaconState()`. -/
def finish (lib : Lib) (ret : BeaconState) : Result := (some ret, lib.InitBeaconState ret)

/-- Lines 194-249 of `ReadHistoricalState`: the fields of Altair and later. -/
def readForkFields (lib : Lib) (r : HistoricalStatesReader) (tx : Tx) (slot : Nat)
    (block : SignedBeaconBlock) (minimalBeaconState : MinimalBeaconState)
    (ret : BeaconState) : Result :=
  if ret.Version < AltairVersion then finish lib ret
  else
    match reconstructUint64ListDump lib tx slot Table.InactivityScores
        minimalBeaconState.ValidatorLength
        (lib.DecodeUint64List r.cfg.ValidatorRegistryLimit) with
    | .error e => failWith (.wrap "failed to read inactivity scores" e)
    | .ok inactivityScores =>
      let ret := { ret with InactivityScores := inactivityScores }
      let syncCommitteeSlot := r.cfg.RoundSlotToSyncCommitteePeriod slot
      match tx.ReadCurrentSyncCommittee syncCommitteeSlot with
      | .error e => failWith (.wrap "failed to read current sync committee" e)
      | .ok currentRead =>
        let currentSyncCommittee :=
          match currentRead with
          | none => r.genesisState.CurrentSyncCommittee
          | some c => some c
        match tx.ReadNextSyncCommittee syncCommitteeSlot with
        | .error e => failWith (.wrap "failed to read next sync committee" e)
        | .ok nextRead =>
          let nextSyncCommittee :=
            match nextRead with
            | none => r.genesisState.NextSyncCommittee
            | some c => some c
          let ret :=
            { ret with
              CurrentSyncCommittee := currentSyncCommittee
              NextSyncCommittee := nextSyncCommittee }
          if ret.Version < BellatrixVersion then finish lib ret
          else
            match lib.PayloadHeader block.ExecutionPayload with
            | .error e => failWith (.wrap "failed to read payload header" e)
            | .ok payloadHeader =>
              let ret := { ret with LatestExecutionPayloadHeader := some payloadHeader }
              if ret.Version < CapellaVersion then finish lib ret
              else
                match tx.ReadHistoricalSummaries minimalBeaconState.HistoricalSummariesLength with
                | .error e => failWith (.wrap "failed to read historical summaries" e)
                | .ok historicalSummaries =>
                  finish lib
                    { ret with
                      NextWithdrawalIndex := minimalBeaconState.NextWithdrawalIndex
                      NextWithdrawalValidatorIndex :=
                        minimalBeaconState.NextWithdrawalValidatorIndex
                      HistoricalSummaries := historicalSummaries }

/-- Lines 159-192 of `ReadHistoricalState`: finality and participation, then the
fork fields. -/
def readFinalityAndParticipation (lib : Lib) (r : HistoricalStatesReader) (tx : Tx)
    (slot : Nat) (block : SignedBeaconBlock) (minimalBeaconState : MinimalBeaconState)
    (currActiveIdxs prevActiveIdxs : List Nat) (ret : BeaconState) : Result :=
  match tx.ReadCheckpoints (r.cfg.RoundSlotToEpoch slot) with
  | .error e => failWith e
  | .ok (currentRead, previousRead, finalizedRead) =>
    let currentCheckpoint :=
      match currentRead with
      | none => r.genesisState.CurrentJustifiedCheckpoint
      | some c => some c
    let previousCheckpoint :=
      match previousRead with
      | none => r.genesisState.PreviousJustifiedCheckpoint
      | some c => some c
    let finalizedCheckpoint :=
      match finalizedRead with
      | none => r.genesisState.FinalizedCheckpoint
      | some c => some c
    let ret :=
      { ret with
        JustificationBits := minimalBeaconState.JustificationBits
        PreviousJustifiedCheckpoint := previousCheckpoint
        CurrentJustifiedCheckpoint := currentCheckpoint
        FinalizedCheckpoint := finalizedCheckpoint }
    if ret.Version = Phase0Version then
      match readPendingEpochs r tx slot minimalBeaconState.CurrentEpochAttestationsLength
          minimalBeaconState.PreviousEpochAttestationsLength with
      | .error e => failWith (.wrap "failed to read pending attestations" e)
      | .ok (currentAtts, previousAtts) =>
        readForkFields lib r tx slot block minimalBeaconState
          { ret with
            CurrentEpochAttestations := currentAtts
            PreviousEpochAttestations := previousAtts }
    else
      match readPartecipations lib r slot minimalBeaconState.ValidatorLength currActiveIdxs
          prevActiveIdxs ret with
      | .error e => failWith (.wrap "failed to read participations" e)
      | .ok (ret1, currentIdxs, previousIdxs) =>
        readForkFields lib r tx slot block minimalBeaconState
          { ret1 with
            CurrentEpochParticipation := currentIdxs
            PreviousEpochParticipation := previousIdxs }

/-- Lines 121-158 of `ReadHistoricalState`: eth1 data, registry, randomness and
slashings, then the rest. -/
def readRegistry (lib : Lib) (r : HistoricalStatesReader) (tx : Tx) (slot : Nat)
    (block : SignedBeaconBlock) (minimalBeaconState : MinimalBeaconState)
    (ret : BeaconState) : Result :=
  match readEth1DataVotes lib r tx minimalBeaconState.Eth1DataLength slot with
  | .error e => failWith e
  | .ok eth1DataVotes =>
    let ret :=
      { ret with
        Eth1DataVotes := eth1DataVotes
        Eth1Data := minimalBeaconState.Eth1Data
        Eth1DepositIndex := minimalBeaconState.Eth1DepositIndex }
    match reconstructBalances lib r tx slot Table.ValidatorBalance with
    | .error e => failWith (.wrap "failed to read validator balances" e)
    | .ok balancesBytes =>
      match lib.DecodeUint64List r.cfg.ValidatorRegistryLimit balancesBytes with
      | .error e => failWith (.wrap "failed to decode validator balances" e)
      | .ok balances =>
        let ret := { ret with Balances := balances }
        match readValidatorsForHistoricalState lib r tx slot
            minimalBeaconState.ValidatorLength with
        | .error e => failWith (.wrap "failed to read validators" e)
        | .ok (validatorSet, currActiveIdxs, prevActiveIdxs) =>
          let ret := { ret with Validators := validatorSet }
          match readRandaoMixes r tx slot (NewHashVector r.cfg.EpochsPerHistoricalVector) with
          | .error e => failWith (.wrap "failed to read randao mixes" e)
          | .ok randaoMixes =>
            let ret := { ret with RandaoMixes := randaoMixes }
            match reconstructUint64ListDump lib tx slot Table.ValidatorSlashings
                r.cfg.EpochsPerSlashingsVector
                (lib.DecodeUint64Vector r.cfg.EpochsPerSlashingsVector) with
            | .error e => failWith (.wrap "failed to read slashings" e)
            | .ok slashingsVector =>
              readFinalityAndParticipation lib r tx slot block minimalBeaconState
                currActiveIdxs prevActiveIdxs { ret with Slashings := slashingsVector }

/-- Lines 92-119 of `ReadHistoricalState`: versioning and history, then the rest. -/
def readHistory (lib : Lib) (r : HistoricalStatesReader) (tx : Tx) (slot : Nat)
    (block : SignedBeaconBlock) (minimalBeaconState : MinimalBeaconState) : Result :=
  let ret : BeaconState :=
    { BeaconState.New with
      Version := minimalBeaconState.Version
      GenesisTime := r.genesisState.GenesisTime
      GenesisValidatorsRoot := r.genesisState.GenesisValidatorsRoot
      Slot := slot
      Fork := minimalBeaconState.Fork
      LatestBlockHeader := some { block.Header with Root := zeroHash } }
  match readHistoryHashVector r tx r.genesisState.BlockRoots slot r.cfg.SlotsPerHistoricalRoot
      Table.BlockRoot (NewHashVector r.cfg.SlotsPerHistoricalRoot) with
  | .error e => failWith (.wrap "failed to read block roots" e)
  | .ok blockRoots =>
    let ret := { ret with BlockRoots := blockRoots }
    match readHistoryHashVector r tx r.genesisState.StateRoots slot
        r.cfg.SlotsPerHistoricalRoot Table.StateRoot
        (NewHashVector r.cfg.SlotsPerHistoricalRoot) with
    | .error e => failWith (.wrap "failed to read state roots" e)
    | .ok stateRoots =>
      let ret := { ret with StateRoots := stateRoots }
      match tx.ReadHistoricalRoots minimalBeaconState.HistoricalRootsLength with
      | .error e => failWith (.wrap "failed to read historical roots" e)
      | .ok historicalRoots =>
        readRegistry lib r tx slot block minimalBeaconState
          { ret with HistoricalRoots := historicalRoots }

/-- The function `ReadHistoricalState` (lines 57-250). -/
def ReadHistoricalState (lib : Lib) (r : HistoricalStatesReader) (tx : Tx) (slot : Nat) :
    Result :=
  match tx.GetStateProcessingProgress with
  | .error e => failWith e
  | .ok latestProcessedState =>
    if slot > latestProcessedState ∨ slot > r.validatorTable.slot then
      failWith (.slotAhead slot latestProcessedState)
    else if slot = 0 then lib.Copy r.genesisState
    else
      match r.blockReader slot with
      | .error e => failWith e
      | .ok none => failWith (.blockNotFound slot)
      | .ok (some block) =>
        match tx.ReadMinimalBeaconState slot with
        | .error e => failWith e
        | .ok none => (none, none)
        | .ok (some minimalBeaconState) => readHistory lib r tx slot block minimalBeaconState

/-! ## Vocabulary of the statements -/

/-- The keys of a bucket are slot keys: four bytes each. -/
def SlotKeyed (es : List (Bytes × Bytes)) : Prop := ∀ e ∈ es, e.1.length = 4

/-- The entries of a bucket are in strictly ascending key order. -/
def Ascending (es : List (Bytes × Bytes)) : Prop :=
  es.Pairwise (fun x y => bytesLt x.1 y.1 = true)

/-- A bucket of slot-keyed entries as the store keeps it (data-model invariant 5). -/
def Bucket.WellFormed (b : Bucket) : Prop := SlotKeyed b.entries ∧ Ascending b.entries

/-- The store reports no failure on this bucket. -/
def Bucket.NoFaults (b : Bucket) : Prop :=
  b.cursorErr = none ∧ (∀ n, b.stepErr n = none) ∧ ∀ k, b.getErr k = none

/-- A slot that a 4-byte key can hold. -/
def Representable (slot : Nat) : Prop := slot < 2 ^ 32

instance (es : List (Bytes × Bytes)) : Decidable (SlotKeyed es) := by
  unfold SlotKeyed
  infer_instance

instance (es : List (Bytes × Bytes)) : Decidable (Ascending es) := by
  unfold Ascending
  infer_instance

instance (b : Bucket) : Decidable b.WellFormed := by
  unfold Bucket.WellFormed
  infer_instance

instance (slot : Nat) : Decidable (Representable slot) := by
  unfold Representable
  infer_instance

/-- The bucket entries of a list of (slot, value) pairs. -/
def slotEntries (l : List (Nat × Bytes)) : List (Bytes × Bytes) :=
  l.map (fun e => (Encode64ToBytes4 e.1, e.2))

/-- The slot of a key, zero for a key too short to decode. -/
def keySlot (k : Bytes) : Nat := (Decode64FromBytes4 k).getD 0

/-- Whether the key decodes to a slot in `[lo, hi]`. -/
def keyInRange (lo hi : Nat) (k : Bytes) : Bool :=
  match Decode64FromBytes4 k with
  | some s => decide (lo ≤ s) && decide (s ≤ hi)
  | none => false

/-- The diffs of the entries whose key lies in `[lo, hi]`, in bucket order. -/
def selectedDiffs (es : List (Bytes × Bytes)) (lo hi : Nat) : List Bytes :=
  (es.filter (fun e => keyInRange lo hi e.1)).map (fun e => e.2)

/-- The left fold of `ApplyCompressedSerializedUint64ListDiff` over a list of
diffs, each applied to the result of the one before; the first failure is the
result. -/
def applyDiffs (lib : Lib) : List Bytes → Bytes → Except Err Bytes
  | [], currentList => .ok currentList
  | d :: ds, currentList =>
    match lib.ApplyCompressedSerializedUint64ListDiff currentList currentList d with
    | .error e => .error e
    | .ok next => applyDiffs lib ds next

/-- The cursor, after `Seek(key)`, stands on no entry or on one whose key exceeds
`slot`. -/
def landsBeyond (es : List (Bytes × Bytes)) (key : Bytes) (slot : Nat) : Bool :=
  match seekFrom es key with
  | [] => true
  | (k, _) :: _ =>
    match Decode64FromBytes4 k with
    | some s => decide (slot < s)
    | none => false

/-- The cursor loop, started on `front` with the buffer `start` and with `n`
numbering its next positioning call, comes to the diff `v` of the entry `(k, v)`
with the buffer `cur`: the entries before it have 4-byte keys at or below `slot`,
their diffs applied in turn to `start` give `cur`, the `Next` calls between them
succeed, and `k` is a 4-byte key at or below `slot`. -/
def ScanComesTo (lib : Lib) (slot : Nat) (stepErr : Nat → Option Err)
    (front : List (Bytes × Bytes)) (n : Nat) (start k v cur : Bytes) : Prop :=
  ∃ pre post, front = pre ++ (k, v) :: post
    ∧ (∀ x ∈ pre, x.1.length = 4 ∧ keyInRange 0 slot x.1 = true)
    ∧ (∀ j, j < pre.length → stepErr (n + j) = none)
    ∧ applyDiffs lib (pre.map (fun e => e.2)) start = .ok cur
    ∧ k.length = 4 ∧ keyInRange 0 slot k = true

/-- The epoch-boundary loop of `reconstructBalances`, run over `keys` from the
buffer `start`, comes to the slot `i` with the buffer `cur` and fetches there the
non-empty diff `diff`. -/
def PreambleComesTo (lib : Lib) (b : Bucket) (keys : List Nat) (start : Bytes) (i : Nat)
    (diff cur : Bytes) : Prop :=
  ∃ pre post, keys = pre ++ i :: post
    ∧ balancesPreamble lib b pre start = .ok cur
    ∧ b.GetOne (Encode64ToBytes4 i) = .ok diff ∧ diff.length ≠ 0

/-! ## Example data -/

/-- A library for the examples: a diff is applied by appending it, except that the
diff `[255]` is corrupt; compression is the identity; every other call succeeds. -/
def exLib : Lib :=
  { ApplyCompressedSerializedUint64ListDiff := fun old _ diff =>
      if diff = [255] then .error (.ext 7) else .ok (old ++ diff)
    zstdNewReader := fun _ => none
    zstdStream := fun c => (c, none)
    EpochToPaths := fun _ _ suffix => suffix
    DecodeEth1Data := fun b => .ok b
    PayloadHeader := fun b => .ok b
    Copy := fun s => (some s, none)
    InitBeaconState := fun _ => none
    DecodeUint64List := fun _ b => .ok (b.map (fun x => x.val))
    DecodeUint64Vector := fun _ b => .ok (b.map (fun x => x.val))
    attestingIndicies := fun _ _ _ active => .ok active
    GetAttestationParticipationFlagIndicies := fun _ _ _ => .ok [0] }

/-- A configuration for the examples: 32 slots an epoch, a dump every 2048 slots,
history vectors of 4 entries. -/
def exCfg : BeaconChainConfig :=
  { SlotsPerEpoch := 32, SlotsPerHistoricalRoot := 4, EpochsPerHistoricalVector := 4,
    EpochsPerSlashingsVector := 2, HistoricalRootsLimit := 16, ValidatorRegistryLimit := 16,
    EpochsPerEth1VotingPeriod := 2, AltairForkEpoch := 1, TargetCommitteeSize := 4,
    SlotsPerDump := 2048, ParticipationWeights := [14, 26, 14],
    RoundSlotToVotePeriod := fun s => s / 64 * 64,
    RoundSlotToSyncCommitteePeriod := fun s => s / 256 * 256,
    Eth1DataVotesLength := 64, CurrentEpochAttestationsLength := 128,
    PreviousEpochAttestationsLength := 128 }

/-- A hash for the examples: 32 bytes, all equal to `x`. -/
def exHash (x : Byte) : Hash := List.replicate 32 x

/-- A genesis state for the examples. -/
def exGenesis : BeaconState :=
  { BeaconState.New with
    GenesisTime := 1606824023
    BlockRoots := [exHash 10, exHash 11, exHash 12, exHash 13]
    StateRoots := [exHash 20, exHash 21, exHash 22, exHash 23]
    RandaoMixes := [exHash 30, exHash 31, exHash 32, exHash 33] }

/-- A reader for the examples: every dump file holds the two bytes `[1, 2]`
(after its length, 2), no slot has a block, the static table is good up to slot
5000. -/
def exReader : HistoricalStatesReader :=
  { cfg := exCfg
    fs := fun _ => .ok [2, 0, 0, 0, 0, 0, 0, 0, 1, 2]
    validatorTable := { validatorTable := [], slot := 5000 }
    blockReader := fun _ => .ok none
    genesisState := exGenesis }

/-- A transaction for the examples over the given buckets: progress is at slot
4000 and no overlay record exists. -/
def exTx (buckets : Table → Bucket) : Tx :=
  { bucket := buckets
    GetStateProcessingProgress := .ok 4000
    ReadMinimalBeaconState := fun _ => .ok none
    ReadHistoricalRoots := fun _ => .ok []
    ReadCheckpoints := fun _ => .ok (none, none, none)
    ReadCurrentSyncCommittee := fun _ => .ok none
    ReadNextSyncCommittee := fun _ => .ok none
    ReadHistoricalSummaries := fun _ => .ok []
    ReadCurrentEpochAttestations := fun _ _ => .ok []
    ReadPreviousEpochAttestations := fun _ _ => .ok [] }

/-- The transaction whose every bucket holds the given slot-keyed entries. -/
def exTxOf (l : List (Nat × Bytes)) : Tx := exTx (fun _ => Bucket.ofEntries (slotEntries l))

/-- A block for the examples, without attestations. -/
def exBlock (slot : Nat) : SignedBeaconBlock :=
  { Header := { Slot := slot, ProposerIndex := 0, ParentRoot := exHash 1, Root := exHash 2,
                BodyRoot := exHash 3 }
    Attestations := [], ExecutionPayload := [] }

/-- The example reader with a block at every slot. -/
def exReaderFull : HistoricalStatesReader :=
  { exReader with blockReader := fun slot => .ok (some (exBlock slot)) }

/-- Lines 322-353 of `readRandaoMixes`: the vector `out` as the cursor scan and the
genesis loop leave it, before the intra-epoch mix is read (line 355). -/
def randaoMixesOfEpochs (r : HistoricalStatesReader) (tx : Tx) (slot : Nat) (out : HashVector) :
    Except Err HashVector :=
  if r.cfg.SlotsPerEpoch = 0 then .error .panic
  else
    let size := r.cfg.EpochsPerHistoricalVector
    let genesisVector := r.genesisState.RandaoMixes
    let roundedSlot := r.cfg.RoundSlotToEpoch slot
    let epoch := slot / r.cfg.SlotsPerEpoch
    let genesisEpoch := r.genesisState.Slot / r.cfg.SlotsPerEpoch
    let fromGenesis := needFromGenesis size epoch genesisEpoch
    let fromDB := needFromDB size epoch genesisEpoch
    let b := tx.bucket Table.RandaoMixes
    match b.cursorErr with
    | some e => .error e
    | none =>
      let scanned : Except Err (Nat × HashVector) :=
        match b.stepErr 0 with
        | some _ => .ok (0, out)
        | none =>
          randaoScan size fromDB r.cfg.SlotsPerEpoch b.stepErr
            (seekFrom b.entries
              (Encode64ToBytes4 (sub64 roundedSlot (mul64 fromDB r.cfg.SlotsPerEpoch))))
            1 0 0 out
      match scanned with
      | .error e => .error e
      | .ok (currKeyEpoch, out1) =>
        genesisFill size genesisVector (intLoopCount fromGenesis) currKeyEpoch out1

/-- The example reader with a genesis state that holds pending attestations. -/
def exReaderPending : HistoricalStatesReader :=
  { exReader with
    genesisState :=
      { exGenesis with
        CurrentEpochAttestations := [[1]]
        PreviousEpochAttestations := [[2], [3]] } }

/-- A transaction for the examples whose reads of pending attestations fail. -/
def exTxNoPending : Tx :=
  { exTx (fun _ => Bucket.ofEntries []) with
    ReadCurrentEpochAttestations := fun _ _ => .error (.ext 3)
    ReadPreviousEpochAttestations := fun _ _ => .error (.ext 4) }

/-- Lines 638-667 of the callback of `readPartecipations`: what the callback does
once `activeIndicies` is chosen, in a block of epoch `currentEpoch`. -/
def attestWith (lib : Lib) (r : HistoricalStatesReader) (randaoMixes : HashVector)
    (activeIndicies : List Nat) (prevEpoch currentEpoch : Nat) (ret : BeaconState)
    (attestation : Attestation) (p : Participation) : Except Err Participation :=
  let data := attestation.AttestantionData
  let isCurrentEpoch := decide (data.Target.Epoch = currentEpoch)
  match lib.attestingIndicies data attestation.AggregationBits randaoMixes activeIndicies with
  | .error e => .error e
  | .ok attestingIndicies =>
    match lib.GetAttestationParticipationFlagIndicies ret data (sub64 ret.Slot data.Slot) with
    | .error e => .error e
    | .ok participationFlagsIndicies =>
      applyAttesters r.cfg.ParticipationWeights.length participationFlagsIndicies
        (isCurrentEpoch && !decide (currentEpoch = prevEpoch)) attestingIndicies p

/-- The slots `beginSlot, ..., slot` that `readPartecipations` replays (line 607). -/
def replayedSlots (r : HistoricalStatesReader) (slot : Nat) : List Nat :=
  List.range' (mul64 (computeRelevantEpochs r slot).2 r.cfg.SlotsPerEpoch)
    (slot + 1 - mul64 (computeRelevantEpochs r slot).2 r.cfg.SlotsPerEpoch)

/-- An attestation for the examples with the given slot and target epoch. -/
def exAttestation (slot targetEpoch : Nat) : Attestation :=
  { AggregationBits := [1]
    AttestantionData :=
      { Slot := slot, CommitteeIndex := 0, BeaconBlockRoot := exHash 5,
        Source := { Epoch := 0, BlockRoot := exHash 6 },
        Target := { Epoch := targetEpoch, BlockRoot := exHash 7 } } }

/-- The example reader with two blocks: one at slot 40 (epoch 1) with an
attestation of target epoch 1, one at slot 66 (epoch 2) with an attestation of
target epoch 2 and one of target epoch 1. -/
def exReaderAtt : HistoricalStatesReader :=
  { exReader with
    blockReader := fun slot =>
      if slot = 40 then
        .ok (some { exBlock 40 with Attestations := [exAttestation 39 1] })
      else if slot = 66 then
        .ok (some { exBlock 66 with Attestations := [exAttestation 65 2, exAttestation 63 1] })
      else .ok none }

/-- A bucket for the examples that holds the given slot-keyed entries and whose
cursor fails, with the store error 9, on its positioning call number `failAt`
(the `Seek` is call 0, the first `Next` call 1). -/
def exFaulty (l : List (Nat × Bytes)) (failAt : Nat) : Bucket :=
  { entries := slotEntries l, cursorErr := none,
    stepErr := fun n => if n = failAt then some (.ext 9) else none,
    getErr := fun _ => none }

/-- The transaction whose every bucket is `exFaulty l failAt`. -/
def exTxFaulty (l : List (Nat × Bytes)) (failAt : Nat) : Tx := exTx (fun _ => exFaulty l failAt)

/-- The epoch-boundary loop of `reconstructBalances` (lines 449-462) with a log:
next to what `balancesPreamble` returns, the keys under which the loop fetched the
diffs it passed to `ApplyCompressedSerializedUint64ListDiff`, in order. -/
def balancesPreambleLog (lib : Lib) (b : Bucket) :
    List Nat → Bytes → Except Err Bytes × List Bytes
  | [], currentList => (.ok currentList, [])
  | i :: more, currentList =>
    match b.GetOne (Encode64ToBytes4 i) with
    | .error e => (.error e, [])
    | .ok diff =>
      if diff.length = 0 then balancesPreambleLog lib b more currentList
      else
        match lib.ApplyCompressedSerializedUint64ListDiff currentList currentList diff with
        | .error e => (.error e, [Encode64ToBytes4 i])
        | .ok next =>
          ((balancesPreambleLog lib b more next).1,
            Encode64ToBytes4 i :: (balancesPreambleLog lib b more next).2)

/-- The cursor loop of `reconstructBalances` (lines 471-487) with a log: next to
what `diffScan` returns, the keys of the entries whose diffs the loop passed to
`ApplyCompressedSerializedUint64ListDiff`, in order. -/
def diffScanLog (lib : Lib) (slot : Nat) (stepErr : Nat → Option Err) :
    List (Bytes × Bytes) → Nat → Bytes → Except Err Bytes × List Bytes
  | [], _, currentList => (.ok currentList, [])
  | (k, v) :: rest, n, currentList =>
    match Decode64FromBytes4 k with
    | none => (.error .panic, [])
    | some keySlot =>
      if keySlot ≤ slot then
        if k.length ≠ 4 then (.error (.invalidKey k), [])
        else if keySlot > slot then (.error (.diffNotFound slot), [])
        else
          match lib.ApplyCompressedSerializedUint64ListDiff currentList currentList v with
          | .error e => (.error e, [k])
          | .ok next =>
            match stepErr n with
            | some _ => (.ok next, [k])
            | none =>
              ((diffScanLog lib slot stepErr rest (n + 1) next).1,
                k :: (diffScanLog lib slot stepErr rest (n + 1) next).2)
      else (.ok currentList, [])

/-- The function `reconstructBalances` (lines 421-490) with a log: next to its
result, the bucket keys whose diffs it applied, those of the epoch-boundary loop
followed by those of the cursor loop. -/
def reconstructBalancesLog (lib : Lib) (r : HistoricalStatesReader) (tx : Tx)
    (slot : Nat) (diffBucket : Table) : Except Err Bytes × List Bytes :=
  let freshDumpSlot := slot - slot % r.cfg.SlotsPerDump
  match readDumpFile lib r freshDumpSlot "balances" with
  | .error e => (.error e, [])
  | .ok dump =>
    if r.cfg.SlotsPerEpoch = 0 then (.error .panic, [])
    else
      let roundedSlot := r.cfg.RoundSlotToEpoch slot
      let b := tx.bucket diffBucket
      let pre := balancesPreambleLog lib b
        (epochKeys freshDumpSlot roundedSlot r.cfg.SlotsPerEpoch) dump
      match pre.1 with
      | .error e => (.error e, pre.2)
      | .ok currentList =>
        match b.cursorErr with
        | some e => (.error e, pre.2)
        | none =>
          match b.stepErr 0 with
          | some _ => (.ok currentList, pre.2)
          | none =>
            ((diffScanLog lib slot b.stepErr
                (seekFrom b.entries (Encode64ToBytes4 roundedSlot)) 1 currentList).1,
              pre.2 ++ (diffScanLog lib slot b.stepErr
                (seekFrom b.entries (Encode64ToBytes4 roundedSlot)) 1 currentList).2)

/-- The value a nil read is replaced by (lines 164-172 and 211-221): the genesis
one when the read gave nil, the read one otherwise. -/
def orGenesis {α : Type} (read genesis : Option α) : Option α :=
  match read with
  | none => genesis
  | some c => some c

/-- Two states agree on the version and on every field that lines 159-249 of
`ReadHistoricalState` set: finality, pending attestations, participation and the
fields of the later forks. -/
def AgreeOnLateFields (a b : BeaconState) : Prop :=
  a.Version = b.Version
  ∧ a.PreviousJustifiedCheckpoint = b.PreviousJustifiedCheckpoint
  ∧ a.CurrentJustifiedCheckpoint = b.CurrentJustifiedCheckpoint
  ∧ a.FinalizedCheckpoint = b.FinalizedCheckpoint
  ∧ a.CurrentEpochAttestations = b.CurrentEpochAttestations
  ∧ a.PreviousEpochAttestations = b.PreviousEpochAttestations
  ∧ a.CurrentEpochParticipation = b.CurrentEpochParticipation
  ∧ a.PreviousEpochParticipation = b.PreviousEpochParticipation
  ∧ a.InactivityScores = b.InactivityScores
  ∧ a.CurrentSyncCommittee = b.CurrentSyncCommittee
  ∧ a.NextSyncCommittee = b.NextSyncCommittee
  ∧ a.LatestExecutionPayloadHeader = b.LatestExecutionPayloadHeader
  ∧ a.NextWithdrawalIndex = b.NextWithdrawalIndex
  ∧ a.NextWithdrawalValidatorIndex = b.NextWithdrawalValidatorIndex
  ∧ a.HistoricalSummaries = b.HistoricalSummaries

/-- The transaction `tx` with every nil checkpoint and nil sync committee it reads
replaced by the one of the genesis state of `r`: what a store would return that
holds the genesis value wherever `tx` holds none. -/
def withGenesisFallbacks (r : HistoricalStatesReader) (tx : Tx) : Tx :=
  { tx with
    ReadCheckpoints := fun epoch =>
      match tx.ReadCheckpoints epoch with
      | .error e => .error e
      | .ok (c, p, f) =>
        .ok (orGenesis c r.genesisState.CurrentJustifiedCheckpoint,
          orGenesis p r.genesisState.PreviousJustifiedCheckpoint,
          orGenesis f r.genesisState.FinalizedCheckpoint)
    ReadCurrentSyncCommittee := fun s =>
      match tx.ReadCurrentSyncCommittee s with
      | .error e => .error e
      | .ok c => .ok (orGenesis c r.genesisState.CurrentSyncCommittee)
    ReadNextSyncCommittee := fun s =>
      match tx.ReadNextSyncCommittee s with
      | .error e => .error e
      | .ok c => .ok (orGenesis c r.genesisState.NextSyncCommittee) }

/-- The transaction `tx` with other content in the places that only lines 197-248
of `ReadHistoricalState` read: the InactivityScores bucket, the two sync committees
and the historical summaries. -/
def withForkReads (tx : Tx) (scores : Bucket)
    (currentSyncCommittee nextSyncCommittee : Nat → Except Err (Option Bytes))
    (historicalSummaries : Nat → Except Err (List Bytes)) : Tx :=
  { tx with
    bucket := fun t => if t = Table.InactivityScores then scores else tx.bucket t
    ReadCurrentSyncCommittee := currentSyncCommittee
    ReadNextSyncCommittee := nextSyncCommittee
    ReadHistoricalSummaries := historicalSummaries }

/-- An overlay record for the examples, of the given version, with two validators. -/
def exOverlay (version : StateVersion) : MinimalBeaconState :=
  { Version := version, Fork := [], Eth1Data := [], Eth1DepositIndex := 0,
    JustificationBits := 0, ValidatorLength := 2, HistoricalRootsLength := 0,
    HistoricalSummariesLength := 0, Eth1DataLength := 0, CurrentEpochAttestationsLength := 0,
    PreviousEpochAttestationsLength := 0, NextWithdrawalIndex := 7,
    NextWithdrawalValidatorIndex := 8 }

/-- The transaction `exTxOf l` with the overlay record `exOverlay version` at every
slot; it holds no checkpoint and no sync committee. -/
def exTxOverlay (version : StateVersion) (l : List (Nat × Bytes)) : Tx :=
  { exTxOf l with ReadMinimalBeaconState := fun _ => .ok (some (exOverlay version)) }

/-- The example reader with a block at every slot and a genesis state that holds
checkpoints, pending attestations and sync committees. -/
def exReaderFinal : HistoricalStatesReader :=
  { exReaderFull with
    genesisState :=
      { exGenesis with
        CurrentJustifiedCheckpoint := some { Epoch := 0, BlockRoot := exHash 40 }
        PreviousJustifiedCheckpoint := some { Epoch := 0, BlockRoot := exHash 41 }
        FinalizedCheckpoint := some { Epoch := 0, BlockRoot := exHash 42 }
        CurrentEpochAttestations := [[1]]
        PreviousEpochAttestations := [[2]]
        CurrentSyncCommittee := some [1]
        NextSyncCommittee := some [2] } }

/-- The state `ReadHistoricalState` returns at slot 5 of the example chain for an
overlay of the given version, every bucket holding one 32-byte value under the key
of slot 5. -/
def exStateAt (version : StateVersion) : BeaconState :=
  (ReadHistoricalState exLib exReaderFinal (exTxOverlay version [(5, exHash 4)]) 5).1.getD
    BeaconState.New

/-- The byte of validator `i` in a participation list, zero beyond its end. -/
def flagsAt (l : List Nat) (i : Nat) : Nat := l.getD i 0

/-- The list the flags of an attestation are written to (lines 652-656 and
660-664): the current one when `toCurrent` holds, the previous one otherwise. -/
def Participation.selected (p : Participation) (toCurrent : Bool) : List Nat :=
  if toCurrent then p.currentIdxs else p.previousIdxs

/-- The list the flags of an attestation are not written to. -/
def Participation.unselected (p : Participation) (toCurrent : Bool) : List Nat :=
  if toCurrent then p.previousIdxs else p.currentIdxs

/-- Every entry of the two lists is a byte, as in a `solid.BitList`. -/
def Participation.IsBytes (p : Participation) : Prop :=
  (∀ x ∈ p.currentIdxs, x < 256) ∧ ∀ x ∈ p.previousIdxs, x < 256

instance (p : Participation) : Decidable p.IsBytes := by
  unfold Participation.IsBytes
  infer_instance

/-- Every bit set in the lists of `p` is set in the lists of `q`. -/
def Participation.GrowsTo (p q : Participation) : Prop :=
  (∀ i b, (flagsAt p.currentIdxs i).testBit b = true →
      (flagsAt q.currentIdxs i).testBit b = true)
    ∧ ∀ i b, (flagsAt p.previousIdxs i).testBit b = true →
      (flagsAt q.previousIdxs i).testBit b = true

/-- The example library, except that the attesting indices of an attestation made
at slot 65 cannot be computed (error 11). -/
def exLibFailing : Lib :=
  { exLib with
    attestingIndicies := fun data _ _ active =>
      if data.Slot = 65 then .error (.ext 11) else .ok active }

/-- The indices below `validatorSetLength` of the records of the table whose
validator, materialized at `slot`, is active at `epoch`, in table order. -/
def activeSelection (table : List StaticValidator) (slot validatorSetLength epoch : Nat) :
    List Nat :=
  ((table.enumFrom 0).filter (fun e =>
      decide (e.1 < validatorSetLength)
        && (e.2.ToValidator Validator.zero slot).Active epoch)).map (fun e => e.1)

/-- The validator of index `i` as materialized from the static table at `slot`;
the zero validator of `NewValidatorSetWithLength` when the table has no record
of that index. -/
def materializedAt (table : List StaticValidator) (slot i : Nat) : Validator :=
  match table.get? i with
  | some v => v.ToValidator Validator.zero slot
  | none => Validator.zero

/-- A static record for the examples: a validator activated at epoch `activation`
that exits at epoch `exit`, at every slot. -/
def exStatic (activation exit : Nat) : StaticValidator :=
  { ToValidator := fun v _ => { v with ActivationEpoch := activation, ExitEpoch := exit } }

/-- The example reader with a static table of four validators: the first and the
last active from epoch 0 to 99, the second from epoch 5 to 99, the third at
epoch 0 only. -/
def exReaderValidators : HistoricalStatesReader :=
  { exReader with
    validatorTable :=
      { validatorTable := [exStatic 0 100, exStatic 5 100, exStatic 0 1, exStatic 0 100]
        slot := 5000 } }

/-- The example transaction whose buckets hold one diff of 30 zero bytes under
the key 0, so that the effective balances of the first dump window are the 32
bytes `1, 2, 0, ..., 0`. -/
def exTxBalances : Tx := exTxOf [(0, List.replicate 30 0)]

/-- The example reader on a chain whose genesis state is of Altair, with one
block in epoch 0, at slot 5, that carries an attestation made at slot 4 with
target epoch 0. -/
def exReaderAltairGenesis : HistoricalStatesReader :=
  { exReader with
    genesisState := { exGenesis with Version := AltairVersion }
    blockReader := fun slot =>
      if slot = 5 then .ok (some { exBlock 5 with Attestations := [exAttestation 4 0] })
      else .ok none }

/-- Every entry whose key decodes to a slot in `[lo, hi)` has a key that is a
multiple of `spe` (it is epoch-aligned) and a diff that is not empty. -/
def EpochAlignedDiffs (es : List (Bytes × Bytes)) (lo hi spe : Nat) : Prop :=
  ∀ e ∈ es, lo ≤ keySlot e.1 → keySlot e.1 < hi → spe ∣ keySlot e.1 ∧ e.2 ≠ []

instance (es : List (Bytes × Bytes)) (lo hi spe : Nat) :
    Decidable (EpochAlignedDiffs es lo hi spe) := by
  unfold EpochAlignedDiffs
  infer_instance

/-- The diffs the epoch-boundary loop of `reconstructBalances` applies when it is
run over `keys`: for every key the value stored under it, when that is not
empty. -/
def preambleDiffs (es : List (Bytes × Bytes)) (keys : List Nat) : List Bytes :=
  keys.filterMap (fun i =>
    if lookupKey es (Encode64ToBytes4 i) = [] then none
    else some (lookupKey es (Encode64ToBytes4 i)))

/-! ## The downloader: verification of the data -/

/-- A torrent of the torrent client (`torrent.Torrent`), by what `VerifyData` and
`VerifyFile` read of it: its name and its number of pieces. -/
structure Torrent where
  Name : String
  NumPieces : Nat
  deriving DecidableEq, Repr

/-- The context of a call, by the way its `select` statements come out.  Each
field gives, for one `select`, the case taken: `none` is the case other than
`<-ctx.Done()` (the info of the torrent is available, or the `default` case),
`some e` is the case `<-ctx.Done()` with `ctx.Err()` equal to `e`.  `selectInfo`
is the `select` of `VerifyData` (lines 509-518), `selectStart` that of `VerifyFile`
(lines 479-483), `selectPiece t i` that of the goroutine of piece `i` (lines
489-493).  A `select` that never fires has no outcome and is not described. -/
structure Context where
  selectInfo : Torrent → Option Err
  selectStart : Torrent → Option Err
  selectPiece : Torrent → Nat → Option Err

/-- The downloader (`Downloader`), by what `VerifyData` reads of it: the torrents
of its client (`d.torrentClient.Torrents()`) and the result of the final
`d.db.Update`. -/
structure Downloader where
  torrents : List Torrent
  dbUpdate : Option Err

/-- The function `VerifyFile` (lines 478-502): the number of pieces it adds to
`completePieces`, and the error it returns, the first one of the group. -/
def VerifyFile (ctx : Context) (t : Torrent) : Nat × Option Err :=
  match ctx.selectStart t with
  | some e => (0, some e)
  | none =>
    let outcomes := (List.range t.NumPieces).map (ctx.selectPiece t)
    ((outcomes.filter (fun o => o.isNone)).length, (outcomes.filterMap (fun o => o)).head?)

/-- The body of the loop of lines 508-519 of `VerifyData`, run over the torrents
of the first argument, with the slice `torrents` and the count `total` as they
stand. -/
def selectTorrents (ctx : Context) (onlyFiles : List String) :
    List Torrent → List Torrent → Nat → Except Err (List Torrent × Nat)
  | [], torrents, total => .ok (torrents, total)
  | t :: rest, torrents, total =>
    match ctx.selectInfo t with
    | some e => .error e
    | none =>
      if onlyFiles.length > 0 ∧ ¬ onlyFiles.contains t.Name = true then
        selectTorrents ctx onlyFiles rest torrents total
      else selectTorrents ctx onlyFiles rest (torrents ++ [t]) (total + t.NumPieces)

/-- What a call of `VerifyData` does: the torrents it runs `VerifyFile` on, the
piece total its progress line divides by, the pieces counted as complete, and the
error it returns. -/
structure VerifyReport where
  verified : List Torrent
  total : Nat
  completed : Nat
  err : Option Err
  deriving DecidableEq, Repr

/-- The function `Downloader.VerifyData` (lines 504-559).  Line 507 makes the
slice `torrents` with length 0, and the loop of line 508 ranges over that slice,
not over `_torrents`, the torrents of the client of line 506.  The progress
logger and the limit of the group change no result and are left out; the error of
the group is the first one of the runs of `VerifyFile`. -/
def VerifyData (d : Downloader) (ctx : Context) (onlyFiles : List String) : VerifyReport :=
  let _torrents := d.torrents
  let torrents : List Torrent := []
  match selectTorrents ctx onlyFiles torrents torrents 0 with
  | .error e => { verified := [], total := 0, completed := 0, err := some e }
  | .ok (torrents, total) =>
    let runs := torrents.map (VerifyFile ctx)
    let completed := (runs.map (fun x => x.1)).sum
    match (runs.filterMap (fun x => x.2)).head? with
    | some e => { verified := torrents, total := total, completed := completed, err := some e }
    | none =>
      { verified := torrents, total := total, completed := completed, err := d.dbUpdate }

/-- A context for the examples: it is never done. -/
def exContext : Context :=
  { selectInfo := fun _ => none, selectStart := fun _ => none, selectPiece := fun _ _ => none }

/-- A downloader for the examples with two torrents, of 4 and of 6 pieces. -/
def exDownloader : Downloader :=
  { torrents := [{ Name := "a.seg", NumPieces := 4 }, { Name := "b.seg", NumPieces := 6 }]
    dbUpdate := none }

/-! ## The orchestrator: slot gate, genesis shortcut, missing overlay -/

/-- C1: a slot beyond the processing progress or beyond the slot of the static
validator table is refused with an error and no state.  The statement holds for
every other collaborator, so the refusal comes before any block or overlay read;
when the progress reads as `latest`, the error is the slot-ahead error; and the
result is the same for readers and transactions that agree on the progress and on
the table slot. -/
theorem C1_slot_ahead_refused (lib : Lib) (r : HistoricalStatesReader) (tx : Tx) (slot : Nat)
    (h : (∃ latest, tx.GetStateProcessingProgress = .ok latest ∧ latest < slot)
        ∨ r.validatorTable.slot < slot) :
    (∃ e, ReadHistoricalState lib r tx slot = (none, some e)
        ∧ ∀ latest, tx.GetStateProcessingProgress = .ok latest → e = .slotAhead slot latest)
    ∧ ∀ (lib2 : Lib) (r2 : HistoricalStatesReader) (tx2 : Tx),
        r2.validatorTable.slot = r.validatorTable.slot →
        tx2.GetStateProcessingProgress = tx.GetStateProcessingProgress →
        ReadHistoricalState lib2 r2 tx2 slot = ReadHistoricalState lib r tx slot := by
  have key : ∀ (lib1 : Lib) (r1 : HistoricalStatesReader) (tx1 : Tx),
      r1.validatorTable.slot = r.validatorTable.slot →
      tx1.GetStateProcessingProgress = tx.GetStateProcessingProgress →
      ReadHistoricalState lib1 r1 tx1 slot =
        match tx.GetStateProcessingProgress with
        | .error e => (none, some e)
        | .ok latest => (none, some (.slotAhead slot latest)) := by
    intro lib1 r1 tx1 hr ht
    unfold ReadHistoricalState
    rw [ht, hr]
    cases hp : tx.GetStateProcessingProgress with
    | error e => rfl
    | ok latest =>
      have hc : slot > latest ∨ slot > r.validatorTable.slot := by
        rcases h with ⟨l, hl, hlt⟩ | h
        · rw [hp] at hl
          cases hl
          exact Or.inl hlt
        · exact Or.inr h
      simp only [hc, if_true, failWith]
  refine ⟨?_, fun lib2 r2 tx2 hr ht => ?_⟩
  · rw [key lib r tx rfl rfl]
    cases hp : tx.GetStateProcessingProgress with
    | error e => exact ⟨e, rfl, fun latest hl => by cases hl⟩
    | ok latest => exact ⟨_, rfl, fun l hl => by cases hl; rfl⟩
  · rw [key lib2 r2 tx2 hr ht, key lib r tx rfl rfl]

/-- C1, at slot 4001 with the progress at 4000. -/
theorem C1_slot_ahead_refused_witness :
    (∃ e, ReadHistoricalState exLib exReader (exTxOf []) 4001 = (none, some e)
        ∧ ∀ latest, (exTxOf []).GetStateProcessingProgress = .ok latest →
            e = .slotAhead 4001 latest)
    ∧ ∀ (lib2 : Lib) (r2 : HistoricalStatesReader) (tx2 : Tx),
        r2.validatorTable.slot = exReader.validatorTable.slot →
        tx2.GetStateProcessingProgress = (exTxOf []).GetStateProcessingProgress →
        ReadHistoricalState lib2 r2 tx2 4001
          = ReadHistoricalState exLib exReader (exTxOf []) 4001 :=
  C1_slot_ahead_refused exLib exReader (exTxOf []) 4001 (Or.inl ⟨4000, rfl, by decide⟩)

/-- C2: when the processing progress can be read, the state at slot 0 is exactly
what copying the genesis state gives; the block reader, the overlay and the
buckets play no part: any reader with the same genesis state and any transaction
whose progress can be read give the same result. -/
theorem C2_slot_zero_copies_genesis (lib : Lib) (r : HistoricalStatesReader) (tx : Tx)
    (latest : Nat) (h : tx.GetStateProcessingProgress = .ok latest) :
    ReadHistoricalState lib r tx 0 = lib.Copy r.genesisState
      ∧ ∀ (r2 : HistoricalStatesReader) (tx2 : Tx) (latest2 : Nat),
          r2.genesisState = r.genesisState → tx2.GetStateProcessingProgress = .ok latest2 →
          ReadHistoricalState lib r2 tx2 0 = ReadHistoricalState lib r tx 0 := by
  have key : ∀ (r1 : HistoricalStatesReader) (tx1 : Tx) (l1 : Nat),
      tx1.GetStateProcessingProgress = .ok l1 →
      ReadHistoricalState lib r1 tx1 0 = lib.Copy r1.genesisState := by
    intro r1 tx1 l1 h1
    unfold ReadHistoricalState
    rw [h1]
    simp
  refine ⟨key r tx latest h, fun r2 tx2 latest2 hg h2 => ?_⟩
  rw [key r2 tx2 latest2 h2, key r tx latest h, hg]

/-- C2, on the example reader. -/
theorem C2_slot_zero_copies_genesis_witness :
    (exTxOf []).GetStateProcessingProgress = .ok 4000
    ∧ ReadHistoricalState exLib exReader (exTxOf []) 0 = exLib.Copy exReader.genesisState :=
  ⟨rfl, (C2_slot_zero_copies_genesis exLib exReader (exTxOf []) 4000 rfl).1⟩

/-- C3 fails as stated: slot 3 is within the progress and the table slot and has no
overlay record, but it has no block either, and the block is read first; the
result is the block-not-found error, not the null state without error. -/
theorem C3_counterexample :
    (exTxOf []).GetStateProcessingProgress = .ok 4000
    ∧ 0 < 3 ∧ 3 ≤ 4000 ∧ 3 ≤ exReader.validatorTable.slot
    ∧ (exTxOf []).ReadMinimalBeaconState 3 = .ok none
    ∧ ReadHistoricalState exLib exReader (exTxOf []) 3 = (none, some (.blockNotFound 3))
    ∧ ReadHistoricalState exLib exReader (exTxOf []) 3 ≠ (none, none) := by
  refine ⟨rfl, by decide, by decide, by decide, rfl, by decide, by decide⟩

/-- C3, amended: for a slot with `0 < slot`, within the progress and the table
slot, whose block the block reader returns, an absent overlay record gives the
null state and no error. -/
theorem C3_missing_overlay_is_null (lib : Lib) (r : HistoricalStatesReader) (tx : Tx)
    (slot latest : Nat) (block : SignedBeaconBlock)
    (hp : tx.GetStateProcessingProgress = .ok latest)
    (h0 : 0 < slot) (h1 : slot ≤ latest) (h2 : slot ≤ r.validatorTable.slot)
    (hb : r.blockReader slot = .ok (some block))
    (hm : tx.ReadMinimalBeaconState slot = .ok none) :
    ReadHistoricalState lib r tx slot = (none, none) := by
  unfold ReadHistoricalState
  rw [hp]
  have hc : ¬ (slot > latest ∨ slot > r.validatorTable.slot) := by omega
  have hz : slot ≠ 0 := by omega
  simp only [hc, hz, if_false, hb, hm]

/-- C3 amended, at slot 2050 of the example reader that has every block. -/
theorem C3_missing_overlay_is_null_witness :
    ReadHistoricalState exLib exReaderFull (exTxOf []) 2050 = (none, none) :=
  C3_missing_overlay_is_null exLib exReaderFull (exTxOf []) 2050 4000 (exBlock 2050) rfl
    (by decide) (by decide) (by decide) rfl rfl

/-! ## Slot keys: decoding and order -/

theorem ofNat_val (x : Nat) : ((Fin.ofNat x : Fin 256)).val = x % 256 := rfl

theorem key_shape (k : Bytes) (h : k.length = 4) : ∃ a b c d : Byte, k = [a, b, c, d] := by
  match k, h with
  | [a, b, c, d], _ => exact ⟨a, b, c, d, rfl⟩

theorem decode_encode (s : Nat) :
    Decode64FromBytes4 (Encode64ToBytes4 s) = some (s % 2 ^ 32) := by
  simp only [Encode64ToBytes4, Decode64FromBytes4, ofNat_val]
  congr 1
  omega

theorem encode_length (s : Nat) : (Encode64ToBytes4 s).length = 4 := rfl

theorem decode_of_length (k : Bytes) (h : k.length = 4) :
    ∃ s, s < 2 ^ 32 ∧ Decode64FromBytes4 k = some s ∧ Encode64ToBytes4 s = k := by
  obtain ⟨a, b, c, d, rfl⟩ := key_shape k h
  refine ⟨a.val * 2 ^ 24 + b.val * 2 ^ 16 + c.val * 2 ^ 8 + d.val, ?_, rfl, ?_⟩
  · have := a.isLt; have := b.isLt; have := c.isLt; have := d.isLt; omega
  · simp only [Encode64ToBytes4]
    have ha := a.isLt; have hb := b.isLt; have hc := c.isLt; have hd := d.isLt
    congr 1
    · apply Fin.ext; rw [ofNat_val]; omega
    congr 1
    · apply Fin.ext; rw [ofNat_val]; omega
    congr 1
    · apply Fin.ext; rw [ofNat_val]; omega
    congr 1
    · apply Fin.ext; rw [ofNat_val]; omega

theorem bytesLt_keys (a b c d a1 b1 c1 d1 : Byte) :
    bytesLt [a, b, c, d] [a1, b1, c1, d1]
      = decide (a.val * 2 ^ 24 + b.val * 2 ^ 16 + c.val * 2 ^ 8 + d.val
          < a1.val * 2 ^ 24 + b1.val * 2 ^ 16 + c1.val * 2 ^ 8 + d1.val) := by
  have ha := a.isLt; have hb := b.isLt; have hc := c.isLt; have hd := d.isLt
  have ha1 := a1.isLt; have hb1 := b1.isLt; have hc1 := c1.isLt; have hd1 := d1.isLt
  simp only [bytesLt, Fin.lt_def, Fin.ext_iff]
  rw [Bool.eq_iff_iff]
  simp only [Bool.or_eq_true, Bool.and_eq_true, decide_eq_true_eq, Bool.or_false,
    Bool.false_eq_true, or_false, and_false]
  generalize a.val = x at *
  generalize b.val = y at *
  generalize c.val = z at *
  generalize d.val = w at *
  generalize a1.val = x1 at *
  generalize b1.val = y1 at *
  generalize c1.val = z1 at *
  generalize d1.val = w1 at *
  constructor
  · rintro (h | ⟨h, h2 | ⟨h2, h3 | ⟨h3, h4⟩⟩⟩) <;> omega
  · intro h
    by_cases hx : x < x1
    · exact Or.inl hx
    · by_cases hy : y < y1
      · exact Or.inr ⟨by omega, Or.inl hy⟩
      · by_cases hz : z < z1
        · exact Or.inr ⟨by omega, Or.inr ⟨by omega, Or.inl hz⟩⟩
        · exact Or.inr ⟨by omega, Or.inr ⟨by omega, Or.inr ⟨by omega, by omega⟩⟩⟩

theorem bytesLt_of_decode (k1 k2 : Bytes) (h1 : k1.length = 4) (h2 : k2.length = 4)
    (s t : Nat) (hs : Decode64FromBytes4 k1 = some s) (ht : Decode64FromBytes4 k2 = some t) :
    bytesLt k1 k2 = decide (s < t) := by
  obtain ⟨a, b, c, d, rfl⟩ := key_shape k1 h1
  obtain ⟨a1, b1, c1, d1, rfl⟩ := key_shape k2 h2
  simp only [Decode64FromBytes4, Option.some.injEq] at hs ht
  rw [bytesLt_keys, hs, ht]

theorem keySlot_spec (k : Bytes) (h : k.length = 4) :
    keySlot k < 2 ^ 32 ∧ Decode64FromBytes4 k = some (keySlot k)
      ∧ Encode64ToBytes4 (keySlot k) = k := by
  obtain ⟨s, hs, hd, he⟩ := decode_of_length k h
  have : keySlot k = s := by simp [keySlot, hd]
  rw [this]
  exact ⟨hs, hd, he⟩

theorem keySlot_encode (s : Nat) (h : s < 2 ^ 32) : keySlot (Encode64ToBytes4 s) = s := by
  rw [keySlot, decode_encode, Nat.mod_eq_of_lt h]
  rfl

theorem bytesLt_encode_right (k : Bytes) (h : k.length = 4) (t : Nat) (ht : t < 2 ^ 32) :
    bytesLt k (Encode64ToBytes4 t) = decide (keySlot k < t) :=
  bytesLt_of_decode k _ h (encode_length t) _ _ (keySlot_spec k h).2.1
    (by rw [decode_encode, Nat.mod_eq_of_lt ht])

theorem seekFrom_slotKeyed (es : List (Bytes × Bytes)) (hk : SlotKeyed es) (t : Nat)
    (ht : t < 2 ^ 32) :
    seekFrom es (Encode64ToBytes4 t) = es.dropWhile (fun e => decide (keySlot e.1 < t)) := by
  unfold seekFrom
  induction es with
  | nil => rfl
  | cons e es ih =>
    have he : e.1.length = 4 := hk e (List.mem_cons_self _ _)
    have hk2 : SlotKeyed es := fun x hx => hk x (List.mem_cons_of_mem _ hx)
    simp only [List.dropWhile_cons, bytesLt_encode_right e.1 he t ht, ih hk2]

theorem ascending_keySlot (es : List (Bytes × Bytes)) (hk : SlotKeyed es) (ha : Ascending es) :
    es.Pairwise (fun x y => keySlot x.1 < keySlot y.1) := by
  unfold Ascending at ha
  refine List.Pairwise.imp_of_mem ?_ ha
  intro x y hx hy hlt
  have h1 := keySlot_spec x.1 (hk x hx)
  have h2 := keySlot_spec y.1 (hk y hy)
  rw [bytesLt_of_decode x.1 y.1 (hk x hx) (hk y hy) _ _ h1.2.1 h2.2.1] at hlt
  exact of_decide_eq_true hlt


/-! ## The cursor scan as a fold -/

theorem sorted_range_filter {α : Type} (f : α → Nat) (lo hi : Nat) (l : List α)
    (hs : l.Pairwise (fun x y => f x < f y)) :
    (l.dropWhile (fun x => decide (f x < lo))).takeWhile (fun x => decide (f x ≤ hi))
      = l.filter (fun x => decide (lo ≤ f x) && decide (f x ≤ hi)) := by
  induction l with
  | nil => rfl
  | cons x l ih =>
    rw [List.pairwise_cons] at hs
    obtain ⟨hx, hl⟩ := hs
    by_cases h1 : f x < lo
    · have h2 : ¬ lo ≤ f x := by omega
      simp only [List.dropWhile_cons, h1, decide_True, if_true, List.filter_cons, h2,
        decide_False, Bool.false_and, Bool.false_eq_true, if_false]
      exact ih hl
    · have h2 : lo ≤ f x := by omega
      have hall : ∀ y ∈ l, ¬ f y < lo := fun y hy => by have := hx y hy; omega
      have hdrop : l.dropWhile (fun x => decide (f x < lo)) = l := by
        cases l with
        | nil => rfl
        | cons y l =>
          have := hall y (List.mem_cons_self _ _)
          simp [List.dropWhile_cons, this]
      have ih2 := ih hl
      rw [hdrop] at ih2
      by_cases h3 : f x ≤ hi
      · simp only [List.dropWhile_cons, h1, decide_False, Bool.false_eq_true, if_false,
          List.takeWhile_cons, h3, decide_True, if_true, List.filter_cons, h2, Bool.and_self]
        rw [ih2]
      · have hnil : l.filter (fun x => decide (lo ≤ f x) && decide (f x ≤ hi)) = [] := by
          rw [List.filter_eq_nil_iff]
          intro y hy
          have := hx y hy
          simp only [Bool.and_eq_true, decide_eq_true_eq, not_and]
          intro _
          omega
        simp only [List.dropWhile_cons, h1, decide_False, Bool.false_eq_true, if_false,
          List.takeWhile_cons, h3, List.filter_cons, h2, decide_True, Bool.true_and, hnil]

theorem diffScan_eq_applyDiffs (lib : Lib) (slot : Nat) (stepErr : Nat → Option Err)
    (hstep : ∀ n, stepErr n = none) (es : List (Bytes × Bytes)) (hk : SlotKeyed es) :
    ∀ (n : Nat) (cur : Bytes),
      diffScan lib slot stepErr es n cur
        = applyDiffs lib ((es.takeWhile (fun e => decide (keySlot e.1 ≤ slot))).map (fun e => e.2))
            cur := by
  induction es with
  | nil => intro n cur; rfl
  | cons e es ih =>
    intro n cur
    obtain ⟨k, v⟩ := e
    have he : k.length = 4 := hk (k, v) (List.mem_cons_self _ _)
    have hk2 : SlotKeyed es := fun x hx => hk x (List.mem_cons_of_mem _ hx)
    have hd := (keySlot_spec k he).2.1
    simp only [diffScan, hd, List.takeWhile_cons]
    by_cases h : keySlot k ≤ slot
    · have h2 : ¬ keySlot k > slot := by omega
      simp only [h, if_true, he, ne_eq, not_true_eq_false, if_false, h2, decide_True,
        List.map_cons, applyDiffs]
      cases lib.ApplyCompressedSerializedUint64ListDiff cur cur v with
      | error e => rfl
      | ok next => simp only [hstep n]; exact ih hk2 (n + 1) next
    · simp only [h, if_false, decide_False, Bool.false_eq_true, List.map_nil, applyDiffs]

theorem selectedDiffs_slotKeyed (es : List (Bytes × Bytes)) (hk : SlotKeyed es) (lo hi : Nat) :
    selectedDiffs es lo hi
      = (es.filter (fun e => decide (lo ≤ keySlot e.1) && decide (keySlot e.1 ≤ hi))).map
          (fun e => e.2) := by
  unfold selectedDiffs
  congr 1
  apply List.filter_congr
  intro e he
  simp only [keyInRange, (keySlot_spec e.1 (hk e he)).2.1]

theorem seek_scan_eq_selected (lib : Lib) (slot lo : Nat) (stepErr : Nat → Option Err)
    (hstep : ∀ n, stepErr n = none) (es : List (Bytes × Bytes)) (hk : SlotKeyed es)
    (ha : Ascending es) (hlo : lo < 2 ^ 32) (n : Nat) (cur : Bytes) :
    diffScan lib slot stepErr (seekFrom es (Encode64ToBytes4 lo)) n cur
      = applyDiffs lib (selectedDiffs es lo slot) cur := by
  rw [seekFrom_slotKeyed es hk lo hlo, selectedDiffs_slotKeyed es hk,
    ← sorted_range_filter (fun e : Bytes × Bytes => keySlot e.1) lo slot es
      (ascending_keySlot es hk ha)]
  apply diffScan_eq_applyDiffs lib slot stepErr hstep
  intro x hx
  exact hk x ((List.dropWhile_sublist _).subset hx)

/-! ## Diffed lists: the claims -/

theorem fresh_le (slot d : Nat) : slot - slot % d ≤ slot := Nat.sub_le _ _

/-- C4 fails as stated: at slot `2 ^ 32`, a multiple of `SlotsPerDump`, the dump
slot is the slot itself and no bucket key lies in `[2 ^ 32, 2 ^ 32]`; but the
4-byte key of the dump slot is the key of slot 0, so the cursor starts at the first
entry and the diffs under the keys 0 and 7 are both applied. -/
theorem C4_counterexample :
    4294967296 - 4294967296 % exReader.cfg.SlotsPerDump = 4294967296
    ∧ selectedDiffs ((exTxOf [(0, [5]), (7, [6])]).bucket
        Table.ValidatorEffectiveBalance).entries 4294967296 4294967296 = []
    ∧ readDumpFile exLib exReader 4294967296 "effective_balances" = .ok [1, 2]
    ∧ reconstructDiffedUint64List exLib exReader (exTxOf [(0, [5]), (7, [6])]) 4294967296
        Table.ValidatorEffectiveBalance "effective_balances" = .ok [1, 2, 5, 6]
    ∧ reconstructDiffedUint64List exLib exReader (exTxOf [(0, [5]), (7, [6])]) 4294967296
        Table.ValidatorEffectiveBalance "effective_balances"
      ≠ applyDiffs exLib
          (selectedDiffs ((exTxOf [(0, [5]), (7, [6])]).bucket
            Table.ValidatorEffectiveBalance).entries 4294967296 4294967296) [1, 2] := by
  decide

/-- C4, amended: for a slot below `2 ^ 32`, one a 4-byte key can hold, on a
well-formed bucket that the store reads without failure,
`reconstructDiffedUint64List` returns the left fold of the diff application over
exactly the entries whose key lies in `[dump_slot, slot]`, in bucket (ascending
key) order, starting from the decompressed dump at
`dump_slot = slot - slot mod SlotsPerDump`; at `slot = SlotsPerDump - 1` the dump
slot is 0. -/
theorem C4_diffed_list_is_fold (lib : Lib) (r : HistoricalStatesReader) (tx : Tx) (slot : Nat)
    (diffBucket : Table) (fileSuffix : String) (dump : Bytes)
    (hwf : (tx.bucket diffBucket).WellFormed) (hnf : (tx.bucket diffBucket).NoFaults)
    (hslot : Representable slot)
    (hdump : readDumpFile lib r (slot - slot % r.cfg.SlotsPerDump) fileSuffix = .ok dump) :
    reconstructDiffedUint64List lib r tx slot diffBucket fileSuffix
        = applyDiffs lib
            (selectedDiffs (tx.bucket diffBucket).entries (slot - slot % r.cfg.SlotsPerDump) slot)
            dump
      ∧ (0 < r.cfg.SlotsPerDump → slot = r.cfg.SlotsPerDump - 1 →
          slot - slot % r.cfg.SlotsPerDump = 0) := by
  constructor
  · unfold reconstructDiffedUint64List
    simp only [hdump, hnf.1, hnf.2.1 0]
    apply seek_scan_eq_selected lib slot _ _ hnf.2.1 _ hwf.1 hwf.2
    have := fresh_le slot r.cfg.SlotsPerDump
    unfold Representable at hslot
    omega
  · intro hpos hs
    have : slot % r.cfg.SlotsPerDump = slot := Nat.mod_eq_of_lt (by omega)
    omega

/-- C4 amended, at slot 2050 over a bucket with keys 2048, 2050 and 2060. -/
theorem C4_diffed_list_is_fold_witness :
    reconstructDiffedUint64List exLib exReader
        (exTxOf [(2048, [5]), (2050, [6]), (2060, [7])]) 2050
        Table.ValidatorEffectiveBalance "effective_balances"
      = .ok [1, 2, 5, 6] :=
  (C4_diffed_list_is_fold exLib exReader (exTxOf [(2048, [5]), (2050, [6]), (2060, [7])]) 2050
    Table.ValidatorEffectiveBalance "effective_balances" [1, 2]
    (by decide) ⟨rfl, fun _ => rfl, fun _ => rfl⟩ (by decide) rfl).1

theorem diffScan_landsBeyond (lib : Lib) (slot : Nat) (stepErr : Nat → Option Err)
    (es : List (Bytes × Bytes)) (key : Bytes) (n : Nat) (cur : Bytes)
    (h : landsBeyond es key slot = true) :
    diffScan lib slot stepErr (seekFrom es key) n cur = .ok cur := by
  unfold landsBeyond at h
  cases hs : seekFrom es key with
  | nil => rfl
  | cons e rest =>
    obtain ⟨k, v⟩ := e
    rw [hs] at h
    cases hd : Decode64FromBytes4 k with
    | none => simp [hd] at h
    | some s =>
      simp only [hd, decide_eq_true_eq] at h
      have h2 : ¬ s ≤ slot := by omega
      simp only [diffScan, hd, h2, if_false]

theorem mem_epochKeys (fresh rounded spe i : Nat) (h : i ∈ epochKeys fresh rounded spe) :
    fresh ≤ i ∧ i < rounded := by
  unfold epochKeys at h
  rw [List.mem_map] at h
  obtain ⟨j, hj, rfl⟩ := h
  rw [List.mem_range] at hj
  rcases Nat.eq_zero_or_pos spe with h0 | hpos
  · subst h0
    simp at hj
  · have h1 : (j + 1) * spe ≤ rounded - fresh + spe - 1 :=
      (Nat.le_div_iff_mul_le hpos).mp hj
    have h2 : (j + 1) * spe = j * spe + spe := by ring
    omega

theorem epochKeys_nil (fresh rounded spe : Nat) (h : rounded ≤ fresh) :
    epochKeys fresh rounded spe = [] := by
  cases hk : epochKeys fresh rounded spe with
  | nil => rfl
  | cons i rest =>
    have := mem_epochKeys fresh rounded spe i (by rw [hk]; exact List.mem_cons_self _ _)
    omega

theorem lookupKey_absent (es : List (Bytes × Bytes)) (key : Bytes)
    (h : ∀ e ∈ es, e.1 ≠ key) : lookupKey es key = [] := by
  unfold lookupKey
  have : es.find? (fun e => decide (e.1 = key)) = none := by
    rw [List.find?_eq_none]
    intro e he
    simpa using h e he
  rw [this]

theorem balancesPreamble_absent (lib : Lib) (b : Bucket) (hget : ∀ k, b.getErr k = none)
    (keys : List Nat) (h : ∀ i ∈ keys, ∀ e ∈ b.entries, e.1 ≠ Encode64ToBytes4 i)
    (cur : Bytes) : balancesPreamble lib b keys cur = .ok cur := by
  induction keys with
  | nil => rfl
  | cons i more ih =>
    have h1 := lookupKey_absent b.entries _ (h i (List.mem_cons_self _ _))
    simp only [balancesPreamble, Bucket.GetOne, hget, h1, List.length_nil, if_true]
    exact ih (fun j hj => h j (List.mem_cons_of_mem _ hj))

theorem roundSlot_le (cfg : BeaconChainConfig) (slot : Nat) : cfg.RoundSlotToEpoch slot ≤ slot :=
  Nat.div_mul_le_self _ _

/-- C5: when the bucket holds no entry under the key of a slot in `[dump_slot, slot]`
and the cursor, after its `Seek`, stands on no entry or on a key beyond `slot`,
`reconstructDiffedUint64List` and `reconstructBalances` return the decompressed
dump unchanged.  The cursor of the first seeks `dump_slot`, that of the second the
epoch start of `slot`.  The dump is read, the cursor opens and `GetOne` does not
fail; `SlotsPerEpoch` is not zero. -/
theorem C5_no_diff_gives_dump (lib : Lib) (r : HistoricalStatesReader) (tx : Tx) (slot : Nat)
    (diffBucket : Table) (fileSuffix : String) (dump dumpBalances : Bytes)
    (hdump : readDumpFile lib r (slot - slot % r.cfg.SlotsPerDump) fileSuffix = .ok dump)
    (hdumpB : readDumpFile lib r (slot - slot % r.cfg.SlotsPerDump) "balances"
      = .ok dumpBalances)
    (hspe : r.cfg.SlotsPerEpoch ≠ 0)
    (hcur : (tx.bucket diffBucket).cursorErr = none)
    (hget : ∀ k, (tx.bucket diffBucket).getErr k = none)
    (hnone : ∀ k, slot - slot % r.cfg.SlotsPerDump ≤ k → k ≤ slot →
      ∀ e ∈ (tx.bucket diffBucket).entries, e.1 ≠ Encode64ToBytes4 k)
    (hland : landsBeyond (tx.bucket diffBucket).entries
      (Encode64ToBytes4 (slot - slot % r.cfg.SlotsPerDump)) slot = true)
    (hlandB : landsBeyond (tx.bucket diffBucket).entries
      (Encode64ToBytes4 (r.cfg.RoundSlotToEpoch slot)) slot = true) :
    reconstructDiffedUint64List lib r tx slot diffBucket fileSuffix = .ok dump
      ∧ reconstructBalances lib r tx slot diffBucket = .ok dumpBalances := by
  constructor
  · unfold reconstructDiffedUint64List
    simp only [hdump, hcur]
    cases (tx.bucket diffBucket).stepErr 0 with
    | some e => rfl
    | none => exact diffScan_landsBeyond lib slot _ _ _ 1 dump hland
  · unfold reconstructBalances
    have hpre : balancesPreamble lib (tx.bucket diffBucket)
        (epochKeys (slot - slot % r.cfg.SlotsPerDump) (r.cfg.RoundSlotToEpoch slot)
          r.cfg.SlotsPerEpoch) dumpBalances = .ok dumpBalances := by
      apply balancesPreamble_absent lib _ hget
      intro i hi
      have hb := mem_epochKeys _ _ _ i hi
      have := roundSlot_le r.cfg slot
      exact hnone i hb.1 (by omega)
    simp only [hdumpB, hspe, if_false, hpre, hcur]
    cases (tx.bucket diffBucket).stepErr 0 with
    | some e => rfl
    | none => exact diffScan_landsBeyond lib slot _ _ _ 1 dumpBalances hlandB

/-- C5, at slot 2113 over a bucket whose keys, 2000 and 2200, lie outside
`[2048, 2113]`. -/
theorem C5_no_diff_gives_dump_witness :
    reconstructDiffedUint64List exLib exReader (exTxOf [(2000, [5]), (2200, [6])]) 2113
        Table.ValidatorBalance "effective_balances" = .ok [1, 2]
      ∧ reconstructBalances exLib exReader (exTxOf [(2000, [5]), (2200, [6])]) 2113
        Table.ValidatorBalance = .ok [1, 2] :=
  C5_no_diff_gives_dump exLib exReader (exTxOf [(2000, [5]), (2200, [6])]) 2113
    Table.ValidatorBalance "effective_balances" [1, 2] [1, 2] rfl rfl (by decide) rfl
    (fun _ => rfl)
    (by
      intro k h1 h2 e he
      have h3 : 2048 ≤ k := h1
      have h4 : k ≤ 2113 := h2
      have he2 : e = (Encode64ToBytes4 2000, [5]) ∨ e = (Encode64ToBytes4 2200, [6]) := by
        simpa [exTxOf, exTx, Bucket.ofEntries, slotEntries] using he
      intro hk
      have hd : Decode64FromBytes4 e.1 = some (k % 2 ^ 32) := by rw [hk, decode_encode]
      rcases he2 with rfl | rfl
      · rw [decode_encode] at hd
        simp only [Option.some.injEq] at hd
        omega
      · rw [decode_encode] at hd
        simp only [Option.some.injEq] at hd
        omega)
    (by decide) (by decide)

/-- C6 fails as stated: slot 2048 is a multiple of `SlotsPerDump = 2048`, the dump
decompresses to `[1, 2]`, and the bucket holds a diff under key 2048; the cursor
scan, which starts at the epoch start 2048 and runs up to the slot, applies it. -/
theorem C6_counterexample :
    2048 % exReader.cfg.SlotsPerDump = 0
    ∧ readDumpFile exLib exReader 2048 "balances" = .ok [1, 2]
    ∧ reconstructBalances exLib exReader (exTxOf [(2048, [5])]) 2048 Table.ValidatorBalance
        = .ok [1, 2, 5]
    ∧ reconstructBalances exLib exReader (exTxOf [(2048, [5])]) 2048 Table.ValidatorBalance
        ≠ .ok [1, 2] := by
  refine ⟨rfl, rfl, rfl, ?_⟩
  intro h
  have h2 : (Except.ok [1, 2, 5] : Except Err Bytes) = .ok [1, 2] := h
  simp at h2

/-- C6, amended: at a slot that is a multiple of `SlotsPerDump` the epoch-boundary
preamble of `reconstructBalances` applies nothing, and the call returns the raw
decompressed dump of that slot whenever the cursor, after seeking the epoch start
of the slot, stands on no entry or on a key beyond the slot.  On a well-formed
bucket read without failure, for a slot a 4-byte key can hold, what it applies to
the dump is exactly the diffs whose key lies between the epoch start of the slot
and the slot.  The dump is read, the cursor opens, `SlotsPerEpoch` is not zero. -/
theorem C6_dump_boundary_balances (lib : Lib) (r : HistoricalStatesReader) (tx : Tx)
    (slot : Nat) (diffBucket : Table) (dump : Bytes)
    (hmult : slot % r.cfg.SlotsPerDump = 0)
    (hdump : readDumpFile lib r slot "balances" = .ok dump)
    (hspe : r.cfg.SlotsPerEpoch ≠ 0)
    (hcur : (tx.bucket diffBucket).cursorErr = none) :
    (landsBeyond (tx.bucket diffBucket).entries
          (Encode64ToBytes4 (r.cfg.RoundSlotToEpoch slot)) slot = true →
        reconstructBalances lib r tx slot diffBucket = .ok dump)
      ∧ ((tx.bucket diffBucket).WellFormed → (tx.bucket diffBucket).NoFaults →
          Representable slot →
          reconstructBalances lib r tx slot diffBucket
            = applyDiffs lib
                (selectedDiffs (tx.bucket diffBucket).entries (r.cfg.RoundSlotToEpoch slot) slot)
                dump) := by
  have hr := roundSlot_le r.cfg slot
  constructor
  · intro hland
    unfold reconstructBalances
    simp only [hmult, Nat.sub_zero, hdump, hspe, if_false,
      epochKeys_nil slot _ r.cfg.SlotsPerEpoch hr, balancesPreamble, hcur]
    cases (tx.bucket diffBucket).stepErr 0 with
    | some e => rfl
    | none => exact diffScan_landsBeyond lib slot _ _ _ 1 dump hland
  · intro hwf hnf hslot
    unfold reconstructBalances
    simp only [hmult, Nat.sub_zero, hdump, hspe, if_false,
      epochKeys_nil slot _ r.cfg.SlotsPerEpoch hr, balancesPreamble, hnf.1, hnf.2.1 0]
    apply seek_scan_eq_selected lib slot _ _ hnf.2.1 _ hwf.1 hwf.2
    unfold Representable at hslot
    omega

/-- C6 amended, at slot 2048: over a bucket with keys 2016 and 2100 the raw dump
is returned; over a bucket with keys 2016, 2048 and 2080 the diff under key 2048 is
applied, the others are not. -/
theorem C6_dump_boundary_balances_witness :
    reconstructBalances exLib exReader (exTxOf [(2016, [4]), (2100, [6])]) 2048
        Table.ValidatorBalance = .ok [1, 2]
    ∧ reconstructBalances exLib exReader (exTxOf [(2016, [4]), (2048, [5]), (2080, [6])]) 2048
        Table.ValidatorBalance = .ok [1, 2, 5] :=
  ⟨(C6_dump_boundary_balances exLib exReader (exTxOf [(2016, [4]), (2100, [6])])
      2048 Table.ValidatorBalance [1, 2] rfl rfl (by decide) rfl).1 (by decide),
   (C6_dump_boundary_balances exLib exReader (exTxOf [(2016, [4]), (2048, [5]), (2080, [6])])
      2048 Table.ValidatorBalance [1, 2] rfl rfl (by decide) rfl).2 (by decide)
      ⟨rfl, fun _ => rfl, fun _ => rfl⟩ (by decide)⟩

theorem diffScan_comes_to_error (lib : Lib) (slot : Nat) (stepErr : Nat → Option Err)
    (k v : Bytes) (post : List (Bytes × Bytes)) (cur : Bytes) (e : Err)
    (hk : k.length = 4) (hr : keyInRange 0 slot k = true)
    (hfail : lib.ApplyCompressedSerializedUint64ListDiff cur cur v = .error e) :
    ∀ (pre : List (Bytes × Bytes)) (n : Nat) (start : Bytes),
      (∀ x ∈ pre, x.1.length = 4 ∧ keyInRange 0 slot x.1 = true) →
      (∀ j, j < pre.length → stepErr (n + j) = none) →
      applyDiffs lib (pre.map (fun e => e.2)) start = .ok cur →
      diffScan lib slot stepErr (pre ++ (k, v) :: post) n start = .error e := by
  have step : ∀ (k1 : Bytes), keyInRange 0 slot k1 = true →
      ∃ s, Decode64FromBytes4 k1 = some s ∧ s ≤ slot := by
    intro k1 h1
    unfold keyInRange at h1
    cases hd : Decode64FromBytes4 k1 with
    | none => simp [hd] at h1
    | some s =>
      simp only [hd, Bool.and_eq_true, decide_eq_true_eq] at h1
      exact ⟨s, rfl, h1.2⟩
  intro pre
  induction pre with
  | nil =>
    intro n start _ _ happ
    simp only [List.map_nil, applyDiffs, Except.ok.injEq] at happ
    subst happ
    obtain ⟨s, hd, hs⟩ := step k hr
    have h2 : ¬ s > slot := by omega
    simp only [List.nil_append, diffScan, hd, hs, if_true, hk, ne_eq, not_true_eq_false,
      if_false, h2, hfail]
  | cons x pre ih =>
    intro n start hpre hsteps happ
    obtain ⟨k1, v1⟩ := x
    obtain ⟨hk1, hr1⟩ := hpre (k1, v1) (List.mem_cons_self _ _)
    obtain ⟨s, hd, hs⟩ := step k1 hr1
    have h2 : ¬ s > slot := by omega
    simp only [List.map_cons, applyDiffs] at happ
    cases ha : lib.ApplyCompressedSerializedUint64ListDiff start start v1 with
    | error e1 => simp [ha] at happ
    | ok next =>
      simp only [ha] at happ
      have h0 : stepErr n = none := by simpa using hsteps 0 (by simp)
      simp only [List.cons_append, diffScan, hd, hs, if_true, hk1, ne_eq, not_true_eq_false,
        if_false, h2, ha, h0]
      apply ih (n + 1) next (fun y hy => hpre y (List.mem_cons_of_mem _ hy)) _ happ
      intro j hj
      have := hsteps (j + 1) (by simp; omega)
      rw [← this]
      congr 1
      omega

theorem balancesPreamble_append (lib : Lib) (b : Bucket) (pre rest : List Nat) :
    ∀ (start : Bytes),
      balancesPreamble lib b (pre ++ rest) start
        = match balancesPreamble lib b pre start with
          | .error e => .error e
          | .ok cur => balancesPreamble lib b rest cur := by
  induction pre with
  | nil => intro start; rfl
  | cons i pre ih =>
    intro start
    simp only [List.cons_append, balancesPreamble]
    cases b.GetOne (Encode64ToBytes4 i) with
    | error e => rfl
    | ok diff =>
      simp only
      split
      · exact ih start
      · cases lib.ApplyCompressedSerializedUint64ListDiff start start diff with
        | error e => rfl
        | ok next => exact ih next

theorem balancesPreamble_comes_to_error (lib : Lib) (b : Bucket) (keys : List Nat)
    (start : Bytes) (i : Nat) (diff cur : Bytes) (e : Err)
    (h : PreambleComesTo lib b keys start i diff cur)
    (hfail : lib.ApplyCompressedSerializedUint64ListDiff cur cur diff = .error e) :
    balancesPreamble lib b keys start = .error e := by
  obtain ⟨pre, post, rfl, hrun, hget, hlen⟩ := h
  rw [balancesPreamble_append, hrun]
  simp only [balancesPreamble, hget, hlen, if_false, hfail]

/-- C7: when the diff application fails with `e` on an entry the reconstruction
comes to, the whole call returns `e` and no list.  First part:
`reconstructDiffedUint64List`, failure in the cursor scan.  Second part:
`reconstructBalances`, failure in the epoch-boundary preamble.  Third part:
`reconstructBalances`, failure in the cursor scan after the preamble has run.  In
each part the dump is read and the cursor is positioned without failure, and for
the balances `SlotsPerEpoch` is not zero. -/
theorem C7_failed_diff_aborts (lib : Lib) (r : HistoricalStatesReader) (tx : Tx) (slot : Nat)
    (diffBucket : Table) (fileSuffix : String) (e : Err) :
    (∀ dump k v cur,
        readDumpFile lib r (slot - slot % r.cfg.SlotsPerDump) fileSuffix = .ok dump →
        (tx.bucket diffBucket).cursorErr = none → (tx.bucket diffBucket).stepErr 0 = none →
        ScanComesTo lib slot (tx.bucket diffBucket).stepErr
          (seekFrom (tx.bucket diffBucket).entries
            (Encode64ToBytes4 (slot - slot % r.cfg.SlotsPerDump))) 1 dump k v cur →
        lib.ApplyCompressedSerializedUint64ListDiff cur cur v = .error e →
        reconstructDiffedUint64List lib r tx slot diffBucket fileSuffix = .error e)
    ∧ (∀ dump i diff cur,
        readDumpFile lib r (slot - slot % r.cfg.SlotsPerDump) "balances" = .ok dump →
        r.cfg.SlotsPerEpoch ≠ 0 →
        PreambleComesTo lib (tx.bucket diffBucket)
          (epochKeys (slot - slot % r.cfg.SlotsPerDump) (r.cfg.RoundSlotToEpoch slot)
            r.cfg.SlotsPerEpoch) dump i diff cur →
        lib.ApplyCompressedSerializedUint64ListDiff cur cur diff = .error e →
        reconstructBalances lib r tx slot diffBucket = .error e)
    ∧ (∀ dump mid k v cur,
        readDumpFile lib r (slot - slot % r.cfg.SlotsPerDump) "balances" = .ok dump →
        r.cfg.SlotsPerEpoch ≠ 0 →
        balancesPreamble lib (tx.bucket diffBucket)
          (epochKeys (slot - slot % r.cfg.SlotsPerDump) (r.cfg.RoundSlotToEpoch slot)
            r.cfg.SlotsPerEpoch) dump = .ok mid →
        (tx.bucket diffBucket).cursorErr = none → (tx.bucket diffBucket).stepErr 0 = none →
        ScanComesTo lib slot (tx.bucket diffBucket).stepErr
          (seekFrom (tx.bucket diffBucket).entries
            (Encode64ToBytes4 (r.cfg.RoundSlotToEpoch slot))) 1 mid k v cur →
        lib.ApplyCompressedSerializedUint64ListDiff cur cur v = .error e →
        reconstructBalances lib r tx slot diffBucket = .error e) := by
  refine ⟨?_, ?_, ?_⟩
  · intro dump k v cur hdump hc h0 hcomes hfail
    obtain ⟨pre, post, hfront, hpre, hsteps, happ, hk, hr⟩ := hcomes
    unfold reconstructDiffedUint64List
    simp only [hdump, hc, h0, hfront]
    exact diffScan_comes_to_error lib slot _ k v post cur e hk hr hfail pre 1 dump hpre hsteps
      happ
  · intro dump i diff cur hdump hspe hcomes hfail
    unfold reconstructBalances
    simp only [hdump, hspe, if_false,
      balancesPreamble_comes_to_error lib _ _ dump i diff cur e hcomes hfail]
  · intro dump mid k v cur hdump hspe hmid hc h0 hcomes hfail
    obtain ⟨pre, post, hfront, hpre, hsteps, happ, hk, hr⟩ := hcomes
    unfold reconstructBalances
    simp only [hdump, hspe, if_false, hmid, hc, h0, hfront]
    exact diffScan_comes_to_error lib slot _ k v post cur e hk hr hfail pre 1 mid hpre hsteps
      happ

/-- C7 at work: a corrupt diff under key 2050 after a good one under 2048 (cursor
scan of the diffed list, slot 2050); a corrupt diff under the epoch key 2048
(preamble of the balances, slot 2080); a corrupt diff under key 2080 (cursor scan
of the balances, slot 2080).  Each call returns the error of the diff codec. -/
theorem C7_failed_diff_aborts_witness :
    reconstructDiffedUint64List exLib exReader (exTxOf [(2048, [5]), (2050, [255])]) 2050
        Table.ValidatorEffectiveBalance "effective_balances" = .error (.ext 7)
    ∧ reconstructBalances exLib exReader (exTxOf [(2048, [255])]) 2080 Table.ValidatorBalance
        = .error (.ext 7)
    ∧ reconstructBalances exLib exReader (exTxOf [(2080, [255])]) 2080 Table.ValidatorBalance
        = .error (.ext 7) :=
  ⟨(C7_failed_diff_aborts exLib exReader (exTxOf [(2048, [5]), (2050, [255])]) 2050
      Table.ValidatorEffectiveBalance "effective_balances" (.ext 7)).1
      [1, 2] (Encode64ToBytes4 2050) [255] [1, 2, 5] rfl rfl rfl
      ⟨[(Encode64ToBytes4 2048, [5])], [], rfl, by decide, fun _ _ => rfl, rfl, rfl, rfl⟩ rfl,
   (C7_failed_diff_aborts exLib exReader (exTxOf [(2048, [255])]) 2080
      Table.ValidatorBalance "balances" (.ext 7)).2.1
      [1, 2] 2048 [255] [1, 2] rfl (by decide) ⟨[], [], rfl, rfl, rfl, by decide⟩ rfl,
   (C7_failed_diff_aborts exLib exReader (exTxOf [(2080, [255])]) 2080
      Table.ValidatorBalance "balances" (.ext 7)).2.2
      [1, 2] [1, 2] (Encode64ToBytes4 2080) [255] [1, 2] rfl (by decide) rfl rfl rfl
      ⟨[], [], rfl, by decide, fun _ _ => rfl, rfl, rfl, rfl⟩ rfl⟩

/-! ## Full dumps: the claim -/

theorem seekBehind_slotKeyed (es : List (Bytes × Bytes)) (hk : SlotKeyed es) (t : Nat)
    (ht : t < 2 ^ 32) :
    seekBehind es (Encode64ToBytes4 t) = es.takeWhile (fun e => decide (keySlot e.1 < t)) := by
  unfold seekBehind
  induction es with
  | nil => rfl
  | cons e es ih =>
    have he : e.1.length = 4 := hk e (List.mem_cons_self _ _)
    have hk2 : SlotKeyed es := fun x hx => hk x (List.mem_cons_of_mem _ hx)
    simp only [List.takeWhile_cons, bytesLt_encode_right e.1 he t ht, ih hk2]

theorem sorted_dropWhile_ge {α : Type} (f : α → Nat) (t : Nat) (l : List α)
    (hs : l.Pairwise (fun x y => f x < f y)) :
    ∀ x ∈ l.dropWhile (fun x => decide (f x < t)), t ≤ f x := by
  induction l with
  | nil => intro x hx; simp at hx
  | cons a l ih =>
    rw [List.pairwise_cons] at hs
    intro x hx
    by_cases h : f a < t
    · simp only [List.dropWhile_cons, h, decide_True, if_true] at hx
      exact ih hs.2 x hx
    · simp only [List.dropWhile_cons, h, decide_False, Bool.false_eq_true, if_false,
        List.mem_cons] at hx
      rcases hx with rfl | hx
      · omega
      · have := hs.1 x hx
        omega

theorem sorted_getLast_max {α : Type} (f : α → Nat) (l : List α)
    (hs : l.Pairwise (fun x y => f x < f y)) (a : α) (ha : l.getLast? = some a) :
    ∀ x ∈ l, f x ≤ f a := by
  rw [List.getLast?_eq_some_iff] at ha
  obtain ⟨ys, rfl⟩ := ha
  rw [List.pairwise_append] at hs
  intro x hx
  rw [List.mem_append, List.mem_singleton] at hx
  rcases hx with hx | rfl
  · exact Nat.le_of_lt (hs.2.2 x hx a (List.mem_singleton_self _))
  · exact Nat.le_refl _

theorem readZSTD_length (lib : Lib) (c : Bytes) (n : Nat) : (ReadZSTD lib c n).1.length = n := by
  unfold ReadZSTD
  simp only
  split
  · rename_i h
    simp only [List.length_take]
    omega
  · rename_i h
    simp only [List.length_append, List.length_replicate]
    omega

/-- C8 fails as stated: the bucket holds the key 5, which is at or below slot 10,
but no key at or above 10; the `Seek` finds no entry and the call returns the
diff-not-found error instead of decoding the payload under key 5. -/
theorem C8_counterexample :
    (∃ e ∈ ((exTxOf [(5, [9])]).bucket Table.ValidatorSlashings).entries, keySlot e.1 ≤ 10)
    ∧ reconstructUint64ListDump exLib (exTxOf [(5, [9])]) 10 Table.ValidatorSlashings 2
        (exLib.DecodeUint64Vector 2) = .error (.diffNotFound 10)
    ∧ reconstructUint64ListDump exLib (exTxOf [(5, [9])]) 10 Table.ValidatorSlashings 2
        (exLib.DecodeUint64Vector 2)
      ≠ decodeDump exLib 2 (exLib.DecodeUint64Vector 2) [9] :=
  ⟨⟨(Encode64ToBytes4 5, [9]), by decide, by decide⟩, rfl, by decide⟩

/-- C8, amended: on a well-formed bucket read without failure that holds a key at
or below `slot` and also a key at or above `slot`, `reconstructUint64ListDump`
decodes the payload `v` stored under the greatest key `k` at or below `slot`, and
the buffer the payload is decompressed into has exactly `size * 8` bytes. -/
theorem C8_dump_at_greatest_key (lib : Lib) (tx : Tx) (slot : Nat) (bkt : Table) (size : Nat)
    (decodeSSZ : Bytes → Except Err (List Nat))
    (hwf : (tx.bucket bkt).WellFormed) (hnf : (tx.bucket bkt).NoFaults)
    (hlow : ∃ e ∈ (tx.bucket bkt).entries, keySlot e.1 ≤ slot)
    (hhigh : ∃ e ∈ (tx.bucket bkt).entries, slot ≤ keySlot e.1) :
    ∃ k v, (k, v) ∈ (tx.bucket bkt).entries ∧ keySlot k ≤ slot
      ∧ (∀ e ∈ (tx.bucket bkt).entries, keySlot e.1 ≤ slot → keySlot e.1 ≤ keySlot k)
      ∧ reconstructUint64ListDump lib tx slot bkt size decodeSSZ = decodeDump lib size decodeSSZ v
      ∧ (ReadZSTD lib v (size * 8)).1.length = size * 8 := by
  obtain ⟨hkeys, hasc⟩ := hwf
  obtain ⟨hc, hstep, _⟩ := hnf
  have hsorted := ascending_keySlot _ hkeys hasc
  obtain ⟨eh, heh, hehs⟩ := hhigh
  have hslot : slot < 2 ^ 32 := by
    have := (keySlot_spec eh.1 (hkeys eh heh)).1
    omega
  have hsplit := List.takeWhile_append_dropWhile (fun e : Bytes × Bytes => decide (keySlot e.1 < slot))
    (tx.bucket bkt).entries
  have hge := sorted_dropWhile_ge (fun e : Bytes × Bytes => keySlot e.1) slot _ hsorted
  have hlt : ∀ x ∈ (tx.bucket bkt).entries.takeWhile (fun e => decide (keySlot e.1 < slot)),
      keySlot x.1 < slot := fun x hx => by simpa using List.mem_takeWhile_imp hx
  unfold reconstructUint64ListDump
  simp only [hc, hstep 0, hstep 1, seekFrom_slotKeyed _ hkeys slot hslot,
    prevValue, seekBehind_slotKeyed _ hkeys slot hslot]
  cases hdrop : (tx.bucket bkt).entries.dropWhile (fun e => decide (keySlot e.1 < slot)) with
  | nil =>
    exfalso
    rw [hdrop, List.append_nil] at hsplit
    have := hlt eh (by rw [hsplit]; exact heh)
    omega
  | cons e0 rest =>
    obtain ⟨k0, v0⟩ := e0
    have hmem0 : (k0, v0) ∈ (tx.bucket bkt).entries := by
      rw [← hsplit, hdrop]
      exact List.mem_append_right _ (List.mem_cons_self _ _)
    have hd0 := (keySlot_spec k0 (hkeys _ hmem0)).2.1
    have hge0 : slot ≤ keySlot k0 := hge (k0, v0) (by rw [hdrop]; exact List.mem_cons_self _ _)
    simp only [hd0]
    by_cases hgt : keySlot k0 > slot
    · simp only [hgt, if_true]
      obtain ⟨el, hel, hels⟩ := hlow
      have hel2 : el ∈ (tx.bucket bkt).entries.takeWhile (fun e => decide (keySlot e.1 < slot)) := by
        rw [← hsplit, List.mem_append] at hel
        rcases hel with h | h
        · exact h
        · exfalso
          rw [hdrop, List.mem_cons] at h
          rcases h with rfl | h
          · exact absurd hels (by simpa using hgt)
          · rw [← hsplit, hdrop] at hsorted
            have h1 := (List.pairwise_append.mp hsorted).2.1
            rw [List.pairwise_cons] at h1
            have := h1.1 el h
            simp only at this
            omega
      cases hlast : ((tx.bucket bkt).entries.takeWhile
          (fun e => decide (keySlot e.1 < slot))).getLast? with
      | none =>
        rw [List.getLast?_eq_none_iff] at hlast
        rw [hlast] at hel2
        simp at hel2
      | some a =>
        obtain ⟨k, v⟩ := a
        have hin := List.mem_of_getLast?_eq_some hlast
        refine ⟨k, v, ?_, ?_, ?_, rfl, readZSTD_length lib v _⟩
        · rw [← hsplit]
          exact List.mem_append_left _ hin
        · exact Nat.le_of_lt (hlt _ hin)
        · intro e he hes
          have hmax := sorted_getLast_max (fun e : Bytes × Bytes => keySlot e.1) _
            (List.Pairwise.sublist (List.takeWhile_sublist _) hsorted) (k, v) hlast
          rw [← hsplit, List.mem_append] at he
          rcases he with h | h
          · exact hmax e h
          · have := hge e h
            rw [hdrop, List.mem_cons] at h
            rcases h with rfl | h
            · simp only at hes
              omega
            · rw [← hsplit, hdrop] at hsorted
              have h1 := (List.pairwise_append.mp hsorted).2.1
              rw [List.pairwise_cons] at h1
              have := h1.1 e h
              simp only at this
              omega
    · simp only [hgt, if_false]
      refine ⟨k0, v0, hmem0, by omega, ?_, rfl, readZSTD_length lib v0 _⟩
      intro e _ hes
      omega

/-- C8 amended, at slot 10 over a bucket with keys 5 and 12: the payload under key
5 is decoded. -/
theorem C8_dump_at_greatest_key_witness :
    ∃ k v, (k, v) ∈ ((exTxOf [(5, [9]), (12, [8])]).bucket Table.ValidatorSlashings).entries
      ∧ keySlot k ≤ 10
      ∧ (∀ e ∈ ((exTxOf [(5, [9]), (12, [8])]).bucket Table.ValidatorSlashings).entries,
          keySlot e.1 ≤ 10 → keySlot e.1 ≤ keySlot k)
      ∧ reconstructUint64ListDump exLib (exTxOf [(5, [9]), (12, [8])]) 10
          Table.ValidatorSlashings 2 (exLib.DecodeUint64Vector 2)
          = decodeDump exLib 2 (exLib.DecodeUint64Vector 2) v
      ∧ (ReadZSTD exLib v (2 * 8)).1.length = 2 * 8 :=
  C8_dump_at_greatest_key exLib (exTxOf [(5, [9]), (12, [8])]) 10 Table.ValidatorSlashings 2
    (exLib.DecodeUint64Vector 2) (by decide) ⟨rfl, fun _ => rfl, fun _ => rfl⟩
    ⟨(Encode64ToBytes4 5, [9]), by decide, by decide⟩
    ⟨(Encode64ToBytes4 12, [8]), by decide, by decide⟩

/-! ## History vectors: the ring buffer -/

theorem mod_ne_of_lt_of_sub_lt (a b n : Nat) (hab : a < b) (hn : b - a < n) :
    a % n ≠ b % n := by
  intro h
  have h0 : (b - a) % n = 0 := Nat.sub_mod_eq_zero_of_mod_eq h.symm
  have hd : n ∣ b - a := Nat.dvd_of_mod_eq_zero h0
  have := Nat.le_of_dvd (by omega) hd
  omega

theorem residue_covered (n : Nat) (hn : 0 < n) (a p : Nat) (hp : p < n) :
    ∃ i, i < n ∧ (a + i) % n = p := by
  refine ⟨(p + (n - a % n)) % n, Nat.mod_lt _ hn, ?_⟩
  rw [Nat.add_mod_mod]
  have hr : a % n < n := Nat.mod_lt _ hn
  have ha := Nat.div_add_mod a n
  have e : a + (p + (n - a % n)) = p + n * (a / n + 1) := by
    have : n * (a / n + 1) = n * (a / n) + n := by ring
    omega
  rw [e, Nat.add_mul_mod_self_left, Nat.mod_eq_of_lt hp]

theorem front_head (l : List (Bytes × Bytes)) (s : Nat) (hs : s < 2 ^ 32)
    (hsorted : l.Pairwise (fun x y => keySlot x.1 < keySlot y.1))
    (hge : ∀ x ∈ l, s ≤ keySlot x.1) (v : Bytes) (hv : (Encode64ToBytes4 s, v) ∈ l) :
    ∃ rest, l = (Encode64ToBytes4 s, v) :: rest := by
  cases l with
  | nil => simp at hv
  | cons x rest =>
    rw [List.mem_cons] at hv
    rcases hv with h | h
    · exact ⟨rest, by rw [h]⟩
    · exfalso
      rw [List.pairwise_cons] at hsorted
      have h1 := hsorted.1 _ h
      simp only [keySlot_encode s hs] at h1
      have h2 := hge x (List.mem_cons_self _ _)
      omega

theorem encode_ne_of_ne (a b : Nat) (ha : a < 2 ^ 32) (hb : b < 2 ^ 32) (h : a ≠ b) :
    Encode64ToBytes4 a ≠ Encode64ToBytes4 b := by
  intro he
  have h1 := keySlot_encode a ha
  rw [he, keySlot_encode b hb] at h1
  exact h h1.symm

theorem add64_small (a b : Nat) (h : a + b < 2 ^ 64) : add64 a b = a + b := by
  unfold add64 u64
  exact Nat.mod_eq_of_lt h

theorem historyScan_run (N D : Nat) (stepErr : Nat → Option Err)
    (hstep : ∀ n, stepErr n = none) (hN : 0 < N) (hD : D < 2 ^ 64) :
    ∀ (d s : Nat) (l : List (Bytes × Bytes)) (n inserted cur : Nat) (out : HashVector),
      0 < d → d ≤ N → inserted + d = D → s + d ≤ 2 ^ 32 →
      SlotKeyed l → l.Pairwise (fun x y => keySlot x.1 < keySlot y.1) →
      (∀ x ∈ l, s ≤ keySlot x.1) →
      (∀ k, s ≤ k → k < s + d → ∃ v, (Encode64ToBytes4 k, v) ∈ l ∧ v.length = 32) →
      out.length = N →
      ∃ out1, historyScan N D stepErr l n inserted cur out = .ok (s + d - 1, out1)
        ∧ out1.length = N
        ∧ (∀ k, s ≤ k → k < s + d → ∀ v, (Encode64ToBytes4 k, v) ∈ l → out1[k % N]? = some v)
        ∧ (∀ p, p < N → (∀ k, s ≤ k → k < s + d → k % N ≠ p) → out1[p]? = out[p]?) := by
  intro d
  induction d with
  | zero => intro s l n inserted cur out h; omega
  | succ d ih =>
    intro s l n inserted cur out _ hdN hins hsd hkeys hsorted hge hpresent hout
    obtain ⟨v0, hv0, hlen0⟩ := hpresent s (Nat.le_refl _) (by omega)
    have hs32 : s < 2 ^ 32 := by omega
    obtain ⟨rest, rfl⟩ := front_head l s hs32 hsorted hge v0 hv0
    rw [List.pairwise_cons] at hsorted
    have hdec : Decode64FromBytes4 (Encode64ToBytes4 s) = some s := by
      rw [decode_encode, Nat.mod_eq_of_lt hs32]
    have hN0 : N ≠ 0 := by omega
    have hidx : s % N < out.length := by rw [hout]; exact Nat.mod_lt _ hN
    have huniq : ∀ v, (Encode64ToBytes4 s, v) ∈ (Encode64ToBytes4 s, v0) :: rest → v = v0 := by
      intro v hv
      rw [List.mem_cons] at hv
      rcases hv with h | h
      · exact (Prod.mk.inj h).2
      · have := hsorted.1 _ h
        simp at this
    have hrest_mem : ∀ k v, s < k → k < 2 ^ 32 →
        (Encode64ToBytes4 k, v) ∈ (Encode64ToBytes4 s, v0) :: rest →
        (Encode64ToBytes4 k, v) ∈ rest := by
      intro k v hk hk32 hmem
      rw [List.mem_cons] at hmem
      rcases hmem with h | h
      · exact absurd (Prod.mk.inj h).1 (encode_ne_of_ne k s hk32 hs32 (by omega))
      · exact h
    simp only [historyScan, hlen0, ne_eq, not_true_eq_false, if_false, hdec, hN0,
      HashVector.Set, hidx, if_true]
    rcases Nat.eq_zero_or_pos d with hd0 | hdpos
    · subst hd0
      have hadd : add64 inserted 1 = D := by rw [add64_small _ _ (by omega)]; omega
      simp only [hadd, if_true]
      refine ⟨_, rfl, by simp [hout], ?_, ?_⟩
      · intro k hk1 hk2 v hv
        have hks : k = s := by omega
        subst hks
        rw [huniq v hv, List.getElem?_set_self hidx]
      · intro p _ hne
        have := hne s (Nat.le_refl _) (by omega)
        rw [List.getElem?_set_ne this]
    · have hadd : add64 inserted 1 = inserted + 1 := add64_small _ _ (by omega)
      have hne : ¬ (inserted + 1 = D) := by omega
      simp only [hadd, hne, if_false, hstep n]
      have hkeys2 : SlotKeyed rest := fun x hx => hkeys x (List.mem_cons_of_mem _ hx)
      have hge2 : ∀ x ∈ rest, s + 1 ≤ keySlot x.1 := by
        intro x hx
        have := hsorted.1 x hx
        simp only [keySlot_encode s hs32] at this
        omega
      have hpresent2 : ∀ k, s + 1 ≤ k → k < s + 1 + d →
          ∃ v, (Encode64ToBytes4 k, v) ∈ rest ∧ v.length = 32 := by
        intro k hk1 hk2
        obtain ⟨v, hv, hl⟩ := hpresent k (by omega) (by omega)
        exact ⟨v, hrest_mem k v (by omega) (by omega) hv, hl⟩
      obtain ⟨out1, hrun, hlen1, hdb, hother⟩ :=
        ih (s + 1) rest (n + 1) (inserted + 1) s (out.set (s % N) v0) hdpos (by omega)
          (by omega) (by omega) hkeys2 hsorted.2 hge2 hpresent2 (by simp [hout])
      refine ⟨out1, ?_, hlen1, ?_, ?_⟩
      · rw [hrun]
        congr 2
        omega
      · intro k hk1 hk2 v hv
        rcases Nat.eq_or_lt_of_le hk1 with hks | hks
        · subst hks
          rw [huniq v hv, hother (s % N) (Nat.mod_lt _ hN), List.getElem?_set_self hidx]
          intro k2 hk21 hk22
          exact (mod_ne_of_lt_of_sub_lt s k2 N (by omega) (by omega)).symm
        · exact hdb k (by omega) (by omega) v (hrest_mem k v hks (by omega) hv)
      · intro p hp hne
        rw [hother p hp (fun k hk1 hk2 => hne k (by omega) (by omega))]
        have := hne s (Nat.le_refl _) (by omega)
        rw [List.getElem?_set_ne this]

theorem genesisFill_run (N : Nat) (genesisVector : HashVector) (hN : 0 < N)
    (hg : genesisVector.length = N) :
    ∀ (count cur : Nat) (out : HashVector),
      count ≤ N → cur + count < 2 ^ 64 → out.length = N →
      ∃ out1, genesisFill N genesisVector count cur out = .ok out1
        ∧ out1.length = N
        ∧ (∀ j, 1 ≤ j → j ≤ count → out1[(cur + j) % N]? = genesisVector[(cur + j) % N]?)
        ∧ (∀ p, p < N → (∀ j, 1 ≤ j → j ≤ count → (cur + j) % N ≠ p) → out1[p]? = out[p]?) := by
  intro count
  induction count with
  | zero =>
    intro cur out _ _ hout
    exact ⟨out, rfl, hout, fun j h1 h2 => by omega, fun p _ _ => rfl⟩
  | succ c ih =>
    intro cur out hc hcur hout
    have hN0 : N ≠ 0 := by omega
    have hadd : add64 cur 1 = cur + 1 := add64_small _ _ (by omega)
    have hidx : (cur + 1) % N < N := Nat.mod_lt _ hN
    have hb : (cur + 1) % N < genesisVector.length := by omega
    have hget : genesisVector.get? ((cur + 1) % N) = some genesisVector[(cur + 1) % N] := by
      rw [List.get?_eq_getElem?, List.getElem?_eq_getElem hb]
    simp only [genesisFill, hN0, if_false, hadd, HashVector.Get, hget, HashVector.Set, hout,
      hidx, if_true]
    obtain ⟨out1, hrun, hlen1, hgen, hother⟩ :=
      ih (cur + 1) (out.set ((cur + 1) % N) genesisVector[(cur + 1) % N])
        (by omega) (by omega) (by simp [hout])
    refine ⟨out1, hrun, hlen1, ?_, ?_⟩
    · intro j hj1 hj2
      rcases Nat.eq_or_lt_of_le hj1 with hj | hj
      · subst hj
        rw [hother ((cur + 1) % N) hidx, List.getElem?_set_self (by omega),
          List.getElem?_eq_getElem hb]
        intro j2 hj21 hj22
        exact (mod_ne_of_lt_of_sub_lt (cur + 1) (cur + 1 + j2) N (by omega) (by omega)).symm
      · have := hgen (j - 1) (by omega) (by omega)
        have e : cur + 1 + (j - 1) = cur + j := by omega
        rw [e] at this
        exact this
    · intro p hp hne
      rw [hother p hp]
      · have := hne 1 (Nat.le_refl _) (by omega)
        rw [List.getElem?_set_ne this]
      · intro j hj1 hj2
        have := hne (j + 1) (by omega) (by omega)
        have e : cur + (j + 1) = cur + 1 + j := by omega
        rw [e] at this
        exact this

theorem need_values (N slot g : Nat) (hN1 : 1 ≤ N) (hN : N < 2 ^ 63) (hg : g < slot)
    (hs : slot < 2 ^ 64) :
    needFromDB N slot g = min N (slot - g) ∧ needFromGenesis N slot g = N - min N (slot - g) := by
  unfold needFromDB needFromGenesis sub64 u64
  have e : (2 : Nat) ^ 64 = 18446744073709551616 := by norm_num
  have e63 : (2 : Nat) ^ 63 = 9223372036854775808 := by norm_num
  rw [e]
  rw [e63] at hN
  rw [e] at hs
  split_ifs <;> omega

theorem mem_dropWhile_of_ge (es : List (Bytes × Bytes)) (s : Nat) (x : Bytes × Bytes)
    (hx : x ∈ es) (hge : s ≤ keySlot x.1) :
    x ∈ es.dropWhile (fun e => decide (keySlot e.1 < s)) := by
  have hsplit := List.takeWhile_append_dropWhile (fun e : Bytes × Bytes => decide (keySlot e.1 < s)) es
  rw [← hsplit, List.mem_append] at hx
  rcases hx with h | h
  · have := List.mem_takeWhile_imp h
    simp only [decide_eq_true_eq] at this
    omega
  · exact h

theorem readHistoryHashVector_core (r : HistoricalStatesReader) (tx : Tx)
    (genesisVector : HashVector) (slot size : Nat) (table : Table)
    (hN : 1 ≤ size) (hint : size < 2 ^ 63)
    (hslot : r.genesisState.Slot < slot) (h64 : slot < 2 ^ 64)
    (hwf : (tx.bucket table).WellFormed) (hnf : (tx.bucket table).NoFaults)
    (hg : genesisVector.length = size)
    (htable : ∀ k, slot - needFromDB size slot r.genesisState.Slot ≤ k → k < slot →
      ∃ e ∈ (tx.bucket table).entries, Decode64FromBytes4 e.1 = some k ∧ e.2.length = 32)
    (out : HashVector) (hout : out.length = size) :
    ∃ out1, readHistoryHashVector r tx genesisVector slot size table out = .ok out1
      ∧ out1.length = size
      ∧ (∀ k, slot - needFromDB size slot r.genesisState.Slot ≤ k → k < slot →
          ∀ e ∈ (tx.bucket table).entries, Decode64FromBytes4 e.1 = some k →
            out1[k % size]? = some e.2)
      ∧ (∀ p, p < size →
          (∀ k, slot - needFromDB size slot r.genesisState.Slot ≤ k → k < slot → k % size ≠ p) →
          out1[p]? = genesisVector[p]?) := by
  obtain ⟨hD, hG⟩ := need_values size slot r.genesisState.Slot hN hint hslot h64
  obtain ⟨hkeys, hasc⟩ := hwf
  obtain ⟨hc, hstep, _⟩ := hnf
  have hsorted := ascending_keySlot _ hkeys hasc
  have hDpos : 0 < needFromDB size slot r.genesisState.Slot := by rw [hD]; omega
  have hDle : needFromDB size slot r.genesisState.Slot ≤ slot := by rw [hD]; omega
  have hDN : needFromDB size slot r.genesisState.Slot ≤ size := by rw [hD]; omega
  have hentry : ∀ e ∈ (tx.bucket table).entries, ∀ k, Decode64FromBytes4 e.1 = some k →
      k < 2 ^ 32 ∧ e = (Encode64ToBytes4 k, e.2) := by
    intro e he k hk
    obtain ⟨h1, h2, h3⟩ := keySlot_spec e.1 (hkeys e he)
    rw [hk, Option.some.injEq] at h2
    rw [← h2] at h1 h3
    exact ⟨h1, by rw [h3]⟩
  have hrep : slot ≤ 2 ^ 32 := by
    obtain ⟨e, he, hk, _⟩ := htable (slot - 1) (by omega) (by omega)
    have := (hentry e he _ hk).1
    omega
  have hsub : sub64 slot (needFromDB size slot r.genesisState.Slot)
      = slot - needFromDB size slot r.genesisState.Slot := by
    unfold sub64 u64
    have e : (2 : Nat) ^ 64 = 18446744073709551616 := by norm_num
    rw [e] at h64 ⊢
    omega
  have hcount : intLoopCount (needFromGenesis size slot r.genesisState.Slot)
      = needFromGenesis size slot r.genesisState.Slot := by
    unfold intLoopCount
    rw [if_pos]
    rw [hG]
    omega
  have hsublist := List.dropWhile_sublist
    (l := (tx.bucket table).entries)
    (fun e : Bytes × Bytes => decide
      (keySlot e.1 < slot - needFromDB size slot r.genesisState.Slot))
  have hmem : ∀ k, slot - needFromDB size slot r.genesisState.Slot ≤ k → k < slot →
      ∀ e ∈ (tx.bucket table).entries, Decode64FromBytes4 e.1 = some k →
      (Encode64ToBytes4 k, e.2) ∈ (tx.bucket table).entries.dropWhile (fun e => decide
        (keySlot e.1 < slot - needFromDB size slot r.genesisState.Slot)) := by
    intro k hk1 hk2 e he hk
    have h1 := (hentry e he k hk).2
    rw [← h1]
    refine mem_dropWhile_of_ge _ _ _ he ?_
    simp only [keySlot, hk, Option.getD_some]
    exact hk1
  obtain ⟨out1, hrun, hlen1, hdb, hother⟩ :=
    historyScan_run size (needFromDB size slot r.genesisState.Slot) (tx.bucket table).stepErr
      hstep (by omega) (by rw [hD]; omega) (needFromDB size slot r.genesisState.Slot)
      (slot - needFromDB size slot r.genesisState.Slot)
      ((tx.bucket table).entries.dropWhile (fun e => decide
        (keySlot e.1 < slot - needFromDB size slot r.genesisState.Slot)))
      1 0 0 out hDpos hDN (by omega) (by omega)
      (fun x hx => hkeys x (hsublist.subset hx))
      (List.Pairwise.sublist hsublist hsorted)
      (sorted_dropWhile_ge (fun e : Bytes × Bytes => keySlot e.1) _ _ hsorted)
      (by
        intro k hk1 hk2
        obtain ⟨e, he, hk, hl⟩ := htable k hk1 (by omega)
        exact ⟨e.2, hmem k hk1 (by omega) e he hk, hl⟩)
      hout
  obtain ⟨out2, hrun2, hlen2, hgen, hother2⟩ :=
    genesisFill_run size genesisVector (by omega) hg
      (needFromGenesis size slot r.genesisState.Slot)
      (slot - needFromDB size slot r.genesisState.Slot
        + needFromDB size slot r.genesisState.Slot - 1) out1
      (by rw [hG]; omega) (by rw [hG]; omega) hlen1
  refine ⟨out2, ?_, hlen2, ?_, ?_⟩
  · unfold readHistoryHashVector
    simp only [hc, hstep 0, hsub, seekFrom_slotKeyed _ hkeys _ (show
      slot - needFromDB size slot r.genesisState.Slot < 2 ^ 32 by omega), hrun, hcount, hrun2]
  · intro k hk1 hk2 e he hk
    rw [hother2 (k % size) (Nat.mod_lt _ (by omega))]
    · exact hdb k hk1 (by omega) e.2 (hmem k hk1 hk2 e he hk)
    · intro j hj1 hj2
      rw [hG] at hj2
      rw [hD] at hk1
      exact (mod_ne_of_lt_of_sub_lt k _ size (by rw [hD]; omega) (by rw [hD]; omega)).symm
  · intro p hp hne
    obtain ⟨i, hi, hip⟩ := residue_covered size (by omega)
      (slot - needFromDB size slot r.genesisState.Slot) p hp
    have hiD : needFromDB size slot r.genesisState.Slot ≤ i := by
      by_contra hlt
      exact hne _ (Nat.le_add_right _ i) (by omega) hip
    have hj := hgen (i - needFromDB size slot r.genesisState.Slot + 1) (by omega)
      (by rw [hG]; rw [hD] at hiD ⊢; omega)
    have e : slot - needFromDB size slot r.genesisState.Slot
        + needFromDB size slot r.genesisState.Slot - 1
        + (i - needFromDB size slot r.genesisState.Slot + 1)
        = slot - needFromDB size slot r.genesisState.Slot + i := by omega
    rw [e, hip] at hj
    exact hj

/-- C9: for a vector of size `N >= 1` (a valid Go `int`) and a `uint64` slot
beyond the genesis slot, on a well-formed table read without failure that holds a
32-byte value under every slot key of `[slot - needFromDB, slot)`,
`readHistoryHashVector` succeeds; the vector it leaves has `N` entries; position
`k mod N` holds the table value of every such key `k`; every other position `p`
holds `genesisVector[p]`; the result is the same whatever the vector held before,
so all `N` positions are written; the two counts add up to `N`, and no position
written from the table is one of the `needFromGenesis` positions
`(slot - 1 + j) mod N` the genesis loop writes. -/
theorem C9_history_vector_filled (r : HistoricalStatesReader) (tx : Tx)
    (genesisVector : HashVector) (slot size : Nat) (table : Table) (out : HashVector)
    (hN : 1 ≤ size) (hint : size < 2 ^ 63)
    (hslot : r.genesisState.Slot < slot) (h64 : slot < 2 ^ 64)
    (hwf : (tx.bucket table).WellFormed) (hnf : (tx.bucket table).NoFaults)
    (hg : genesisVector.length = size) (hout : out.length = size)
    (htable : ∀ k, slot - needFromDB size slot r.genesisState.Slot ≤ k → k < slot →
      ∃ e ∈ (tx.bucket table).entries, Decode64FromBytes4 e.1 = some k ∧ e.2.length = 32) :
    ∃ out1, readHistoryHashVector r tx genesisVector slot size table out = .ok out1
      ∧ out1.length = size
      ∧ (∀ k, slot - needFromDB size slot r.genesisState.Slot ≤ k → k < slot →
          ∀ e ∈ (tx.bucket table).entries, Decode64FromBytes4 e.1 = some k →
            out1[k % size]? = some e.2)
      ∧ (∀ p, p < size →
          (∀ k, slot - needFromDB size slot r.genesisState.Slot ≤ k → k < slot → k % size ≠ p) →
          out1[p]? = genesisVector[p]?)
      ∧ (∀ out2 : HashVector, out2.length = size →
          readHistoryHashVector r tx genesisVector slot size table out2 = .ok out1)
      ∧ needFromDB size slot r.genesisState.Slot
          + needFromGenesis size slot r.genesisState.Slot = size
      ∧ (∀ k j, slot - needFromDB size slot r.genesisState.Slot ≤ k → k < slot →
          1 ≤ j → j ≤ needFromGenesis size slot r.genesisState.Slot →
          k % size ≠ (slot - 1 + j) % size) := by
  obtain ⟨out1, hrun, hlen, hdb, hgen⟩ :=
    readHistoryHashVector_core r tx genesisVector slot size table hN hint hslot h64 hwf hnf hg
      htable out hout
  obtain ⟨hD, hG⟩ := need_values size slot r.genesisState.Slot hN hint hslot h64
  refine ⟨out1, hrun, hlen, hdb, hgen, ?_, ?_, ?_⟩
  · intro out2 hout2
    obtain ⟨out3, hrun3, hlen3, hdb3, hgen3⟩ :=
      readHistoryHashVector_core r tx genesisVector slot size table hN hint hslot h64 hwf hnf
        hg htable out2 hout2
    rw [hrun3]
    congr 1
    apply List.ext_getElem?
    intro p
    by_cases hp : p < size
    · by_cases hk : ∃ k, slot - needFromDB size slot r.genesisState.Slot ≤ k ∧ k < slot
          ∧ k % size = p
      · obtain ⟨k, hk1, hk2, rfl⟩ := hk
        obtain ⟨e, he, hdec, _⟩ := htable k hk1 hk2
        rw [hdb k hk1 hk2 e he hdec, hdb3 k hk1 hk2 e he hdec]
      · have hne : ∀ k, slot - needFromDB size slot r.genesisState.Slot ≤ k → k < slot →
            k % size ≠ p := fun k h1 h2 h3 => hk ⟨k, h1, h2, h3⟩
        rw [hgen p hp hne, hgen3 p hp hne]
    · rw [List.getElem?_eq_none (by omega), List.getElem?_eq_none (by omega)]
  · rw [hD, hG]
    omega
  · intro k j hk1 hk2 hj1 hj2
    rw [hD] at hk1
    rw [hG] at hj2
    exact mod_ne_of_lt_of_sub_lt k _ size (by omega) (by omega)

/-- C9, at slot 2 with vectors of size 4: the table values of slots 0 and 1 go to
positions 0 and 1, the genesis values to positions 2 and 3. -/
theorem C9_history_vector_filled_witness :
    ∃ out1, readHistoryHashVector exReader (exTxOf [(0, exHash 1), (1, exHash 2), (2, exHash 3)])
          exGenesis.BlockRoots 2 4 Table.BlockRoot (NewHashVector 4) = .ok out1
      ∧ out1.length = 4
      ∧ (∀ k, 2 - needFromDB 4 2 exReader.genesisState.Slot ≤ k → k < 2 →
          ∀ e ∈ ((exTxOf [(0, exHash 1), (1, exHash 2), (2, exHash 3)]).bucket
                  Table.BlockRoot).entries,
            Decode64FromBytes4 e.1 = some k → out1[k % 4]? = some e.2)
      ∧ (∀ p, p < 4 →
          (∀ k, 2 - needFromDB 4 2 exReader.genesisState.Slot ≤ k → k < 2 → k % 4 ≠ p) →
          out1[p]? = exGenesis.BlockRoots[p]?)
      ∧ (∀ out2 : HashVector, out2.length = 4 →
          readHistoryHashVector exReader (exTxOf [(0, exHash 1), (1, exHash 2), (2, exHash 3)])
            exGenesis.BlockRoots 2 4 Table.BlockRoot out2 = .ok out1)
      ∧ needFromDB 4 2 exReader.genesisState.Slot
          + needFromGenesis 4 2 exReader.genesisState.Slot = 4
      ∧ (∀ k j, 2 - needFromDB 4 2 exReader.genesisState.Slot ≤ k → k < 2 →
          1 ≤ j → j ≤ needFromGenesis 4 2 exReader.genesisState.Slot →
          k % 4 ≠ (2 - 1 + j) % 4) :=
  C9_history_vector_filled exReader (exTxOf [(0, exHash 1), (1, exHash 2), (2, exHash 3)])
    exGenesis.BlockRoots 2 4 Table.BlockRoot (NewHashVector 4) (by decide) (by decide)
    (by decide) (by decide) (by decide) ⟨rfl, fun _ => rfl, fun _ => rfl⟩ rfl rfl
    (by
      intro k _ h2
      have h3 : k = 0 ∨ k = 1 := by omega
      rcases h3 with rfl | rfl
      · exact ⟨(Encode64ToBytes4 0, exHash 1), by decide, rfl, rfl⟩
      · exact ⟨(Encode64ToBytes4 1, exHash 2), by decide, rfl, rfl⟩)

/-! ## History vectors: value lengths -/

theorem historyScan_bad_value (N D : Nat) (stepErr : Nat → Option Err)
    (hstep : ∀ n, stepErr n = none) (hN : N ≠ 0) :
    ∀ (front : List (Bytes × Bytes)) (n inserted cur : Nat) (out : HashVector) (j : Nat)
      (e : Bytes × Bytes),
      SlotKeyed front → out.length = N → front[j]? = some e → e.2.length ≠ 32 →
      (∀ i, i < j → (inserted + i + 1) % 2 ^ 64 ≠ D) →
      ∃ k, historyScan N D stepErr front n inserted cur out = .error (.invalidKey k) := by
  intro front
  induction front with
  | nil => intro n inserted cur out j e _ _ hj; simp at hj
  | cons x rest ih =>
    intro n inserted cur out j e hkeys hout hj hbad hreach
    obtain ⟨k, v⟩ := x
    by_cases hv : v.length = 32
    · cases j with
      | zero =>
        simp only [List.getElem?_cons_zero, Option.some.injEq] at hj
        subst hj
        exact absurd hv hbad
      | succ j =>
        simp only [List.getElem?_cons_succ] at hj
        have hd := (keySlot_spec k (hkeys (k, v) (List.mem_cons_self _ _))).2.1
        have hidx : keySlot k % N < out.length := by
          rw [hout]; exact Nat.mod_lt _ (Nat.pos_of_ne_zero hN)
        have h0 : ¬ add64 inserted 1 = D := by
          have := hreach 0 (by omega)
          simpa [add64, u64] using this
        simp only [historyScan, hv, ne_eq, not_true_eq_false, if_false, hd, hN,
          HashVector.Set, hidx, if_true, h0, hstep n]
        apply ih (n + 1) (add64 inserted 1) (keySlot k) _ j e
          (fun y hy => hkeys y (List.mem_cons_of_mem _ hy)) (by simp [hout]) hj hbad
        intro i hi
        have := hreach (i + 1) (by omega)
        unfold add64 u64
        have e1 : ((inserted + 1) % 2 ^ 64 + i + 1) % 2 ^ 64 = (inserted + (i + 1) + 1) % 2 ^ 64 := by
          omega
        rw [e1]
        exact this
    · exact ⟨k, by simp only [historyScan, hv, ne_eq, not_false_eq_true, if_true]⟩

theorem randaoScan_bad_value (N D spe : Nat) (stepErr : Nat → Option Err)
    (hstep : ∀ n, stepErr n = none) (hN : N ≠ 0) :
    ∀ (front : List (Bytes × Bytes)) (n inserted cur : Nat) (out : HashVector) (j : Nat)
      (e : Bytes × Bytes),
      SlotKeyed front → out.length = N → front[j]? = some e → e.2.length ≠ 32 →
      (∀ i, i < j → (inserted + i + 1) % 2 ^ 64 ≠ D) →
      ∃ k, randaoScan N D spe stepErr front n inserted cur out = .error (.invalidKey k) := by
  intro front
  induction front with
  | nil => intro n inserted cur out j e _ _ hj; simp at hj
  | cons x rest ih =>
    intro n inserted cur out j e hkeys hout hj hbad hreach
    obtain ⟨k, v⟩ := x
    by_cases hv : v.length = 32
    · cases j with
      | zero =>
        simp only [List.getElem?_cons_zero, Option.some.injEq] at hj
        subst hj
        exact absurd hv hbad
      | succ j =>
        simp only [List.getElem?_cons_succ] at hj
        have hd := (keySlot_spec k (hkeys (k, v) (List.mem_cons_self _ _))).2.1
        have hidx : keySlot k / spe % N < out.length := by
          rw [hout]; exact Nat.mod_lt _ (Nat.pos_of_ne_zero hN)
        have h0 : ¬ add64 inserted 1 = D := by
          have := hreach 0 (by omega)
          simpa [add64, u64] using this
        simp only [randaoScan, hv, ne_eq, not_true_eq_false, if_false, hd, hN,
          HashVector.Set, hidx, if_true, h0, hstep n]
        apply ih (n + 1) (add64 inserted 1) (keySlot k / spe) _ j e
          (fun y hy => hkeys y (List.mem_cons_of_mem _ hy)) (by simp [hout]) hj hbad
        intro i hi
        have := hreach (i + 1) (by omega)
        unfold add64 u64
        have e1 : ((inserted + 1) % 2 ^ 64 + i + 1) % 2 ^ 64 = (inserted + (i + 1) + 1) % 2 ^ 64 := by
          omega
        rw [e1]
        exact this
    · exact ⟨k, by simp only [randaoScan, hv, ne_eq, not_false_eq_true, if_true]⟩

theorem randaoScan_outcome (N D spe : Nat) (stepErr : Nat → Option Err) (hN : N ≠ 0) :
    ∀ (front : List (Bytes × Bytes)) (n inserted cur : Nat) (out : HashVector),
      SlotKeyed front → out.length = N →
      (∃ k, randaoScan N D spe stepErr front n inserted cur out = .error (.invalidKey k))
      ∨ ∃ c out1, randaoScan N D spe stepErr front n inserted cur out = .ok (c, out1)
          ∧ out1.length = N := by
  intro front
  induction front with
  | nil => intro n inserted cur out _ hout; exact Or.inr ⟨cur, out, rfl, hout⟩
  | cons x rest ih =>
    intro n inserted cur out hkeys hout
    obtain ⟨k, v⟩ := x
    by_cases hv : v.length = 32
    · have hd := (keySlot_spec k (hkeys (k, v) (List.mem_cons_self _ _))).2.1
      have hidx : keySlot k / spe % N < out.length := by
        rw [hout]; exact Nat.mod_lt _ (Nat.pos_of_ne_zero hN)
      simp only [randaoScan, hv, ne_eq, not_true_eq_false, if_false, hd, hN,
        HashVector.Set, hidx, if_true]
      by_cases h0 : add64 inserted 1 = D
      · simp only [h0, if_true]
        exact Or.inr ⟨_, _, rfl, by simp [hout]⟩
      · simp only [h0, if_false]
        cases stepErr n with
        | some e => exact Or.inr ⟨_, _, rfl, by simp [hout]⟩
        | none =>
          exact ih (n + 1) (add64 inserted 1) (keySlot k / spe) _
            (fun y hy => hkeys y (List.mem_cons_of_mem _ hy)) (by simp [hout])
    · exact Or.inl ⟨k, by simp only [randaoScan, hv, ne_eq, not_false_eq_true, if_true]⟩

theorem genesisFill_ok (N : Nat) (genesisVector : HashVector) (hN : N ≠ 0)
    (hg : genesisVector.length = N) :
    ∀ (count cur : Nat) (out : HashVector), out.length = N →
      ∃ out1, genesisFill N genesisVector count cur out = .ok out1 ∧ out1.length = N := by
  intro count
  induction count with
  | zero => intro cur out hout; exact ⟨out, rfl, hout⟩
  | succ c ih =>
    intro cur out hout
    have hidx : add64 cur 1 % N < N := Nat.mod_lt _ (Nat.pos_of_ne_zero hN)
    have hb : add64 cur 1 % N < genesisVector.length := by omega
    have hget : genesisVector.get? (add64 cur 1 % N) = some genesisVector[add64 cur 1 % N] := by
      rw [List.get?_eq_getElem?, List.getElem?_eq_getElem hb]
    simp only [genesisFill, hN, if_false, HashVector.Get, hget, HashVector.Set, hout, hidx,
      if_true]
    exact ih _ _ (by simp [hout])

/-- C10: with the store reporting no failure, slot-keyed entries and vectors of
the configured, non-zero size, a value that is not 32 bytes long makes the reader
return an error.  First part: `readHistoryHashVector`, for the entry at position
`j` from where the cursor lands, reached before `needFromDB` values are inserted.
Second part: the same for the cursor loop of `readRandaoMixes`.  Third part:
`readRandaoMixes` when the intra-epoch mix under the key of `slot` is absent (nil)
or not 32 bytes long; the error is then that of the intra-epoch length check
unless the cursor loop already met a value of the wrong length. -/
theorem C10_wrong_length_is_error (r : HistoricalStatesReader) (tx : Tx) (slot : Nat) :
    (∀ (genesisVector : HashVector) (size : Nat) (table : Table) (out : HashVector) (j : Nat)
        (e : Bytes × Bytes),
        (tx.bucket table).NoFaults → SlotKeyed (tx.bucket table).entries →
        size ≠ 0 → out.length = size →
        (seekFrom (tx.bucket table).entries
          (Encode64ToBytes4 (sub64 slot (needFromDB size slot r.genesisState.Slot))))[j]?
          = some e →
        e.2.length ≠ 32 →
        (∀ i, i < j → add64 i 1 ≠ needFromDB size slot r.genesisState.Slot) →
        ∃ k, readHistoryHashVector r tx genesisVector slot size table out
          = .error (.invalidKey k))
    ∧ (∀ (out : HashVector) (j : Nat) (e : Bytes × Bytes),
        (tx.bucket Table.RandaoMixes).NoFaults → SlotKeyed (tx.bucket Table.RandaoMixes).entries →
        r.cfg.SlotsPerEpoch ≠ 0 → r.cfg.EpochsPerHistoricalVector ≠ 0 →
        out.length = r.cfg.EpochsPerHistoricalVector →
        (seekFrom (tx.bucket Table.RandaoMixes).entries
          (Encode64ToBytes4 (sub64 (r.cfg.RoundSlotToEpoch slot)
            (mul64 (needFromDB r.cfg.EpochsPerHistoricalVector (slot / r.cfg.SlotsPerEpoch)
              (r.genesisState.Slot / r.cfg.SlotsPerEpoch)) r.cfg.SlotsPerEpoch))))[j]? = some e →
        e.2.length ≠ 32 →
        (∀ i, i < j → add64 i 1 ≠ needFromDB r.cfg.EpochsPerHistoricalVector
          (slot / r.cfg.SlotsPerEpoch) (r.genesisState.Slot / r.cfg.SlotsPerEpoch)) →
        ∃ k, readRandaoMixes r tx slot out = .error (.invalidKey k))
    ∧ (∀ (out : HashVector),
        (tx.bucket Table.RandaoMixes).NoFaults → SlotKeyed (tx.bucket Table.RandaoMixes).entries →
        (∀ k, (tx.bucket Table.IntraRandaoMixes).getErr k = none) →
        r.cfg.SlotsPerEpoch ≠ 0 → r.cfg.EpochsPerHistoricalVector ≠ 0 →
        out.length = r.cfg.EpochsPerHistoricalVector →
        r.genesisState.RandaoMixes.length = r.cfg.EpochsPerHistoricalVector →
        (lookupKey (tx.bucket Table.IntraRandaoMixes).entries (Encode64ToBytes4 slot)).length
          ≠ 32 →
        readRandaoMixes r tx slot out
            = .error (.invalidIntraRandaoMixLength
                (lookupKey (tx.bucket Table.IntraRandaoMixes).entries
                  (Encode64ToBytes4 slot)).length)
          ∨ ∃ k, readRandaoMixes r tx slot out = .error (.invalidKey k)) := by
  have hconv : ∀ (j D : Nat), (∀ i, i < j → add64 i 1 ≠ D) →
      ∀ i, i < j → (0 + i + 1) % 2 ^ 64 ≠ D := by
    intro j D h i hi
    have := h i hi
    simpa [add64, u64] using this
  refine ⟨?_, ?_, ?_⟩
  · intro genesisVector size table out j e hnf hkeys hsize hout hj hbad hreach
    have hsub := List.dropWhile_sublist (l := (tx.bucket table).entries)
      (fun x : Bytes × Bytes => bytesLt x.1
        (Encode64ToBytes4 (sub64 slot (needFromDB size slot r.genesisState.Slot))))
    obtain ⟨k, hk⟩ := historyScan_bad_value size (needFromDB size slot r.genesisState.Slot)
      (tx.bucket table).stepErr hnf.2.1 hsize _ 1 0 0 out j e
      (fun y hy => hkeys y (hsub.subset hy)) hout hj hbad (hconv j _ hreach)
    refine ⟨k, ?_⟩
    unfold readHistoryHashVector
    simp only [hnf.1, hnf.2.1 0]
    unfold seekFrom
    rw [hk]
  · intro out j e hnf hkeys hspe hsize hout hj hbad hreach
    have hsub := List.dropWhile_sublist (l := (tx.bucket Table.RandaoMixes).entries)
      (fun x : Bytes × Bytes => bytesLt x.1
        (Encode64ToBytes4 (sub64 (r.cfg.RoundSlotToEpoch slot)
            (mul64 (needFromDB r.cfg.EpochsPerHistoricalVector (slot / r.cfg.SlotsPerEpoch)
              (r.genesisState.Slot / r.cfg.SlotsPerEpoch)) r.cfg.SlotsPerEpoch))))
    obtain ⟨k, hk⟩ := randaoScan_bad_value r.cfg.EpochsPerHistoricalVector
      (needFromDB r.cfg.EpochsPerHistoricalVector (slot / r.cfg.SlotsPerEpoch)
        (r.genesisState.Slot / r.cfg.SlotsPerEpoch)) r.cfg.SlotsPerEpoch
      (tx.bucket Table.RandaoMixes).stepErr hnf.2.1 hsize _ 1 0 0 out j e
      (fun y hy => hkeys y (hsub.subset hy)) hout hj hbad (hconv j _ hreach)
    refine ⟨k, ?_⟩
    unfold readRandaoMixes
    simp only [hspe, if_false, hnf.1, hnf.2.1 0]
    unfold seekFrom
    rw [hk]
  · intro out hnf hkeys hget hspe hsize hout hgen hbad
    have hsub := List.dropWhile_sublist (l := (tx.bucket Table.RandaoMixes).entries)
      (fun x : Bytes × Bytes => bytesLt x.1
        (Encode64ToBytes4 (sub64 (r.cfg.RoundSlotToEpoch slot)
            (mul64 (needFromDB r.cfg.EpochsPerHistoricalVector (slot / r.cfg.SlotsPerEpoch)
              (r.genesisState.Slot / r.cfg.SlotsPerEpoch)) r.cfg.SlotsPerEpoch))))
    rcases randaoScan_outcome r.cfg.EpochsPerHistoricalVector
      (needFromDB r.cfg.EpochsPerHistoricalVector (slot / r.cfg.SlotsPerEpoch)
        (r.genesisState.Slot / r.cfg.SlotsPerEpoch)) r.cfg.SlotsPerEpoch
      (tx.bucket Table.RandaoMixes).stepErr hsize _ 1 0 0 out
      (fun y hy => hkeys y (hsub.subset hy)) hout with ⟨k, hk⟩ | ⟨c, out1, hk, hlen1⟩
    · refine Or.inr ⟨k, ?_⟩
      unfold readRandaoMixes
      simp only [hspe, if_false, hnf.1, hnf.2.1 0]
      unfold seekFrom
      rw [hk]
    · refine Or.inl ?_
      obtain ⟨out2, hfill, _⟩ := genesisFill_ok r.cfg.EpochsPerHistoricalVector
        r.genesisState.RandaoMixes hsize hgen
        (intLoopCount (needFromGenesis r.cfg.EpochsPerHistoricalVector
          (slot / r.cfg.SlotsPerEpoch) (r.genesisState.Slot / r.cfg.SlotsPerEpoch))) c out1 hlen1
      unfold readRandaoMixes
      simp only [hspe, if_false, hnf.1, hnf.2.1 0]
      unfold seekFrom
      rw [hk]
      simp only [hfill, Bucket.GetOne, hget, hbad, ne_eq, not_false_eq_true, if_true]

/-- C10 at work: a one-byte value under key 1 (block roots at slot 2), a one-byte
value under key 32 (randao mixes at slot 65), and no intra-epoch mix under key 65
although the randao bucket is sound. -/
theorem C10_wrong_length_is_error_witness :
    (∃ k, readHistoryHashVector exReader (exTxOf [(0, exHash 1), (1, [7])])
        exGenesis.BlockRoots 2 4 Table.BlockRoot (NewHashVector 4) = .error (.invalidKey k))
    ∧ (∃ k, readRandaoMixes exReader (exTxOf [(0, exHash 1), (32, [7])]) 65 (NewHashVector 4)
        = .error (.invalidKey k))
    ∧ (readRandaoMixes exReader (exTxOf [(0, exHash 1), (32, exHash 2)]) 65 (NewHashVector 4)
          = .error (.invalidIntraRandaoMixLength
              (lookupKey ((exTxOf [(0, exHash 1), (32, exHash 2)]).bucket
                Table.IntraRandaoMixes).entries (Encode64ToBytes4 65)).length)
        ∨ ∃ k, readRandaoMixes exReader (exTxOf [(0, exHash 1), (32, exHash 2)]) 65
            (NewHashVector 4) = .error (.invalidKey k)) :=
  ⟨(C10_wrong_length_is_error exReader (exTxOf [(0, exHash 1), (1, [7])]) 2).1
      exGenesis.BlockRoots 4 Table.BlockRoot (NewHashVector 4) 1 (Encode64ToBytes4 1, [7])
      ⟨rfl, fun _ => rfl, fun _ => rfl⟩ (by decide) (by decide) rfl rfl (by decide)
      (by intro i hi; have h0 : i = 0 := by omega
          subst h0; decide),
   (C10_wrong_length_is_error exReader (exTxOf [(0, exHash 1), (32, [7])]) 65).2.1
      (NewHashVector 4) 1 (Encode64ToBytes4 32, [7])
      ⟨rfl, fun _ => rfl, fun _ => rfl⟩ (by decide) (by decide) (by decide) rfl rfl (by decide)
      (by intro i hi; have h0 : i = 0 := by omega
          subst h0; decide),
   (C10_wrong_length_is_error exReader (exTxOf [(0, exHash 1), (32, exHash 2)]) 65).2.2
      (NewHashVector 4) ⟨rfl, fun _ => rfl, fun _ => rfl⟩ (by decide) (fun _ => rfl)
      (by decide) (by decide) rfl rfl (by decide)⟩

/-! ## Randomness: the intra-epoch mix -/

theorem lookupKey_mem (es : List (Bytes × Bytes)) (key : Bytes)
    (h : lookupKey es key ≠ []) : (key, lookupKey es key) ∈ es := by
  unfold lookupKey at h ⊢
  cases hf : es.find? (fun e => decide (e.1 = key)) with
  | none => rw [hf] at h; exact absurd rfl h
  | some e =>
    simp only []
    have hm := List.mem_of_find?_eq_some hf
    have hk := List.find?_some hf
    simp only [decide_eq_true_eq] at hk
    rw [← hk]
    exact hm

theorem intra_mix_tail (r : HistoricalStatesReader) (tx : Tx) (slot count : Nat)
    (scanned : Except Err (Nat × HashVector)) (out1 : HashVector)
    (h : (match scanned with
      | .error e => .error e
      | .ok (currKeyEpoch, o1) =>
        match genesisFill r.cfg.EpochsPerHistoricalVector r.genesisState.RandaoMixes count
            currKeyEpoch o1 with
        | .error e => .error e
        | .ok out2 =>
          match (tx.bucket Table.IntraRandaoMixes).GetOne (Encode64ToBytes4 slot) with
          | .error e => .error e
          | .ok intraRandaoMix =>
            if intraRandaoMix.length ≠ 32 then
              .error (.invalidIntraRandaoMixLength intraRandaoMix.length)
            else if r.cfg.EpochsPerHistoricalVector = 0 then .error .panic
            else HashVector.Set out2
              (slot / r.cfg.SlotsPerEpoch % r.cfg.EpochsPerHistoricalVector) intraRandaoMix)
      = Except.ok out1) :
    ∃ out2 mix,
      (match scanned with
        | .error e => .error e
        | .ok (currKeyEpoch, o1) =>
          genesisFill r.cfg.EpochsPerHistoricalVector r.genesisState.RandaoMixes count
            currKeyEpoch o1) = Except.ok out2
      ∧ (tx.bucket Table.IntraRandaoMixes).GetOne (Encode64ToBytes4 slot) = .ok mix
      ∧ (Encode64ToBytes4 slot, mix) ∈ (tx.bucket Table.IntraRandaoMixes).entries
      ∧ mix.length = 32
      ∧ out1[slot / r.cfg.SlotsPerEpoch % r.cfg.EpochsPerHistoricalVector]? = some mix
      ∧ out1.length = out2.length
      ∧ ∀ p, p ≠ slot / r.cfg.SlotsPerEpoch % r.cfg.EpochsPerHistoricalVector →
          out1[p]? = out2[p]? := by
  cases scanned with
  | error e => cases h
  | ok pr =>
    obtain ⟨cur, o1⟩ := pr
    simp only [] at h ⊢
    cases hfill : genesisFill r.cfg.EpochsPerHistoricalVector r.genesisState.RandaoMixes
        count cur o1 with
    | error e => rw [hfill] at h; cases h
    | ok out2 =>
      rw [hfill] at h
      simp only [] at h
      cases hget : (tx.bucket Table.IntraRandaoMixes).GetOne (Encode64ToBytes4 slot) with
      | error e => rw [hget] at h; cases h
      | ok mix =>
        rw [hget] at h
        simp only [] at h
        by_cases hlen : mix.length = 32
        · rw [if_neg (by simp [hlen])] at h
          by_cases hz : r.cfg.EpochsPerHistoricalVector = 0
          · rw [if_pos hz] at h; cases h
          rw [if_neg hz] at h
          unfold HashVector.Set at h
          by_cases hi : slot / r.cfg.SlotsPerEpoch % r.cfg.EpochsPerHistoricalVector
              < out2.length
          · rw [if_pos hi] at h
            cases h
            have hmem : (Encode64ToBytes4 slot, mix)
                ∈ (tx.bucket Table.IntraRandaoMixes).entries := by
              unfold Bucket.GetOne at hget
              cases hge : (tx.bucket Table.IntraRandaoMixes).getErr (Encode64ToBytes4 slot) with
              | some e => rw [hge] at hget; cases hget
              | none =>
                rw [hge] at hget
                cases hget
                apply lookupKey_mem
                intro hnil
                rw [hnil] at hlen
                simp at hlen
            refine ⟨out2, mix, rfl, rfl, hmem, hlen, ?_, ?_, ?_⟩
            · rw [List.getElem?_set_self hi]
            · simp
            · intro p hp
              rw [List.getElem?_set_ne (Ne.symm hp)]
          · rw [if_neg hi] at h; cases h
        · rw [if_pos (by simpa using hlen)] at h; cases h

/-- C11: whenever `readRandaoMixes` succeeds at a slot, the vector it leaves holds,
at position `(slot / SlotsPerEpoch) mod EpochsPerHistoricalVector`, the value the
IntraRandaoMixes bucket stores under the key of the slot, a value of 32 bytes; that
vector is the one the scan of the RandaoMixes bucket and the genesis loop built,
with this one position overwritten: it has the same length and the same value at
every other position. -/
theorem C11_intra_mix_overrides (r : HistoricalStatesReader) (tx : Tx) (slot : Nat)
    (out out1 : HashVector) (h : readRandaoMixes r tx slot out = .ok out1) :
    ∃ out2 mix,
      randaoMixesOfEpochs r tx slot out = .ok out2
      ∧ (tx.bucket Table.IntraRandaoMixes).GetOne (Encode64ToBytes4 slot) = .ok mix
      ∧ (Encode64ToBytes4 slot, mix) ∈ (tx.bucket Table.IntraRandaoMixes).entries
      ∧ mix.length = 32
      ∧ out1[slot / r.cfg.SlotsPerEpoch % r.cfg.EpochsPerHistoricalVector]? = some mix
      ∧ out1.length = out2.length
      ∧ ∀ p, p ≠ slot / r.cfg.SlotsPerEpoch % r.cfg.EpochsPerHistoricalVector →
          out1[p]? = out2[p]? := by
  unfold readRandaoMixes at h
  unfold randaoMixesOfEpochs
  by_cases hspe : r.cfg.SlotsPerEpoch = 0
  · rw [if_pos hspe] at h; cases h
  rw [if_neg hspe] at h
  rw [if_neg hspe]
  simp only [] at h ⊢
  cases hc : (tx.bucket Table.RandaoMixes).cursorErr with
  | some e => rw [hc] at h; cases h
  | none =>
    rw [hc] at h
    simp only [] at h ⊢
    exact intra_mix_tail r tx slot _ _ out1 h

/-- C11, at slot 65 of the example chain (epoch 2, position 2 of a vector of 4):
the mix stored under the key of slot 65 is at position 2. -/
theorem C11_intra_mix_overrides_witness :
    ∃ out2 mix,
      randaoMixesOfEpochs exReader (exTxOf [(0, exHash 1), (32, exHash 2), (65, exHash 4)]) 65
          (NewHashVector 4) = .ok out2
      ∧ ((exTxOf [(0, exHash 1), (32, exHash 2), (65, exHash 4)]).bucket
            Table.IntraRandaoMixes).GetOne (Encode64ToBytes4 65) = .ok mix
      ∧ (Encode64ToBytes4 65, mix)
          ∈ ((exTxOf [(0, exHash 1), (32, exHash 2), (65, exHash 4)]).bucket
              Table.IntraRandaoMixes).entries
      ∧ mix.length = 32
      ∧ [exHash 1, exHash 2, exHash 4, exHash 33][65 / exReader.cfg.SlotsPerEpoch
          % exReader.cfg.EpochsPerHistoricalVector]? = some mix
      ∧ [exHash 1, exHash 2, exHash 4, exHash 33].length = out2.length
      ∧ ∀ p, p ≠ 65 / exReader.cfg.SlotsPerEpoch % exReader.cfg.EpochsPerHistoricalVector →
          [exHash 1, exHash 2, exHash 4, exHash 33][p]? = out2[p]? :=
  C11_intra_mix_overrides exReader (exTxOf [(0, exHash 1), (32, exHash 2), (65, exHash 4)]) 65
    (NewHashVector 4) [exHash 1, exHash 2, exHash 4, exHash 33] (by rfl)

/-! ## Pending attestations and the relevant epochs -/

/-- C12: for every slot below `SlotsPerEpoch`, `readPendingEpochs` returns the two
pending-attestation lists of the genesis state, whatever the two length arguments
are and whatever the transaction holds or fails on: nothing is read from it. -/
theorem C12_epoch_zero_pending_is_genesis (r : HistoricalStatesReader) (tx : Tx)
    (slot currentEpochAttestationsLength previousEpochAttestationsLength : Nat)
    (h : slot < r.cfg.SlotsPerEpoch) :
    readPendingEpochs r tx slot currentEpochAttestationsLength previousEpochAttestationsLength
      = .ok (r.genesisState.CurrentEpochAttestations,
             r.genesisState.PreviousEpochAttestations) := by
  unfold readPendingEpochs
  rw [if_pos h]

/-- C12, at slot 31 of the example chain, with a transaction whose reads of pending
attestations fail and with length arguments 0 and 7. -/
theorem C12_epoch_zero_pending_is_genesis_witness :
    readPendingEpochs exReaderPending exTxNoPending 31 0 7 = .ok ([[1]], [[2], [3]]) :=
  C12_epoch_zero_pending_is_genesis exReaderPending exTxNoPending 31 0 7 (by decide)

/-- C13: with `e = slot / SlotsPerEpoch`, `computeRelevantEpochs` returns `(e, e)`
when `e <= AltairForkEpoch` and the genesis version is before Altair, and
`(e, e - 1)` in every other case, the subtraction being that of `uint64`: it is
`e - 1` for `e >= 1` and `2^64 - 1` for `e = 0`. -/
theorem C13_relevant_epochs (r : HistoricalStatesReader) (slot : Nat) :
    ((slot / r.cfg.SlotsPerEpoch ≤ r.cfg.AltairForkEpoch
        ∧ r.genesisState.Version < AltairVersion) →
      computeRelevantEpochs r slot
        = (slot / r.cfg.SlotsPerEpoch, slot / r.cfg.SlotsPerEpoch))
    ∧ (¬ (slot / r.cfg.SlotsPerEpoch ≤ r.cfg.AltairForkEpoch
          ∧ r.genesisState.Version < AltairVersion) →
      computeRelevantEpochs r slot
        = (slot / r.cfg.SlotsPerEpoch, sub64 (slot / r.cfg.SlotsPerEpoch) 1))
    ∧ (1 ≤ slot / r.cfg.SlotsPerEpoch → slot < 2 ^ 64 →
      sub64 (slot / r.cfg.SlotsPerEpoch) 1 = slot / r.cfg.SlotsPerEpoch - 1)
    ∧ (slot / r.cfg.SlotsPerEpoch = 0 → sub64 (slot / r.cfg.SlotsPerEpoch) 1 = 2 ^ 64 - 1) := by
  refine ⟨?_, ?_, ?_, ?_⟩
  · intro h
    unfold computeRelevantEpochs
    simp only []
    rw [if_pos h]
  · intro h
    unfold computeRelevantEpochs
    simp only []
    rw [if_neg h]
  · intro h1 h2
    have h3 : slot / r.cfg.SlotsPerEpoch ≤ slot := Nat.div_le_self _ _
    unfold sub64 u64
    have e : (2 : Nat) ^ 64 = 18446744073709551616 := by norm_num
    rw [e] at h2 ⊢
    omega
  · intro h0
    rw [h0]
    unfold sub64 u64
    norm_num

/-! ## History vectors: the two counts -/

/-- C19: in `uint64` arithmetic, for every vector size `N` and every slot at or
beyond the genesis slot, `needFromGenesis` is `N - (slot - genesis_slot)` when
`slot - genesis_slot <= N` and 0 otherwise; it is at most `N`; the two counts add up
to `N`; `needFromDB` is `min(N, slot - genesis_slot)`; and no subtraction wraps
around: `slot - genesis_slot` is exact, the guard of line 254 holds exactly when
`slot - genesis_slot <= N`, which makes `N - (slot - genesis_slot)` exact, and
`N - needFromGenesis` is exact. -/
theorem C19_need_from_genesis (size slot genesisSlot : Nat)
    (hN : size < 2 ^ 64) (hslot : slot < 2 ^ 64) (hg : genesisSlot ≤ slot) :
    needFromGenesis size slot genesisSlot
        = (if slot - genesisSlot ≤ size then size - (slot - genesisSlot) else 0)
      ∧ needFromGenesis size slot genesisSlot ≤ size
      ∧ needFromGenesis size slot genesisSlot + needFromDB size slot genesisSlot = size
      ∧ needFromDB size slot genesisSlot = min size (slot - genesisSlot)
      ∧ sub64 slot genesisSlot = slot - genesisSlot
      ∧ ((size > slot ∨ sub64 slot size ≤ genesisSlot) ↔ slot - genesisSlot ≤ size)
      ∧ (slot - genesisSlot ≤ size →
          sub64 size (sub64 slot genesisSlot) = size - (slot - genesisSlot))
      ∧ needFromDB size slot genesisSlot = size - needFromGenesis size slot genesisSlot := by
  unfold needFromDB needFromGenesis sub64 u64
  have e : (2 : Nat) ^ 64 = 18446744073709551616 := by norm_num
  rw [e] at hN hslot ⊢
  refine ⟨?_, ?_, ?_, ?_, ?_, ?_, ?_, ?_⟩
  · split_ifs <;> omega
  · split_ifs <;> omega
  · split_ifs <;> omega
  · split_ifs <;> omega
  · omega
  · constructor
    · intro h; omega
    · intro h; omega
  · intro h; omega
  · split_ifs <;> omega

/-- C19, for a vector of size 4 at slot 6 over a genesis at slot 1: one entry comes
from the genesis vector and three from the table. -/
theorem C19_need_from_genesis_witness :
    needFromGenesis 4 6 1 = (if 6 - 1 ≤ 4 then 4 - (6 - 1) else 0)
      ∧ needFromGenesis 4 6 1 ≤ 4
      ∧ needFromGenesis 4 6 1 + needFromDB 4 6 1 = 4
      ∧ needFromDB 4 6 1 = min 4 (6 - 1)
      ∧ sub64 6 1 = 6 - 1
      ∧ ((4 > 6 ∨ sub64 6 4 ≤ 1) ↔ 6 - 1 ≤ 4)
      ∧ (6 - 1 ≤ 4 → sub64 4 (sub64 6 1) = 4 - (6 - 1))
      ∧ needFromDB 4 6 1 = 4 - needFromGenesis 4 6 1 :=
  C19_need_from_genesis 4 6 1 (by decide) (by decide) (by decide)

/-! ## Participation: the lengths of the two lists -/

theorem applyFlags_length (participationFlagsIndicies : List Nat) (toCurrent : Bool)
    (idx : Nat) :
    ∀ (flags : List Nat) (p p1 : Participation),
      applyFlags participationFlagsIndicies toCurrent idx flags p = .ok p1 →
      p1.currentIdxs.length = p.currentIdxs.length
        ∧ p1.previousIdxs.length = p.previousIdxs.length := by
  intro flags
  induction flags with
  | nil =>
    intro p p1 h
    unfold applyFlags at h
    cases h
    exact ⟨rfl, rfl⟩
  | cons flagIndex more ih =>
    intro p p1 h
    unfold applyFlags at h
    cases hget : (if toCurrent then p.currentIdxs else p.previousIdxs).get? idx with
    | none => rw [hget] at h; cases h
    | some flagParticipation =>
      rw [hget] at h
      simp only [] at h
      split at h
      · exact ih p p1 h
      · split at h
        · have := ih _ p1 h
          simpa using this
        · have := ih _ p1 h
          simpa using this

theorem applyAttesters_length (weights : Nat) (participationFlagsIndicies : List Nat)
    (toCurrent : Bool) :
    ∀ (idxs : List Nat) (p p1 : Participation),
      applyAttesters weights participationFlagsIndicies toCurrent idxs p = .ok p1 →
      p1.currentIdxs.length = p.currentIdxs.length
        ∧ p1.previousIdxs.length = p.previousIdxs.length := by
  intro idxs
  induction idxs with
  | nil =>
    intro p p1 h
    unfold applyAttesters at h
    cases h
    exact ⟨rfl, rfl⟩
  | cons idx more ih =>
    intro p p1 h
    unfold applyAttesters at h
    cases hf : applyFlags participationFlagsIndicies toCurrent idx (List.range weights) p with
    | error e => rw [hf] at h; cases h
    | ok p2 =>
      rw [hf] at h
      simp only [] at h
      have h1 := applyFlags_length participationFlagsIndicies toCurrent idx _ p p2 hf
      have h2 := ih p2 p1 h
      exact ⟨h2.1.trans h1.1, h2.2.trans h1.2⟩

theorem attestWith_length (lib : Lib) (r : HistoricalStatesReader) (randaoMixes : HashVector)
    (activeIndicies : List Nat) (prevEpoch currentEpoch : Nat) (ret : BeaconState)
    (attestation : Attestation) (p p1 : Participation)
    (h : attestWith lib r randaoMixes activeIndicies prevEpoch currentEpoch ret attestation p
      = .ok p1) :
    p1.currentIdxs.length = p.currentIdxs.length
      ∧ p1.previousIdxs.length = p.previousIdxs.length := by
  unfold attestWith at h
  simp only [] at h
  split at h
  · cases h
  · split at h
    · cases h
    · exact applyAttesters_length _ _ _ _ p p1 h

theorem replayAttestation_cases (lib : Lib) (r : HistoricalStatesReader)
    (randaoMixes : HashVector) (currentActiveIndicies previousActiveIndicies : List Nat)
    (prevEpoch currentEpoch : Nat) (ret : BeaconState) (attestation : Attestation)
    (p : Participation) :
    (attestation.AttestantionData.Target.Epoch = currentEpoch → currentEpoch = prevEpoch →
      replayAttestation lib r randaoMixes currentActiveIndicies previousActiveIndicies
          prevEpoch currentEpoch ret attestation p
        = attestWith lib r randaoMixes previousActiveIndicies prevEpoch currentEpoch ret
            attestation p)
    ∧ (attestation.AttestantionData.Target.Epoch = currentEpoch → currentEpoch ≠ prevEpoch →
      replayAttestation lib r randaoMixes currentActiveIndicies previousActiveIndicies
          prevEpoch currentEpoch ret attestation p
        = attestWith lib r randaoMixes currentActiveIndicies prevEpoch currentEpoch ret
            attestation p)
    ∧ (attestation.AttestantionData.Target.Epoch ≠ currentEpoch → currentEpoch = prevEpoch →
      replayAttestation lib r randaoMixes currentActiveIndicies previousActiveIndicies
          prevEpoch currentEpoch ret attestation p = .ok p)
    ∧ (attestation.AttestantionData.Target.Epoch ≠ currentEpoch → currentEpoch ≠ prevEpoch →
      replayAttestation lib r randaoMixes currentActiveIndicies previousActiveIndicies
          prevEpoch currentEpoch ret attestation p
        = attestWith lib r randaoMixes previousActiveIndicies prevEpoch currentEpoch ret
            attestation p) := by
  refine ⟨?_, ?_, ?_, ?_⟩
  · intro ht hc
    have e1 : decide (attestation.AttestantionData.Target.Epoch = currentEpoch) = true :=
      decide_eq_true ht
    have e2 : decide (currentEpoch = prevEpoch) = true := decide_eq_true hc
    unfold replayAttestation attestWith
    simp only [e1, e2, if_pos hc, Bool.not_true, Bool.false_and, Bool.and_false, if_true,
      Bool.false_eq_true, if_false]
  · intro ht hc
    have e1 : decide (attestation.AttestantionData.Target.Epoch = currentEpoch) = true :=
      decide_eq_true ht
    have e2 : decide (currentEpoch = prevEpoch) = false := decide_eq_false hc
    unfold replayAttestation attestWith
    simp only [e1, e2, if_neg hc, Bool.not_true, Bool.not_false, Bool.false_and,
      Bool.and_true, if_true, Bool.false_eq_true, if_false]
  · intro ht hc
    have e1 : decide (attestation.AttestantionData.Target.Epoch = currentEpoch) = false :=
      decide_eq_false ht
    have e2 : decide (currentEpoch = prevEpoch) = true := decide_eq_true hc
    unfold replayAttestation
    simp only [e1, e2, Bool.not_false, Bool.and_true, if_true]
  · intro ht hc
    have e1 : decide (attestation.AttestantionData.Target.Epoch = currentEpoch) = false :=
      decide_eq_false ht
    have e2 : decide (currentEpoch = prevEpoch) = false := decide_eq_false hc
    unfold replayAttestation attestWith
    simp only [e1, e2, Bool.not_false, Bool.and_false, Bool.false_and, Bool.false_eq_true,
      if_false]

theorem replayAttestation_length (lib : Lib) (r : HistoricalStatesReader)
    (randaoMixes : HashVector) (currentActiveIndicies previousActiveIndicies : List Nat)
    (prevEpoch currentEpoch : Nat) (ret : BeaconState) (attestation : Attestation)
    (p p1 : Participation)
    (h : replayAttestation lib r randaoMixes currentActiveIndicies previousActiveIndicies
      prevEpoch currentEpoch ret attestation p = .ok p1) :
    p1.currentIdxs.length = p.currentIdxs.length
      ∧ p1.previousIdxs.length = p.previousIdxs.length := by
  obtain ⟨h1, h2, h3, h4⟩ := replayAttestation_cases lib r randaoMixes currentActiveIndicies
    previousActiveIndicies prevEpoch currentEpoch ret attestation p
  by_cases ht : attestation.AttestantionData.Target.Epoch = currentEpoch
  · by_cases hc : currentEpoch = prevEpoch
    · rw [h1 ht hc] at h
      exact attestWith_length _ _ _ _ _ _ _ _ p p1 h
    · rw [h2 ht hc] at h
      exact attestWith_length _ _ _ _ _ _ _ _ p p1 h
  · by_cases hc : currentEpoch = prevEpoch
    · rw [h3 ht hc] at h
      cases h
      exact ⟨rfl, rfl⟩
    · rw [h4 ht hc] at h
      exact attestWith_length _ _ _ _ _ _ _ _ p p1 h

theorem replayBlock_length (lib : Lib) (r : HistoricalStatesReader) (randaoMixes : HashVector)
    (currentActiveIndicies previousActiveIndicies : List Nat) (prevEpoch currentEpoch : Nat)
    (ret : BeaconState) :
    ∀ (atts : List Attestation) (p p1 : Participation),
      replayBlock lib r randaoMixes currentActiveIndicies previousActiveIndicies prevEpoch
        currentEpoch ret atts p = .ok p1 →
      p1.currentIdxs.length = p.currentIdxs.length
        ∧ p1.previousIdxs.length = p.previousIdxs.length := by
  intro atts
  induction atts with
  | nil =>
    intro p p1 h
    unfold replayBlock at h
    cases h
    exact ⟨rfl, rfl⟩
  | cons attestation more ih =>
    intro p p1 h
    unfold replayBlock at h
    cases ha : replayAttestation lib r randaoMixes currentActiveIndicies previousActiveIndicies
        prevEpoch currentEpoch ret attestation p with
    | error e => rw [ha] at h; cases h
    | ok p2 =>
      rw [ha] at h
      simp only [] at h
      have h1 := replayAttestation_length _ _ _ _ _ _ _ _ _ p p2 ha
      have h2 := ih p2 p1 h
      exact ⟨h2.1.trans h1.1, h2.2.trans h1.2⟩

theorem replaySlots_length (lib : Lib) (r : HistoricalStatesReader) (randaoMixes : HashVector)
    (currentActiveIndicies previousActiveIndicies : List Nat) (prevEpoch : Nat) :
    ∀ (slots : List Nat) (ret ret1 : BeaconState) (p p1 : Participation),
      replaySlots lib r randaoMixes currentActiveIndicies previousActiveIndicies prevEpoch
        slots ret p = .ok (ret1, p1) →
      p1.currentIdxs.length = p.currentIdxs.length
        ∧ p1.previousIdxs.length = p.previousIdxs.length := by
  intro slots
  induction slots with
  | nil =>
    intro ret ret1 p p1 h
    unfold replaySlots at h
    cases h
    exact ⟨rfl, rfl⟩
  | cons i more ih =>
    intro ret ret1 p p1 h
    unfold replaySlots at h
    cases hb : r.blockReader i with
    | error e => rw [hb] at h; cases h
    | ok ob =>
      cases ob with
      | none =>
        rw [hb] at h
        exact ih ret ret1 p p1 h
      | some block =>
        rw [hb] at h
        simp only [] at h
        cases hr : replayBlock lib r randaoMixes currentActiveIndicies previousActiveIndicies
            prevEpoch (i / r.cfg.SlotsPerEpoch) { ret with Slot := i } block.Attestations p with
        | error e => rw [hr] at h; cases h
        | ok p2 =>
          rw [hr] at h
          simp only [] at h
          have h1 := replayBlock_length _ _ _ _ _ _ _ _ _ p p2 hr
          have h2 := ih _ ret1 p2 p1 h
          exact ⟨h2.1.trans h1.1, h2.2.trans h1.2⟩

/-- C14: whenever `readPartecipations` succeeds, both lists it returns have length
exactly `validatorLength`, for every slot, every block reader and every pair of
active sets: the replay changes bytes in place. -/
theorem C14_participation_lengths (lib : Lib) (r : HistoricalStatesReader)
    (slot validatorLength : Nat) (currentActiveIndicies previousActiveIndicies : List Nat)
    (ret ret1 : BeaconState) (currentIdxs previousIdxs : List Nat)
    (h : readPartecipations lib r slot validatorLength currentActiveIndicies
      previousActiveIndicies ret = .ok (ret1, currentIdxs, previousIdxs)) :
    currentIdxs.length = validatorLength ∧ previousIdxs.length = validatorLength := by
  unfold readPartecipations at h
  split at h
  · cases h
  · simp only [] at h
    split at h
    · cases h
    · rename_i ret2 p hrun
      cases h
      have := replaySlots_length _ _ _ _ _ _ _ _ _ _ _ hrun
      simpa using this

/-- C14, at slot 70 of the example chain with three validators, the current active
set `[0, 1]` and the previous active set `[2]`: the replay of the blocks at slots
40 and 66 leaves two lists of length 3. -/
theorem C14_participation_lengths_witness :
    readPartecipations exLib exReaderAtt 70 3 [0, 1] [2] exGenesis
        = .ok ({ exGenesis with Slot := 66 }, [1, 1, 0], [0, 0, 1])
      ∧ [1, 1, 0].length = 3 ∧ [0, 0, 1].length = 3 :=
  ⟨by rfl,
    C14_participation_lengths exLib exReaderAtt 70 3 [0, 1] [2] exGenesis
      { exGenesis with Slot := 66 } [1, 1, 0] [0, 0, 1] (by rfl)⟩

/-! ## Cursor failures -/

/-- C15, the code at failing inputs: with two diffs under the keys 2048 and 2050, a
`Seek` that fails makes `reconstructDiffedUint64List` and `reconstructBalances`
return the bare dump `[1, 2]` and a `Next` that fails makes them return `[1, 2, 5]`,
both without error, where the healthy store gives `[1, 2, 5, 6]`; with roots under
the keys 0, 1, 2 a failing `Seek` or `Next` makes `readHistoryHashVector` return,
without error, a vector with zero hashes and genesis roots in place of table roots;
so does `readRandaoMixes` at slot 65.  The same failing `Seek` is returned as an
error by `reconstructUint64ListDump` and `readEth1DataVotes`. -/
theorem C15_cursor_errors_dropped :
    (exFaulty [(2048, [5]), (2050, [6])] 0).stepErr 0 = some (.ext 9)
    ∧ (exFaulty [(2048, [5]), (2050, [6])] 1).stepErr 1 = some (.ext 9)
    ∧ reconstructDiffedUint64List exLib exReader (exTxOf [(2048, [5]), (2050, [6])]) 2050
        Table.ValidatorEffectiveBalance "effective_balances" = .ok [1, 2, 5, 6]
    ∧ reconstructDiffedUint64List exLib exReader (exTxFaulty [(2048, [5]), (2050, [6])] 0) 2050
        Table.ValidatorEffectiveBalance "effective_balances" = .ok [1, 2]
    ∧ reconstructDiffedUint64List exLib exReader (exTxFaulty [(2048, [5]), (2050, [6])] 1) 2050
        Table.ValidatorEffectiveBalance "effective_balances" = .ok [1, 2, 5]
    ∧ reconstructBalances exLib exReader (exTxOf [(2048, [5]), (2050, [6])]) 2050
        Table.ValidatorBalance = .ok [1, 2, 5, 6]
    ∧ reconstructBalances exLib exReader (exTxFaulty [(2048, [5]), (2050, [6])] 0) 2050
        Table.ValidatorBalance = .ok [1, 2]
    ∧ reconstructBalances exLib exReader (exTxFaulty [(2048, [5]), (2050, [6])] 1) 2050
        Table.ValidatorBalance = .ok [1, 2, 5]
    ∧ readHistoryHashVector exReader (exTxOf [(0, exHash 1), (1, exHash 2), (2, exHash 3)])
        exGenesis.BlockRoots 2 4 Table.BlockRoot (NewHashVector 4)
        = .ok [exHash 1, exHash 2, exHash 12, exHash 13]
    ∧ readHistoryHashVector exReader (exTxFaulty [(0, exHash 1), (1, exHash 2), (2, exHash 3)] 0)
        exGenesis.BlockRoots 2 4 Table.BlockRoot (NewHashVector 4)
        = .ok [zeroHash, exHash 11, exHash 12, zeroHash]
    ∧ readHistoryHashVector exReader (exTxFaulty [(0, exHash 1), (1, exHash 2), (2, exHash 3)] 1)
        exGenesis.BlockRoots 2 4 Table.BlockRoot (NewHashVector 4)
        = .ok [exHash 1, exHash 11, exHash 12, zeroHash]
    ∧ readRandaoMixes exReader (exTxOf [(0, exHash 1), (32, exHash 2), (65, exHash 4)]) 65
        (NewHashVector 4) = .ok [exHash 1, exHash 2, exHash 4, exHash 33]
    ∧ readRandaoMixes exReader (exTxFaulty [(0, exHash 1), (32, exHash 2), (65, exHash 4)] 0) 65
        (NewHashVector 4) = .ok [zeroHash, exHash 31, exHash 4, zeroHash]
    ∧ readRandaoMixes exReader (exTxFaulty [(0, exHash 1), (32, exHash 2), (65, exHash 4)] 1) 65
        (NewHashVector 4) = .ok [exHash 1, exHash 31, exHash 4, zeroHash]
    ∧ reconstructUint64ListDump exLib (exTxFaulty [(2048, [5]), (2050, [6])] 0) 2050
        Table.ValidatorSlashings 1 (exLib.DecodeUint64Vector 2) = .error (.ext 9)
    ∧ readEth1DataVotes exLib exReader (exTxFaulty [(2048, [5]), (2050, [6])] 0) 4 2050
        = .error (.ext 9) := by
  refine ⟨rfl, rfl, ?_, ?_, ?_, ?_, ?_, ?_, ?_, ?_, ?_, ?_, ?_, ?_, ?_, ?_⟩ <;> rfl

/-! ## Participation: the active set of an attestation -/

theorem computeRelevantEpochs_fst (r : HistoricalStatesReader) (slot : Nat) :
    (computeRelevantEpochs r slot).1 = slot / r.cfg.SlotsPerEpoch := by
  unfold computeRelevantEpochs
  simp only []
  split <;> rfl

theorem replayedSlots_collapsed (r : HistoricalStatesReader) (slot : Nat)
    (hspe : r.cfg.SlotsPerEpoch ≠ 0) (h64 : slot < 2 ^ 64)
    (heq : (computeRelevantEpochs r slot).1 = (computeRelevantEpochs r slot).2) :
    ∀ i ∈ replayedSlots r slot, i / r.cfg.SlotsPerEpoch = (computeRelevantEpochs r slot).2 := by
  intro i hi
  unfold replayedSlots at hi
  rw [← heq, computeRelevantEpochs_fst] at hi ⊢
  have hle : slot / r.cfg.SlotsPerEpoch * r.cfg.SlotsPerEpoch ≤ slot := Nat.div_mul_le_self _ _
  have hmul : mul64 (slot / r.cfg.SlotsPerEpoch) r.cfg.SlotsPerEpoch
      = slot / r.cfg.SlotsPerEpoch * r.cfg.SlotsPerEpoch := by
    unfold mul64 u64
    exact Nat.mod_eq_of_lt (by omega)
  rw [hmul, List.mem_range'_1] at hi
  have hpos : 0 < r.cfg.SlotsPerEpoch := Nat.pos_of_ne_zero hspe
  apply Nat.le_antisymm
  · exact Nat.div_le_div_right (by omega)
  · exact (Nat.le_div_iff_mul_le hpos).mpr hi.1

theorem readPartecipations_replays (lib : Lib) (r : HistoricalStatesReader)
    (slot validatorLength : Nat) (currentActiveIndicies previousActiveIndicies : List Nat)
    (ret : BeaconState) (hspe : r.cfg.SlotsPerEpoch ≠ 0) :
    readPartecipations lib r slot validatorLength currentActiveIndicies previousActiveIndicies
        ret
      = (replaySlots lib r ret.RandaoMixes currentActiveIndicies previousActiveIndicies
          (computeRelevantEpochs r slot).2 (replayedSlots r slot) ret
          { currentIdxs := List.replicate validatorLength 0,
            previousIdxs := List.replicate validatorLength 0 }).map
          (fun x => (x.1, x.2.currentIdxs, x.2.previousIdxs)) := by
  unfold readPartecipations replayedSlots
  rw [if_neg hspe]
  simp only []
  cases replaySlots lib r ret.RandaoMixes currentActiveIndicies previousActiveIndicies
      (computeRelevantEpochs r slot).2
      (List.range' (mul64 (computeRelevantEpochs r slot).2 r.cfg.SlotsPerEpoch)
        (slot + 1 - mul64 (computeRelevantEpochs r slot).2 r.cfg.SlotsPerEpoch)) ret
      { currentIdxs := List.replicate validatorLength 0,
        previousIdxs := List.replicate validatorLength 0 } with
  | error e => rfl
  | ok x => rfl

/-- C20, as stated, fails at slot 70 of the example chain, where the two selected
epochs are 2 and 1.  The block at slot 40 is replayed and lies in epoch 1; its
attestation with target epoch 1, the epoch of the replayed slot, is replayed with
the previous active set `[2]` and not with the current one `[0, 1]`; an attestation
with target epoch 0 in that block is skipped and not replayed with the previous
active set. -/
theorem C20_counterexample :
    (computeRelevantEpochs exReaderAtt 70).1 ≠ (computeRelevantEpochs exReaderAtt 70).2
    ∧ 40 ∈ replayedSlots exReaderAtt 70
    ∧ (exAttestation 39 1).AttestantionData.Target.Epoch = 40 / exReaderAtt.cfg.SlotsPerEpoch
    ∧ replayAttestation exLib exReaderAtt exGenesis.RandaoMixes [0, 1] [2]
          (computeRelevantEpochs exReaderAtt 70).2 (40 / exReaderAtt.cfg.SlotsPerEpoch)
          { exGenesis with Slot := 40 } (exAttestation 39 1)
          { currentIdxs := [0, 0, 0], previousIdxs := [0, 0, 0] }
        = .ok { currentIdxs := [0, 0, 0], previousIdxs := [0, 0, 1] }
    ∧ attestWith exLib exReaderAtt exGenesis.RandaoMixes [2]
          (computeRelevantEpochs exReaderAtt 70).2 (40 / exReaderAtt.cfg.SlotsPerEpoch)
          { exGenesis with Slot := 40 } (exAttestation 39 1)
          { currentIdxs := [0, 0, 0], previousIdxs := [0, 0, 0] }
        = .ok { currentIdxs := [0, 0, 0], previousIdxs := [0, 0, 1] }
    ∧ attestWith exLib exReaderAtt exGenesis.RandaoMixes [0, 1]
          (computeRelevantEpochs exReaderAtt 70).2 (40 / exReaderAtt.cfg.SlotsPerEpoch)
          { exGenesis with Slot := 40 } (exAttestation 39 1)
          { currentIdxs := [0, 0, 0], previousIdxs := [0, 0, 0] }
        = .ok { currentIdxs := [0, 0, 0], previousIdxs := [1, 1, 0] }
    ∧ (exAttestation 39 0).AttestantionData.Target.Epoch ≠ 40 / exReaderAtt.cfg.SlotsPerEpoch
    ∧ replayAttestation exLib exReaderAtt exGenesis.RandaoMixes [0, 1] [2]
          (computeRelevantEpochs exReaderAtt 70).2 (40 / exReaderAtt.cfg.SlotsPerEpoch)
          { exGenesis with Slot := 40 } (exAttestation 39 0)
          { currentIdxs := [0, 0, 0], previousIdxs := [0, 0, 0] }
        = .ok { currentIdxs := [0, 0, 0], previousIdxs := [0, 0, 0] }
    ∧ attestWith exLib exReaderAtt exGenesis.RandaoMixes [2]
          (computeRelevantEpochs exReaderAtt 70).2 (40 / exReaderAtt.cfg.SlotsPerEpoch)
          { exGenesis with Slot := 40 } (exAttestation 39 0)
          { currentIdxs := [0, 0, 0], previousIdxs := [0, 0, 0] }
        = .ok { currentIdxs := [0, 0, 0], previousIdxs := [0, 0, 1] }
    ∧ replayAttestation exLib exReaderAtt exGenesis.RandaoMixes [0, 1] [2]
          (computeRelevantEpochs exReaderAtt 70).2 (40 / exReaderAtt.cfg.SlotsPerEpoch)
          { exGenesis with Slot := 40 } (exAttestation 39 1)
          { currentIdxs := [0, 0, 0], previousIdxs := [0, 0, 0] }
        ≠ attestWith exLib exReaderAtt exGenesis.RandaoMixes [0, 1]
          (computeRelevantEpochs exReaderAtt 70).2 (40 / exReaderAtt.cfg.SlotsPerEpoch)
          { exGenesis with Slot := 40 } (exAttestation 39 1)
          { currentIdxs := [0, 0, 0], previousIdxs := [0, 0, 0] }
    ∧ replayAttestation exLib exReaderAtt exGenesis.RandaoMixes [0, 1] [2]
          (computeRelevantEpochs exReaderAtt 70).2 (40 / exReaderAtt.cfg.SlotsPerEpoch)
          { exGenesis with Slot := 40 } (exAttestation 39 0)
          { currentIdxs := [0, 0, 0], previousIdxs := [0, 0, 0] }
        ≠ attestWith exLib exReaderAtt exGenesis.RandaoMixes [2]
          (computeRelevantEpochs exReaderAtt 70).2 (40 / exReaderAtt.cfg.SlotsPerEpoch)
          { exGenesis with Slot := 40 } (exAttestation 39 0)
          { currentIdxs := [0, 0, 0], previousIdxs := [0, 0, 0] } := by
  refine ⟨by decide, by decide, by decide, ?_, ?_, ?_, by decide, ?_, ?_, by decide,
    by decide⟩ <;> rfl

/-- C20: in the replay of `readPartecipations` at `slot`, for a block at the
replayed slot `i` (of epoch `i / SlotsPerEpoch`) and with `prev_epoch` the second
epoch selected by `computeRelevantEpochs`: an attestation whose target epoch is the
epoch of `i` is replayed with the previous active set when the epoch of `i` equals
`prev_epoch` and with the current active set otherwise; an attestation with any
other target epoch is skipped when the epoch of `i` equals `prev_epoch` and is
otherwise replayed with the previous active set.  When the two selected epochs are
equal, every replayed slot has `prev_epoch` as its epoch. -/
theorem C20_active_set_selection (lib : Lib) (r : HistoricalStatesReader) (slot i : Nat)
    (randaoMixes : HashVector) (currentActiveIndicies previousActiveIndicies : List Nat)
    (ret : BeaconState) (attestation : Attestation) (p : Participation) :
    (attestation.AttestantionData.Target.Epoch = i / r.cfg.SlotsPerEpoch →
      i / r.cfg.SlotsPerEpoch = (computeRelevantEpochs r slot).2 →
      replayAttestation lib r randaoMixes currentActiveIndicies previousActiveIndicies
          (computeRelevantEpochs r slot).2 (i / r.cfg.SlotsPerEpoch) ret attestation p
        = attestWith lib r randaoMixes previousActiveIndicies
            (computeRelevantEpochs r slot).2 (i / r.cfg.SlotsPerEpoch) ret attestation p)
    ∧ (attestation.AttestantionData.Target.Epoch = i / r.cfg.SlotsPerEpoch →
      i / r.cfg.SlotsPerEpoch ≠ (computeRelevantEpochs r slot).2 →
      replayAttestation lib r randaoMixes currentActiveIndicies previousActiveIndicies
          (computeRelevantEpochs r slot).2 (i / r.cfg.SlotsPerEpoch) ret attestation p
        = attestWith lib r randaoMixes currentActiveIndicies
            (computeRelevantEpochs r slot).2 (i / r.cfg.SlotsPerEpoch) ret attestation p)
    ∧ (attestation.AttestantionData.Target.Epoch ≠ i / r.cfg.SlotsPerEpoch →
      i / r.cfg.SlotsPerEpoch = (computeRelevantEpochs r slot).2 →
      replayAttestation lib r randaoMixes currentActiveIndicies previousActiveIndicies
          (computeRelevantEpochs r slot).2 (i / r.cfg.SlotsPerEpoch) ret attestation p
        = .ok p)
    ∧ (attestation.AttestantionData.Target.Epoch ≠ i / r.cfg.SlotsPerEpoch →
      i / r.cfg.SlotsPerEpoch ≠ (computeRelevantEpochs r slot).2 →
      replayAttestation lib r randaoMixes currentActiveIndicies previousActiveIndicies
          (computeRelevantEpochs r slot).2 (i / r.cfg.SlotsPerEpoch) ret attestation p
        = attestWith lib r randaoMixes previousActiveIndicies
            (computeRelevantEpochs r slot).2 (i / r.cfg.SlotsPerEpoch) ret attestation p)
    ∧ (r.cfg.SlotsPerEpoch ≠ 0 → slot < 2 ^ 64 →
      (computeRelevantEpochs r slot).1 = (computeRelevantEpochs r slot).2 →
      ∀ j ∈ replayedSlots r slot,
        j / r.cfg.SlotsPerEpoch = (computeRelevantEpochs r slot).2) := by
  obtain ⟨h1, h2, h3, h4⟩ := replayAttestation_cases lib r randaoMixes currentActiveIndicies
    previousActiveIndicies (computeRelevantEpochs r slot).2 (i / r.cfg.SlotsPerEpoch) ret
    attestation p
  exact ⟨h1, h2, h3, h4, replayedSlots_collapsed r slot⟩

/-! ## Balances: the order of the applied keys -/

theorem balancesPreambleLog_fst (lib : Lib) (b : Bucket) :
    ∀ (keys : List Nat) (cur : Bytes),
      (balancesPreambleLog lib b keys cur).1 = balancesPreamble lib b keys cur := by
  intro keys
  induction keys with
  | nil => intro cur; rfl
  | cons i more ih =>
    intro cur
    unfold balancesPreambleLog balancesPreamble
    cases b.GetOne (Encode64ToBytes4 i) with
    | error e => rfl
    | ok diff =>
      simp only []
      by_cases hd : diff.length = 0
      · rw [if_pos hd, if_pos hd]
        exact ih cur
      · rw [if_neg hd, if_neg hd]
        cases lib.ApplyCompressedSerializedUint64ListDiff cur cur diff with
        | error e => rfl
        | ok next => exact ih next

theorem balancesPreambleLog_keys (lib : Lib) (b : Bucket) :
    ∀ (keys : List Nat) (cur : Bytes),
      List.Sublist (balancesPreambleLog lib b keys cur).2 (keys.map Encode64ToBytes4)
      ∧ ∀ k ∈ (balancesPreambleLog lib b keys cur).2, ∃ v, (k, v) ∈ b.entries := by
  intro keys
  induction keys with
  | nil =>
    intro cur
    unfold balancesPreambleLog
    exact ⟨List.Sublist.slnil, fun k hk => by cases hk⟩
  | cons i more ih =>
    intro cur
    unfold balancesPreambleLog
    cases hget : b.GetOne (Encode64ToBytes4 i) with
    | error e =>
      exact ⟨List.nil_sublist _, fun k hk => by cases hk⟩
    | ok diff =>
      simp only []
      have hmem : diff.length ≠ 0 → (Encode64ToBytes4 i, diff) ∈ b.entries := by
        intro hd
        unfold Bucket.GetOne at hget
        cases hge : b.getErr (Encode64ToBytes4 i) with
        | some e => rw [hge] at hget; cases hget
        | none =>
          rw [hge] at hget
          cases hget
          apply lookupKey_mem
          intro hnil
          rw [hnil] at hd
          exact hd rfl
      by_cases hd : diff.length = 0
      · rw [if_pos hd]
        exact ⟨List.Sublist.cons _ (ih cur).1, (ih cur).2⟩
      · rw [if_neg hd]
        cases lib.ApplyCompressedSerializedUint64ListDiff cur cur diff with
        | error e =>
          simp only []
          refine ⟨?_, ?_⟩
          · rw [List.map_cons]
            exact List.Sublist.cons₂ _ (List.nil_sublist _)
          · intro k hk
            rw [List.mem_singleton] at hk
            exact ⟨diff, hk ▸ hmem hd⟩
        | ok next =>
          simp only []
          refine ⟨?_, ?_⟩
          · rw [List.map_cons]
            exact List.Sublist.cons₂ _ (ih next).1
          · intro k hk
            rw [List.mem_cons] at hk
            rcases hk with rfl | hk
            · exact ⟨diff, hmem hd⟩
            · exact (ih next).2 k hk

theorem diffScanLog_fst (lib : Lib) (slot : Nat) (stepErr : Nat → Option Err) :
    ∀ (front : List (Bytes × Bytes)) (n : Nat) (cur : Bytes),
      (diffScanLog lib slot stepErr front n cur).1 = diffScan lib slot stepErr front n cur := by
  intro front
  induction front with
  | nil => intro n cur; rfl
  | cons x rest ih =>
    intro n cur
    obtain ⟨k, v⟩ := x
    unfold diffScanLog diffScan
    cases Decode64FromBytes4 k with
    | none => rfl
    | some keySlot =>
      simp only []
      by_cases h1 : keySlot ≤ slot
      · rw [if_pos h1, if_pos h1]
        by_cases h2 : k.length ≠ 4
        · rw [if_pos h2, if_pos h2]
        · rw [if_neg h2, if_neg h2]
          by_cases h3 : keySlot > slot
          · rw [if_pos h3, if_pos h3]
          · rw [if_neg h3, if_neg h3]
            cases lib.ApplyCompressedSerializedUint64ListDiff cur cur v with
            | error e => rfl
            | ok next =>
              simp only []
              cases stepErr n with
              | some e => rfl
              | none => exact ih (n + 1) next
      · rw [if_neg h1, if_neg h1]

theorem diffScanLog_keys (lib : Lib) (slot : Nat) (stepErr : Nat → Option Err) :
    ∀ (front : List (Bytes × Bytes)) (n : Nat) (cur : Bytes),
      List.Sublist (diffScanLog lib slot stepErr front n cur).2 (front.map (fun e => e.1)) := by
  intro front
  induction front with
  | nil => intro n cur; exact List.Sublist.slnil
  | cons x rest ih =>
    intro n cur
    obtain ⟨k, v⟩ := x
    unfold diffScanLog
    cases Decode64FromBytes4 k with
    | none => exact List.nil_sublist _
    | some keySlot =>
      simp only []
      by_cases h1 : keySlot ≤ slot
      · rw [if_pos h1]
        by_cases h2 : k.length ≠ 4
        · rw [if_pos h2]; exact List.nil_sublist _
        · rw [if_neg h2]
          by_cases h3 : keySlot > slot
          · rw [if_pos h3]; exact List.nil_sublist _
          · rw [if_neg h3]
            cases lib.ApplyCompressedSerializedUint64ListDiff cur cur v with
            | error e =>
              simp only [List.map_cons]
              exact List.Sublist.cons₂ _ (List.nil_sublist _)
            | ok next =>
              simp only []
              cases stepErr n with
              | some e =>
                simp only [List.map_cons]
                exact List.Sublist.cons₂ _ (List.nil_sublist _)
              | none =>
                simp only [List.map_cons]
                exact List.Sublist.cons₂ _ (ih (n + 1) next)
      · rw [if_neg h1]; exact List.nil_sublist _

theorem reconstructBalancesLog_fst (lib : Lib) (r : HistoricalStatesReader) (tx : Tx)
    (slot : Nat) (diffBucket : Table) :
    (reconstructBalancesLog lib r tx slot diffBucket).1
      = reconstructBalances lib r tx slot diffBucket := by
  unfold reconstructBalancesLog reconstructBalances
  simp only []
  cases readDumpFile lib r (slot - slot % r.cfg.SlotsPerDump) "balances" with
  | error e => rfl
  | ok dump =>
    simp only []
    by_cases hspe : r.cfg.SlotsPerEpoch = 0
    · rw [if_pos hspe, if_pos hspe]
    · rw [if_neg hspe, if_neg hspe]
      rw [← balancesPreambleLog_fst]
      cases (balancesPreambleLog lib (tx.bucket diffBucket)
        (epochKeys (slot - slot % r.cfg.SlotsPerDump) (r.cfg.RoundSlotToEpoch slot)
          r.cfg.SlotsPerEpoch) dump).1 with
      | error e => rfl
      | ok cur =>
        simp only []
        cases (tx.bucket diffBucket).cursorErr with
        | some e => rfl
        | none =>
          simp only []
          cases (tx.bucket diffBucket).stepErr 0 with
          | some e => rfl
          | none =>
            simp only []
            exact diffScanLog_fst _ _ _ _ _ _

theorem reconstructBalancesLog_snd (lib : Lib) (r : HistoricalStatesReader) (tx : Tx)
    (slot : Nat) (diffBucket : Table) :
    ∃ pre sc,
      (reconstructBalancesLog lib r tx slot diffBucket).2 = pre ++ sc
      ∧ List.Sublist pre
          ((epochKeys (slot - slot % r.cfg.SlotsPerDump) (r.cfg.RoundSlotToEpoch slot)
            r.cfg.SlotsPerEpoch).map Encode64ToBytes4)
      ∧ (∀ k ∈ pre, ∃ v, (k, v) ∈ (tx.bucket diffBucket).entries)
      ∧ List.Sublist sc
          ((seekFrom (tx.bucket diffBucket).entries
            (Encode64ToBytes4 (r.cfg.RoundSlotToEpoch slot))).map (fun e => e.1)) := by
  have hpre := balancesPreambleLog_keys lib (tx.bucket diffBucket)
  unfold reconstructBalancesLog
  simp only []
  cases readDumpFile lib r (slot - slot % r.cfg.SlotsPerDump) "balances" with
  | error e => exact ⟨[], [], rfl, List.nil_sublist _, fun k hk => absurd hk (List.not_mem_nil k),
      List.nil_sublist _⟩
  | ok dump =>
    simp only []
    by_cases hspe : r.cfg.SlotsPerEpoch = 0
    · rw [if_pos hspe]
      exact ⟨[], [], rfl, List.nil_sublist _, fun k hk => absurd hk (List.not_mem_nil k),
      List.nil_sublist _⟩
    · rw [if_neg hspe]
      obtain ⟨h1, h2⟩ := hpre
        (epochKeys (slot - slot % r.cfg.SlotsPerDump) (r.cfg.RoundSlotToEpoch slot)
          r.cfg.SlotsPerEpoch) dump
      generalize balancesPreambleLog lib (tx.bucket diffBucket)
        (epochKeys (slot - slot % r.cfg.SlotsPerDump) (r.cfg.RoundSlotToEpoch slot)
          r.cfg.SlotsPerEpoch) dump = res at h1 h2 ⊢
      obtain ⟨res1, res2⟩ := res
      simp only [] at h1 h2 ⊢
      cases res1 with
      | error e =>
        exact ⟨res2, [], (List.append_nil _).symm, h1, h2, List.nil_sublist _⟩
      | ok cur =>
        simp only []
        cases (tx.bucket diffBucket).cursorErr with
        | some e => exact ⟨res2, [], (List.append_nil _).symm, h1, h2, List.nil_sublist _⟩
        | none =>
          simp only []
          cases (tx.bucket diffBucket).stepErr 0 with
          | some e => exact ⟨res2, [], (List.append_nil _).symm, h1, h2, List.nil_sublist _⟩
          | none =>
            simp only []
            exact ⟨res2, _, rfl, h1, h2, diffScanLog_keys _ _ _ _ _ _⟩

theorem bytesLt_irrefl : ∀ k : Bytes, bytesLt k k = false := by
  intro k
  induction k with
  | nil => rfl
  | cons a as ih =>
    unfold bytesLt
    simp [ih]

theorem encode_mod (s : Nat) : Encode64ToBytes4 (s % 2 ^ 32) = Encode64ToBytes4 s := by
  have h := (keySlot_spec (Encode64ToBytes4 s) (encode_length s)).2.2
  have hk : keySlot (Encode64ToBytes4 s) = s % 2 ^ 32 := by
    unfold keySlot
    rw [decode_encode]
    rfl
  rw [hk] at h
  exact h

theorem dump_window (slot spd : Nat) (h : Representable slot ∨ spd ∣ 2 ^ 32) :
    slot / 2 ^ 32 * 2 ^ 32 ≤ slot - slot % spd := by
  rcases h with h | h
  · unfold Representable at h
    rw [Nat.div_eq_of_lt h]
    omega
  · have h1 : slot % spd = slot % 2 ^ 32 % spd := (Nat.mod_mod_of_dvd slot h).symm
    have h2 : slot % 2 ^ 32 % spd ≤ slot % 2 ^ 32 := Nat.mod_le _ _
    have h3 := Nat.div_add_mod slot (2 ^ 32)
    have h4 : 2 ^ 32 * (slot / 2 ^ 32) = slot / 2 ^ 32 * 2 ^ 32 := Nat.mul_comm _ _
    omega

theorem epochKeys_sorted (fresh rounded spe : Nat) :
    (epochKeys fresh rounded spe).Pairwise (fun a b => a < b) := by
  unfold epochKeys
  rw [List.pairwise_map]
  by_cases hspe : spe = 0
  · subst hspe
    simp
  · have hpos : 0 < spe := Nat.pos_of_ne_zero hspe
    refine List.Pairwise.imp ?_ (List.pairwise_lt_range _)
    intro a b hab
    have : a * spe < b * spe := Nat.mul_lt_mul_of_pos_right hab hpos
    omega

theorem bytesLt_encode_window (w a b : Nat) (ha : w * 2 ^ 32 ≤ a) (hab : a < b)
    (hb : b < w * 2 ^ 32 + 2 ^ 32) :
    bytesLt (Encode64ToBytes4 a) (Encode64ToBytes4 b) = true := by
  rw [bytesLt_of_decode _ _ (encode_length a) (encode_length b) _ _ (decode_encode a)
    (decode_encode b)]
  simp only [decide_eq_true_eq]
  have e : (2 : Nat) ^ 32 = 4294967296 := by norm_num
  rw [e] at ha hb ⊢
  omega

/-- C18: on a bucket of ascending 4-byte keys, for a slot below `2 ^ 32` or a dump
period that divides `2 ^ 32`, the keys whose diffs `reconstructBalances` applies,
those of the epoch-boundary loop followed by those of the cursor loop, are in
strictly ascending key order, whatever fails on the way; so no key occurs twice in
the sequence, the key of the epoch start of `slot` occurs at most once, and every
key of the sequence is a key of the bucket.  The logged run returns what
`reconstructBalances` returns. -/
theorem C18_applied_keys_ascending (lib : Lib) (r : HistoricalStatesReader) (tx : Tx)
    (slot : Nat) (diffBucket : Table)
    (hwf : (tx.bucket diffBucket).WellFormed)
    (hwin : Representable slot ∨ r.cfg.SlotsPerDump ∣ 2 ^ 32) :
    (reconstructBalancesLog lib r tx slot diffBucket).1
        = reconstructBalances lib r tx slot diffBucket
      ∧ (reconstructBalancesLog lib r tx slot diffBucket).2.Pairwise
          (fun a b => bytesLt a b = true)
      ∧ (reconstructBalancesLog lib r tx slot diffBucket).2.Nodup
      ∧ (reconstructBalancesLog lib r tx slot diffBucket).2.countP
          (fun k => decide (k = Encode64ToBytes4 (r.cfg.RoundSlotToEpoch slot))) ≤ 1
      ∧ ∀ k ∈ (reconstructBalancesLog lib r tx slot diffBucket).2,
          ∃ v, (k, v) ∈ (tx.bucket diffBucket).entries := by
  obtain ⟨hkeys, hasc⟩ := hwf
  obtain ⟨pre, sc, hlog, hpre, hprem, hsc⟩ := reconstructBalancesLog_snd lib r tx slot diffBucket
  have hW := dump_window slot r.cfg.SlotsPerDump hwin
  have hround : r.cfg.RoundSlotToEpoch slot ≤ slot := roundSlot_le r.cfg slot
  have hslot : slot < slot / 2 ^ 32 * 2 ^ 32 + 2 ^ 32 := by
    have h3 := Nat.div_add_mod slot (2 ^ 32)
    have h4 : slot % 2 ^ 32 < 2 ^ 32 := Nat.mod_lt _ (by norm_num)
    have h5 : 2 ^ 32 * (slot / 2 ^ 32) = slot / 2 ^ 32 * 2 ^ 32 := Nat.mul_comm _ _
    omega
  -- the keys of the epoch-boundary loop ascend
  have hpreSorted : ((epochKeys (slot - slot % r.cfg.SlotsPerDump) (r.cfg.RoundSlotToEpoch slot)
      r.cfg.SlotsPerEpoch).map Encode64ToBytes4).Pairwise (fun a b => bytesLt a b = true) := by
    rw [List.pairwise_map]
    have hs := epochKeys_sorted (slot - slot % r.cfg.SlotsPerDump) (r.cfg.RoundSlotToEpoch slot)
      r.cfg.SlotsPerEpoch
    rw [List.pairwise_iff_forall_sublist] at hs ⊢
    intro a b hsub
    have hab := hs hsub
    have ha := mem_epochKeys _ _ _ a (hsub.subset (List.mem_cons_self _ _))
    have hb := mem_epochKeys _ _ _ b
      (hsub.subset (List.mem_cons_of_mem _ (List.mem_cons_self _ _)))
    exact bytesLt_encode_window (slot / 2 ^ 32) a b (by omega) hab (by omega)
  -- the keys of the cursor loop ascend
  have hsub : List.Sublist (seekFrom (tx.bucket diffBucket).entries
      (Encode64ToBytes4 (r.cfg.RoundSlotToEpoch slot))) (tx.bucket diffBucket).entries := by
    unfold seekFrom
    exact List.dropWhile_sublist _
  have hscSorted : ((seekFrom (tx.bucket diffBucket).entries
      (Encode64ToBytes4 (r.cfg.RoundSlotToEpoch slot))).map (fun e => e.1)).Pairwise
      (fun a b => bytesLt a b = true) := by
    rw [List.pairwise_map]
    exact List.Pairwise.sublist hsub hasc
  -- every key of the first loop is below every key of the second
  have hcross : ∀ a ∈ pre, ∀ b ∈ sc, bytesLt a b = true := by
    intro a ha b hb
    have ha1 := hpre.subset ha
    have hb1 := hsc.subset hb
    rw [List.mem_map] at ha1 hb1
    obtain ⟨i, hi, rfl⟩ := ha1
    obtain ⟨e, he, rfl⟩ := hb1
    have hi2 := mem_epochKeys _ _ _ i hi
    have hek : e.1.length = 4 := hkeys e (hsub.subset he)
    have hmod : r.cfg.RoundSlotToEpoch slot % 2 ^ 32 < 2 ^ 32 := Nat.mod_lt _ (by norm_num)
    rw [← encode_mod (r.cfg.RoundSlotToEpoch slot),
      seekFrom_slotKeyed _ hkeys _ hmod] at he
    have hge := sorted_dropWhile_ge (fun e : Bytes × Bytes => keySlot e.1) _ _
      (ascending_keySlot _ hkeys hasc) e he
    simp only [] at hge
    rw [bytesLt_of_decode _ _ (encode_length i) hek _ _ (decode_encode i)
      (keySlot_spec e.1 hek).2.1]
    simp only [decide_eq_true_eq]
    have e32 : (2 : Nat) ^ 32 = 4294967296 := by norm_num
    rw [e32] at hge hslot hW ⊢
    omega
  have hall : (reconstructBalancesLog lib r tx slot diffBucket).2.Pairwise
      (fun a b => bytesLt a b = true) := by
    rw [hlog, List.pairwise_append]
    exact ⟨List.Pairwise.sublist hpre hpreSorted, List.Pairwise.sublist hsc hscSorted, hcross⟩
  have hnodup : (reconstructBalancesLog lib r tx slot diffBucket).2.Nodup := by
    unfold List.Nodup
    refine List.Pairwise.imp ?_ hall
    intro a b hab heq
    rw [heq, bytesLt_irrefl] at hab
    cases hab
  refine ⟨reconstructBalancesLog_fst lib r tx slot diffBucket, hall, hnodup, ?_, ?_⟩
  · exact List.nodup_iff_count_le_one.mp hnodup _
  · intro k hk
    rw [hlog, List.mem_append] at hk
    rcases hk with hk | hk
    · exact hprem k hk
    · have hk1 := hsc.subset hk
      rw [List.mem_map] at hk1
      obtain ⟨e, he, rfl⟩ := hk1
      exact ⟨e.2, hsub.subset he⟩

/-- C18, at slot 2115 of the example chain (dump slot 2048, epoch start 2112) with
diffs under the keys 2048, 2080, 2112 and 2115: the epoch-boundary loop applies
the first two, the cursor loop the last two, each once and in ascending order. -/
theorem C18_applied_keys_ascending_witness :
    (reconstructBalancesLog exLib exReader
        (exTxOf [(2048, [5]), (2080, [6]), (2112, [7]), (2115, [8])]) 2115
        Table.ValidatorBalance
      = (.ok [1, 2, 5, 6, 7, 8],
          [Encode64ToBytes4 2048, Encode64ToBytes4 2080, Encode64ToBytes4 2112,
            Encode64ToBytes4 2115]))
    ∧ ((reconstructBalancesLog exLib exReader
          (exTxOf [(2048, [5]), (2080, [6]), (2112, [7]), (2115, [8])]) 2115
          Table.ValidatorBalance).1
        = reconstructBalances exLib exReader
            (exTxOf [(2048, [5]), (2080, [6]), (2112, [7]), (2115, [8])]) 2115
            Table.ValidatorBalance
      ∧ (reconstructBalancesLog exLib exReader
          (exTxOf [(2048, [5]), (2080, [6]), (2112, [7]), (2115, [8])]) 2115
          Table.ValidatorBalance).2.Pairwise (fun a b => bytesLt a b = true)
      ∧ (reconstructBalancesLog exLib exReader
          (exTxOf [(2048, [5]), (2080, [6]), (2112, [7]), (2115, [8])]) 2115
          Table.ValidatorBalance).2.Nodup
      ∧ (reconstructBalancesLog exLib exReader
          (exTxOf [(2048, [5]), (2080, [6]), (2112, [7]), (2115, [8])]) 2115
          Table.ValidatorBalance).2.countP
            (fun k => decide (k = Encode64ToBytes4 (exReader.cfg.RoundSlotToEpoch 2115))) ≤ 1
      ∧ ∀ k ∈ (reconstructBalancesLog exLib exReader
          (exTxOf [(2048, [5]), (2080, [6]), (2112, [7]), (2115, [8])]) 2115
          Table.ValidatorBalance).2,
          ∃ v, (k, v) ∈ ((exTxOf [(2048, [5]), (2080, [6]), (2112, [7]), (2115, [8])]).bucket
            Table.ValidatorBalance).entries) :=
  ⟨by rfl,
    C18_applied_keys_ascending exLib exReader
      (exTxOf [(2048, [5]), (2080, [6]), (2112, [7]), (2115, [8])]) 2115
      Table.ValidatorBalance (by decide) (Or.inl (by decide))⟩

/-! ## The orchestrator: what a successful run went through -/

theorem failWith_ne (x : Err) (st : BeaconState) (e : Option Err) :
    failWith x ≠ (some st, e) := by
  intro h
  unfold failWith at h
  cases h

theorem finish_inv (lib : Lib) (ret st : BeaconState) (e : Option Err)
    (h : finish lib ret = (some st, e)) : st = ret ∧ e = lib.InitBeaconState st := by
  unfold finish at h
  cases h
  exact ⟨rfl, rfl⟩

theorem replaySlots_state (lib : Lib) (r : HistoricalStatesReader) (randaoMixes : HashVector)
    (currentActiveIndicies previousActiveIndicies : List Nat) (prevEpoch : Nat) :
    ∀ (slots : List Nat) (ret ret1 : BeaconState) (p p1 : Participation),
      replaySlots lib r randaoMixes currentActiveIndicies previousActiveIndicies prevEpoch
        slots ret p = .ok (ret1, p1) →
      ∃ s, ret1 = { ret with Slot := s } := by
  intro slots
  induction slots with
  | nil =>
    intro ret ret1 p p1 h
    unfold replaySlots at h
    cases h
    exact ⟨ret.Slot, rfl⟩
  | cons i more ih =>
    intro ret ret1 p p1 h
    unfold replaySlots at h
    cases hb : r.blockReader i with
    | error e => rw [hb] at h; cases h
    | ok ob =>
      cases ob with
      | none =>
        rw [hb] at h
        exact ih ret ret1 p p1 h
      | some block =>
        rw [hb] at h
        simp only [] at h
        cases hr : replayBlock lib r randaoMixes currentActiveIndicies previousActiveIndicies
            prevEpoch (i / r.cfg.SlotsPerEpoch) { ret with Slot := i } block.Attestations p with
        | error e => rw [hr] at h; cases h
        | ok p2 =>
          rw [hr] at h
          simp only [] at h
          obtain ⟨s, hs⟩ := ih _ ret1 p2 p1 h
          exact ⟨s, hs⟩

theorem readPartecipations_state (lib : Lib) (r : HistoricalStatesReader)
    (slot validatorLength : Nat) (currentActiveIndicies previousActiveIndicies : List Nat)
    (ret ret1 : BeaconState) (currentIdxs previousIdxs : List Nat)
    (h : readPartecipations lib r slot validatorLength currentActiveIndicies
      previousActiveIndicies ret = .ok (ret1, currentIdxs, previousIdxs)) :
    ∃ s, ret1 = { ret with Slot := s } := by
  unfold readPartecipations at h
  split at h
  · cases h
  · simp only [] at h
    split at h
    · cases h
    · rename_i ret2 p hrun
      cases h
      exact replaySlots_state _ _ _ _ _ _ _ _ _ _ _ hrun

theorem readForkFields_inv (lib : Lib) (r : HistoricalStatesReader) (tx : Tx) (slot : Nat)
    (block : SignedBeaconBlock) (mbs : MinimalBeaconState) (ret st : BeaconState)
    (e : Option Err)
    (h : readForkFields lib r tx slot block mbs ret = (some st, e)) :
    e = lib.InitBeaconState st
    ∧ st.Version = ret.Version
    ∧ st.PreviousJustifiedCheckpoint = ret.PreviousJustifiedCheckpoint
    ∧ st.CurrentJustifiedCheckpoint = ret.CurrentJustifiedCheckpoint
    ∧ st.FinalizedCheckpoint = ret.FinalizedCheckpoint
    ∧ st.CurrentEpochAttestations = ret.CurrentEpochAttestations
    ∧ st.PreviousEpochAttestations = ret.PreviousEpochAttestations
    ∧ st.CurrentEpochParticipation = ret.CurrentEpochParticipation
    ∧ st.PreviousEpochParticipation = ret.PreviousEpochParticipation
    ∧ (ret.Version < AltairVersion →
        st.InactivityScores = ret.InactivityScores
        ∧ st.CurrentSyncCommittee = ret.CurrentSyncCommittee
        ∧ st.NextSyncCommittee = ret.NextSyncCommittee)
    ∧ (AltairVersion ≤ ret.Version →
        reconstructUint64ListDump lib tx slot Table.InactivityScores mbs.ValidatorLength
            (lib.DecodeUint64List r.cfg.ValidatorRegistryLimit) = .ok st.InactivityScores
        ∧ (∃ read, tx.ReadCurrentSyncCommittee (r.cfg.RoundSlotToSyncCommitteePeriod slot)
              = .ok read
            ∧ st.CurrentSyncCommittee = orGenesis read r.genesisState.CurrentSyncCommittee)
        ∧ (∃ read, tx.ReadNextSyncCommittee (r.cfg.RoundSlotToSyncCommitteePeriod slot)
              = .ok read
            ∧ st.NextSyncCommittee = orGenesis read r.genesisState.NextSyncCommittee))
    ∧ (ret.Version < BellatrixVersion →
        st.LatestExecutionPayloadHeader = ret.LatestExecutionPayloadHeader)
    ∧ (BellatrixVersion ≤ ret.Version →
        ∃ header, lib.PayloadHeader block.ExecutionPayload = .ok header
          ∧ st.LatestExecutionPayloadHeader = some header)
    ∧ (ret.Version < CapellaVersion →
        st.NextWithdrawalIndex = ret.NextWithdrawalIndex
        ∧ st.NextWithdrawalValidatorIndex = ret.NextWithdrawalValidatorIndex
        ∧ st.HistoricalSummaries = ret.HistoricalSummaries)
    ∧ (CapellaVersion ≤ ret.Version →
        st.NextWithdrawalIndex = mbs.NextWithdrawalIndex
        ∧ st.NextWithdrawalValidatorIndex = mbs.NextWithdrawalValidatorIndex
        ∧ tx.ReadHistoricalSummaries mbs.HistoricalSummariesLength
            = .ok st.HistoricalSummaries) := by
  have hAB : AltairVersion ≤ BellatrixVersion := by decide
  have hBC : BellatrixVersion ≤ CapellaVersion := by decide
  unfold readForkFields at h
  by_cases hv : ret.Version < AltairVersion
  · rw [if_pos hv] at h
    obtain ⟨rfl, rfl⟩ := finish_inv _ _ _ _ h
    refine ⟨rfl, rfl, rfl, rfl, rfl, rfl, rfl, rfl, rfl, fun _ => ⟨rfl, rfl, rfl⟩, ?_,
      fun _ => rfl, ?_, fun _ => ⟨rfl, rfl, rfl⟩, ?_⟩
    · intro h1
      exact absurd hv (Nat.not_lt.mpr h1)
    · intro h1
      exact absurd hv (Nat.not_lt.mpr (Nat.le_trans hAB h1))
    · intro h1
      exact absurd hv (Nat.not_lt.mpr (Nat.le_trans hAB (Nat.le_trans hBC h1)))
  rw [if_neg hv] at h
  cases hscores : reconstructUint64ListDump lib tx slot Table.InactivityScores
      mbs.ValidatorLength (lib.DecodeUint64List r.cfg.ValidatorRegistryLimit) with
  | error x => rw [hscores] at h; exact absurd h (failWith_ne _ _ _)
  | ok scores =>
  rw [hscores] at h
  simp only [] at h
  cases hcur : tx.ReadCurrentSyncCommittee (r.cfg.RoundSlotToSyncCommitteePeriod slot) with
  | error x => rw [hcur] at h; exact absurd h (failWith_ne _ _ _)
  | ok currentRead =>
  rw [hcur] at h
  simp only [] at h
  cases hnext : tx.ReadNextSyncCommittee (r.cfg.RoundSlotToSyncCommitteePeriod slot) with
  | error x => rw [hnext] at h; exact absurd h (failWith_ne _ _ _)
  | ok nextRead =>
  rw [hnext] at h
  simp only [] at h
  by_cases hv2 : ret.Version < BellatrixVersion
  · rw [if_pos hv2] at h
    obtain ⟨rfl, rfl⟩ := finish_inv _ _ _ _ h
    refine ⟨rfl, rfl, rfl, rfl, rfl, rfl, rfl, rfl, rfl, fun h1 => absurd h1 hv,
      fun _ => ⟨rfl, ⟨currentRead, rfl, by cases currentRead <;> rfl⟩,
        ⟨nextRead, rfl, by cases nextRead <;> rfl⟩⟩,
      fun _ => rfl, ?_, fun _ => ⟨rfl, rfl, rfl⟩, ?_⟩
    · intro h1
      exact absurd hv2 (Nat.not_lt.mpr h1)
    · intro h1
      exact absurd hv2 (Nat.not_lt.mpr (Nat.le_trans hBC h1))
  rw [if_neg hv2] at h
  cases hheader : lib.PayloadHeader block.ExecutionPayload with
  | error x => rw [hheader] at h; exact absurd h (failWith_ne _ _ _)
  | ok header =>
  rw [hheader] at h
  simp only [] at h
  by_cases hv3 : ret.Version < CapellaVersion
  · rw [if_pos hv3] at h
    obtain ⟨rfl, rfl⟩ := finish_inv _ _ _ _ h
    refine ⟨rfl, rfl, rfl, rfl, rfl, rfl, rfl, rfl, rfl, fun h1 => absurd h1 hv,
      fun _ => ⟨rfl, ⟨currentRead, rfl, by cases currentRead <;> rfl⟩,
        ⟨nextRead, rfl, by cases nextRead <;> rfl⟩⟩,
      fun h1 => absurd h1 hv2, fun _ => ⟨header, rfl, rfl⟩,
      fun _ => ⟨rfl, rfl, rfl⟩, ?_⟩
    intro h1
    exact absurd hv3 (Nat.not_lt.mpr h1)
  rw [if_neg hv3] at h
  cases hsummaries : tx.ReadHistoricalSummaries mbs.HistoricalSummariesLength with
  | error x => rw [hsummaries] at h; exact absurd h (failWith_ne _ _ _)
  | ok summaries =>
  rw [hsummaries] at h
  simp only [] at h
  obtain ⟨rfl, rfl⟩ := finish_inv _ _ _ _ h
  exact ⟨rfl, rfl, rfl, rfl, rfl, rfl, rfl, rfl, rfl,
    fun h1 => absurd h1 hv,
    fun _ => ⟨rfl, ⟨currentRead, rfl, by cases currentRead <;> rfl⟩,
        ⟨nextRead, rfl, by cases nextRead <;> rfl⟩⟩,
    fun h1 => absurd h1 hv2, fun _ => ⟨header, rfl, rfl⟩,
    fun h1 => absurd h1 hv3, fun _ => ⟨rfl, rfl, rfl⟩⟩

theorem readFinalityAndParticipation_inv (lib : Lib) (r : HistoricalStatesReader) (tx : Tx)
    (slot : Nat) (block : SignedBeaconBlock) (mbs : MinimalBeaconState)
    (currActiveIdxs prevActiveIdxs : List Nat) (ret st : BeaconState) (e : Option Err)
    (h : readFinalityAndParticipation lib r tx slot block mbs currActiveIdxs prevActiveIdxs ret
      = (some st, e)) :
    ∃ c p f ret2,
      tx.ReadCheckpoints (r.cfg.RoundSlotToEpoch slot) = .ok (c, p, f)
      ∧ readForkFields lib r tx slot block mbs ret2 = (some st, e)
      ∧ ret2.Version = ret.Version
      ∧ ret2.CurrentJustifiedCheckpoint = orGenesis c r.genesisState.CurrentJustifiedCheckpoint
      ∧ ret2.PreviousJustifiedCheckpoint
          = orGenesis p r.genesisState.PreviousJustifiedCheckpoint
      ∧ ret2.FinalizedCheckpoint = orGenesis f r.genesisState.FinalizedCheckpoint
      ∧ ret2.InactivityScores = ret.InactivityScores
      ∧ ret2.CurrentSyncCommittee = ret.CurrentSyncCommittee
      ∧ ret2.NextSyncCommittee = ret.NextSyncCommittee
      ∧ ret2.LatestExecutionPayloadHeader = ret.LatestExecutionPayloadHeader
      ∧ ret2.NextWithdrawalIndex = ret.NextWithdrawalIndex
      ∧ ret2.NextWithdrawalValidatorIndex = ret.NextWithdrawalValidatorIndex
      ∧ ret2.HistoricalSummaries = ret.HistoricalSummaries
      ∧ (ret.Version = Phase0Version →
          readPendingEpochs r tx slot mbs.CurrentEpochAttestationsLength
              mbs.PreviousEpochAttestationsLength
            = .ok (ret2.CurrentEpochAttestations, ret2.PreviousEpochAttestations)
          ∧ ret2.CurrentEpochParticipation = ret.CurrentEpochParticipation
          ∧ ret2.PreviousEpochParticipation = ret.PreviousEpochParticipation)
      ∧ (ret.Version ≠ Phase0Version →
          (∃ ret0 ret1, readPartecipations lib r slot mbs.ValidatorLength currActiveIdxs
              prevActiveIdxs ret0
            = .ok (ret1, ret2.CurrentEpochParticipation, ret2.PreviousEpochParticipation))
          ∧ ret2.CurrentEpochAttestations = ret.CurrentEpochAttestations
          ∧ ret2.PreviousEpochAttestations = ret.PreviousEpochAttestations) := by
  unfold readFinalityAndParticipation at h
  cases hck : tx.ReadCheckpoints (r.cfg.RoundSlotToEpoch slot) with
  | error x => rw [hck] at h; exact absurd h (failWith_ne _ _ _)
  | ok t =>
  obtain ⟨c, p, f⟩ := t
  rw [hck] at h
  simp only [] at h
  by_cases hv : ret.Version = Phase0Version
  · rw [if_pos hv] at h
    cases hpend : readPendingEpochs r tx slot mbs.CurrentEpochAttestationsLength
        mbs.PreviousEpochAttestationsLength with
    | error x => rw [hpend] at h; exact absurd h (failWith_ne _ _ _)
    | ok t =>
    obtain ⟨ca, pa⟩ := t
    rw [hpend] at h
    simp only [] at h
    refine ⟨c, p, f, _, rfl, h, rfl, ?_, ?_, ?_, rfl, rfl, rfl, rfl, rfl, rfl, rfl,
      fun _ => ⟨rfl, rfl, rfl⟩, fun h1 => absurd hv h1⟩
    · cases c <;> rfl
    · cases p <;> rfl
    · cases f <;> rfl
  · rw [if_neg hv] at h
    generalize hpart : readPartecipations lib r slot mbs.ValidatorLength currActiveIdxs
      prevActiveIdxs _ = x at h
    cases x with
    | error x => exact absurd h (failWith_ne _ _ _)
    | ok t =>
    obtain ⟨ret1, ci, pi⟩ := t
    simp only [] at h
    obtain ⟨s, rfl⟩ := readPartecipations_state _ _ _ _ _ _ _ _ _ _ hpart
    refine ⟨c, p, f, _, rfl, h, rfl, ?_, ?_, ?_, rfl, rfl, rfl, rfl, rfl, rfl, rfl,
      fun h1 => absurd h1 hv, fun _ => ⟨⟨_, _, hpart⟩, rfl, rfl⟩⟩
    · cases c <;> rfl
    · cases p <;> rfl
    · cases f <;> rfl

theorem readRegistry_inv (lib : Lib) (r : HistoricalStatesReader) (tx : Tx) (slot : Nat)
    (block : SignedBeaconBlock) (mbs : MinimalBeaconState) (ret st : BeaconState)
    (e : Option Err) (h : readRegistry lib r tx slot block mbs ret = (some st, e)) :
    ∃ validatorSet currActiveIdxs prevActiveIdxs ret3,
      readValidatorsForHistoricalState lib r tx slot mbs.ValidatorLength
        = .ok (validatorSet, currActiveIdxs, prevActiveIdxs)
      ∧ readFinalityAndParticipation lib r tx slot block mbs currActiveIdxs prevActiveIdxs ret3
        = (some st, e)
      ∧ AgreeOnLateFields ret3 ret := by
  unfold readRegistry at h
  cases h1 : readEth1DataVotes lib r tx mbs.Eth1DataLength slot with
  | error x => rw [h1] at h; exact absurd h (failWith_ne _ _ _)
  | ok eth1DataVotes =>
  rw [h1] at h
  simp only [] at h
  cases h2 : reconstructBalances lib r tx slot Table.ValidatorBalance with
  | error x => rw [h2] at h; exact absurd h (failWith_ne _ _ _)
  | ok balancesBytes =>
  rw [h2] at h
  simp only [] at h
  cases h3 : lib.DecodeUint64List r.cfg.ValidatorRegistryLimit balancesBytes with
  | error x => rw [h3] at h; exact absurd h (failWith_ne _ _ _)
  | ok balances =>
  rw [h3] at h
  simp only [] at h
  cases h4 : readValidatorsForHistoricalState lib r tx slot mbs.ValidatorLength with
  | error x => rw [h4] at h; exact absurd h (failWith_ne _ _ _)
  | ok t =>
  obtain ⟨validatorSet, currActiveIdxs, prevActiveIdxs⟩ := t
  rw [h4] at h
  simp only [] at h
  cases h5 : readRandaoMixes r tx slot (NewHashVector r.cfg.EpochsPerHistoricalVector) with
  | error x => rw [h5] at h; exact absurd h (failWith_ne _ _ _)
  | ok randaoMixes =>
  rw [h5] at h
  simp only [] at h
  cases h6 : reconstructUint64ListDump lib tx slot Table.ValidatorSlashings
      r.cfg.EpochsPerSlashingsVector (lib.DecodeUint64Vector r.cfg.EpochsPerSlashingsVector) with
  | error x => rw [h6] at h; exact absurd h (failWith_ne _ _ _)
  | ok slashingsVector =>
  rw [h6] at h
  simp only [] at h
  exact ⟨validatorSet, currActiveIdxs, prevActiveIdxs, _, rfl, h,
    rfl, rfl, rfl, rfl, rfl, rfl, rfl, rfl, rfl, rfl, rfl, rfl, rfl, rfl, rfl⟩

theorem readHistory_inv (lib : Lib) (r : HistoricalStatesReader) (tx : Tx) (slot : Nat)
    (block : SignedBeaconBlock) (mbs : MinimalBeaconState) (st : BeaconState)
    (e : Option Err) (h : readHistory lib r tx slot block mbs = (some st, e)) :
    ∃ validatorSet currActiveIdxs prevActiveIdxs ret3,
      readValidatorsForHistoricalState lib r tx slot mbs.ValidatorLength
        = .ok (validatorSet, currActiveIdxs, prevActiveIdxs)
      ∧ readFinalityAndParticipation lib r tx slot block mbs currActiveIdxs prevActiveIdxs ret3
        = (some st, e)
      ∧ AgreeOnLateFields ret3 { BeaconState.New with Version := mbs.Version } := by
  unfold readHistory at h
  simp only [] at h
  cases h1 : readHistoryHashVector r tx r.genesisState.BlockRoots slot
      r.cfg.SlotsPerHistoricalRoot Table.BlockRoot
      (NewHashVector r.cfg.SlotsPerHistoricalRoot) with
  | error x => rw [h1] at h; exact absurd h (failWith_ne _ _ _)
  | ok blockRoots =>
  rw [h1] at h
  simp only [] at h
  cases h2 : readHistoryHashVector r tx r.genesisState.StateRoots slot
      r.cfg.SlotsPerHistoricalRoot Table.StateRoot
      (NewHashVector r.cfg.SlotsPerHistoricalRoot) with
  | error x => rw [h2] at h; exact absurd h (failWith_ne _ _ _)
  | ok stateRoots =>
  rw [h2] at h
  simp only [] at h
  cases h3 : tx.ReadHistoricalRoots mbs.HistoricalRootsLength with
  | error x => rw [h3] at h; exact absurd h (failWith_ne _ _ _)
  | ok historicalRoots =>
  rw [h3] at h
  simp only [] at h
  obtain ⟨vs, cur, prev, ret3, hv, hfin, hagree⟩ := readRegistry_inv _ _ _ _ _ _ _ _ _ h
  exact ⟨vs, cur, prev, ret3, hv, hfin, hagree⟩

theorem ReadHistoricalState_inv (lib : Lib) (r : HistoricalStatesReader) (tx : Tx) (slot : Nat)
    (st : BeaconState) (e : Option Err) (hslot : slot ≠ 0)
    (h : ReadHistoricalState lib r tx slot = (some st, e)) :
    ∃ block mbs,
      r.blockReader slot = .ok (some block)
      ∧ tx.ReadMinimalBeaconState slot = .ok (some mbs)
      ∧ readHistory lib r tx slot block mbs = (some st, e) := by
  unfold ReadHistoricalState at h
  cases h1 : tx.GetStateProcessingProgress with
  | error x => rw [h1] at h; exact absurd h (failWith_ne _ _ _)
  | ok latestProcessedState =>
  rw [h1] at h
  simp only [] at h
  by_cases hgate : slot > latestProcessedState ∨ slot > r.validatorTable.slot
  · rw [if_pos hgate] at h
    exact absurd h (failWith_ne _ _ _)
  rw [if_neg hgate, if_neg hslot] at h
  cases h2 : r.blockReader slot with
  | error x => rw [h2] at h; exact absurd h (failWith_ne _ _ _)
  | ok ob =>
  cases ob with
  | none => rw [h2] at h; exact absurd h (failWith_ne _ _ _)
  | some block =>
  rw [h2] at h
  simp only [] at h
  cases h3 : tx.ReadMinimalBeaconState slot with
  | error x => rw [h3] at h; exact absurd h (failWith_ne _ _ _)
  | ok om =>
  cases om with
  | none => rw [h3] at h; cases h
  | some mbs =>
  rw [h3] at h
  simp only [] at h
  exact ⟨block, mbs, rfl, rfl, h⟩

/-! ## The orchestrator: genesis fallbacks -/

theorem readForkFields_fallbacks (lib : Lib) (r : HistoricalStatesReader) (tx : Tx)
    (slot : Nat) (block : SignedBeaconBlock) (mbs : MinimalBeaconState) (ret : BeaconState) :
    readForkFields lib r (withGenesisFallbacks r tx) slot block mbs ret
      = readForkFields lib r tx slot block mbs ret := by
  have e1 : ∀ a b c d, reconstructUint64ListDump lib (withGenesisFallbacks r tx) a b c d
      = reconstructUint64ListDump lib tx a b c d := fun _ _ _ _ => rfl
  unfold readForkFields
  by_cases hv : ret.Version < AltairVersion
  · rw [if_pos hv, if_pos hv]
  rw [if_neg hv, if_neg hv]
  simp only [e1]
  cases reconstructUint64ListDump lib tx slot Table.InactivityScores mbs.ValidatorLength
      (lib.DecodeUint64List r.cfg.ValidatorRegistryLimit) with
  | error x => rfl
  | ok scores =>
  simp only [withGenesisFallbacks]
  generalize r.genesisState.CurrentSyncCommittee = gc
  generalize r.genesisState.NextSyncCommittee = gn
  cases tx.ReadCurrentSyncCommittee (r.cfg.RoundSlotToSyncCommitteePeriod slot) with
  | error x => rfl
  | ok cr =>
  cases tx.ReadNextSyncCommittee (r.cfg.RoundSlotToSyncCommitteePeriod slot) with
  | error x => rfl
  | ok nr =>
  cases cr <;> cases nr <;> cases gc <;> cases gn <;> rfl

theorem readFinalityAndParticipation_fallbacks (lib : Lib) (r : HistoricalStatesReader)
    (tx : Tx) (slot : Nat) (block : SignedBeaconBlock) (mbs : MinimalBeaconState)
    (currActiveIdxs prevActiveIdxs : List Nat) (ret : BeaconState) :
    readFinalityAndParticipation lib r (withGenesisFallbacks r tx) slot block mbs
        currActiveIdxs prevActiveIdxs ret
      = readFinalityAndParticipation lib r tx slot block mbs currActiveIdxs prevActiveIdxs
          ret := by
  have e1 : ∀ a b c, readPendingEpochs r (withGenesisFallbacks r tx) a b c
      = readPendingEpochs r tx a b c := fun _ _ _ => rfl
  unfold readFinalityAndParticipation
  simp only [readForkFields_fallbacks, e1]
  simp only [withGenesisFallbacks]
  generalize r.genesisState.CurrentJustifiedCheckpoint = gc
  generalize r.genesisState.PreviousJustifiedCheckpoint = gp
  generalize r.genesisState.FinalizedCheckpoint = gf
  cases tx.ReadCheckpoints (r.cfg.RoundSlotToEpoch slot) with
  | error x => rfl
  | ok t =>
  obtain ⟨c, p, f⟩ := t
  cases c <;> cases p <;> cases f <;> cases gc <;> cases gp <;> cases gf <;> rfl

theorem readRegistry_fallbacks (lib : Lib) (r : HistoricalStatesReader) (tx : Tx) (slot : Nat)
    (block : SignedBeaconBlock) (mbs : MinimalBeaconState) (ret : BeaconState) :
    readRegistry lib r (withGenesisFallbacks r tx) slot block mbs ret
      = readRegistry lib r tx slot block mbs ret := by
  unfold readRegistry
  simp only [readFinalityAndParticipation_fallbacks]
  rfl

theorem readHistory_fallbacks (lib : Lib) (r : HistoricalStatesReader) (tx : Tx) (slot : Nat)
    (block : SignedBeaconBlock) (mbs : MinimalBeaconState) :
    readHistory lib r (withGenesisFallbacks r tx) slot block mbs
      = readHistory lib r tx slot block mbs := by
  unfold readHistory
  simp only [readRegistry_fallbacks]
  rfl

theorem ReadHistoricalState_fallbacks (lib : Lib) (r : HistoricalStatesReader) (tx : Tx)
    (slot : Nat) :
    ReadHistoricalState lib r (withGenesisFallbacks r tx) slot
      = ReadHistoricalState lib r tx slot := by
  unfold ReadHistoricalState
  simp only [readHistory_fallbacks]
  rfl

/-! ## The orchestrator: what the later forks read -/

theorem readFinalityAndParticipation_forkReads (lib : Lib) (r : HistoricalStatesReader)
    (tx : Tx) (scores : Bucket)
    (cs ns : Nat → Except Err (Option Bytes)) (hs : Nat → Except Err (List Bytes))
    (slot : Nat) (block : SignedBeaconBlock) (mbs : MinimalBeaconState)
    (hF : ∀ ret, ret.Version = mbs.Version →
      readForkFields lib r (withForkReads tx scores cs ns hs)
          slot block mbs ret
        = readForkFields lib r tx slot block mbs ret)
    (currActiveIdxs prevActiveIdxs : List Nat) (ret : BeaconState)
    (hver : ret.Version = mbs.Version) :
    readFinalityAndParticipation lib r
        (withForkReads tx scores cs ns hs) slot block mbs currActiveIdxs prevActiveIdxs ret
      = readFinalityAndParticipation lib r tx slot block mbs currActiveIdxs prevActiveIdxs
          ret := by
  have e1 : ∀ a b c, readPendingEpochs r (withForkReads tx scores cs ns hs) a b c
      = readPendingEpochs r tx a b c := fun _ _ _ => rfl
  have e3 : (withForkReads tx scores cs ns hs).ReadCheckpoints = tx.ReadCheckpoints := rfl
  unfold readFinalityAndParticipation
  simp only [e1, e3]
  cases tx.ReadCheckpoints (r.cfg.RoundSlotToEpoch slot) with
  | error x => rfl
  | ok t =>
  obtain ⟨c, p, f⟩ := t
  simp only []
  by_cases hv : ret.Version = Phase0Version
  · rw [if_pos hv, if_pos hv]
    cases readPendingEpochs r tx slot mbs.CurrentEpochAttestationsLength
        mbs.PreviousEpochAttestationsLength with
    | error x => rfl
    | ok t =>
    obtain ⟨ca, pa⟩ := t
    simp only []
    exact hF _ hver
  · rw [if_neg hv, if_neg hv]
    generalize hpart : readPartecipations lib r slot mbs.ValidatorLength currActiveIdxs
      prevActiveIdxs _ = x
    cases x with
    | error x => rfl
    | ok t =>
    obtain ⟨ret1, ci, pi⟩ := t
    simp only []
    obtain ⟨s, rfl⟩ := readPartecipations_state _ _ _ _ _ _ _ _ _ _ hpart
    exact hF _ hver

theorem readRegistry_forkReads (lib : Lib) (r : HistoricalStatesReader)
    (tx : Tx) (scores : Bucket)
    (cs ns : Nat → Except Err (Option Bytes)) (hs : Nat → Except Err (List Bytes))
    (slot : Nat) (block : SignedBeaconBlock) (mbs : MinimalBeaconState)
    (hF : ∀ ret, ret.Version = mbs.Version →
      readForkFields lib r (withForkReads tx scores cs ns hs)
          slot block mbs ret
        = readForkFields lib r tx slot block mbs ret)
    (ret : BeaconState) (hver : ret.Version = mbs.Version) :
    readRegistry lib r (withForkReads tx scores cs ns hs)
        slot block mbs ret
      = readRegistry lib r tx slot block mbs ret := by
  have e1 : ∀ a b, readEth1DataVotes lib r
      (withForkReads tx scores cs ns hs) a b = readEth1DataVotes lib r tx a b :=
    fun _ _ => rfl
  have e2 : ∀ a, reconstructBalances lib r
      (withForkReads tx scores cs ns hs) a Table.ValidatorBalance
      = reconstructBalances lib r tx a Table.ValidatorBalance := fun _ => rfl
  have e4 : ∀ a b, readValidatorsForHistoricalState lib r
      (withForkReads tx scores cs ns hs) a b = readValidatorsForHistoricalState lib r tx a b :=
    fun _ _ => rfl
  have e5 : ∀ a b, readRandaoMixes r (withForkReads tx scores cs ns hs) a b
      = readRandaoMixes r tx a b := fun _ _ => rfl
  have e6 : ∀ a c d, reconstructUint64ListDump lib
      (withForkReads tx scores cs ns hs) a Table.ValidatorSlashings c d
      = reconstructUint64ListDump lib tx a Table.ValidatorSlashings c d := fun _ _ _ => rfl
  unfold readRegistry
  simp only [e1, e2, e4, e5, e6]
  cases readEth1DataVotes lib r tx mbs.Eth1DataLength slot with
  | error x => rfl
  | ok eth1DataVotes =>
  simp only []
  cases reconstructBalances lib r tx slot Table.ValidatorBalance with
  | error x => rfl
  | ok balancesBytes =>
  simp only []
  cases lib.DecodeUint64List r.cfg.ValidatorRegistryLimit balancesBytes with
  | error x => rfl
  | ok balances =>
  simp only []
  cases readValidatorsForHistoricalState lib r tx slot mbs.ValidatorLength with
  | error x => rfl
  | ok t =>
  obtain ⟨validatorSet, currActiveIdxs, prevActiveIdxs⟩ := t
  simp only []
  cases readRandaoMixes r tx slot (NewHashVector r.cfg.EpochsPerHistoricalVector) with
  | error x => rfl
  | ok randaoMixes =>
  simp only []
  cases reconstructUint64ListDump lib tx slot Table.ValidatorSlashings
      r.cfg.EpochsPerSlashingsVector (lib.DecodeUint64Vector r.cfg.EpochsPerSlashingsVector) with
  | error x => rfl
  | ok slashingsVector =>
  simp only []
  exact readFinalityAndParticipation_forkReads lib r tx scores cs ns hs slot
    block mbs hF _ _ _ hver

theorem readHistory_forkReads (lib : Lib) (r : HistoricalStatesReader)
    (tx : Tx) (scores : Bucket)
    (cs ns : Nat → Except Err (Option Bytes)) (hs : Nat → Except Err (List Bytes))
    (slot : Nat) (block : SignedBeaconBlock) (mbs : MinimalBeaconState)
    (hF : ∀ ret, ret.Version = mbs.Version →
      readForkFields lib r (withForkReads tx scores cs ns hs)
          slot block mbs ret
        = readForkFields lib r tx slot block mbs ret) :
    readHistory lib r (withForkReads tx scores cs ns hs)
        slot block mbs
      = readHistory lib r tx slot block mbs := by
  have e1 : ∀ a b c d, readHistoryHashVector r (withForkReads tx scores cs ns hs) a b c
      Table.BlockRoot d = readHistoryHashVector r tx a b c Table.BlockRoot d :=
    fun _ _ _ _ => rfl
  have e2 : ∀ a b c d, readHistoryHashVector r (withForkReads tx scores cs ns hs) a b c
      Table.StateRoot d = readHistoryHashVector r tx a b c Table.StateRoot d :=
    fun _ _ _ _ => rfl
  have e3 : (withForkReads tx scores cs ns hs).ReadHistoricalRoots = tx.ReadHistoricalRoots :=
    rfl
  unfold readHistory
  simp only [e1, e2, e3]
  cases readHistoryHashVector r tx r.genesisState.BlockRoots slot
      r.cfg.SlotsPerHistoricalRoot Table.BlockRoot
      (NewHashVector r.cfg.SlotsPerHistoricalRoot) with
  | error x => rfl
  | ok blockRoots =>
  simp only []
  cases readHistoryHashVector r tx r.genesisState.StateRoots slot
      r.cfg.SlotsPerHistoricalRoot Table.StateRoot
      (NewHashVector r.cfg.SlotsPerHistoricalRoot) with
  | error x => rfl
  | ok stateRoots =>
  simp only []
  cases tx.ReadHistoricalRoots mbs.HistoricalRootsLength with
  | error x => rfl
  | ok historicalRoots =>
  simp only []
  exact readRegistry_forkReads lib r tx scores cs ns hs slot block mbs hF _ rfl

theorem ReadHistoricalState_forkReads (lib : Lib) (r : HistoricalStatesReader)
    (tx : Tx) (scores : Bucket)
    (cs ns : Nat → Except Err (Option Bytes)) (hs : Nat → Except Err (List Bytes))
    (slot : Nat)
    (hF : ∀ block mbs ret, tx.ReadMinimalBeaconState slot = .ok (some mbs) →
      ret.Version = mbs.Version →
      readForkFields lib r (withForkReads tx scores cs ns hs)
          slot block mbs ret
        = readForkFields lib r tx slot block mbs ret) :
    ReadHistoricalState lib r
        (withForkReads tx scores cs ns hs) slot
      = ReadHistoricalState lib r tx slot := by
  have e1 : (withForkReads tx scores cs ns hs).GetStateProcessingProgress
      = tx.GetStateProcessingProgress := rfl
  have e2 : (withForkReads tx scores cs ns hs).ReadMinimalBeaconState
      = tx.ReadMinimalBeaconState := rfl
  unfold ReadHistoricalState
  simp only [e1, e2]
  cases tx.GetStateProcessingProgress with
  | error x => rfl
  | ok latestProcessedState =>
  simp only []
  by_cases hgate : slot > latestProcessedState ∨ slot > r.validatorTable.slot
  · rw [if_pos hgate, if_pos hgate]
  rw [if_neg hgate, if_neg hgate]
  by_cases hslot : slot = 0
  · rw [if_pos hslot, if_pos hslot]
  rw [if_neg hslot, if_neg hslot]
  cases r.blockReader slot with
  | error x => rfl
  | ok ob =>
  cases ob with
  | none => rfl
  | some block =>
  simp only []
  cases hm : tx.ReadMinimalBeaconState slot with
  | error x => rfl
  | ok om =>
  cases om with
  | none => rfl
  | some mbs =>
  simp only []
  exact readHistory_forkReads lib r tx scores cs ns hs slot block mbs
    (fun ret hver => hF block mbs ret hm hver)

theorem readForkFields_forkReads_phase0 (lib : Lib) (r : HistoricalStatesReader) (tx : Tx)
    (scores : Bucket) (cs ns : Nat → Except Err (Option Bytes))
    (hs : Nat → Except Err (List Bytes)) (slot : Nat) (block : SignedBeaconBlock)
    (mbs : MinimalBeaconState) (ret : BeaconState) (hv : ret.Version < AltairVersion) :
    readForkFields lib r (withForkReads tx scores cs ns hs) slot block mbs ret
      = readForkFields lib r tx slot block mbs ret := by
  unfold readForkFields
  rw [if_pos hv, if_pos hv]

theorem readForkFields_forkReads_summaries (lib : Lib) (r : HistoricalStatesReader) (tx : Tx)
    (hs : Nat → Except Err (List Bytes)) (slot : Nat) (block : SignedBeaconBlock)
    (mbs : MinimalBeaconState) (ret : BeaconState) (hv : ret.Version < CapellaVersion) :
    readForkFields lib r
        (withForkReads tx (tx.bucket Table.InactivityScores) tx.ReadCurrentSyncCommittee
          tx.ReadNextSyncCommittee hs) slot block mbs ret
      = readForkFields lib r tx slot block mbs ret := by
  have e1 : ∀ a c d, reconstructUint64ListDump lib
      (withForkReads tx (tx.bucket Table.InactivityScores) tx.ReadCurrentSyncCommittee
        tx.ReadNextSyncCommittee hs) a Table.InactivityScores c d
      = reconstructUint64ListDump lib tx a Table.InactivityScores c d := fun _ _ _ => rfl
  have e2 : (withForkReads tx (tx.bucket Table.InactivityScores) tx.ReadCurrentSyncCommittee
      tx.ReadNextSyncCommittee hs).ReadCurrentSyncCommittee = tx.ReadCurrentSyncCommittee := rfl
  have e3 : (withForkReads tx (tx.bucket Table.InactivityScores) tx.ReadCurrentSyncCommittee
      tx.ReadNextSyncCommittee hs).ReadNextSyncCommittee = tx.ReadNextSyncCommittee := rfl
  unfold readForkFields
  simp only [e1, e2, e3]
  by_cases hv1 : ret.Version < AltairVersion
  · rw [if_pos hv1, if_pos hv1]
  rw [if_neg hv1, if_neg hv1]
  cases reconstructUint64ListDump lib tx slot Table.InactivityScores mbs.ValidatorLength
      (lib.DecodeUint64List r.cfg.ValidatorRegistryLimit) with
  | error x => rfl
  | ok scores =>
  simp only []
  cases tx.ReadCurrentSyncCommittee (r.cfg.RoundSlotToSyncCommitteePeriod slot) with
  | error x => rfl
  | ok cr =>
  simp only []
  cases tx.ReadNextSyncCommittee (r.cfg.RoundSlotToSyncCommitteePeriod slot) with
  | error x => rfl
  | ok nr =>
  simp only []
  by_cases hv2 : ret.Version < BellatrixVersion
  · rw [if_pos hv2, if_pos hv2]
  rw [if_neg hv2, if_neg hv2]
  cases lib.PayloadHeader block.ExecutionPayload with
  | error x => rfl
  | ok header =>
  simp only []
  rw [if_pos hv, if_pos hv]

/-- C16: on a run of `ReadHistoricalState` at a slot other than 0 that returns a
state, the three checkpoints of the state are those `ReadCheckpoints` gave, each
replaced by the one of the genesis state when it was nil, independently of the
other two; from Altair on the same holds of the current and the next sync
committee.  A nil read is no failure: the run returns what it returns on a store
that holds the genesis value in the place of every nil. -/
theorem C16_genesis_fallbacks (lib : Lib) (r : HistoricalStatesReader) (tx : Tx) (slot : Nat)
    (st : BeaconState) (e : Option Err) (hslot : slot ≠ 0)
    (h : ReadHistoricalState lib r tx slot = (some st, e)) :
    (∃ c p f, tx.ReadCheckpoints (r.cfg.RoundSlotToEpoch slot) = .ok (c, p, f)
        ∧ st.CurrentJustifiedCheckpoint
            = orGenesis c r.genesisState.CurrentJustifiedCheckpoint
        ∧ st.PreviousJustifiedCheckpoint
            = orGenesis p r.genesisState.PreviousJustifiedCheckpoint
        ∧ st.FinalizedCheckpoint = orGenesis f r.genesisState.FinalizedCheckpoint
        ∧ (c = none → st.CurrentJustifiedCheckpoint = r.genesisState.CurrentJustifiedCheckpoint)
        ∧ (p = none →
            st.PreviousJustifiedCheckpoint = r.genesisState.PreviousJustifiedCheckpoint)
        ∧ (f = none → st.FinalizedCheckpoint = r.genesisState.FinalizedCheckpoint))
      ∧ (AltairVersion ≤ st.Version →
          (∃ read, tx.ReadCurrentSyncCommittee (r.cfg.RoundSlotToSyncCommitteePeriod slot)
                = .ok read
              ∧ st.CurrentSyncCommittee = orGenesis read r.genesisState.CurrentSyncCommittee
              ∧ (read = none → st.CurrentSyncCommittee = r.genesisState.CurrentSyncCommittee))
          ∧ (∃ read, tx.ReadNextSyncCommittee (r.cfg.RoundSlotToSyncCommitteePeriod slot)
                = .ok read
              ∧ st.NextSyncCommittee = orGenesis read r.genesisState.NextSyncCommittee
              ∧ (read = none → st.NextSyncCommittee = r.genesisState.NextSyncCommittee)))
      ∧ ReadHistoricalState lib r (withGenesisFallbacks r tx) slot
          = ReadHistoricalState lib r tx slot := by
  obtain ⟨block, mbs, _, _, hH⟩ := ReadHistoricalState_inv lib r tx slot st e hslot h
  obtain ⟨vs, cur, prev, ret3, _, hP, _⟩ := readHistory_inv _ _ _ _ _ _ _ _ hH
  obtain ⟨c, p, f, ret2, hck, hF, hver, hc, hp, hf, _⟩ :=
    readFinalityAndParticipation_inv _ _ _ _ _ _ _ _ _ _ _ hP
  obtain ⟨_, hv, hp2, hc2, hf2, _, _, _, _, _, hA, _⟩ := readForkFields_inv _ _ _ _ _ _ _ _ _ hF
  refine ⟨⟨c, p, f, hck, hc2.trans hc, hp2.trans hp, hf2.trans hf, ?_, ?_, ?_⟩, ?_,
    ReadHistoricalState_fallbacks lib r tx slot⟩
  · intro hn
    rw [hc2, hc, hn]
    rfl
  · intro hn
    rw [hp2, hp, hn]
    rfl
  · intro hn
    rw [hf2, hf, hn]
    rfl
  · intro hAlt
    rw [hv] at hAlt
    obtain ⟨_, ⟨cr, hcr, hcs⟩, ⟨nr, hnr, hns⟩⟩ := hA hAlt
    refine ⟨⟨cr, hcr, hcs, ?_⟩, ⟨nr, hnr, hns, ?_⟩⟩
    · intro hn
      rw [hcs, hn]
      rfl
    · intro hn
      rw [hns, hn]
      rfl

/-- C16, at slot 5 of the example chain with an Altair overlay and a store that
holds no checkpoint and no sync committee: the run succeeds and the state has the
checkpoints and sync committees of the genesis state. -/
theorem C16_genesis_fallbacks_witness :
    (ReadHistoricalState exLib exReaderFinal (exTxOverlay 1 [(5, exHash 4)]) 5
        = (some (exStateAt 1), none)
      ∧ (exStateAt 1).CurrentJustifiedCheckpoint = some { Epoch := 0, BlockRoot := exHash 40 }
      ∧ (exStateAt 1).PreviousJustifiedCheckpoint = some { Epoch := 0, BlockRoot := exHash 41 }
      ∧ (exStateAt 1).FinalizedCheckpoint = some { Epoch := 0, BlockRoot := exHash 42 }
      ∧ (exStateAt 1).CurrentSyncCommittee = some [1]
      ∧ (exStateAt 1).NextSyncCommittee = some [2])
    ∧ ((∃ c p f, (exTxOverlay 1 [(5, exHash 4)]).ReadCheckpoints (exReaderFinal.cfg.RoundSlotToEpoch 5) = .ok (c, p, f)
        ∧ (exStateAt 1).CurrentJustifiedCheckpoint
            = orGenesis c exReaderFinal.genesisState.CurrentJustifiedCheckpoint
        ∧ (exStateAt 1).PreviousJustifiedCheckpoint
            = orGenesis p exReaderFinal.genesisState.PreviousJustifiedCheckpoint
        ∧ (exStateAt 1).FinalizedCheckpoint = orGenesis f exReaderFinal.genesisState.FinalizedCheckpoint
        ∧ (c = none → (exStateAt 1).CurrentJustifiedCheckpoint = exReaderFinal.genesisState.CurrentJustifiedCheckpoint)
        ∧ (p = none →
            (exStateAt 1).PreviousJustifiedCheckpoint = exReaderFinal.genesisState.PreviousJustifiedCheckpoint)
        ∧ (f = none → (exStateAt 1).FinalizedCheckpoint = exReaderFinal.genesisState.FinalizedCheckpoint))
      ∧ (AltairVersion ≤ (exStateAt 1).Version →
          (∃ read, (exTxOverlay 1 [(5, exHash 4)]).ReadCurrentSyncCommittee (exReaderFinal.cfg.RoundSlotToSyncCommitteePeriod 5)
                = .ok read
              ∧ (exStateAt 1).CurrentSyncCommittee = orGenesis read exReaderFinal.genesisState.CurrentSyncCommittee
              ∧ (read = none → (exStateAt 1).CurrentSyncCommittee = exReaderFinal.genesisState.CurrentSyncCommittee))
          ∧ (∃ read, (exTxOverlay 1 [(5, exHash 4)]).ReadNextSyncCommittee (exReaderFinal.cfg.RoundSlotToSyncCommitteePeriod 5)
                = .ok read
              ∧ (exStateAt 1).NextSyncCommittee = orGenesis read exReaderFinal.genesisState.NextSyncCommittee
              ∧ (read = none → (exStateAt 1).NextSyncCommittee = exReaderFinal.genesisState.NextSyncCommittee)))
      ∧ ReadHistoricalState exLib exReaderFinal (withGenesisFallbacks exReaderFinal (exTxOverlay 1 [(5, exHash 4)])) 5
          = ReadHistoricalState exLib exReaderFinal (exTxOverlay 1 [(5, exHash 4)]) 5) :=
  ⟨⟨by rfl, by rfl, by rfl, by rfl, by rfl, by rfl⟩,
    C16_genesis_fallbacks exLib exReaderFinal (exTxOverlay 1 [(5, exHash 4)]) 5
      (exStateAt 1) none (by decide) (by rfl)⟩

/-- C17: on a run of `ReadHistoricalState` at a slot other than 0 that returns a
state, over the overlay record of the slot: the state has the version of the
overlay and the error is that of `InitBeaconState`; for Phase0 the two lists of
pending attestations are those of `readPendingEpochs` and the participation lists
are left as `state.New` made them, for every other version the participation lists
are those of `readPartecipations` and the pending attestations are left; before
Altair the inactivity scores and sync committees are left and the result does not
depend on the InactivityScores bucket, the sync committees or the summaries of the
store; from Altair on they are read; before Bellatrix the payload header is left,
from Bellatrix on it is that of the block; before Capella the withdrawal indices
and the summaries are left and the result does not depend on the summaries of the
store; from Capella on the indices are those of the overlay and the summaries are
read. -/
theorem C17_fields_by_version (lib : Lib) (r : HistoricalStatesReader) (tx : Tx) (slot : Nat)
    (mbs : MinimalBeaconState) (st : BeaconState) (e : Option Err) (hslot : slot ≠ 0)
    (hmbs : tx.ReadMinimalBeaconState slot = .ok (some mbs))
    (h : ReadHistoricalState lib r tx slot = (some st, e)) :
    st.Version = mbs.Version
      ∧ e = lib.InitBeaconState st
      ∧ (mbs.Version = Phase0Version →
          readPendingEpochs r tx slot mbs.CurrentEpochAttestationsLength
              mbs.PreviousEpochAttestationsLength
            = .ok (st.CurrentEpochAttestations, st.PreviousEpochAttestations)
          ∧ st.CurrentEpochParticipation = BeaconState.New.CurrentEpochParticipation
          ∧ st.PreviousEpochParticipation = BeaconState.New.PreviousEpochParticipation)
      ∧ (mbs.Version ≠ Phase0Version →
          (∃ validatorSet currActiveIdxs prevActiveIdxs ret0 ret1,
            readValidatorsForHistoricalState lib r tx slot mbs.ValidatorLength
              = .ok (validatorSet, currActiveIdxs, prevActiveIdxs)
            ∧ readPartecipations lib r slot mbs.ValidatorLength currActiveIdxs prevActiveIdxs
                ret0
              = .ok (ret1, st.CurrentEpochParticipation, st.PreviousEpochParticipation))
          ∧ st.CurrentEpochAttestations = BeaconState.New.CurrentEpochAttestations
          ∧ st.PreviousEpochAttestations = BeaconState.New.PreviousEpochAttestations)
      ∧ (mbs.Version < AltairVersion →
          st.InactivityScores = BeaconState.New.InactivityScores
          ∧ st.CurrentSyncCommittee = BeaconState.New.CurrentSyncCommittee
          ∧ st.NextSyncCommittee = BeaconState.New.NextSyncCommittee
          ∧ ∀ scores cs ns hs,
              ReadHistoricalState lib r (withForkReads tx scores cs ns hs) slot
                = ReadHistoricalState lib r tx slot)
      ∧ (AltairVersion ≤ mbs.Version →
          reconstructUint64ListDump lib tx slot Table.InactivityScores mbs.ValidatorLength
              (lib.DecodeUint64List r.cfg.ValidatorRegistryLimit) = .ok st.InactivityScores
          ∧ (∃ read, tx.ReadCurrentSyncCommittee (r.cfg.RoundSlotToSyncCommitteePeriod slot)
                = .ok read
              ∧ st.CurrentSyncCommittee = orGenesis read r.genesisState.CurrentSyncCommittee)
          ∧ (∃ read, tx.ReadNextSyncCommittee (r.cfg.RoundSlotToSyncCommitteePeriod slot)
                = .ok read
              ∧ st.NextSyncCommittee = orGenesis read r.genesisState.NextSyncCommittee))
      ∧ (mbs.Version < BellatrixVersion →
          st.LatestExecutionPayloadHeader = BeaconState.New.LatestExecutionPayloadHeader)
      ∧ (BellatrixVersion ≤ mbs.Version →
          ∃ block header, r.blockReader slot = .ok (some block)
            ∧ lib.PayloadHeader block.ExecutionPayload = .ok header
            ∧ st.LatestExecutionPayloadHeader = some header)
      ∧ (mbs.Version < CapellaVersion →
          st.NextWithdrawalIndex = BeaconState.New.NextWithdrawalIndex
          ∧ st.NextWithdrawalValidatorIndex = BeaconState.New.NextWithdrawalValidatorIndex
          ∧ st.HistoricalSummaries = BeaconState.New.HistoricalSummaries
          ∧ ∀ hs,
              ReadHistoricalState lib r
                  (withForkReads tx (tx.bucket Table.InactivityScores)
                    tx.ReadCurrentSyncCommittee tx.ReadNextSyncCommittee hs) slot
                = ReadHistoricalState lib r tx slot)
      ∧ (CapellaVersion ≤ mbs.Version →
          st.NextWithdrawalIndex = mbs.NextWithdrawalIndex
          ∧ st.NextWithdrawalValidatorIndex = mbs.NextWithdrawalValidatorIndex
          ∧ tx.ReadHistoricalSummaries mbs.HistoricalSummariesLength
              = .ok st.HistoricalSummaries) := by
  have hAB : AltairVersion ≤ BellatrixVersion := by decide
  have hBC : BellatrixVersion ≤ CapellaVersion := by decide
  obtain ⟨block, mbs1, hblock, hmbs1, hH⟩ := ReadHistoricalState_inv lib r tx slot st e hslot h
  rw [hmbs] at hmbs1
  cases hmbs1
  obtain ⟨vs, cur, prev, ret3, hvs, hP, hver3, _, _, _, hca3, hpa3, hcp3, hpp3, his3, hcs3,
    hns3, hph3, hwi3, hwv3, hhs3⟩ := readHistory_inv _ _ _ _ _ _ _ _ hH
  obtain ⟨c, p, f, ret2, hck, hF, hver2, _, _, _, his2, hcs2, hns2, hph2, hwi2, hwv2, hhs2,
    hph0, hnph0⟩ := readFinalityAndParticipation_inv _ _ _ _ _ _ _ _ _ _ _ hP
  obtain ⟨he, hv, _, _, _, hca, hpa, hcp, hpp, hltA, hgeA, hltB, hgeB, hltC, hgeC⟩ :=
    readForkFields_inv _ _ _ _ _ _ _ _ _ hF
  have hver : ret2.Version = mbs.Version := hver2.trans hver3
  refine ⟨hv.trans hver, he, ?_, ?_, ?_, ?_, ?_, ?_, ?_, ?_⟩
  · intro h0
    obtain ⟨h1, h2, h3⟩ := hph0 (hver3.trans h0)
    rw [hca, hpa, hcp, hpp]
    exact ⟨h1, h2.trans hcp3, h3.trans hpp3⟩
  · intro h0
    obtain ⟨⟨ret0, ret1, h1⟩, h2, h3⟩ := hnph0 (fun hx => h0 (hver3.symm.trans hx))
    rw [hca, hpa, hcp, hpp]
    exact ⟨⟨vs, cur, prev, ret0, ret1, hvs, h1⟩, h2.trans hca3, h3.trans hpa3⟩
  · intro hlt
    obtain ⟨h1, h2, h3⟩ := hltA (hver ▸ hlt)
    refine ⟨(h1.trans his2).trans his3, (h2.trans hcs2).trans hcs3,
      (h3.trans hns2).trans hns3, ?_⟩
    intro scores cs ns hs
    apply ReadHistoricalState_forkReads
    intro block1 mbs1 ret hm hret
    rw [hmbs] at hm
    cases hm
    exact readForkFields_forkReads_phase0 lib r tx scores cs ns hs slot block1 mbs ret
      (hret ▸ hlt)
  · intro hge
    exact hgeA (hver ▸ hge)
  · intro hlt
    exact ((hltB (hver ▸ hlt)).trans hph2).trans hph3
  · intro hge
    obtain ⟨header, h1, h2⟩ := hgeB (hver ▸ hge)
    exact ⟨block, header, hblock, h1, h2⟩
  · intro hlt
    obtain ⟨h1, h2, h3⟩ := hltC (hver ▸ hlt)
    refine ⟨(h1.trans hwi2).trans hwi3, (h2.trans hwv2).trans hwv3,
      (h3.trans hhs2).trans hhs3, ?_⟩
    intro hs
    apply ReadHistoricalState_forkReads
    intro block1 mbs1 ret hm hret
    rw [hmbs] at hm
    cases hm
    exact readForkFields_forkReads_summaries lib r tx hs slot block1 mbs ret (hret ▸ hlt)
  · intro hge
    exact hgeC (hver ▸ hge)

/-- C17, at slot 5 of the example chain with an Altair overlay: the run succeeds;
the state has participation lists and inactivity scores and no pending
attestation, payload header or withdrawal index. -/
theorem C17_fields_by_version_witness :
    (ReadHistoricalState exLib exReaderFinal (exTxOverlay 1 [(5, exHash 4)]) 5
        = (some (exStateAt 1), none)
      ∧ (exStateAt 1).CurrentEpochParticipation = [0, 0]
      ∧ (exStateAt 1).CurrentEpochAttestations = []
      ∧ (exStateAt 1).InactivityScores = List.replicate 16 4
      ∧ (exStateAt 1).LatestExecutionPayloadHeader = none
      ∧ (exStateAt 1).NextWithdrawalIndex = 0)
    ∧ ((exStateAt 1).Version = (exOverlay 1).Version
      ∧ none = exLib.InitBeaconState (exStateAt 1)
      ∧ ((exOverlay 1).Version = Phase0Version →
          readPendingEpochs exReaderFinal (exTxOverlay 1 [(5, exHash 4)]) 5 (exOverlay 1).CurrentEpochAttestationsLength
              (exOverlay 1).PreviousEpochAttestationsLength
            = .ok ((exStateAt 1).CurrentEpochAttestations, (exStateAt 1).PreviousEpochAttestations)
          ∧ (exStateAt 1).CurrentEpochParticipation = BeaconState.New.CurrentEpochParticipation
          ∧ (exStateAt 1).PreviousEpochParticipation = BeaconState.New.PreviousEpochParticipation)
      ∧ ((exOverlay 1).Version ≠ Phase0Version →
          (∃ validatorSet currActiveIdxs prevActiveIdxs ret0 ret1,
            readValidatorsForHistoricalState exLib exReaderFinal (exTxOverlay 1 [(5, exHash 4)]) 5 (exOverlay 1).ValidatorLength
              = .ok (validatorSet, currActiveIdxs, prevActiveIdxs)
            ∧ readPartecipations exLib exReaderFinal 5 (exOverlay 1).ValidatorLength currActiveIdxs prevActiveIdxs
                ret0
              = .ok (ret1, (exStateAt 1).CurrentEpochParticipation, (exStateAt 1).PreviousEpochParticipation))
          ∧ (exStateAt 1).CurrentEpochAttestations = BeaconState.New.CurrentEpochAttestations
          ∧ (exStateAt 1).PreviousEpochAttestations = BeaconState.New.PreviousEpochAttestations)
      ∧ ((exOverlay 1).Version < AltairVersion →
          (exStateAt 1).InactivityScores = BeaconState.New.InactivityScores
          ∧ (exStateAt 1).CurrentSyncCommittee = BeaconState.New.CurrentSyncCommittee
          ∧ (exStateAt 1).NextSyncCommittee = BeaconState.New.NextSyncCommittee
          ∧ ∀ scores cs ns hs,
              ReadHistoricalState exLib exReaderFinal (withForkReads (exTxOverlay 1 [(5, exHash 4)]) scores cs ns hs) 5
                = ReadHistoricalState exLib exReaderFinal (exTxOverlay 1 [(5, exHash 4)]) 5)
      ∧ (AltairVersion ≤ (exOverlay 1).Version →
          reconstructUint64ListDump exLib (exTxOverlay 1 [(5, exHash 4)]) 5 Table.InactivityScores (exOverlay 1).ValidatorLength
              (exLib.DecodeUint64List exReaderFinal.cfg.ValidatorRegistryLimit) = .ok (exStateAt 1).InactivityScores
          ∧ (∃ read, (exTxOverlay 1 [(5, exHash 4)]).ReadCurrentSyncCommittee (exReaderFinal.cfg.RoundSlotToSyncCommitteePeriod 5)
                = .ok read
              ∧ (exStateAt 1).CurrentSyncCommittee = orGenesis read exReaderFinal.genesisState.CurrentSyncCommittee)
          ∧ (∃ read, (exTxOverlay 1 [(5, exHash 4)]).ReadNextSyncCommittee (exReaderFinal.cfg.RoundSlotToSyncCommitteePeriod 5)
                = .ok read
              ∧ (exStateAt 1).NextSyncCommittee = orGenesis read exReaderFinal.genesisState.NextSyncCommittee))
      ∧ ((exOverlay 1).Version < BellatrixVersion →
          (exStateAt 1).LatestExecutionPayloadHeader = BeaconState.New.LatestExecutionPayloadHeader)
      ∧ (BellatrixVersion ≤ (exOverlay 1).Version →
          ∃ block header, exReaderFinal.blockReader 5 = .ok (some block)
            ∧ exLib.PayloadHeader block.ExecutionPayload = .ok header
            ∧ (exStateAt 1).LatestExecutionPayloadHeader = some header)
      ∧ ((exOverlay 1).Version < CapellaVersion →
          (exStateAt 1).NextWithdrawalIndex = BeaconState.New.NextWithdrawalIndex
          ∧ (exStateAt 1).NextWithdrawalValidatorIndex = BeaconState.New.NextWithdrawalValidatorIndex
          ∧ (exStateAt 1).HistoricalSummaries = BeaconState.New.HistoricalSummaries
          ∧ ∀ hs,
              ReadHistoricalState exLib exReaderFinal
                  (withForkReads (exTxOverlay 1 [(5, exHash 4)]) ((exTxOverlay 1 [(5, exHash 4)]).bucket Table.InactivityScores)
                    (exTxOverlay 1 [(5, exHash 4)]).ReadCurrentSyncCommittee (exTxOverlay 1 [(5, exHash 4)]).ReadNextSyncCommittee hs) 5
                = ReadHistoricalState exLib exReaderFinal (exTxOverlay 1 [(5, exHash 4)]) 5)
      ∧ (CapellaVersion ≤ (exOverlay 1).Version →
          (exStateAt 1).NextWithdrawalIndex = (exOverlay 1).NextWithdrawalIndex
          ∧ (exStateAt 1).NextWithdrawalValidatorIndex = (exOverlay 1).NextWithdrawalValidatorIndex
          ∧ (exTxOverlay 1 [(5, exHash 4)]).ReadHistoricalSummaries (exOverlay 1).HistoricalSummariesLength
              = .ok (exStateAt 1).HistoricalSummaries)) :=
  ⟨⟨by rfl, by rfl, by rfl, by rfl, by rfl, by rfl⟩,
    C17_fields_by_version exLib exReaderFinal (exTxOverlay 1 [(5, exHash 4)]) 5
      (exOverlay 1) (exStateAt 1) none (by decide) (by rfl) (by rfl)⟩

/-! ## Participation: the bits an attestation sets -/

theorem flagByte_testBit (f b : Nat) :
    (flagByte f).testBit b = true ↔ f = b ∧ b < 8 := by
  unfold flagByte
  have h256 : (256 : Nat) = 2 ^ 8 := by norm_num
  rw [h256, Nat.testBit_mod_two_pow, Nat.testBit_two_pow]
  simp
  tauto

theorem byte_testBit (x b : Nat) (hx : x < 256) (h : x.testBit b = true) : b < 8 := by
  by_contra hb
  have hlt : x < 2 ^ b :=
    Nat.lt_of_lt_of_le hx
      (by
        have h256 : (256 : Nat) = 2 ^ 8 := by norm_num
        rw [h256]
        exact Nat.pow_le_pow_right (by norm_num) (by omega))
  rw [Nat.testBit_lt_two_pow hlt] at h
  cases h

theorem HasFlag_iff (x f : Nat) : HasFlag x f = true ↔ (f < 8 → x.testBit f = true) := by
  unfold HasFlag
  rw [decide_eq_true_iff]
  constructor
  · intro h hf
    have hb := congrArg (fun y => y.testBit f) h
    simp only [Nat.testBit_and] at hb
    have hfb : (flagByte f).testBit f = true := (flagByte_testBit f f).mpr ⟨rfl, hf⟩
    rw [hfb] at hb
    simpa using hb
  · intro h
    apply Nat.eq_of_testBit_eq
    intro i
    rw [Nat.testBit_and]
    cases hfb : (flagByte f).testBit i with
    | false => simp
    | true =>
      obtain ⟨hfi, hi⟩ := (flagByte_testBit f i).mp hfb
      subst hfi
      simp [h hi]

theorem addFlag_testBit (x f b : Nat) (hx : x < 256) :
    (AddFlag x f % 256).testBit b = true ↔ (x.testBit b = true ∨ (f = b ∧ b < 8)) := by
  unfold AddFlag
  have h256 : (256 : Nat) = 2 ^ 8 := by norm_num
  rw [h256, Nat.testBit_mod_two_pow, Nat.testBit_or]
  have hfb := flagByte_testBit f b
  constructor
  · intro h
    simp only [Bool.and_eq_true, decide_eq_true_eq, Bool.or_eq_true] at h
    rcases h.2 with h1 | h1
    · exact Or.inl h1
    · exact Or.inr (hfb.mp h1)
  · intro h
    simp only [Bool.and_eq_true, decide_eq_true_eq, Bool.or_eq_true]
    rcases h with h1 | h1
    · exact ⟨byte_testBit x b hx h1, Or.inl h1⟩
    · exact ⟨h1.2, Or.inr (hfb.mpr h1)⟩

theorem flagsAt_set (l : List Nat) (idx v i : Nat) (hidx : idx < l.length) :
    flagsAt (l.set idx v) i = if i = idx then v else flagsAt l i := by
  unfold flagsAt
  rw [List.getD_eq_getElem?_getD, List.getD_eq_getElem?_getD, List.getElem?_set]
  by_cases h : idx = i
  · subst h
    simp [hidx]
  · have h2 : ¬ i = idx := fun e => h e.symm
    simp [h, h2]

theorem flagsAt_of_get (l : List Nat) (idx x : Nat) (h : l.get? idx = some x) :
    idx < l.length ∧ flagsAt l idx = x := by
  rw [List.get?_eq_getElem?] at h
  have hlt : idx < l.length := by
    by_contra hn
    rw [List.getElem?_eq_none (by omega)] at h
    cases h
  refine ⟨hlt, ?_⟩
  unfold flagsAt
  rw [List.getD_eq_getElem?_getD, h]
  rfl

theorem flagsAt_byte (l : List Nat) (hl : ∀ x ∈ l, x < 256) (i : Nat) : flagsAt l i < 256 := by
  unfold flagsAt
  rw [List.getD_eq_getElem?_getD]
  cases h : l[i]? with
  | none => simp
  | some x =>
    have := List.getElem?_mem h
    simpa using hl x this

theorem set_bytes (l : List Nat) (hl : ∀ x ∈ l, x < 256) (idx v : Nat) (hv : v < 256) :
    ∀ x ∈ l.set idx v, x < 256 := by
  intro x hx
  rcases List.mem_or_eq_of_mem_set hx with h | h
  · exact hl x h
  · rw [h]; exact hv

theorem applyFlags_bits (fl : List Nat) (toCurrent : Bool) (idx : Nat) :
    ∀ (flags : List Nat) (p p1 : Participation), p.IsBytes →
      applyFlags fl toCurrent idx flags p = .ok p1 →
      p1.IsBytes ∧ p1.unselected toCurrent = p.unselected toCurrent
        ∧ ∀ i b, (flagsAt (p1.selected toCurrent) i).testBit b = true ↔
            ((flagsAt (p.selected toCurrent) i).testBit b = true
              ∨ (i = idx ∧ b ∈ flags ∧ b ∈ fl ∧ b < 8)) := by
  intro flags
  induction flags with
  | nil =>
    intro p p1 hp h
    unfold applyFlags at h
    cases h
    refine ⟨hp, rfl, ?_⟩
    intro i b
    constructor
    · exact fun h => Or.inl h
    · rintro (h | ⟨_, h, _⟩)
      · exact h
      · exact absurd h (List.not_mem_nil b)
  | cons flagIndex more ih =>
    intro p p1 hp h
    unfold applyFlags at h
    cases hget : (if toCurrent then p.currentIdxs else p.previousIdxs).get? idx with
    | none => rw [hget] at h; cases h
    | some x =>
      rw [hget] at h
      simp only [] at h
      have hsel : (p.selected toCurrent).get? idx = some x := hget
      obtain ⟨hidx, hat⟩ := flagsAt_of_get _ _ _ hsel
      have hx : x < 256 := by
        have hm := List.get?_mem hsel
        unfold Participation.selected at hm
        cases toCurrent
        · exact hp.2 x hm
        · exact hp.1 x hm
      by_cases hskip : (!fl.contains (flagIndex % 256) || HasFlag x flagIndex) = true
      · rw [if_pos hskip] at h
        obtain ⟨hb1, hu1, hbits⟩ := ih p p1 hp h
        refine ⟨hb1, hu1, ?_⟩
        intro i b
        rw [hbits i b]
        constructor
        · rintro (h1 | ⟨h1, h2, h3, h4⟩)
          · exact Or.inl h1
          · exact Or.inr ⟨h1, List.mem_cons_of_mem _ h2, h3, h4⟩
        · rintro (h1 | ⟨h1, h2, h3, h4⟩)
          · exact Or.inl h1
          · rcases List.mem_cons.mp h2 with h5 | h5
            · subst h5
              subst h1
              left
              rw [hat]
              have hmod : b % 256 = b := Nat.mod_eq_of_lt (by omega)
              have hc : fl.contains (b % 256) = true := by
                rw [hmod]
                simpa using h3
              rw [hc] at hskip
              simp only [Bool.not_true, Bool.false_or] at hskip
              exact (HasFlag_iff x b).mp hskip h4
            · exact Or.inr ⟨h1, h5, h3, h4⟩
      · rw [if_neg hskip] at h
        have hcont : fl.contains (flagIndex % 256) = true := by
          cases hc : fl.contains (flagIndex % 256) with
          | true => rfl
          | false => rw [hc] at hskip; simp at hskip
        have hv : AddFlag x flagIndex % 256 < 256 := Nat.mod_lt _ (by norm_num)
        cases toCurrent with
        | true =>
          simp only [if_true] at h
          obtain ⟨hb1, hu1, hbits⟩ :=
            ih { p with currentIdxs := p.currentIdxs.set idx (AddFlag x flagIndex % 256) } p1
              ⟨set_bytes _ hp.1 idx _ hv, hp.2⟩ h
          refine ⟨hb1, hu1, ?_⟩
          intro i b
          rw [hbits i b]
          have hs : flagsAt (Participation.selected
              { p with currentIdxs := p.currentIdxs.set idx (AddFlag x flagIndex % 256) } true) i
              = if i = idx then AddFlag x flagIndex % 256 else flagsAt (p.selected true) i :=
            flagsAt_set p.currentIdxs idx _ i hidx
          rw [hs]
          by_cases hi : i = idx
          · subst hi
            rw [if_pos rfl, addFlag_testBit x flagIndex b hx, hat]
            constructor
            · rintro ((h1 | ⟨h1, h2⟩) | ⟨h1, h2, h3, h4⟩)
              · exact Or.inl h1
              · subst h1
                have hmod : flagIndex % 256 = flagIndex := Nat.mod_eq_of_lt (by omega)
                rw [hmod] at hcont
                exact Or.inr ⟨rfl, List.mem_cons_self _ _, by simpa using hcont, h2⟩
              · exact Or.inr ⟨h1, List.mem_cons_of_mem _ h2, h3, h4⟩
            · rintro (h1 | ⟨h1, h2, h3, h4⟩)
              · exact Or.inl (Or.inl h1)
              · rcases List.mem_cons.mp h2 with h5 | h5
                · exact Or.inl (Or.inr ⟨h5.symm, h4⟩)
                · exact Or.inr ⟨h1, h5, h3, h4⟩
          · rw [if_neg hi]
            constructor
            · rintro (h1 | ⟨h1, _⟩)
              · exact Or.inl h1
              · exact absurd h1 hi
            · rintro (h1 | ⟨h1, _⟩)
              · exact Or.inl h1
              · exact absurd h1 hi
        | false =>
          simp only [Bool.false_eq_true, if_false] at h
          obtain ⟨hb1, hu1, hbits⟩ :=
            ih { p with previousIdxs := p.previousIdxs.set idx (AddFlag x flagIndex % 256) } p1
              ⟨hp.1, set_bytes _ hp.2 idx _ hv⟩ h
          refine ⟨hb1, hu1, ?_⟩
          intro i b
          rw [hbits i b]
          have hs : flagsAt (Participation.selected
              { p with previousIdxs := p.previousIdxs.set idx (AddFlag x flagIndex % 256) }
                false) i
              = if i = idx then AddFlag x flagIndex % 256 else flagsAt (p.selected false) i :=
            flagsAt_set p.previousIdxs idx _ i hidx
          rw [hs]
          by_cases hi : i = idx
          · subst hi
            rw [if_pos rfl, addFlag_testBit x flagIndex b hx, hat]
            constructor
            · rintro ((h1 | ⟨h1, h2⟩) | ⟨h1, h2, h3, h4⟩)
              · exact Or.inl h1
              · subst h1
                have hmod : flagIndex % 256 = flagIndex := Nat.mod_eq_of_lt (by omega)
                rw [hmod] at hcont
                exact Or.inr ⟨rfl, List.mem_cons_self _ _, by simpa using hcont, h2⟩
              · exact Or.inr ⟨h1, List.mem_cons_of_mem _ h2, h3, h4⟩
            · rintro (h1 | ⟨h1, h2, h3, h4⟩)
              · exact Or.inl (Or.inl h1)
              · rcases List.mem_cons.mp h2 with h5 | h5
                · exact Or.inl (Or.inr ⟨h5.symm, h4⟩)
                · exact Or.inr ⟨h1, h5, h3, h4⟩
          · rw [if_neg hi]
            constructor
            · rintro (h1 | ⟨h1, _⟩)
              · exact Or.inl h1
              · exact absurd h1 hi
            · rintro (h1 | ⟨h1, _⟩)
              · exact Or.inl h1
              · exact absurd h1 hi

theorem applyAttesters_bits (weights : Nat) (fl : List Nat) (toCurrent : Bool) :
    ∀ (idxs : List Nat) (p p1 : Participation), p.IsBytes →
      applyAttesters weights fl toCurrent idxs p = .ok p1 →
      p1.IsBytes ∧ p1.unselected toCurrent = p.unselected toCurrent
        ∧ ∀ i b, (flagsAt (p1.selected toCurrent) i).testBit b = true ↔
            ((flagsAt (p.selected toCurrent) i).testBit b = true
              ∨ (i ∈ idxs ∧ b < weights ∧ b ∈ fl ∧ b < 8)) := by
  intro idxs
  induction idxs with
  | nil =>
    intro p p1 hp h
    unfold applyAttesters at h
    cases h
    refine ⟨hp, rfl, ?_⟩
    intro i b
    constructor
    · exact fun h => Or.inl h
    · rintro (h | ⟨h, _⟩)
      · exact h
      · exact absurd h (List.not_mem_nil i)
  | cons idx more ih =>
    intro p p1 hp h
    unfold applyAttesters at h
    cases hf : applyFlags fl toCurrent idx (List.range weights) p with
    | error e => rw [hf] at h; cases h
    | ok p2 =>
      rw [hf] at h
      simp only [] at h
      obtain ⟨hb2, hu2, hbits2⟩ := applyFlags_bits fl toCurrent idx _ p p2 hp hf
      obtain ⟨hb1, hu1, hbits1⟩ := ih p2 p1 hb2 h
      refine ⟨hb1, hu1.trans hu2, ?_⟩
      intro i b
      rw [hbits1 i b, hbits2 i b]
      constructor
      · rintro ((h1 | ⟨h1, h2, h3, h4⟩) | ⟨h1, h2, h3, h4⟩)
        · exact Or.inl h1
        · exact Or.inr ⟨h1 ▸ List.mem_cons_self _ _, List.mem_range.mp h2, h3, h4⟩
        · exact Or.inr ⟨List.mem_cons_of_mem _ h1, h2, h3, h4⟩
      · rintro (h1 | ⟨h1, h2, h3, h4⟩)
        · exact Or.inl (Or.inl h1)
        · rcases List.mem_cons.mp h1 with h5 | h5
          · exact Or.inl (Or.inr ⟨h5, List.mem_range.mpr h2, h3, h4⟩)
          · exact Or.inr ⟨h5, h2, h3, h4⟩

theorem GrowsTo_refl (p : Participation) : p.GrowsTo p :=
  ⟨fun _ _ h => h, fun _ _ h => h⟩

theorem GrowsTo_trans (p q s : Participation) (h1 : p.GrowsTo q) (h2 : q.GrowsTo s) :
    p.GrowsTo s :=
  ⟨fun i b h => h2.1 i b (h1.1 i b h), fun i b h => h2.2 i b (h1.2 i b h)⟩

theorem attestWith_bits (lib : Lib) (r : HistoricalStatesReader) (randaoMixes : HashVector)
    (activeIndicies : List Nat) (prevEpoch currentEpoch : Nat) (ret : BeaconState)
    (attestation : Attestation) (p p1 : Participation) (ai fl : List Nat)
    (hp : p.IsBytes)
    (hai : lib.attestingIndicies attestation.AttestantionData attestation.AggregationBits
      randaoMixes activeIndicies = .ok ai)
    (hfl : lib.GetAttestationParticipationFlagIndicies ret attestation.AttestantionData
      (sub64 ret.Slot attestation.AttestantionData.Slot) = .ok fl)
    (h : attestWith lib r randaoMixes activeIndicies prevEpoch currentEpoch ret attestation p
      = .ok p1) :
    p1.IsBytes
      ∧ p1.unselected (decide (attestation.AttestantionData.Target.Epoch = currentEpoch)
            && !decide (currentEpoch = prevEpoch))
          = p.unselected (decide (attestation.AttestantionData.Target.Epoch = currentEpoch)
            && !decide (currentEpoch = prevEpoch))
      ∧ ∀ i b,
          (flagsAt (p1.selected (decide (attestation.AttestantionData.Target.Epoch = currentEpoch)
            && !decide (currentEpoch = prevEpoch))) i).testBit b = true ↔
          ((flagsAt (p.selected (decide (attestation.AttestantionData.Target.Epoch = currentEpoch)
            && !decide (currentEpoch = prevEpoch))) i).testBit b = true
            ∨ (i ∈ ai ∧ b < r.cfg.ParticipationWeights.length ∧ b ∈ fl ∧ b < 8)) := by
  unfold attestWith at h
  simp only [] at h
  rw [hai] at h
  simp only [] at h
  rw [hfl] at h
  simp only [] at h
  exact applyAttesters_bits _ fl _ ai p p1 hp h

theorem bits_grow (p p1 : Participation) (toCurrent : Bool) (ai fl : List Nat) (w : Nat)
    (hu : p1.unselected toCurrent = p.unselected toCurrent)
    (hbits : ∀ i b, (flagsAt (p1.selected toCurrent) i).testBit b = true ↔
      ((flagsAt (p.selected toCurrent) i).testBit b = true
        ∨ (i ∈ ai ∧ b < w ∧ b ∈ fl ∧ b < 8))) :
    p.GrowsTo p1 ∧ (toCurrent = false → p1.currentIdxs = p.currentIdxs) := by
  cases toCurrent with
  | true =>
    refine ⟨⟨fun i b h => (hbits i b).mpr (Or.inl h), ?_⟩, fun hc => by cases hc⟩
    intro i b h
    have hu2 : p1.previousIdxs = p.previousIdxs := hu
    rw [hu2]
    exact h
  | false =>
    have hu2 : p1.currentIdxs = p.currentIdxs := hu
    refine ⟨⟨?_, fun i b h => (hbits i b).mpr (Or.inl h)⟩, fun _ => hu2⟩
    intro i b h
    rw [hu2]
    exact h

theorem attestWith_grows (lib : Lib) (r : HistoricalStatesReader) (randaoMixes : HashVector)
    (activeIndicies : List Nat) (prevEpoch currentEpoch : Nat) (ret : BeaconState)
    (attestation : Attestation) (p p1 : Participation) (hp : p.IsBytes)
    (h : attestWith lib r randaoMixes activeIndicies prevEpoch currentEpoch ret attestation p
      = .ok p1) :
    p1.IsBytes ∧ p.GrowsTo p1
      ∧ ((decide (attestation.AttestantionData.Target.Epoch = currentEpoch)
            && !decide (currentEpoch = prevEpoch)) = false →
          p1.currentIdxs = p.currentIdxs) := by
  cases hai : lib.attestingIndicies attestation.AttestantionData attestation.AggregationBits
      randaoMixes activeIndicies with
  | error e =>
    unfold attestWith at h
    simp only [] at h
    rw [hai] at h
    cases h
  | ok ai =>
    cases hfl : lib.GetAttestationParticipationFlagIndicies ret attestation.AttestantionData
        (sub64 ret.Slot attestation.AttestantionData.Slot) with
    | error e =>
      unfold attestWith at h
      simp only [] at h
      rw [hai] at h
      simp only [] at h
      rw [hfl] at h
      cases h
    | ok fl =>
      obtain ⟨hb, hu, hbits⟩ := attestWith_bits lib r randaoMixes activeIndicies prevEpoch
        currentEpoch ret attestation p p1 ai fl hp hai hfl h
      obtain ⟨hg, hc⟩ := bits_grow p p1 _ ai fl _ hu hbits
      exact ⟨hb, hg, hc⟩

theorem replayAttestation_grows (lib : Lib) (r : HistoricalStatesReader)
    (randaoMixes : HashVector) (currentActiveIndicies previousActiveIndicies : List Nat)
    (prevEpoch currentEpoch : Nat) (ret : BeaconState) (attestation : Attestation)
    (p p1 : Participation) (hp : p.IsBytes)
    (h : replayAttestation lib r randaoMixes currentActiveIndicies previousActiveIndicies
      prevEpoch currentEpoch ret attestation p = .ok p1) :
    p1.IsBytes ∧ p.GrowsTo p1
      ∧ (¬ (attestation.AttestantionData.Target.Epoch = currentEpoch
            ∧ currentEpoch ≠ prevEpoch) → p1.currentIdxs = p.currentIdxs) := by
  obtain ⟨h1, h2, h3, h4⟩ := replayAttestation_cases lib r randaoMixes currentActiveIndicies
    previousActiveIndicies prevEpoch currentEpoch ret attestation p
  by_cases ht : attestation.AttestantionData.Target.Epoch = currentEpoch
  · by_cases hc : currentEpoch = prevEpoch
    · rw [h1 ht hc] at h
      obtain ⟨hb, hg, hcur⟩ := attestWith_grows _ _ _ _ _ _ _ _ p p1 hp h
      exact ⟨hb, hg, fun _ => hcur (by simp [hc])⟩
    · rw [h2 ht hc] at h
      obtain ⟨hb, hg, _⟩ := attestWith_grows _ _ _ _ _ _ _ _ p p1 hp h
      exact ⟨hb, hg, fun hn => absurd ⟨ht, hc⟩ hn⟩
  · by_cases hc : currentEpoch = prevEpoch
    · rw [h3 ht hc] at h
      cases h
      exact ⟨hp, GrowsTo_refl p, fun _ => rfl⟩
    · rw [h4 ht hc] at h
      obtain ⟨hb, hg, hcur⟩ := attestWith_grows _ _ _ _ _ _ _ _ p p1 hp h
      exact ⟨hb, hg, fun _ => hcur (by simp [ht])⟩

theorem replayBlock_grows (lib : Lib) (r : HistoricalStatesReader) (randaoMixes : HashVector)
    (currentActiveIndicies previousActiveIndicies : List Nat) (prevEpoch currentEpoch : Nat)
    (ret : BeaconState) :
    ∀ (atts : List Attestation) (p p1 : Participation), p.IsBytes →
      replayBlock lib r randaoMixes currentActiveIndicies previousActiveIndicies prevEpoch
        currentEpoch ret atts p = .ok p1 →
      p1.IsBytes ∧ p.GrowsTo p1
        ∧ (currentEpoch = prevEpoch → p1.currentIdxs = p.currentIdxs) := by
  intro atts
  induction atts with
  | nil =>
    intro p p1 hp h
    unfold replayBlock at h
    cases h
    exact ⟨hp, GrowsTo_refl p, fun _ => rfl⟩
  | cons attestation more ih =>
    intro p p1 hp h
    unfold replayBlock at h
    cases ha : replayAttestation lib r randaoMixes currentActiveIndicies previousActiveIndicies
        prevEpoch currentEpoch ret attestation p with
    | error e => rw [ha] at h; cases h
    | ok p2 =>
      rw [ha] at h
      simp only [] at h
      obtain ⟨hb2, hg2, hc2⟩ := replayAttestation_grows _ _ _ _ _ _ _ _ _ p p2 hp ha
      obtain ⟨hb1, hg1, hc1⟩ := ih p2 p1 hb2 h
      exact ⟨hb1, GrowsTo_trans p p2 p1 hg2 hg1,
        fun hc => (hc1 hc).trans (hc2 (fun hn => hn.2 hc))⟩

theorem replaySlots_grows (lib : Lib) (r : HistoricalStatesReader) (randaoMixes : HashVector)
    (currentActiveIndicies previousActiveIndicies : List Nat) (prevEpoch : Nat) :
    ∀ (slots : List Nat) (ret ret1 : BeaconState) (p p1 : Participation), p.IsBytes →
      replaySlots lib r randaoMixes currentActiveIndicies previousActiveIndicies prevEpoch
        slots ret p = .ok (ret1, p1) →
      p1.IsBytes ∧ p.GrowsTo p1
        ∧ ((∀ i ∈ slots, i / r.cfg.SlotsPerEpoch = prevEpoch) →
            p1.currentIdxs = p.currentIdxs) := by
  intro slots
  induction slots with
  | nil =>
    intro ret ret1 p p1 hp h
    unfold replaySlots at h
    cases h
    exact ⟨hp, GrowsTo_refl p, fun _ => rfl⟩
  | cons i more ih =>
    intro ret ret1 p p1 hp h
    unfold replaySlots at h
    cases hb : r.blockReader i with
    | error e => rw [hb] at h; cases h
    | ok ob =>
      cases ob with
      | none =>
        rw [hb] at h
        obtain ⟨hb1, hg1, hc1⟩ := ih ret ret1 p p1 hp h
        exact ⟨hb1, hg1, fun hall => hc1 (fun j hj => hall j (List.mem_cons_of_mem _ hj))⟩
      | some block =>
        rw [hb] at h
        simp only [] at h
        cases hr : replayBlock lib r randaoMixes currentActiveIndicies previousActiveIndicies
            prevEpoch (i / r.cfg.SlotsPerEpoch) { ret with Slot := i } block.Attestations p with
        | error e => rw [hr] at h; cases h
        | ok p2 =>
          rw [hr] at h
          simp only [] at h
          obtain ⟨hb2, hg2, hc2⟩ := replayBlock_grows _ _ _ _ _ _ _ _ _ p p2 hp hr
          obtain ⟨hb1, hg1, hc1⟩ := ih _ ret1 p2 p1 hb2 h
          exact ⟨hb1, GrowsTo_trans p p2 p1 hg2 hg1,
            fun hall => (hc1 (fun j hj => hall j (List.mem_cons_of_mem _ hj))).trans
              (hc2 (hall i (List.mem_cons_self _ _)))⟩

/-- C21: when `readPartecipations` replays an attestation that it does not skip, in
a block of epoch `currentEpoch`, with `ai` the attesting indices computed for it and
`fl` the participation flag indices derived for it, and the two lists hold bytes:
afterwards every validator of `ai` has every flag of `fl` that is an index of
`ParticipationWeights` in the list the attestation selects (the current one when
its target epoch is `currentEpoch` and `currentEpoch` differs from `prevEpoch`, the
previous one otherwise); the other list is unchanged; a bit of the selected list is
set afterwards exactly when it was set before or it is such a flag of such a
validator, so no other bit changed and none was cleared; both lists keep their
lengths and hold bytes.  Over any run of the replay loop, every bit set at the start
is set at the end. -/
theorem C21_flags_only_grow (lib : Lib) (r : HistoricalStatesReader)
    (randaoMixes : HashVector) (currentActiveIndicies previousActiveIndicies : List Nat)
    (prevEpoch currentEpoch : Nat) (ret : BeaconState) (attestation : Attestation)
    (p p1 : Participation) (ai fl : List Nat)
    (hp : p.IsBytes)
    (hrun : attestation.AttestantionData.Target.Epoch = currentEpoch ∨ currentEpoch ≠ prevEpoch)
    (hai : lib.attestingIndicies attestation.AttestantionData attestation.AggregationBits
      randaoMixes
      (if attestation.AttestantionData.Target.Epoch = currentEpoch then
        if currentEpoch = prevEpoch then previousActiveIndicies else currentActiveIndicies
       else previousActiveIndicies) = .ok ai)
    (hfl : lib.GetAttestationParticipationFlagIndicies ret attestation.AttestantionData
      (sub64 ret.Slot attestation.AttestantionData.Slot) = .ok fl)
    (h : replayAttestation lib r randaoMixes currentActiveIndicies previousActiveIndicies
      prevEpoch currentEpoch ret attestation p = .ok p1) :
    (∀ idx ∈ ai, ∀ f ∈ fl, f < r.cfg.ParticipationWeights.length →
        HasFlag (flagsAt (p1.selected
          (decide (attestation.AttestantionData.Target.Epoch = currentEpoch)
            && !decide (currentEpoch = prevEpoch))) idx) f = true)
      ∧ p1.unselected (decide (attestation.AttestantionData.Target.Epoch = currentEpoch)
            && !decide (currentEpoch = prevEpoch))
          = p.unselected (decide (attestation.AttestantionData.Target.Epoch = currentEpoch)
            && !decide (currentEpoch = prevEpoch))
      ∧ (∀ i b,
          (flagsAt (p1.selected (decide (attestation.AttestantionData.Target.Epoch = currentEpoch)
            && !decide (currentEpoch = prevEpoch))) i).testBit b = true ↔
          ((flagsAt (p.selected (decide (attestation.AttestantionData.Target.Epoch = currentEpoch)
            && !decide (currentEpoch = prevEpoch))) i).testBit b = true
            ∨ (i ∈ ai ∧ b < r.cfg.ParticipationWeights.length ∧ b ∈ fl ∧ b < 8)))
      ∧ p1.currentIdxs.length = p.currentIdxs.length
      ∧ p1.previousIdxs.length = p.previousIdxs.length
      ∧ p1.IsBytes
      ∧ (∀ (slots : List Nat) (ret0 st : BeaconState) (p0 pEnd : Participation), p0.IsBytes →
          replaySlots lib r randaoMixes currentActiveIndicies previousActiveIndicies prevEpoch
            slots ret0 p0 = .ok (st, pEnd) → p0.GrowsTo pEnd) := by
  obtain ⟨hlen1, hlen2⟩ := replayAttestation_length _ _ _ _ _ _ _ _ _ p p1 h
  have hw : attestWith lib r randaoMixes
      (if attestation.AttestantionData.Target.Epoch = currentEpoch then
        if currentEpoch = prevEpoch then previousActiveIndicies else currentActiveIndicies
       else previousActiveIndicies) prevEpoch currentEpoch ret attestation p = .ok p1 := by
    obtain ⟨h1, h2, h3, h4⟩ := replayAttestation_cases lib r randaoMixes currentActiveIndicies
      previousActiveIndicies prevEpoch currentEpoch ret attestation p
    by_cases ht : attestation.AttestantionData.Target.Epoch = currentEpoch
    · by_cases hc : currentEpoch = prevEpoch
      · rw [if_pos ht, if_pos hc, ← h1 ht hc]; exact h
      · rw [if_pos ht, if_neg hc, ← h2 ht hc]; exact h
    · have hc : currentEpoch ≠ prevEpoch := hrun.resolve_left ht
      rw [if_neg ht, ← h4 ht hc]; exact h
  obtain ⟨hb, hu, hbits⟩ := attestWith_bits lib r randaoMixes _ prevEpoch currentEpoch ret
    attestation p p1 ai fl hp hai hfl hw
  refine ⟨?_, hu, hbits, hlen1, hlen2, hb, ?_⟩
  · intro idx hidx f hf hfw
    rw [HasFlag_iff]
    intro hf8
    exact (hbits idx f).mpr (Or.inr ⟨hidx, hfw, hf, hf8⟩)
  · intro slots ret0 st p0 pEnd hp0 hrun0
    exact (replaySlots_grows lib r randaoMixes currentActiveIndicies previousActiveIndicies
      prevEpoch slots ret0 st p0 pEnd hp0 hrun0).2.1

/-- C21, in a block of epoch 2 of the example chain with previous epoch 1: the
attestation with target epoch 2, attested by the current active set `[0, 1]` with
the derived flag 0, turns the current list `[2, 1, 4]` into `[3, 1, 4]` and leaves
the previous list `[0, 0, 7]`; validator 0 then has flag 0. -/
theorem C21_flags_only_grow_witness :
    replayAttestation exLib exReaderAtt exGenesis.RandaoMixes [0, 1] [2] 1 2
        { exGenesis with Slot := 66 } (exAttestation 65 2)
        { currentIdxs := [2, 1, 4], previousIdxs := [0, 0, 7] }
      = .ok { currentIdxs := [3, 1, 4], previousIdxs := [0, 0, 7] }
    ∧ HasFlag (flagsAt [3, 1, 4] 0) 0 = true :=
  ⟨by rfl,
    (C21_flags_only_grow exLib exReaderAtt exGenesis.RandaoMixes [0, 1] [2] 1 2
      { exGenesis with Slot := 66 } (exAttestation 65 2)
      { currentIdxs := [2, 1, 4], previousIdxs := [0, 0, 7] }
      { currentIdxs := [3, 1, 4], previousIdxs := [0, 0, 7] } [0, 1] [0]
      (by decide) (by decide) (by rfl) (by rfl) (by rfl)).1 0 (by decide) 0 (by decide)
      (by decide)⟩

/-! ## Participation: a failing attestation -/

theorem replayBlock_append (lib : Lib) (r : HistoricalStatesReader) (randaoMixes : HashVector)
    (currentActiveIndicies previousActiveIndicies : List Nat) (prevEpoch currentEpoch : Nat)
    (ret : BeaconState) (rest : List Attestation) :
    ∀ (before : List Attestation) (p p2 : Participation),
      replayBlock lib r randaoMixes currentActiveIndicies previousActiveIndicies prevEpoch
        currentEpoch ret before p = .ok p2 →
      replayBlock lib r randaoMixes currentActiveIndicies previousActiveIndicies prevEpoch
          currentEpoch ret (before ++ rest) p
        = replayBlock lib r randaoMixes currentActiveIndicies previousActiveIndicies prevEpoch
          currentEpoch ret rest p2 := by
  intro before
  induction before with
  | nil =>
    intro p p2 h
    unfold replayBlock at h
    cases h
    rfl
  | cons attestation more ih =>
    intro p p2 h
    unfold replayBlock at h
    rw [List.cons_append]
    conv => lhs; unfold replayBlock
    cases ha : replayAttestation lib r randaoMixes currentActiveIndicies previousActiveIndicies
        prevEpoch currentEpoch ret attestation p with
    | error e => rw [ha] at h; cases h
    | ok p3 =>
      rw [ha] at h
      simp only [] at h
      exact ih p3 p2 h

theorem replaySlots_append (lib : Lib) (r : HistoricalStatesReader) (randaoMixes : HashVector)
    (currentActiveIndicies previousActiveIndicies : List Nat) (prevEpoch : Nat)
    (rest : List Nat) :
    ∀ (pre : List Nat) (ret ret1 : BeaconState) (p p1 : Participation),
      replaySlots lib r randaoMixes currentActiveIndicies previousActiveIndicies prevEpoch
        pre ret p = .ok (ret1, p1) →
      replaySlots lib r randaoMixes currentActiveIndicies previousActiveIndicies prevEpoch
          (pre ++ rest) ret p
        = replaySlots lib r randaoMixes currentActiveIndicies previousActiveIndicies prevEpoch
          rest ret1 p1 := by
  intro pre
  induction pre with
  | nil =>
    intro ret ret1 p p1 h
    unfold replaySlots at h
    cases h
    rfl
  | cons i more ih =>
    intro ret ret1 p p1 h
    unfold replaySlots at h
    rw [List.cons_append]
    conv => lhs; unfold replaySlots
    cases hb : r.blockReader i with
    | error e => rw [hb] at h; cases h
    | ok ob =>
      cases ob with
      | none =>
        rw [hb] at h
        exact ih ret ret1 p p1 h
      | some block =>
        rw [hb] at h
        simp only [] at h ⊢
        cases hr : replayBlock lib r randaoMixes currentActiveIndicies previousActiveIndicies
            prevEpoch (i / r.cfg.SlotsPerEpoch) { ret with Slot := i } block.Attestations p with
        | error e => rw [hr] at h; cases h
        | ok p2 =>
          rw [hr] at h
          simp only [] at h
          exact ih _ ret1 p2 p1 h

theorem attestWith_fails (lib : Lib) (r : HistoricalStatesReader) (randaoMixes : HashVector)
    (activeIndicies : List Nat) (prevEpoch currentEpoch : Nat) (ret : BeaconState)
    (attestation : Attestation) (p : Participation) (e : Err)
    (hfail : lib.attestingIndicies attestation.AttestantionData attestation.AggregationBits
        randaoMixes activeIndicies = .error e
      ∨ ((∃ ai, lib.attestingIndicies attestation.AttestantionData attestation.AggregationBits
          randaoMixes activeIndicies = .ok ai)
        ∧ lib.GetAttestationParticipationFlagIndicies ret attestation.AttestantionData
          (sub64 ret.Slot attestation.AttestantionData.Slot) = .error e)) :
    attestWith lib r randaoMixes activeIndicies prevEpoch currentEpoch ret attestation p
      = .error e := by
  unfold attestWith
  simp only []
  rcases hfail with h1 | ⟨⟨ai, h1⟩, h2⟩
  · rw [h1]
  · rw [h1]
    simp only []
    rw [h2]

/-- C22: let the replay of `readPartecipations` at `slot` come, without failure, to
the block of the replayed slot `i` and, within it, to an attestation that is not
skipped.  If the attesting indices of that attestation cannot be computed, or they
can and its participation flag indices cannot, `readPartecipations` returns that
error, and with it no lists, whatever attestations follow in the block and whatever
the later slots hold. -/
theorem C22_replay_error_surfaces (lib : Lib) (r : HistoricalStatesReader)
    (slot validatorLength : Nat) (currentActiveIndicies previousActiveIndicies : List Nat)
    (ret ret1 : BeaconState) (pre post : List Nat) (i : Nat) (block : SignedBeaconBlock)
    (before after : List Attestation) (attestation : Attestation) (p1 p2 : Participation)
    (e : Err)
    (hspe : r.cfg.SlotsPerEpoch ≠ 0)
    (hslots : replayedSlots r slot = pre ++ i :: post)
    (hpre : replaySlots lib r ret.RandaoMixes currentActiveIndicies previousActiveIndicies
      (computeRelevantEpochs r slot).2 pre ret
      { currentIdxs := List.replicate validatorLength 0,
        previousIdxs := List.replicate validatorLength 0 } = .ok (ret1, p1))
    (hblock : r.blockReader i = .ok (some block))
    (hatts : block.Attestations = before ++ attestation :: after)
    (hbefore : replayBlock lib r ret.RandaoMixes currentActiveIndicies previousActiveIndicies
      (computeRelevantEpochs r slot).2 (i / r.cfg.SlotsPerEpoch) { ret1 with Slot := i }
      before p1 = .ok p2)
    (hrun : attestation.AttestantionData.Target.Epoch = i / r.cfg.SlotsPerEpoch
      ∨ i / r.cfg.SlotsPerEpoch ≠ (computeRelevantEpochs r slot).2)
    (hfail : lib.attestingIndicies attestation.AttestantionData attestation.AggregationBits
        ret.RandaoMixes
        (if attestation.AttestantionData.Target.Epoch = i / r.cfg.SlotsPerEpoch then
          if i / r.cfg.SlotsPerEpoch = (computeRelevantEpochs r slot).2 then
            previousActiveIndicies
          else currentActiveIndicies
         else previousActiveIndicies) = .error e
      ∨ ((∃ ai, lib.attestingIndicies attestation.AttestantionData attestation.AggregationBits
          ret.RandaoMixes
          (if attestation.AttestantionData.Target.Epoch = i / r.cfg.SlotsPerEpoch then
            if i / r.cfg.SlotsPerEpoch = (computeRelevantEpochs r slot).2 then
              previousActiveIndicies
            else currentActiveIndicies
           else previousActiveIndicies) = .ok ai)
        ∧ lib.GetAttestationParticipationFlagIndicies { ret1 with Slot := i }
            attestation.AttestantionData (sub64 i attestation.AttestantionData.Slot)
          = .error e)) :
    readPartecipations lib r slot validatorLength currentActiveIndicies previousActiveIndicies
      ret = .error e := by
  have hatt : replayAttestation lib r ret.RandaoMixes currentActiveIndicies
      previousActiveIndicies (computeRelevantEpochs r slot).2 (i / r.cfg.SlotsPerEpoch)
      { ret1 with Slot := i } attestation p2 = .error e := by
    obtain ⟨h1, h2, h3, h4⟩ := replayAttestation_cases lib r ret.RandaoMixes
      currentActiveIndicies previousActiveIndicies (computeRelevantEpochs r slot).2
      (i / r.cfg.SlotsPerEpoch) { ret1 with Slot := i } attestation p2
    by_cases ht : attestation.AttestantionData.Target.Epoch = i / r.cfg.SlotsPerEpoch
    · by_cases hc : i / r.cfg.SlotsPerEpoch = (computeRelevantEpochs r slot).2
      · rw [if_pos ht, if_pos hc] at hfail
        rw [h1 ht hc]
        exact attestWith_fails _ _ _ _ _ _ _ _ _ _ hfail
      · rw [if_pos ht, if_neg hc] at hfail
        rw [h2 ht hc]
        exact attestWith_fails _ _ _ _ _ _ _ _ _ _ hfail
    · have hc : i / r.cfg.SlotsPerEpoch ≠ (computeRelevantEpochs r slot).2 :=
        hrun.resolve_left ht
      rw [if_neg ht] at hfail
      rw [h4 ht hc]
      exact attestWith_fails _ _ _ _ _ _ _ _ _ _ hfail
  have hblk : replayBlock lib r ret.RandaoMixes currentActiveIndicies previousActiveIndicies
      (computeRelevantEpochs r slot).2 (i / r.cfg.SlotsPerEpoch) { ret1 with Slot := i }
      block.Attestations p1 = .error e := by
    rw [hatts, replayBlock_append _ _ _ _ _ _ _ _ _ before p1 p2 hbefore]
    unfold replayBlock
    rw [hatt]
  have hrest : replaySlots lib r ret.RandaoMixes currentActiveIndicies previousActiveIndicies
      (computeRelevantEpochs r slot).2 (i :: post) ret1 p1 = .error e := by
    unfold replaySlots
    rw [hblock]
    simp only []
    rw [hblk]
  rw [readPartecipations_replays lib r slot validatorLength currentActiveIndicies
    previousActiveIndicies ret hspe, hslots,
    replaySlots_append _ _ _ _ _ _ _ pre ret ret1 _ p1 hpre, hrest]
  rfl

/-- C22, at slot 70 of the example chain with a library that cannot compute the
attesting indices of the attestation made at slot 65: the replay passes the block at
slot 40, fails at the first attestation of the block at slot 66, and the error is
the result; the second attestation of that block and the slots 67 to 70 play no
part. -/
theorem C22_replay_error_surfaces_witness :
    replayedSlots exReaderAtt 70 = List.range' 32 34 ++ 66 :: [67, 68, 69, 70]
    ∧ readPartecipations exLibFailing exReaderAtt 70 3 [0, 1] [2] exGenesis
        = .error (.ext 11) :=
  ⟨by decide,
    C22_replay_error_surfaces exLibFailing exReaderAtt 70 3 [0, 1] [2] exGenesis
      { exGenesis with Slot := 40 } (List.range' 32 34) [67, 68, 69, 70] 66
      { exBlock 66 with Attestations := [exAttestation 65 2, exAttestation 63 1] }
      [] [exAttestation 63 1] (exAttestation 65 2)
      { currentIdxs := [0, 0, 0], previousIdxs := [0, 0, 1] }
      { currentIdxs := [0, 0, 0], previousIdxs := [0, 0, 1] } (.ext 11)
      (by decide) (by decide) (by rfl) (by rfl) (by rfl) (by rfl) (by decide)
      (Or.inl (by rfl))⟩

/-! ## Participation: the list an attestation writes to -/

theorem applyFlags_unselected (fl : List Nat) (toCurrent : Bool) (idx : Nat) :
    ∀ (flags : List Nat) (p p1 : Participation),
      applyFlags fl toCurrent idx flags p = .ok p1 →
      p1.unselected toCurrent = p.unselected toCurrent := by
  intro flags
  induction flags with
  | nil =>
    intro p p1 h
    unfold applyFlags at h
    cases h
    rfl
  | cons flagIndex more ih =>
    intro p p1 h
    unfold applyFlags at h
    cases hget : (if toCurrent then p.currentIdxs else p.previousIdxs).get? idx with
    | none => rw [hget] at h; cases h
    | some x =>
      rw [hget] at h
      simp only [] at h
      by_cases hskip : (!fl.contains (flagIndex % 256) || HasFlag x flagIndex) = true
      · rw [if_pos hskip] at h
        exact ih p p1 h
      · rw [if_neg hskip] at h
        cases toCurrent with
        | true =>
          simp only [if_true] at h
          exact ih { p with currentIdxs := p.currentIdxs.set idx (AddFlag x flagIndex % 256) }
            p1 h
        | false =>
          simp only [Bool.false_eq_true, if_false] at h
          exact ih { p with previousIdxs := p.previousIdxs.set idx (AddFlag x flagIndex % 256) }
            p1 h

theorem applyAttesters_unselected (weights : Nat) (fl : List Nat) (toCurrent : Bool) :
    ∀ (idxs : List Nat) (p p1 : Participation),
      applyAttesters weights fl toCurrent idxs p = .ok p1 →
      p1.unselected toCurrent = p.unselected toCurrent := by
  intro idxs
  induction idxs with
  | nil =>
    intro p p1 h
    unfold applyAttesters at h
    cases h
    rfl
  | cons idx more ih =>
    intro p p1 h
    unfold applyAttesters at h
    cases hf : applyFlags fl toCurrent idx (List.range weights) p with
    | error e => rw [hf] at h; cases h
    | ok p2 =>
      rw [hf] at h
      simp only [] at h
      exact (ih p2 p1 h).trans (applyFlags_unselected fl toCurrent idx _ p p2 hf)

theorem attestWith_unselected (lib : Lib) (r : HistoricalStatesReader)
    (randaoMixes : HashVector) (activeIndicies : List Nat) (prevEpoch currentEpoch : Nat)
    (ret : BeaconState) (attestation : Attestation) (p p1 : Participation)
    (h : attestWith lib r randaoMixes activeIndicies prevEpoch currentEpoch ret attestation p
      = .ok p1) :
    p1.unselected (decide (attestation.AttestantionData.Target.Epoch = currentEpoch)
        && !decide (currentEpoch = prevEpoch))
      = p.unselected (decide (attestation.AttestantionData.Target.Epoch = currentEpoch)
        && !decide (currentEpoch = prevEpoch)) := by
  unfold attestWith at h
  simp only [] at h
  cases hai : lib.attestingIndicies attestation.AttestantionData attestation.AggregationBits
      randaoMixes activeIndicies with
  | error e => rw [hai] at h; cases h
  | ok ai =>
    rw [hai] at h
    simp only [] at h
    cases hfl : lib.GetAttestationParticipationFlagIndicies ret attestation.AttestantionData
        (sub64 ret.Slot attestation.AttestantionData.Slot) with
    | error e => rw [hfl] at h; cases h
    | ok fl =>
      rw [hfl] at h
      simp only [] at h
      exact applyAttesters_unselected _ fl _ ai p p1 h

theorem replayAttestation_current (lib : Lib) (r : HistoricalStatesReader)
    (randaoMixes : HashVector) (currentActiveIndicies previousActiveIndicies : List Nat)
    (prevEpoch currentEpoch : Nat) (ret : BeaconState) (attestation : Attestation)
    (p p1 : Participation)
    (hn : ¬ (currentEpoch ≠ prevEpoch
      ∧ attestation.AttestantionData.Target.Epoch = currentEpoch))
    (h : replayAttestation lib r randaoMixes currentActiveIndicies previousActiveIndicies
      prevEpoch currentEpoch ret attestation p = .ok p1) :
    p1.currentIdxs = p.currentIdxs := by
  obtain ⟨h1, h2, h3, h4⟩ := replayAttestation_cases lib r randaoMixes currentActiveIndicies
    previousActiveIndicies prevEpoch currentEpoch ret attestation p
  by_cases ht : attestation.AttestantionData.Target.Epoch = currentEpoch
  · by_cases hc : currentEpoch = prevEpoch
    · rw [h1 ht hc] at h
      have hu := attestWith_unselected _ _ _ _ _ _ _ _ p p1 h
      have hsel : (decide (attestation.AttestantionData.Target.Epoch = currentEpoch)
          && !decide (currentEpoch = prevEpoch)) = false := by simp [hc]
      rw [hsel] at hu
      exact hu
    · exact absurd ⟨hc, ht⟩ hn
  · by_cases hc : currentEpoch = prevEpoch
    · rw [h3 ht hc] at h
      cases h
      rfl
    · rw [h4 ht hc] at h
      have hu := attestWith_unselected _ _ _ _ _ _ _ _ p p1 h
      have hsel : (decide (attestation.AttestantionData.Target.Epoch = currentEpoch)
          && !decide (currentEpoch = prevEpoch)) = false := by simp [ht]
      rw [hsel] at hu
      exact hu

theorem replayBlock_current (lib : Lib) (r : HistoricalStatesReader) (randaoMixes : HashVector)
    (currentActiveIndicies previousActiveIndicies : List Nat) (prevEpoch currentEpoch : Nat)
    (ret : BeaconState) (hc : currentEpoch = prevEpoch) :
    ∀ (atts : List Attestation) (p p1 : Participation),
      replayBlock lib r randaoMixes currentActiveIndicies previousActiveIndicies prevEpoch
        currentEpoch ret atts p = .ok p1 →
      p1.currentIdxs = p.currentIdxs := by
  intro atts
  induction atts with
  | nil =>
    intro p p1 h
    unfold replayBlock at h
    cases h
    rfl
  | cons attestation more ih =>
    intro p p1 h
    unfold replayBlock at h
    cases ha : replayAttestation lib r randaoMixes currentActiveIndicies previousActiveIndicies
        prevEpoch currentEpoch ret attestation p with
    | error e => rw [ha] at h; cases h
    | ok p2 =>
      rw [ha] at h
      simp only [] at h
      exact (ih p2 p1 h).trans
        (replayAttestation_current _ _ _ _ _ _ _ _ _ p p2 (fun hn => hn.1 hc) ha)

theorem replaySlots_current (lib : Lib) (r : HistoricalStatesReader) (randaoMixes : HashVector)
    (currentActiveIndicies previousActiveIndicies : List Nat) (prevEpoch : Nat) :
    ∀ (slots : List Nat) (ret ret1 : BeaconState) (p p1 : Participation),
      (∀ i ∈ slots, i / r.cfg.SlotsPerEpoch = prevEpoch) →
      replaySlots lib r randaoMixes currentActiveIndicies previousActiveIndicies prevEpoch
        slots ret p = .ok (ret1, p1) →
      p1.currentIdxs = p.currentIdxs := by
  intro slots
  induction slots with
  | nil =>
    intro ret ret1 p p1 _ h
    unfold replaySlots at h
    cases h
    rfl
  | cons i more ih =>
    intro ret ret1 p p1 hall h
    have hmore : ∀ j ∈ more, j / r.cfg.SlotsPerEpoch = prevEpoch :=
      fun j hj => hall j (List.mem_cons_of_mem _ hj)
    unfold replaySlots at h
    cases hb : r.blockReader i with
    | error e => rw [hb] at h; cases h
    | ok ob =>
      cases ob with
      | none =>
        rw [hb] at h
        exact ih ret ret1 p p1 hmore h
      | some block =>
        rw [hb] at h
        simp only [] at h
        cases hr : replayBlock lib r randaoMixes currentActiveIndicies previousActiveIndicies
            prevEpoch (i / r.cfg.SlotsPerEpoch) { ret with Slot := i } block.Attestations p with
        | error e => rw [hr] at h; cases h
        | ok p2 =>
          rw [hr] at h
          simp only [] at h
          exact (ih _ ret1 p2 p1 hmore h).trans
            (replayBlock_current _ _ _ _ _ _ _ _ (hall i (List.mem_cons_self _ _)) _ p p2 hr)

/-- C27: an attestation replayed by `readPartecipations` leaves the current list as
it was unless the epoch of its block differs from `prevEpoch` and its target epoch
is the epoch of its block.  Hence, when `computeRelevantEpochs` returns two equal
epochs for a 64-bit `slot` and `readPartecipations` succeeds, the current list it
returns is all zeros; every replayed slot then lies in `prevEpoch`, so that every
attestation replayed selects the previous list for its flags. -/
theorem C27_current_list_untouched (lib : Lib) (r : HistoricalStatesReader)
    (slot validatorLength : Nat) (currentActiveIndicies previousActiveIndicies : List Nat)
    (ret ret1 : BeaconState) (currentIdxs previousIdxs : List Nat)
    (h64 : slot < 2 ^ 64)
    (heq : (computeRelevantEpochs r slot).1 = (computeRelevantEpochs r slot).2)
    (h : readPartecipations lib r slot validatorLength currentActiveIndicies
      previousActiveIndicies ret = .ok (ret1, currentIdxs, previousIdxs)) :
    currentIdxs = List.replicate validatorLength 0
      ∧ (∀ i ∈ replayedSlots r slot, ∀ attestation : Attestation,
          (decide (attestation.AttestantionData.Target.Epoch = i / r.cfg.SlotsPerEpoch)
            && !decide (i / r.cfg.SlotsPerEpoch = (computeRelevantEpochs r slot).2)) = false)
      ∧ (∀ (randaoMixes : HashVector) (prevEpoch currentEpoch : Nat) (st : BeaconState)
          (attestation : Attestation) (p p1 : Participation),
          ¬ (currentEpoch ≠ prevEpoch
            ∧ attestation.AttestantionData.Target.Epoch = currentEpoch) →
          replayAttestation lib r randaoMixes currentActiveIndicies previousActiveIndicies
            prevEpoch currentEpoch st attestation p = .ok p1 →
          p1.currentIdxs = p.currentIdxs) := by
  have hspe : r.cfg.SlotsPerEpoch ≠ 0 := by
    intro h0
    unfold readPartecipations at h
    rw [if_pos h0] at h
    cases h
  have hall := replayedSlots_collapsed r slot hspe h64 heq
  refine ⟨?_, ?_, ?_⟩
  · rw [readPartecipations_replays lib r slot validatorLength currentActiveIndicies
      previousActiveIndicies ret hspe] at h
    cases hrun : replaySlots lib r ret.RandaoMixes currentActiveIndicies previousActiveIndicies
        (computeRelevantEpochs r slot).2 (replayedSlots r slot) ret
        { currentIdxs := List.replicate validatorLength 0,
          previousIdxs := List.replicate validatorLength 0 } with
    | error e => rw [hrun] at h; cases h
    | ok x =>
      obtain ⟨st, pEnd⟩ := x
      rw [hrun] at h
      cases h
      exact replaySlots_current _ _ _ _ _ _ _ _ _ _ _ hall hrun
  · intro i hi attestation
    simp [hall i hi]
  · intro randaoMixes prevEpoch currentEpoch st attestation p p1 hn hrun
    exact replayAttestation_current _ _ _ _ _ _ _ _ _ p p1 hn hrun

/-- C27, at slot 45 of the example chain, whose genesis state is of Phase 0 and
whose Altair fork epoch is 1: the two epochs are both 1, the attestation of target
epoch 1 in the block at slot 40 is recorded in the previous list, and the current
list is all zeros. -/
theorem C27_current_list_untouched_witness :
    computeRelevantEpochs exReaderAtt 45 = (1, 1)
    ∧ readPartecipations exLib exReaderAtt 45 3 [0, 1] [2] exGenesis
        = .ok ({ exGenesis with Slot := 40 }, [0, 0, 0], [0, 0, 1])
    ∧ [0, 0, 0] = List.replicate 3 0 :=
  ⟨by decide, by rfl,
    (C27_current_list_untouched exLib exReaderAtt 45 3 [0, 1] [2] exGenesis
      { exGenesis with Slot := 40 } [0, 0, 0] [0, 0, 1] (by decide) (by decide) (by rfl)).1⟩

/-! ## Validators: the visit of the static table -/

theorem getD_set_zero (out : List Validator) (idx j : Nat) (c : Validator)
    (hidx : idx < out.length) :
    (out.set idx c).getD j Validator.zero
      = if j = idx then c else out.getD j Validator.zero := by
  rw [List.getD_eq_getElem?_getD, List.getD_eq_getElem?_getD, List.getElem?_set]
  by_cases h : idx = j
  · subst h
    simp [hidx]
  · have h2 : ¬ j = idx := fun e => h e.symm
    simp [h, h2]

theorem visitValidators_lists (slot epoch vsl : Nat) :
    ∀ (rest : List StaticValidator) (idx : Nat) (out : List Validator) (a pa : List Nat),
      out.length = vsl →
      (∀ j, idx ≤ j → out.getD j Validator.zero = Validator.zero) →
      (visitValidators slot epoch vsl rest idx out a pa).2.1
          = a ++ ((rest.enumFrom idx).filter (fun e =>
              decide (e.1 < vsl)
                && (e.2.ToValidator Validator.zero slot).Active epoch)).map (fun e => e.1)
        ∧ (visitValidators slot epoch vsl rest idx out a pa).2.2
          = if epoch = 0 then pa
            else pa ++ ((rest.enumFrom idx).filter (fun e =>
              decide (e.1 < vsl)
                && (e.2.ToValidator Validator.zero slot).Active (sub64 epoch 1))).map
                  (fun e => e.1) := by
  intro rest
  induction rest with
  | nil =>
    intro idx out a pa _ _
    unfold visitValidators
    simp
  | cons v more ih =>
    intro idx out a pa hlen hz
    unfold visitValidators
    by_cases hge : idx ≥ vsl
    · rw [if_pos hge]
      have hnone : ∀ (ep : Nat), ((List.enumFrom idx (v :: more)).filter (fun e =>
          decide (e.1 < vsl) && (e.2.ToValidator Validator.zero slot).Active ep))
          = [] := by
        intro ep
        rw [List.filter_eq_nil_iff]
        intro e he
        have := List.le_fst_of_mem_enumFrom he
        have hlt : ¬ e.1 < vsl := by omega
        simp [hlt]
      simp only [hnone, List.map_nil, List.append_nil, ite_self, and_self]
    · rw [if_neg hge]
      have hlt : idx < vsl := by omega
      have hcur : out.getD idx Validator.zero = Validator.zero := hz idx (Nat.le_refl _)
      have hz2 : ∀ j, idx + 1 ≤ j →
          (out.set idx (v.ToValidator Validator.zero slot)).getD j Validator.zero
            = Validator.zero := by
        intro j hj
        rw [getD_set_zero _ _ _ _ (by omega), if_neg (by omega)]
        exact hz j (by omega)
      have hlen2 : (out.set idx (v.ToValidator Validator.zero slot)).length = vsl := by
        rw [List.length_set]; exact hlen
      simp only [hcur]
      rw [List.enumFrom_cons]
      by_cases he : epoch = 0
      · rw [if_pos he]
        obtain ⟨h1, h2⟩ := ih (idx + 1) _
          (if (v.ToValidator Validator.zero slot).Active epoch = true then a ++ [idx] else a)
          pa hlen2 hz2
        rw [h1, h2, if_pos he, if_pos he]
        refine ⟨?_, rfl⟩
        by_cases hact : (v.ToValidator Validator.zero slot).Active epoch = true
        · simp [List.filter_cons, hlt, hact]
        · simp [List.filter_cons, hlt, hact]
      · rw [if_neg he]
        obtain ⟨h1, h2⟩ := ih (idx + 1) _
          (if (v.ToValidator Validator.zero slot).Active epoch = true then a ++ [idx] else a)
          (if (v.ToValidator Validator.zero slot).Active (sub64 epoch 1) = true then
            pa ++ [idx] else pa) hlen2 hz2
        rw [h1, h2, if_neg he, if_neg he]
        constructor
        · by_cases hact : (v.ToValidator Validator.zero slot).Active epoch = true
          · simp [List.filter_cons, hlt, hact]
          · simp [List.filter_cons, hlt, hact]
        · by_cases hact : (v.ToValidator Validator.zero slot).Active (sub64 epoch 1) = true
          · simp [List.filter_cons, hlt, hact]
          · simp [List.filter_cons, hlt, hact]

theorem zero_getD_replicate (n j : Nat) :
    (List.replicate n Validator.zero).getD j Validator.zero = Validator.zero := by
  rw [List.getD_eq_getElem?_getD, List.getElem?_replicate]
  by_cases h : j < n
  · simp [h]
  · simp [h]

theorem readValidators_inv (lib : Lib) (r : HistoricalStatesReader) (tx : Tx)
    (slot vsl : Nat) (out : List Validator) (a pa : List Nat)
    (h : readValidatorsForHistoricalState lib r tx slot vsl = .ok (out, a, pa)) :
    r.cfg.SlotsPerEpoch ≠ 0
      ∧ a = (visitValidators slot (slot / r.cfg.SlotsPerEpoch) vsl
          r.validatorTable.validatorTable 0 (List.replicate vsl Validator.zero) [] []).2.1
      ∧ pa = (visitValidators slot (slot / r.cfg.SlotsPerEpoch) vsl
          r.validatorTable.validatorTable 0 (List.replicate vsl Validator.zero) [] []).2.2
      ∧ ∃ bytes, reconstructDiffedUint64List lib r tx slot Table.ValidatorEffectiveBalance
            "effective_balances" = .ok bytes
          ∧ setEffectiveBalances bytes (visitValidators slot (slot / r.cfg.SlotsPerEpoch) vsl
              r.validatorTable.validatorTable 0 (List.replicate vsl Validator.zero) [] []).1
              (intLoopCount vsl) = .ok out := by
  unfold readValidatorsForHistoricalState at h
  by_cases hspe : r.cfg.SlotsPerEpoch = 0
  · rw [if_pos hspe] at h
    cases h
  · rw [if_neg hspe] at h
    simp only [] at h
    cases hrec : reconstructDiffedUint64List lib r tx slot Table.ValidatorEffectiveBalance
        "effective_balances" with
    | error e => rw [hrec] at h; cases h
    | ok bytes =>
      rw [hrec] at h
      simp only [] at h
      cases hset : setEffectiveBalances bytes (visitValidators slot (slot / r.cfg.SlotsPerEpoch)
          vsl r.validatorTable.validatorTable 0 (List.replicate vsl Validator.zero) [] []).1
          (intLoopCount vsl) with
      | error e => rw [hset] at h; cases h
      | ok out1 =>
        rw [hset] at h
        simp only [] at h
        cases h
        exact ⟨hspe, rfl, rfl, bytes, rfl, hset⟩

theorem activeSelection_sorted (table : List StaticValidator) (slot vsl epoch : Nat) :
    (activeSelection table slot vsl epoch).Pairwise (fun x y => x < y) := by
  unfold activeSelection
  have hsub : (((table.enumFrom 0).filter (fun e =>
      decide (e.1 < vsl)
        && (e.2.ToValidator Validator.zero slot).Active epoch)).map (fun e => e.1)).Sublist
      ((table.enumFrom 0).map (fun e => e.1)) :=
    List.Sublist.map _ (List.filter_sublist _)
  have hr : (table.enumFrom 0).map (fun e => e.1) = List.range' 0 table.length :=
    List.enumFrom_map_fst 0 table
  rw [hr] at hsub
  exact List.Pairwise.sublist hsub (List.pairwise_lt_range' 0 table.length)

theorem mem_activeSelection (table : List StaticValidator) (slot vsl epoch i : Nat) :
    i ∈ activeSelection table slot vsl epoch ↔
      i < vsl ∧ ∃ v, table.get? i = some v
        ∧ (v.ToValidator Validator.zero slot).Active epoch = true := by
  unfold activeSelection
  rw [List.mem_map]
  constructor
  · rintro ⟨⟨j, v⟩, he, hj⟩
    simp only at hj
    subst hj
    rw [List.mem_filter] at he
    obtain ⟨hmem, hp⟩ := he
    rw [List.mk_mem_enumFrom_iff_le_and_getElem?_sub] at hmem
    simp only [Bool.and_eq_true, decide_eq_true_eq] at hp
    refine ⟨hp.1, v, ?_, hp.2⟩
    rw [List.get?_eq_getElem?]
    simpa using hmem.2
  · rintro ⟨hi, v, hget, hact⟩
    refine ⟨(i, v), ?_, rfl⟩
    rw [List.mem_filter]
    refine ⟨?_, ?_⟩
    · rw [List.mk_mem_enumFrom_iff_le_and_getElem?_sub]
      rw [List.get?_eq_getElem?] at hget
      exact ⟨Nat.zero_le _, by simpa using hget⟩
    · simp [hi, hact]

/-- C23: with the records of the static table visited in ascending index order,
from index 0 on, a successful `readValidatorsForHistoricalState` returns as current
active indices the indices below `validatorSetLength` of the records of the table
whose validator, materialized at `slot`, is active at epoch `slot / SlotsPerEpoch`,
and no others, in strictly ascending order and so without duplicates; for a 64-bit
`slot` of an epoch above 0 the previous list is the same selection for the epoch
before. -/
theorem C23_active_indices (lib : Lib) (r : HistoricalStatesReader) (tx : Tx)
    (slot validatorSetLength : Nat) (out : List Validator)
    (activeIds prevActiveIds : List Nat)
    (h64 : slot < 2 ^ 64)
    (h : readValidatorsForHistoricalState lib r tx slot validatorSetLength
      = .ok (out, activeIds, prevActiveIds)) :
    activeIds = activeSelection r.validatorTable.validatorTable slot validatorSetLength
        (slot / r.cfg.SlotsPerEpoch)
      ∧ (∀ i, i ∈ activeIds ↔
          i < validatorSetLength ∧ ∃ v, r.validatorTable.validatorTable.get? i = some v
            ∧ (v.ToValidator Validator.zero slot).Active (slot / r.cfg.SlotsPerEpoch) = true)
      ∧ activeIds.Pairwise (fun x y => x < y)
      ∧ activeIds.Nodup
      ∧ (0 < slot / r.cfg.SlotsPerEpoch →
          prevActiveIds = activeSelection r.validatorTable.validatorTable slot
              validatorSetLength (slot / r.cfg.SlotsPerEpoch - 1)
            ∧ prevActiveIds.Pairwise (fun x y => x < y)) := by
  obtain ⟨_, ha, hpa, _⟩ := readValidators_inv lib r tx slot validatorSetLength out activeIds
    prevActiveIds h
  obtain ⟨h1, h2⟩ := visitValidators_lists slot (slot / r.cfg.SlotsPerEpoch) validatorSetLength
    r.validatorTable.validatorTable 0 (List.replicate validatorSetLength Validator.zero) [] []
    (List.length_replicate _ _) (fun j _ => zero_getD_replicate validatorSetLength j)
  rw [← ha] at h1
  rw [← hpa] at h2
  have hact : activeIds = activeSelection r.validatorTable.validatorTable slot
      validatorSetLength (slot / r.cfg.SlotsPerEpoch) := by
    rw [h1]
    unfold activeSelection
    simp
  refine ⟨hact, ?_, ?_, ?_, ?_⟩
  · intro i
    rw [hact]
    exact mem_activeSelection _ _ _ _ i
  · rw [hact]
    exact activeSelection_sorted _ _ _ _
  · rw [hact]
    exact List.Pairwise.imp (fun hlt => Nat.ne_of_lt hlt) (activeSelection_sorted _ _ _ _)
  · intro hpos
    have hne : slot / r.cfg.SlotsPerEpoch ≠ 0 := by omega
    rw [if_neg hne] at h2
    have hsub : sub64 (slot / r.cfg.SlotsPerEpoch) 1 = slot / r.cfg.SlotsPerEpoch - 1 := by
      have hle : slot / r.cfg.SlotsPerEpoch ≤ slot := Nat.div_le_self _ _
      unfold sub64 u64
      omega
    have hprev : prevActiveIds = activeSelection r.validatorTable.validatorTable slot
        validatorSetLength (slot / r.cfg.SlotsPerEpoch - 1) := by
      rw [h2, hsub]
      unfold activeSelection
      simp
    refine ⟨hprev, ?_⟩
    rw [hprev]
    exact activeSelection_sorted _ _ _ _

/-- C23, at slot 40 (epoch 1) of the example chain with a set of three validators
over the table of four: the current active indices are `[0]` and the previous ones
`[0, 2]`; the record of index 3 lies beyond the set. -/
theorem C23_active_indices_witness :
    (readValidatorsForHistoricalState exLib exReaderValidators exTxBalances 40 3).map
        (fun x => x.2) = .ok ([0], [0, 2])
    ∧ activeSelection exReaderValidators.validatorTable.validatorTable 40 3 1 = [0]
    ∧ [0] = activeSelection exReaderValidators.validatorTable.validatorTable 40 3
        (40 / exReaderValidators.cfg.SlotsPerEpoch) :=
  ⟨by rfl, by rfl,
    (C23_active_indices exLib exReaderValidators exTxBalances 40 3
      ((readValidatorsForHistoricalState exLib exReaderValidators exTxBalances 40 3).toOption.get
        (by rfl)).1 [0] [0, 2] (by decide) (by rfl)).1⟩

/-! ## Validators: the previous list at epoch 0 -/

/-- C25, the code against the claim: for every slot of epoch 0 the previous active
index list that `readValidatorsForHistoricalState` returns is empty, whatever the
current list is.  The assignment `prevActiveIds = activeIds` of line 540 copies the
header of the still empty slice, the appends of line 549 lengthen `activeIds` alone,
and the callback returns at line 552 before it could append to `prevActiveIds`. -/
theorem C25_previous_list_empty_at_epoch_zero (lib : Lib) (r : HistoricalStatesReader)
    (tx : Tx) (slot validatorSetLength : Nat) (out : List Validator)
    (activeIds prevActiveIds : List Nat)
    (hepoch : slot < r.cfg.SlotsPerEpoch)
    (h : readValidatorsForHistoricalState lib r tx slot validatorSetLength
      = .ok (out, activeIds, prevActiveIds)) :
    prevActiveIds = []
      ∧ activeIds = activeSelection r.validatorTable.validatorTable slot validatorSetLength 0 := by
  obtain ⟨_, ha, hpa, _⟩ := readValidators_inv lib r tx slot validatorSetLength out activeIds
    prevActiveIds h
  have he : slot / r.cfg.SlotsPerEpoch = 0 := Nat.div_eq_of_lt hepoch
  rw [he] at ha hpa
  obtain ⟨h1, h2⟩ := visitValidators_lists slot 0 validatorSetLength
    r.validatorTable.validatorTable 0 (List.replicate validatorSetLength Validator.zero) [] []
    (List.length_replicate _ _) (fun j _ => zero_getD_replicate validatorSetLength j)
  rw [← ha] at h1
  rw [← hpa, if_pos rfl] at h2
  refine ⟨h2, ?_⟩
  rw [h1]
  unfold activeSelection
  simp

/-- C25, at slot 5 (epoch 0) of the example chain with a set of three validators:
the current active indices are `[0, 2]` and the previous ones are `[]`, not
`[0, 2]`. -/
theorem C25_previous_list_empty_at_epoch_zero_witness :
    (5 : Nat) < exReaderValidators.cfg.SlotsPerEpoch
    ∧ (readValidatorsForHistoricalState exLib exReaderValidators exTxBalances 5 3).map
        (fun x => x.2) = .ok ([0, 2], [])
    ∧ ([] : List Nat) ≠ [0, 2]
    ∧ ([] : List Nat) = [] :=
  ⟨by decide, by rfl, by decide,
    (C25_previous_list_empty_at_epoch_zero exLib exReaderValidators exTxBalances 5 3
      ((readValidatorsForHistoricalState exLib exReaderValidators exTxBalances 5 3).toOption.get
        (by rfl)).1 [0, 2] [] (by decide) (by rfl)).1⟩

/-! ## Validators: the effective balances -/

theorem visitValidators_out (slot epoch vsl : Nat) :
    ∀ (rest pre : List StaticValidator) (out : List Validator) (a pa : List Nat),
      out.length = vsl →
      (∀ j, pre.length ≤ j → out.getD j Validator.zero = Validator.zero) →
      (visitValidators slot epoch vsl rest pre.length out a pa).1.length = vsl
        ∧ ∀ j, (visitValidators slot epoch vsl rest pre.length out a pa).1.getD j Validator.zero
            = if pre.length ≤ j ∧ j < vsl then materializedAt (pre ++ rest) slot j
              else out.getD j Validator.zero := by
  intro rest
  induction rest with
  | nil =>
    intro pre out a pa hlen hz
    unfold visitValidators
    refine ⟨hlen, ?_⟩
    intro j
    by_cases hj : pre.length ≤ j ∧ j < vsl
    · rw [if_pos hj, hz j hj.1]
      unfold materializedAt
      rw [List.append_nil, List.get?_eq_getElem?, List.getElem?_eq_none hj.1]
    · rw [if_neg hj]
  | cons v more ih =>
    intro pre out a pa hlen hz
    unfold visitValidators
    by_cases hge : pre.length ≥ vsl
    · rw [if_pos hge]
      refine ⟨hlen, ?_⟩
      intro j
      rw [if_neg (by omega)]
    · rw [if_neg hge]
      have hlt : pre.length < vsl := by omega
      have hcur : out.getD pre.length Validator.zero = Validator.zero := hz _ (Nat.le_refl _)
      have hz2 : ∀ j, (pre ++ [v]).length ≤ j →
          (out.set pre.length (v.ToValidator Validator.zero slot)).getD j Validator.zero
            = Validator.zero := by
        intro j hj
        rw [List.length_append, List.length_singleton] at hj
        rw [getD_set_zero _ _ _ _ (by omega), if_neg (by omega)]
        exact hz j (by omega)
      have hlen2 : (out.set pre.length (v.ToValidator Validator.zero slot)).length = vsl := by
        rw [List.length_set]; exact hlen
      have hpre : (pre ++ [v]).length = pre.length + 1 := by
        rw [List.length_append, List.length_singleton]
      have happ : pre ++ v :: more = (pre ++ [v]) ++ more := by
        rw [List.append_assoc]; rfl
      have hmat : materializedAt (pre ++ v :: more) slot pre.length
          = v.ToValidator Validator.zero slot := by
        unfold materializedAt
        rw [List.get?_eq_getElem?, List.getElem?_append_right (Nat.le_refl _)]
        simp
      have key : ∀ (a1 pa1 : List Nat),
          (visitValidators slot epoch vsl more (pre.length + 1)
              (out.set pre.length (v.ToValidator Validator.zero slot)) a1 pa1).1.length = vsl
            ∧ ∀ j, (visitValidators slot epoch vsl more (pre.length + 1)
                (out.set pre.length (v.ToValidator Validator.zero slot)) a1 pa1).1.getD j
                  Validator.zero
              = if pre.length ≤ j ∧ j < vsl then materializedAt (pre ++ v :: more) slot j
                else out.getD j Validator.zero := by
        intro a1 pa1
        obtain ⟨h1, h2⟩ := ih (pre ++ [v]) _ a1 pa1 hlen2 hz2
        rw [hpre] at h1 h2
        refine ⟨h1, ?_⟩
        intro j
        rw [h2 j, ← happ, getD_set_zero _ _ _ _ (by omega)]
        by_cases hj : j = pre.length
        · subst hj
          rw [if_neg (by omega), if_pos rfl, if_pos ⟨Nat.le_refl _, hlt⟩, hmat]
        · rw [if_neg hj]
          by_cases hj2 : pre.length + 1 ≤ j ∧ j < vsl
          · rw [if_pos hj2, if_pos ⟨by omega, hj2.2⟩]
          · rw [if_neg hj2, if_neg (by omega)]
      simp only [hcur]
      split
      · exact key _ _
      · exact key _ _

theorem setEffectiveBalances_run (bytes : Bytes) (out : List Validator) :
    ∀ n, n ≤ out.length → n * 8 ≤ bytes.length →
      ∃ out1, setEffectiveBalances bytes out n = .ok out1
        ∧ out1.length = out.length
        ∧ ∀ j, out1.getD j Validator.zero
            = if j < n then
                { out.getD j Validator.zero with
                  EffectiveBalance := leU64 ((bytes.drop (j * 8)).take 8) }
              else out.getD j Validator.zero := by
  intro n
  induction n with
  | zero =>
    intro _ _
    refine ⟨out, by unfold setEffectiveBalances; rfl, rfl, ?_⟩
    intro j
    rw [if_neg (by omega)]
  | succ i ih =>
    intro hn hb
    obtain ⟨out1, hrun, hlen1, hget1⟩ := ih (by omega) (by omega)
    have hi : i < out1.length := by omega
    have hsome : out1.get? i = some (out1.getD i Validator.zero) := by
      rw [List.get?_eq_getElem?, List.getD_eq_getElem?_getD, List.getElem?_eq_getElem hi]
      rfl
    refine ⟨out1.set i
      { out1.getD i Validator.zero with
        EffectiveBalance := leU64 ((bytes.drop (i * 8)).take 8) }, ?_, ?_, ?_⟩
    · unfold setEffectiveBalances
      rw [hrun]
      simp only []
      rw [if_neg (by omega), hsome]
    · rw [List.length_set]; exact hlen1
    · intro j
      rw [getD_set_zero _ _ _ _ hi]
      by_cases hj : j = i
      · subst hj
        rw [if_pos rfl, if_pos (by omega), hget1 j, if_neg (by omega)]
      · rw [if_neg hj, hget1 j]
        by_cases hj2 : j < i
        · rw [if_pos hj2, if_pos (by omega)]
        · rw [if_neg hj2, if_neg (by omega)]

/-- C24: let the effective-balance list reconstructed for `slot` hold at least
`validatorSetLength * 8` bytes (a Go slice holds fewer than 2^63), with a non-zero
`SlotsPerEpoch`.  Then `readValidatorsForHistoricalState` succeeds, no slice of the
loop of lines 565-568 being out of range; the set it returns has `validatorSetLength`
validators, and the validator of every index `i` below `validatorSetLength` is the
one materialized from the static table at `slot` (the zero validator where the
table has no record), with the little-endian value of the bytes `[8 i, 8 i + 8)` of
the list as its effective balance and every other attribute untouched. -/
theorem C24_effective_balances_set (lib : Lib) (r : HistoricalStatesReader) (tx : Tx)
    (slot validatorSetLength : Nat) (bytesEffectiveBalances : Bytes)
    (hspe : r.cfg.SlotsPerEpoch ≠ 0)
    (hread : reconstructDiffedUint64List lib r tx slot Table.ValidatorEffectiveBalance
      "effective_balances" = .ok bytesEffectiveBalances)
    (hlen : validatorSetLength * 8 ≤ bytesEffectiveBalances.length)
    (hcap : bytesEffectiveBalances.length < 2 ^ 63) :
    ∃ out activeIds prevActiveIds,
      readValidatorsForHistoricalState lib r tx slot validatorSetLength
          = .ok (out, activeIds, prevActiveIds)
        ∧ out.length = validatorSetLength
        ∧ ∀ i, i < validatorSetLength →
            out.get? i = some
              { materializedAt r.validatorTable.validatorTable slot i with
                EffectiveBalance :=
                  leU64 ((bytesEffectiveBalances.drop (i * 8)).take 8) } := by
  obtain ⟨hvlen, hvget⟩ := visitValidators_out slot (slot / r.cfg.SlotsPerEpoch)
    validatorSetLength r.validatorTable.validatorTable [] (List.replicate validatorSetLength
      Validator.zero) [] [] (List.length_replicate _ _)
    (fun j _ => zero_getD_replicate validatorSetLength j)
  rw [List.length_nil] at hvlen hvget
  rw [List.nil_append] at hvget
  have hcount : intLoopCount validatorSetLength = validatorSetLength := by
    unfold intLoopCount
    rw [if_pos (by omega)]
  obtain ⟨out1, hrun, hlen1, hget1⟩ := setEffectiveBalances_run bytesEffectiveBalances
    (visitValidators slot (slot / r.cfg.SlotsPerEpoch) validatorSetLength
      r.validatorTable.validatorTable 0 (List.replicate validatorSetLength Validator.zero)
      [] []).1 validatorSetLength (by omega) hlen
  refine ⟨out1,
    (visitValidators slot (slot / r.cfg.SlotsPerEpoch) validatorSetLength
      r.validatorTable.validatorTable 0 (List.replicate validatorSetLength Validator.zero)
      [] []).2.1,
    (visitValidators slot (slot / r.cfg.SlotsPerEpoch) validatorSetLength
      r.validatorTable.validatorTable 0 (List.replicate validatorSetLength Validator.zero)
      [] []).2.2, ?_, hlen1.trans hvlen, ?_⟩
  · unfold readValidatorsForHistoricalState
    rw [if_neg hspe]
    simp only []
    rw [hread]
    simp only []
    rw [hcount, hrun]
  · intro i hi
    have hi1 : i < out1.length := by omega
    have h1 := hget1 i
    rw [if_pos hi, hvget i, if_pos ⟨Nat.zero_le _, hi⟩] at h1
    rw [List.get?_eq_getElem?, ← h1, List.getD_eq_getElem?_getD,
      List.getElem?_eq_getElem hi1]
    rfl

/-- C24, at slot 5 of the example chain with a set of three validators and the 32
bytes `1, 2, 0, ..., 0` as effective balances: validator 0 gets the balance 513
(bytes 0 to 7) on top of its epochs from the table, validator 2 the balance 0. -/
theorem C24_effective_balances_set_witness :
    reconstructDiffedUint64List exLib exReaderValidators exTxBalances 5
        Table.ValidatorEffectiveBalance "effective_balances"
      = .ok ([1, 2] ++ List.replicate 30 0)
    ∧ (readValidatorsForHistoricalState exLib exReaderValidators exTxBalances 5 3).map
        (fun x => x.1)
      = .ok [{ Validator.zero with EffectiveBalance := 513, ExitEpoch := 100 },
             { Validator.zero with ActivationEpoch := 5, ExitEpoch := 100 },
             { Validator.zero with ExitEpoch := 1 }]
    ∧ ∃ out activeIds prevActiveIds,
      readValidatorsForHistoricalState exLib exReaderValidators exTxBalances 5 3
          = .ok (out, activeIds, prevActiveIds)
        ∧ out.length = 3
        ∧ ∀ i, i < 3 →
            out.get? i = some
              { materializedAt exReaderValidators.validatorTable.validatorTable 5 i with
                EffectiveBalance :=
                  leU64 ((([1, 2] ++ List.replicate 30 0 : Bytes).drop (i * 8)).take 8) } :=
  ⟨by rfl, by rfl,
    C24_effective_balances_set exLib exReaderValidators exTxBalances 5 3
      ([1, 2] ++ List.replicate 30 0) (by decide) (by rfl) (by decide) (by decide)⟩

/-! ## Participation: the previous epoch at epoch 0 -/

theorem computeRelevantEpochs_no_wrap (r : HistoricalStatesReader) (slot : Nat)
    (h64 : slot < 2 ^ 64)
    (hok : 0 < slot / r.cfg.SlotsPerEpoch ∨ r.genesisState.Version < AltairVersion) :
    (computeRelevantEpochs r slot).2 ≤ (computeRelevantEpochs r slot).1
      ∧ (computeRelevantEpochs r slot).1 - (computeRelevantEpochs r slot).2 ≤ 1
      ∧ mul64 (computeRelevantEpochs r slot).2 r.cfg.SlotsPerEpoch ≤ slot := by
  have hle : slot / r.cfg.SlotsPerEpoch ≤ slot := Nat.div_le_self _ _
  have hmul : slot / r.cfg.SlotsPerEpoch * r.cfg.SlotsPerEpoch ≤ slot :=
    Nat.div_mul_le_self _ _
  have hm : ∀ e, e ≤ slot / r.cfg.SlotsPerEpoch → mul64 e r.cfg.SlotsPerEpoch ≤ slot := by
    intro e he
    have h1 : e * r.cfg.SlotsPerEpoch ≤ slot :=
      Nat.le_trans (Nat.mul_le_mul_right _ he) hmul
    unfold mul64
    exact Nat.le_trans (Nat.mod_le _ _) h1
  unfold computeRelevantEpochs
  simp only []
  split
  · exact ⟨Nat.le_refl _, by omega, hm _ (Nat.le_refl _)⟩
  · rename_i hcond
    have hpos : 0 < slot / r.cfg.SlotsPerEpoch := by
      rcases hok with h | h
      · exact h
      · by_contra h0
        exact hcond ⟨by omega, h⟩
    have hsub : sub64 (slot / r.cfg.SlotsPerEpoch) 1 = slot / r.cfg.SlotsPerEpoch - 1 := by
      unfold sub64 u64
      omega
    simp only [hsub]
    exact ⟨by omega, by omega, hm _ (by omega)⟩

/-- C26, the code against the claim: on a chain whose genesis state is of Altair or
later, for every slot of epoch 0 `computeRelevantEpochs` returns the pair
`(0, 2^64 - 1)`: the subtraction `epoch - 1` of line 681 wraps around, the previous
epoch exceeds the epoch, and (for `slot + SlotsPerEpoch` below 2^64) the replay
start `prevEpoch * SlotsPerEpoch` exceeds `slot`, so that `readPartecipations`
replays no slot and returns two lists of zeros whatever the blocks of epoch 0
hold. -/
theorem C26_previous_epoch_wraps (lib : Lib) (r : HistoricalStatesReader)
    (slot validatorLength : Nat) (currentActiveIndicies previousActiveIndicies : List Nat)
    (ret : BeaconState)
    (hepoch : slot < r.cfg.SlotsPerEpoch)
    (hgen : AltairVersion ≤ r.genesisState.Version)
    (hsmall : slot + r.cfg.SlotsPerEpoch < 2 ^ 64) :
    computeRelevantEpochs r slot = (0, 2 ^ 64 - 1)
      ∧ (computeRelevantEpochs r slot).1 < (computeRelevantEpochs r slot).2
      ∧ slot < mul64 (computeRelevantEpochs r slot).2 r.cfg.SlotsPerEpoch
      ∧ replayedSlots r slot = []
      ∧ readPartecipations lib r slot validatorLength currentActiveIndicies
          previousActiveIndicies ret
        = .ok (ret, List.replicate validatorLength 0, List.replicate validatorLength 0) := by
  have he : slot / r.cfg.SlotsPerEpoch = 0 := Nat.div_eq_of_lt hepoch
  have hspe : r.cfg.SlotsPerEpoch ≠ 0 := by omega
  have hpair : computeRelevantEpochs r slot = (0, 2 ^ 64 - 1) := by
    unfold computeRelevantEpochs
    simp only [he]
    rw [if_neg (fun hc => absurd hc.2 (Nat.not_lt.mpr hgen))]
    rfl
  have hbegin : mul64 (2 ^ 64 - 1) r.cfg.SlotsPerEpoch = 2 ^ 64 - r.cfg.SlotsPerEpoch := by
    unfold mul64 u64
    have h1 : (2 ^ 64 - 1) * r.cfg.SlotsPerEpoch
        = (2 ^ 64 - r.cfg.SlotsPerEpoch) + (r.cfg.SlotsPerEpoch - 1) * 2 ^ 64 := by
      have h2 : r.cfg.SlotsPerEpoch = (r.cfg.SlotsPerEpoch - 1) + 1 := by omega
      generalize r.cfg.SlotsPerEpoch - 1 = k at h2 ⊢
      rw [h2]
      have h3 : (2 : Nat) ^ 64 - (k + 1) + (k + 1) = 2 ^ 64 := Nat.sub_add_cancel (by omega)
      zify [show k + 1 ≤ 2 ^ 64 by omega, show 1 ≤ 2 ^ 64 by norm_num]
      ring
    rw [h1, Nat.add_mul_mod_self_right]
    exact Nat.mod_eq_of_lt (by omega)
  have hslots : replayedSlots r slot = [] := by
    unfold replayedSlots
    rw [hpair]
    simp only []
    rw [hbegin, List.range'_eq_nil]
    omega
  refine ⟨hpair, ?_, ?_, hslots, ?_⟩
  · rw [hpair]
    norm_num
  · rw [hpair]
    simp only []
    rw [hbegin]
    omega
  · rw [readPartecipations_replays lib r slot validatorLength currentActiveIndicies
      previousActiveIndicies ret hspe, hslots]
    unfold replaySlots
    rfl

/-- C26, at slot 9 of a chain with an Altair genesis state and a block at slot 5
that carries an attestation of target epoch 0: the previous epoch is 2^64 - 1, the
replay would start at slot 2^64 - 32, and the lists returned are all zeros. -/
theorem C26_previous_epoch_wraps_witness :
    exReaderAltairGenesis.blockReader 5
        = .ok (some { exBlock 5 with Attestations := [exAttestation 4 0] })
    ∧ computeRelevantEpochs exReaderAltairGenesis 9 = (0, 2 ^ 64 - 1)
    ∧ mul64 (2 ^ 64 - 1) exReaderAltairGenesis.cfg.SlotsPerEpoch = 2 ^ 64 - 32
    ∧ readPartecipations exLib exReaderAltairGenesis 9 3 [0, 1] [0, 1] exGenesis
        = .ok (exGenesis, [0, 0, 0], [0, 0, 0]) :=
  ⟨by rfl,
    (C26_previous_epoch_wraps exLib exReaderAltairGenesis 9 3 [0, 1] [0, 1] exGenesis
      (by decide) (by decide) (by decide)).1,
    by decide,
    (C26_previous_epoch_wraps exLib exReaderAltairGenesis 9 3 [0, 1] [0, 1] exGenesis
      (by decide) (by decide) (by decide)).2.2.2.2⟩

/-! ## The orchestrator: the slot of the state after the replay -/

theorem replaySlots_last (lib : Lib) (r : HistoricalStatesReader) (randaoMixes : HashVector)
    (currentActiveIndicies previousActiveIndicies : List Nat) (prevEpoch : Nat) :
    ∀ (slots : List Nat) (ret ret1 : BeaconState) (p p1 : Participation) (last : Nat)
      (block : SignedBeaconBlock),
      slots.getLast? = some last → r.blockReader last = .ok (some block) →
      replaySlots lib r randaoMixes currentActiveIndicies previousActiveIndicies prevEpoch
        slots ret p = .ok (ret1, p1) →
      ret1 = { ret with Slot := last } := by
  intro slots
  induction slots with
  | nil =>
    intro ret ret1 p p1 last block hlast _ _
    cases hlast
  | cons i more ih =>
    intro ret ret1 p p1 last block hlast hblock h
    unfold replaySlots at h
    cases hmore : more with
    | nil =>
      subst hmore
      have hi : i = last := by simpa using hlast
      subst hi
      rw [hblock] at h
      simp only [] at h
      cases hr : replayBlock lib r randaoMixes currentActiveIndicies previousActiveIndicies
          prevEpoch (i / r.cfg.SlotsPerEpoch) { ret with Slot := i } block.Attestations p with
      | error e => rw [hr] at h; cases h
      | ok p2 =>
        rw [hr] at h
        simp only [] at h
        unfold replaySlots at h
        cases h
        rfl
    | cons j rest =>
      have hlast2 : more.getLast? = some last := by
        rw [hmore] at hlast ⊢
        rw [List.getLast?_cons_cons] at hlast
        exact hlast
      cases hb : r.blockReader i with
      | error e => rw [hb] at h; cases h
      | ok ob =>
        cases ob with
        | none =>
          rw [hb] at h
          exact ih ret ret1 p p1 last block hlast2 hblock h
        | some blk =>
          rw [hb] at h
          simp only [] at h
          cases hr : replayBlock lib r randaoMixes currentActiveIndicies
              previousActiveIndicies prevEpoch (i / r.cfg.SlotsPerEpoch) { ret with Slot := i }
              blk.Attestations p with
          | error e => rw [hr] at h; cases h
          | ok p2 =>
            rw [hr] at h
            simp only [] at h
            have := ih _ ret1 p2 p1 last block hlast2 hblock h
            rw [this]

theorem readPartecipations_slot (lib : Lib) (r : HistoricalStatesReader)
    (slot validatorLength : Nat) (currentActiveIndicies previousActiveIndicies : List Nat)
    (ret ret1 : BeaconState) (currentIdxs previousIdxs : List Nat)
    (block : SignedBeaconBlock) (hblock : r.blockReader slot = .ok (some block))
    (h : readPartecipations lib r slot validatorLength currentActiveIndicies
      previousActiveIndicies ret = .ok (ret1, currentIdxs, previousIdxs))
    (hret : ret.Slot = slot) :
    ret1 = ret := by
  have hspe : r.cfg.SlotsPerEpoch ≠ 0 := by
    intro h0
    unfold readPartecipations at h
    rw [if_pos h0] at h
    cases h
  rw [readPartecipations_replays lib r slot validatorLength currentActiveIndicies
    previousActiveIndicies ret hspe] at h
  cases hrun : replaySlots lib r ret.RandaoMixes currentActiveIndicies previousActiveIndicies
      (computeRelevantEpochs r slot).2 (replayedSlots r slot) ret
      { currentIdxs := List.replicate validatorLength 0,
        previousIdxs := List.replicate validatorLength 0 } with
  | error e => rw [hrun] at h; cases h
  | ok x =>
    obtain ⟨st, pEnd⟩ := x
    rw [hrun] at h
    cases h
    by_cases hn : slot + 1 - mul64 (computeRelevantEpochs r slot).2 r.cfg.SlotsPerEpoch = 0
    · have hnil : replayedSlots r slot = [] := by
        unfold replayedSlots
        rw [List.range'_eq_nil]
        exact hn
      rw [hnil] at hrun
      unfold replaySlots at hrun
      cases hrun
      rfl
    · have hlast : (replayedSlots r slot).getLast? = some slot := by
        unfold replayedSlots
        rw [List.getLast?_range', if_neg hn]
        congr 1
        omega
      have := replaySlots_last _ _ _ _ _ _ _ _ _ _ _ slot block hlast hblock hrun
      rw [this, ← hret]

theorem readForkFields_slot (lib : Lib) (r : HistoricalStatesReader) (tx : Tx) (slot : Nat)
    (block : SignedBeaconBlock) (mbs : MinimalBeaconState) (ret st : BeaconState)
    (e : Option Err)
    (h : readForkFields lib r tx slot block mbs ret = (some st, e)) :
    st.Slot = ret.Slot := by
  unfold readForkFields at h
  by_cases hv : ret.Version < AltairVersion
  · rw [if_pos hv] at h
    obtain ⟨rfl, _⟩ := finish_inv _ _ _ _ h
    rfl
  rw [if_neg hv] at h
  cases hscores : reconstructUint64ListDump lib tx slot Table.InactivityScores
      mbs.ValidatorLength (lib.DecodeUint64List r.cfg.ValidatorRegistryLimit) with
  | error x => rw [hscores] at h; exact absurd h (failWith_ne _ _ _)
  | ok scores =>
  rw [hscores] at h
  simp only [] at h
  cases hcur : tx.ReadCurrentSyncCommittee (r.cfg.RoundSlotToSyncCommitteePeriod slot) with
  | error x => rw [hcur] at h; exact absurd h (failWith_ne _ _ _)
  | ok currentRead =>
  rw [hcur] at h
  simp only [] at h
  cases hnext : tx.ReadNextSyncCommittee (r.cfg.RoundSlotToSyncCommitteePeriod slot) with
  | error x => rw [hnext] at h; exact absurd h (failWith_ne _ _ _)
  | ok nextRead =>
  rw [hnext] at h
  simp only [] at h
  by_cases hv2 : ret.Version < BellatrixVersion
  · rw [if_pos hv2] at h
    obtain ⟨rfl, _⟩ := finish_inv _ _ _ _ h
    rfl
  rw [if_neg hv2] at h
  cases hheader : lib.PayloadHeader block.ExecutionPayload with
  | error x => rw [hheader] at h; exact absurd h (failWith_ne _ _ _)
  | ok header =>
  rw [hheader] at h
  simp only [] at h
  by_cases hv3 : ret.Version < CapellaVersion
  · rw [if_pos hv3] at h
    obtain ⟨rfl, _⟩ := finish_inv _ _ _ _ h
    rfl
  rw [if_neg hv3] at h
  cases hsummaries : tx.ReadHistoricalSummaries mbs.HistoricalSummariesLength with
  | error x => rw [hsummaries] at h; exact absurd h (failWith_ne _ _ _)
  | ok summaries =>
  rw [hsummaries] at h
  simp only [] at h
  obtain ⟨rfl, _⟩ := finish_inv _ _ _ _ h
  rfl

theorem readFinalityAndParticipation_slot (lib : Lib) (r : HistoricalStatesReader) (tx : Tx)
    (slot : Nat) (block : SignedBeaconBlock) (mbs : MinimalBeaconState)
    (currActiveIdxs prevActiveIdxs : List Nat) (ret st : BeaconState) (e : Option Err)
    (blk : SignedBeaconBlock) (hblock : r.blockReader slot = .ok (some blk))
    (h : readFinalityAndParticipation lib r tx slot block mbs currActiveIdxs prevActiveIdxs ret
      = (some st, e))
    (hret : ret.Slot = slot) :
    st.Slot = slot := by
  unfold readFinalityAndParticipation at h
  cases hck : tx.ReadCheckpoints (r.cfg.RoundSlotToEpoch slot) with
  | error x => rw [hck] at h; exact absurd h (failWith_ne _ _ _)
  | ok t =>
  obtain ⟨c, p, f⟩ := t
  rw [hck] at h
  simp only [] at h
  by_cases hv : ret.Version = Phase0Version
  · rw [if_pos hv] at h
    cases hpend : readPendingEpochs r tx slot mbs.CurrentEpochAttestationsLength
        mbs.PreviousEpochAttestationsLength with
    | error x => rw [hpend] at h; exact absurd h (failWith_ne _ _ _)
    | ok t =>
    obtain ⟨ca, pa⟩ := t
    rw [hpend] at h
    simp only [] at h
    rw [readForkFields_slot _ _ _ _ _ _ _ _ _ h]
    exact hret
  · rw [if_neg hv] at h
    generalize hpart : readPartecipations lib r slot mbs.ValidatorLength currActiveIdxs
      prevActiveIdxs _ = x at h
    cases x with
    | error x => exact absurd h (failWith_ne _ _ _)
    | ok t =>
    obtain ⟨ret1, ci, pi⟩ := t
    simp only [] at h
    have hsame := readPartecipations_slot _ _ _ _ _ _ _ _ _ _ blk hblock hpart hret
    subst hsame
    rw [readForkFields_slot _ _ _ _ _ _ _ _ _ h]
    exact hret

theorem readRegistry_slot (lib : Lib) (r : HistoricalStatesReader) (tx : Tx) (slot : Nat)
    (block : SignedBeaconBlock) (mbs : MinimalBeaconState) (ret st : BeaconState)
    (e : Option Err) (blk : SignedBeaconBlock)
    (hblock : r.blockReader slot = .ok (some blk))
    (h : readRegistry lib r tx slot block mbs ret = (some st, e)) (hret : ret.Slot = slot) :
    st.Slot = slot := by
  unfold readRegistry at h
  cases h1 : readEth1DataVotes lib r tx mbs.Eth1DataLength slot with
  | error x => rw [h1] at h; exact absurd h (failWith_ne _ _ _)
  | ok eth1DataVotes =>
  rw [h1] at h
  simp only [] at h
  cases h2 : reconstructBalances lib r tx slot Table.ValidatorBalance with
  | error x => rw [h2] at h; exact absurd h (failWith_ne _ _ _)
  | ok balancesBytes =>
  rw [h2] at h
  simp only [] at h
  cases h3 : lib.DecodeUint64List r.cfg.ValidatorRegistryLimit balancesBytes with
  | error x => rw [h3] at h; exact absurd h (failWith_ne _ _ _)
  | ok balances =>
  rw [h3] at h
  simp only [] at h
  cases h4 : readValidatorsForHistoricalState lib r tx slot mbs.ValidatorLength with
  | error x => rw [h4] at h; exact absurd h (failWith_ne _ _ _)
  | ok t =>
  obtain ⟨validatorSet, currActiveIdxs, prevActiveIdxs⟩ := t
  rw [h4] at h
  simp only [] at h
  cases h5 : readRandaoMixes r tx slot (NewHashVector r.cfg.EpochsPerHistoricalVector) with
  | error x => rw [h5] at h; exact absurd h (failWith_ne _ _ _)
  | ok randaoMixes =>
  rw [h5] at h
  simp only [] at h
  cases h6 : reconstructUint64ListDump lib tx slot Table.ValidatorSlashings
      r.cfg.EpochsPerSlashingsVector (lib.DecodeUint64Vector r.cfg.EpochsPerSlashingsVector) with
  | error x => rw [h6] at h; exact absurd h (failWith_ne _ _ _)
  | ok slashingsVector =>
  rw [h6] at h
  simp only [] at h
  exact readFinalityAndParticipation_slot _ _ _ _ _ _ _ _ _ _ _ blk hblock h hret

theorem readHistory_slot (lib : Lib) (r : HistoricalStatesReader) (tx : Tx) (slot : Nat)
    (block : SignedBeaconBlock) (mbs : MinimalBeaconState) (st : BeaconState)
    (e : Option Err) (blk : SignedBeaconBlock)
    (hblock : r.blockReader slot = .ok (some blk))
    (h : readHistory lib r tx slot block mbs = (some st, e)) :
    st.Slot = slot := by
  unfold readHistory at h
  simp only [] at h
  cases h1 : readHistoryHashVector r tx r.genesisState.BlockRoots slot
      r.cfg.SlotsPerHistoricalRoot Table.BlockRoot
      (NewHashVector r.cfg.SlotsPerHistoricalRoot) with
  | error x => rw [h1] at h; exact absurd h (failWith_ne _ _ _)
  | ok blockRoots =>
  rw [h1] at h
  simp only [] at h
  cases h2 : readHistoryHashVector r tx r.genesisState.StateRoots slot
      r.cfg.SlotsPerHistoricalRoot Table.StateRoot
      (NewHashVector r.cfg.SlotsPerHistoricalRoot) with
  | error x => rw [h2] at h; exact absurd h (failWith_ne _ _ _)
  | ok stateRoots =>
  rw [h2] at h
  simp only [] at h
  cases h3 : tx.ReadHistoricalRoots mbs.HistoricalRootsLength with
  | error x => rw [h3] at h; exact absurd h (failWith_ne _ _ _)
  | ok historicalRoots =>
  rw [h3] at h
  simp only [] at h
  exact readRegistry_slot _ _ _ _ _ _ _ _ _ blk hblock h rfl

/-- C28: whenever `ReadHistoricalState` returns a state for a slot other than 0,
the slot of that state is the requested slot: the replay of `readPartecipations`
sets the slot of the state to every replayed slot that has a block, the block at the
requested slot was found before (line 77) and is the last one replayed, and no later
step touches the slot.  The state a successful `readPartecipations` leaves differs
from the one it was given in the slot at most. -/
theorem C28_slot_restored (lib : Lib) (r : HistoricalStatesReader) (tx : Tx) (slot : Nat)
    (st : BeaconState) (e : Option Err) (hslot : slot ≠ 0)
    (h : ReadHistoricalState lib r tx slot = (some st, e)) :
    st.Slot = slot
      ∧ (∀ (validatorLength : Nat) (currentActiveIndicies previousActiveIndicies : List Nat)
          (ret ret1 : BeaconState) (currentIdxs previousIdxs : List Nat),
          readPartecipations lib r slot validatorLength currentActiveIndicies
            previousActiveIndicies ret = .ok (ret1, currentIdxs, previousIdxs) →
          (∃ s, ret1 = { ret with Slot := s }) ∧ (ret.Slot = slot → ret1 = ret)) := by
  obtain ⟨block, mbs, hblock, _, hrun⟩ := ReadHistoricalState_inv lib r tx slot st e hslot h
  refine ⟨readHistory_slot _ _ _ _ _ _ _ _ block hblock hrun, ?_⟩
  intro validatorLength currentActiveIndicies previousActiveIndicies ret ret1 currentIdxs
    previousIdxs hpart
  exact ⟨readPartecipations_state _ _ _ _ _ _ _ _ _ _ hpart,
    fun hret => readPartecipations_slot _ _ _ _ _ _ _ _ _ _ block hblock hpart hret⟩

/-- C28, at slot 5 of the example chain with an Altair overlay and a block at every
slot: the replay goes through the slots 0 to 5 and the state returned has slot 5. -/
theorem C28_slot_restored_witness :
    replayedSlots exReaderFinal 5 = [0, 1, 2, 3, 4, 5]
    ∧ ReadHistoricalState exLib exReaderFinal (exTxOverlay 1 [(5, exHash 4)]) 5
        = (some (exStateAt 1), none)
    ∧ (exStateAt 1).Slot = 5 :=
  ⟨by decide, by rfl,
    (C28_slot_restored exLib exReaderFinal (exTxOverlay 1 [(5, exHash 4)]) 5 (exStateAt 1)
      none (by decide) (by rfl)).1⟩

/-! ## Balances against the diffed list -/

/-- C29, as stated, fails from slot 2^32 on.  At slot 2^32 + 40, with a dump every
2048 slots and 32 slots an epoch, the dump slot is 2^32 and the epoch start is
2^32 + 32; the bucket holds diffs under the keys 0 and 5, so no key of it lies in
`[dump_slot, roundedSlot)`, and the store reads it without failure.  The 4-byte
key of the dump slot is the key of slot 0:
`reconstructDiffedUint64List` scans from the key 0 and applies both diffs, while
`reconstructBalances` fetches the key 0 alone and then scans from the key 32. -/
theorem C29_counterexample :
    exReader.cfg.SlotsPerEpoch ∣ exReader.cfg.SlotsPerDump
    ∧ 4294967336 - 4294967336 % exReader.cfg.SlotsPerDump = 4294967296
    ∧ exReader.cfg.RoundSlotToEpoch 4294967336 = 4294967328
    ∧ EpochAlignedDiffs ((exTxOf [(0, [5]), (5, [6])]).bucket Table.ValidatorBalance).entries
        4294967296 4294967328 exReader.cfg.SlotsPerEpoch
    ∧ ((exTxOf [(0, [5]), (5, [6])]).bucket Table.ValidatorBalance).WellFormed
    ∧ ((exTxOf [(0, [5]), (5, [6])]).bucket Table.ValidatorBalance).NoFaults
    ∧ reconstructBalances exLib exReader (exTxOf [(0, [5]), (5, [6])]) 4294967336
        Table.ValidatorBalance = .ok [1, 2, 5]
    ∧ reconstructDiffedUint64List exLib exReader (exTxOf [(0, [5]), (5, [6])]) 4294967336
        Table.ValidatorBalance "balances" = .ok [1, 2, 5, 6]
    ∧ reconstructBalances exLib exReader (exTxOf [(0, [5]), (5, [6])]) 4294967336
        Table.ValidatorBalance
      ≠ reconstructDiffedUint64List exLib exReader (exTxOf [(0, [5]), (5, [6])]) 4294967336
        Table.ValidatorBalance "balances" := by
  refine ⟨by decide, by decide, by decide, by decide, by decide,
    ⟨rfl, fun _ => rfl, fun _ => rfl⟩, ?_, ?_, ?_⟩
  · rfl
  · rfl
  · decide

theorem applyDiffs_append_ok (lib : Lib) (d2 : List Bytes) :
    ∀ (d1 : List Bytes) (cur mid : Bytes), applyDiffs lib d1 cur = .ok mid →
      applyDiffs lib (d1 ++ d2) cur = applyDiffs lib d2 mid := by
  intro d1
  induction d1 with
  | nil =>
    intro cur mid h
    unfold applyDiffs at h
    cases h
    rfl
  | cons d more ih =>
    intro cur mid h
    unfold applyDiffs at h
    rw [List.cons_append]
    conv => lhs; unfold applyDiffs
    cases hstep : lib.ApplyCompressedSerializedUint64ListDiff cur cur d with
    | error e => rw [hstep] at h; cases h
    | ok next =>
      rw [hstep] at h
      simp only [] at h
      exact ih next mid h

theorem applyDiffs_append_error (lib : Lib) (d2 : List Bytes) :
    ∀ (d1 : List Bytes) (cur : Bytes) (e : Err), applyDiffs lib d1 cur = .error e →
      applyDiffs lib (d1 ++ d2) cur = .error e := by
  intro d1
  induction d1 with
  | nil =>
    intro cur e h
    unfold applyDiffs at h
    cases h
  | cons d more ih =>
    intro cur e h
    unfold applyDiffs at h
    rw [List.cons_append]
    conv => lhs; unfold applyDiffs
    cases hstep : lib.ApplyCompressedSerializedUint64ListDiff cur cur d with
    | error x =>
      rw [hstep] at h
      simp only [] at h
      exact h
    | ok next =>
      rw [hstep] at h
      simp only [] at h
      exact ih next e h

theorem balancesPreamble_eq_applyDiffs (lib : Lib) (b : Bucket)
    (hget : ∀ k, b.getErr k = none) :
    ∀ (keys : List Nat) (cur : Bytes),
      balancesPreamble lib b keys cur = applyDiffs lib (preambleDiffs b.entries keys) cur := by
  intro keys
  induction keys with
  | nil => intro cur; rfl
  | cons i more ih =>
    intro cur
    unfold balancesPreamble preambleDiffs
    simp only [Bucket.GetOne, hget, List.filterMap_cons]
    by_cases h : lookupKey b.entries (Encode64ToBytes4 i) = []
    · simp only [h, List.length_nil, if_true]
      exact ih cur
    · have hlen : ¬ (lookupKey b.entries (Encode64ToBytes4 i)).length = 0 := by
        intro h0
        exact h (List.length_eq_zero.mp h0)
      simp only [h, hlen, if_false]
      unfold applyDiffs
      cases lib.ApplyCompressedSerializedUint64ListDiff cur cur
          (lookupKey b.entries (Encode64ToBytes4 i)) with
      | error e => rfl
      | ok next => exact ih next

theorem lookupKey_of_mem (es : List (Bytes × Bytes)) (ha : Ascending es) (k v : Bytes)
    (h : (k, v) ∈ es) : lookupKey es k = v := by
  unfold lookupKey
  induction es with
  | nil => cases h
  | cons e rest ih =>
    rw [List.find?_cons]
    unfold Ascending at ha
    rw [List.pairwise_cons] at ha
    by_cases hk : e.1 = k
    · have hd : decide (e.1 = k) = true := decide_eq_true hk
      rw [hd]
      simp only []
      rcases List.mem_cons.mp h with h1 | h1
      · rw [← h1]
      · have := ha.1 (k, v) h1
        rw [hk] at this
        simp only [] at this
        rw [bytesLt_irrefl] at this
        cases this
    · have hd : decide (e.1 = k) = false := decide_eq_false hk
      rw [hd]
      simp only []
      rcases List.mem_cons.mp h with h1 | h1
      · exact absurd (by rw [← h1]) hk
      · exact ih ha.2 h1

theorem mem_epochKeys_of (fresh rounded spe i : Nat) (hspe : 0 < spe) (h1 : fresh ≤ i)
    (h2 : i < rounded) (h3 : spe ∣ i - fresh) : i ∈ epochKeys fresh rounded spe := by
  obtain ⟨j, hj⟩ := h3
  unfold epochKeys
  rw [List.mem_map]
  refine ⟨j, ?_, ?_⟩
  · rw [List.mem_range]
    have h5 : j + 1 ≤ (rounded - fresh + spe - 1) / spe := by
      apply (Nat.le_div_iff_mul_le hspe).mpr
      have : j * spe = spe * j := Nat.mul_comm _ _
      have h4 : (j + 1) * spe = j * spe + spe := by ring
      omega
    omega
  · have : j * spe = spe * j := Nat.mul_comm _ _
    omega

theorem preambleDiffs_selected (es : List (Bytes × Bytes)) (hk : SlotKeyed es)
    (ha : Ascending es) (fresh rounded spe : Nat) (hspe : 0 < spe) (hf : spe ∣ fresh)
    (hr : rounded ≤ 2 ^ 32) (hal : EpochAlignedDiffs es fresh rounded spe) :
    preambleDiffs es (epochKeys fresh rounded spe)
      = (es.filter (fun e =>
          decide (fresh ≤ keySlot e.1) && decide (keySlot e.1 < rounded))).map
            (fun e => e.2) := by
  have hpairs : (epochKeys fresh rounded spe).filterMap (fun i =>
        if lookupKey es (Encode64ToBytes4 i) = [] then none
        else some (i, lookupKey es (Encode64ToBytes4 i)))
      = (es.filter (fun e =>
          decide (fresh ≤ keySlot e.1) && decide (keySlot e.1 < rounded))).map
            (fun e => (keySlot e.1, e.2)) := by
    have hs1 : ((epochKeys fresh rounded spe).filterMap (fun i =>
        if lookupKey es (Encode64ToBytes4 i) = [] then none
        else some (i, lookupKey es (Encode64ToBytes4 i)))).Pairwise
          (fun (x y : Nat × Bytes) => x.1 < y.1) := by
      refine List.Pairwise.filterMap _ ?_ (epochKeys_sorted fresh rounded spe)
      intro a a1 haa b hb b1 hb1
      by_cases h1 : lookupKey es (Encode64ToBytes4 a) = []
      · simp [h1] at hb
      · by_cases h2 : lookupKey es (Encode64ToBytes4 a1) = []
        · simp [h2] at hb1
        · simp only [h1, h2, if_false, Option.mem_def, Option.some.injEq] at hb hb1
          rw [← hb, ← hb1]
          exact haa
    have hs2 : ((es.filter (fun e =>
          decide (fresh ≤ keySlot e.1) && decide (keySlot e.1 < rounded))).map
            (fun e => (keySlot e.1, e.2))).Pairwise
          (fun (x y : Nat × Bytes) => x.1 < y.1) :=
      List.Pairwise.map _ (fun _ _ h => h)
        (List.Pairwise.filter _ (ascending_keySlot es hk ha))
    have hne : ∀ {l : List (Nat × Bytes)},
        l.Pairwise (fun (x y : Nat × Bytes) => x.1 < y.1) → l.Nodup := by
      intro l hl
      exact List.Pairwise.imp (fun {a b} (h : a.1 < b.1) => fun hab => by
        rw [hab] at h
        exact Nat.lt_irrefl _ h) hl
    haveI : IsAntisymm (Nat × Bytes) (fun x y => x.1 < y.1) :=
      ⟨fun a b h1 h2 => absurd h1 (Nat.lt_asymm h2)⟩
    refine List.eq_of_perm_of_sorted ?_ hs1 hs2
    rw [List.perm_ext_iff_of_nodup (hne hs1) (hne hs2)]
    rintro ⟨i, v⟩
    rw [List.mem_filterMap, List.mem_map]
    constructor
    · rintro ⟨j, hj, hval⟩
      by_cases h1 : lookupKey es (Encode64ToBytes4 j) = []
      · simp [h1] at hval
      · simp only [h1, if_false, Option.some.injEq, Prod.mk.injEq] at hval
        obtain ⟨hji, hv⟩ := hval
        subst hji
        have hmem := lookupKey_mem es _ h1
        rw [hv] at hmem
        obtain ⟨hlo, hhi⟩ := mem_epochKeys fresh rounded spe j hj
        have hks : keySlot (Encode64ToBytes4 j) = j := keySlot_encode j (by omega)
        refine ⟨(Encode64ToBytes4 j, v), ?_, ?_⟩
        · rw [List.mem_filter]
          refine ⟨hmem, ?_⟩
          simp only [hks, Bool.and_eq_true, decide_eq_true_eq]
          exact ⟨hlo, hhi⟩
        · simp only [hks]
    · rintro ⟨e, he, hval⟩
      rw [List.mem_filter] at he
      obtain ⟨hmem, hrange⟩ := he
      simp only [Bool.and_eq_true, decide_eq_true_eq] at hrange
      simp only [Prod.mk.injEq] at hval
      obtain ⟨hi, hv⟩ := hval
      obtain ⟨hdiv, hnon⟩ := hal e hmem hrange.1 hrange.2
      obtain ⟨_, _, henc⟩ := keySlot_spec e.1 (hk e hmem)
      rw [hi] at hrange hdiv henc
      have hlook : lookupKey es (Encode64ToBytes4 i) = v := by
        rw [henc, ← hv]
        exact lookupKey_of_mem es ha e.1 e.2 hmem
      refine ⟨i, mem_epochKeys_of fresh rounded spe i hspe hrange.1 hrange.2
        ((Nat.dvd_sub (by omega) hdiv hf)), ?_⟩
      rw [hlook]
      have hv2 : v ≠ [] := by rw [← hv]; exact hnon
      simp [hv2]
  unfold preambleDiffs
  have h1 : (epochKeys fresh rounded spe).filterMap (fun i =>
        if lookupKey es (Encode64ToBytes4 i) = [] then none
        else some (lookupKey es (Encode64ToBytes4 i)))
      = ((epochKeys fresh rounded spe).filterMap (fun i =>
        if lookupKey es (Encode64ToBytes4 i) = [] then none
        else some (i, lookupKey es (Encode64ToBytes4 i)))).map (fun x => x.2) := by
    rw [List.map_filterMap]
    congr 1
    funext i
    by_cases h : lookupKey es (Encode64ToBytes4 i) = []
    · simp [h]
    · simp [h]
  rw [h1, hpairs, List.map_map]
  rfl

theorem filter_split {α : Type} (f : α → Nat) (lo mid hi : Nat) (hlm : lo ≤ mid)
    (hmh : mid ≤ hi) :
    ∀ (l : List α), l.Pairwise (fun x y => f x < f y) →
      l.filter (fun x => decide (lo ≤ f x) && decide (f x ≤ hi))
        = l.filter (fun x => decide (lo ≤ f x) && decide (f x < mid))
          ++ l.filter (fun x => decide (mid ≤ f x) && decide (f x ≤ hi)) := by
  intro l
  induction l with
  | nil => intro _; rfl
  | cons x xs ih =>
    intro hs
    rw [List.pairwise_cons] at hs
    by_cases hx : f x < mid
    · have h2 : (decide (mid ≤ f x) && decide (f x ≤ hi)) = false := by
        simp [Nat.not_le.mpr hx]
      rw [List.filter_cons, List.filter_cons (p := fun x => decide (lo ≤ f x) && decide (f x < mid)),
        List.filter_cons (p := fun x => decide (mid ≤ f x) && decide (f x ≤ hi)), h2]
      simp only [Bool.false_eq_true, if_false]
      by_cases hlo : lo ≤ f x
      · by_cases hhi : f x ≤ hi
        · simp only [hlo, hhi, hx, decide_True, Bool.and_self, if_true, List.cons_append]
          rw [ih hs.2]
        · omega
      · simp only [hlo, decide_False, Bool.false_and, Bool.false_eq_true, if_false]
        exact ih hs.2
    · have hge : mid ≤ f x := Nat.le_of_not_lt hx
      have hlo : lo ≤ f x := Nat.le_trans hlm hge
      have hnone : (x :: xs).filter (fun x => decide (lo ≤ f x) && decide (f x < mid)) = [] := by
        rw [List.filter_eq_nil_iff]
        intro y hy
        simp only [Bool.and_eq_true, decide_eq_true_eq]
        rcases List.mem_cons.mp hy with h | h
        · rw [h]; omega
        · have := hs.1 y h
          omega
      rw [hnone, List.nil_append]
      apply List.filter_congr
      intro y hy
      have hy2 : mid ≤ f y := by
        rcases List.mem_cons.mp hy with h | h
        · rw [h]; exact hge
        · have := hs.1 y h
          omega
      have hy3 : lo ≤ f y := Nat.le_trans hlm hy2
      simp [hy2, hy3]

theorem dump_le_rounded (slot spd spe : Nat) (hmul : spe ∣ spd) :
    slot - slot % spd ≤ slot / spe * spe ∧ spe ∣ slot - slot % spd := by
  have h1 : slot % spd % spe = slot % spe := Nat.mod_mod_of_dvd slot hmul
  have h2 : slot % spe ≤ slot % spd := by
    rw [← h1]
    rcases Nat.eq_zero_or_pos spe with h0 | hpos
    · subst h0
      simp
    · exact Nat.le_of_lt_succ (Nat.lt_succ_of_le (Nat.mod_le _ _))
  have h3 : slot / spe * spe + slot % spe = slot := Nat.div_add_mod' slot spe
  have h4 : spd * (slot / spd) + slot % spd = slot := Nat.div_add_mod slot spd
  refine ⟨by omega, ?_⟩
  have h5 : slot - slot % spd = spd * (slot / spd) := by omega
  rw [h5]
  exact Dvd.dvd.mul_right hmul _

/-- C29, amended: for a slot below 2^32, one a 4-byte key can hold, with a non-zero
`SlotsPerEpoch` that divides `SlotsPerDump`, on a well-formed bucket that the store
reads without failure and in which every key in `[dump_slot, roundedSlot)` is
epoch-aligned and carries a non-empty diff, `reconstructBalances` returns what
`reconstructDiffedUint64List` returns on the same bucket with the dump file
"balances": the same bytes, or the same error. -/
theorem C29_balances_as_diffed_list (lib : Lib) (r : HistoricalStatesReader) (tx : Tx)
    (slot : Nat) (diffBucket : Table)
    (hwf : (tx.bucket diffBucket).WellFormed) (hnf : (tx.bucket diffBucket).NoFaults)
    (hslot : Representable slot) (hspe : r.cfg.SlotsPerEpoch ≠ 0)
    (hmul : r.cfg.SlotsPerEpoch ∣ r.cfg.SlotsPerDump)
    (hal : EpochAlignedDiffs (tx.bucket diffBucket).entries (slot - slot % r.cfg.SlotsPerDump)
      (r.cfg.RoundSlotToEpoch slot) r.cfg.SlotsPerEpoch) :
    reconstructBalances lib r tx slot diffBucket
      = reconstructDiffedUint64List lib r tx slot diffBucket "balances" := by
  obtain ⟨hk, ha⟩ := hwf
  obtain ⟨hc, hstep, hget⟩ := hnf
  unfold Representable at hslot
  have hround : r.cfg.RoundSlotToEpoch slot ≤ slot := roundSlot_le r.cfg slot
  obtain ⟨hdr, hdvd⟩ := dump_le_rounded slot r.cfg.SlotsPerDump r.cfg.SlotsPerEpoch hmul
  have hdr2 : slot - slot % r.cfg.SlotsPerDump ≤ r.cfg.RoundSlotToEpoch slot := hdr
  have hfresh : slot - slot % r.cfg.SlotsPerDump ≤ slot := fresh_le _ _
  have hsplit : selectedDiffs (tx.bucket diffBucket).entries
      (slot - slot % r.cfg.SlotsPerDump) slot
      = preambleDiffs (tx.bucket diffBucket).entries
          (epochKeys (slot - slot % r.cfg.SlotsPerDump) (r.cfg.RoundSlotToEpoch slot)
            r.cfg.SlotsPerEpoch)
        ++ selectedDiffs (tx.bucket diffBucket).entries (r.cfg.RoundSlotToEpoch slot) slot := by
    rw [preambleDiffs_selected _ hk ha _ _ _ (Nat.pos_of_ne_zero hspe) hdvd (by omega) hal,
      selectedDiffs_slotKeyed _ hk, selectedDiffs_slotKeyed _ hk,
      filter_split (fun e : Bytes × Bytes => keySlot e.1) _ (r.cfg.RoundSlotToEpoch slot) _
        hdr2 hround _ (ascending_keySlot _ hk ha),
      List.map_append]
  unfold reconstructBalances reconstructDiffedUint64List
  simp only []
  cases hd : readDumpFile lib r (slot - slot % r.cfg.SlotsPerDump) "balances" with
  | error e => rfl
  | ok dump =>
    simp only []
    rw [if_neg hspe, hc, hstep 0]
    simp only []
    rw [balancesPreamble_eq_applyDiffs lib _ hget,
      seek_scan_eq_selected lib slot _ _ hstep _ hk ha (by omega), hsplit]
    cases hpre : applyDiffs lib (preambleDiffs (tx.bucket diffBucket).entries
        (epochKeys (slot - slot % r.cfg.SlotsPerDump) (r.cfg.RoundSlotToEpoch slot)
          r.cfg.SlotsPerEpoch)) dump with
    | error e =>
      simp only []
      rw [applyDiffs_append_error lib _ _ dump e hpre]
    | ok mid =>
      simp only []
      rw [seek_scan_eq_selected lib slot _ _ hstep _ hk ha (by omega),
        applyDiffs_append_ok lib _ _ dump mid hpre]

/-- C29, amended, at slot 2150 of the example chain (dump slot 2048, epoch start
2144) with diffs under the keys 2048, 2112, 2144 and 2150, and none under 2080:
both functions return the dump with the four diffs applied in key order. -/
theorem C29_balances_as_diffed_list_witness :
    reconstructDiffedUint64List exLib exReader
        (exTxOf [(2048, [5]), (2112, [6]), (2144, [7]), (2150, [8])]) 2150
        Table.ValidatorBalance "balances" = .ok [1, 2, 5, 6, 7, 8]
    ∧ reconstructBalances exLib exReader
        (exTxOf [(2048, [5]), (2112, [6]), (2144, [7]), (2150, [8])]) 2150
        Table.ValidatorBalance
      = reconstructDiffedUint64List exLib exReader
        (exTxOf [(2048, [5]), (2112, [6]), (2144, [7]), (2150, [8])]) 2150
        Table.ValidatorBalance "balances" :=
  ⟨by rfl,
    C29_balances_as_diffed_list exLib exReader
      (exTxOf [(2048, [5]), (2112, [6]), (2144, [7]), (2150, [8])]) 2150
      Table.ValidatorBalance (by decide) ⟨rfl, fun _ => rfl, fun _ => rfl⟩ (by decide)
      (by decide) (by decide) (by decide)⟩

/-! ## The downloader: what `VerifyData` verifies -/

/-- C30, the code against the claim: for every downloader, every context and every
list `onlyFiles`, `VerifyData` runs `VerifyFile` on no torrent and reports progress
against a piece total of 0, and returns the result of the final `db.Update`: its
first loop ranges over the slice `torrents` it has just made empty.  With the two
example torrents, whose info is available, and an empty `onlyFiles` nothing is
verified, where the loop body run over the torrents of the client selects both
torrents and the total 10; with `onlyFiles` naming `b.seg` it selects that one and
the total 6. -/
theorem C30_verify_data_verifies_nothing :
    (∀ (d : Downloader) (ctx : Context) (onlyFiles : List String),
        VerifyData d ctx onlyFiles
          = { verified := [], total := 0, completed := 0, err := d.dbUpdate })
    ∧ (VerifyData exDownloader exContext []).verified = []
    ∧ (VerifyData exDownloader exContext []).total = 0
    ∧ selectTorrents exContext [] exDownloader.torrents [] 0
        = .ok ([{ Name := "a.seg", NumPieces := 4 }, { Name := "b.seg", NumPieces := 6 }], 10)
    ∧ (VerifyData exDownloader exContext ["b.seg"]).verified = []
    ∧ selectTorrents exContext ["b.seg"] exDownloader.torrents [] 0
        = .ok ([{ Name := "b.seg", NumPieces := 6 }], 6)
    ∧ VerifyFile exContext { Name := "b.seg", NumPieces := 6 } = (6, none) := by
  refine ⟨fun d ctx onlyFiles => rfl, rfl, rfl, ?_, rfl, ?_, ?_⟩
  · rfl
  · decide
  · rfl

end Erigon
